import Mathlib

/-!
# A verification development for the `compiler` repository

Shallow embedding of the compiler's parser (`comp/src/parser.c`) and code
generator (`src/gen.c`), followed by theorems about them.

Conventions of the embedding:

* The token cursor `(toks, i)` of `struct parser` is represented by the unread
  suffix `&toks[i]`; `back()` is never called by the parser, so the cursor only
  moves forward.  Reading past the end of the (EOF-terminated) vector reads
  an EOF token.
* `error(...)` prints and calls `exit(-1)`: it is the `Except.error` outcome,
  carrying the formatted message.
* Undefined behaviour of the C code (null dereference, uninitialised read,
  out-of-bounds table index) is a separate error outcome, `Err.undefined`.
* Recursion is bounded by a fuel value: `parserAt f` is the family of parser
  functions allowed `f` levels of recursion, and at most `f` iterations of each
  `while` loop whose body parses something.
* The headers (`parser.h`, `lexer.h`, `asm.h`, `sym.h`, `gen.h`) are not part of
  the sources; enumerations are given by the names the code uses, and the
  counts `ptr` and `arrlen` are natural numbers as in the data model.  What
  the code computes as a `size_t` (the result of `asm_sizeof`, the running
  offset of a struct declaration) is taken modulo `2 ^ 64`.
-/

namespace Compiler

/-! ## Tokens -/

/-- Token kinds, named as in `parser.c`. -/
inductive Tok where
  | T_EOF | T_PLUS | T_MINUS | T_STAR | T_SLASH | T_INTLIT | T_STRLIT | T_SEMI
  | T_COMMA | T_AMP | T_COLON | T_DOT | T_ARROW | T_IDENT | T_EQ | T_EQEQ | T_NEQ
  | T_GT | T_LT | T_GTE | T_LTE | T_NOT | T_LAND | T_LOR | T_BITOR | T_BITXOR
  | T_COMP | T_TERNARY | T_INC | T_DEC
  | T_INT8 | T_INT16 | T_INT32 | T_INT64 | T_UINT8 | T_UINT16 | T_UINT32 | T_UINT64
  | T_FLOAT32 | T_FLOAT64
  | T_LPAREN | T_RPAREN | T_LBRACK | T_RBRACK | T_LBRACE | T_RBRACE
  | T_ASM | T_RETURN | T_WHILE | T_IF | T_ELSE | T_FOR | T_FUNC | T_VAR | T_SIZEOF
  | T_GOTO | T_LABEL | T_TYPEDEF | T_STRUCT | T_UNION | T_PUBLIC | T_EXTERN
  deriving DecidableEq, Repr, Inhabited

/-- A token: kind, and the value `v` (integer for literals, string for
identifiers and string literals). -/
structure Token where
  type : Tok
  ival : Nat
  sval : String
  deriving DecidableEq, Repr, Inhabited

/-- Token with no value. -/
def tk (t : Tok) : Token := ⟨t, 0, ""⟩
/-- Integer literal token. -/
def tkInt (n : Nat) : Token := ⟨Tok.T_INTLIT, n, ""⟩
/-- Identifier token. -/
def tkId (name : String) : Token := ⟨Tok.T_IDENT, 0, name⟩
/-- String literal token. -/
def tkStr (str : String) : Token := ⟨Tok.T_STRLIT, 0, str⟩

/-! ## Types -/

/-- The `name` field of `struct type`. -/
inductive TypeName where
  | TYPE_VOID | TYPE_INT8 | TYPE_INT16 | TYPE_INT32 | TYPE_INT64
  | TYPE_UINT8 | TYPE_UINT16 | TYPE_UINT32 | TYPE_UINT64
  | TYPE_FLOAT32 | TYPE_FLOAT64 | TYPE_STRUCT | TYPE_UNION | TYPE_FUNC
  deriving DecidableEq, Repr, Inhabited

mutual
/-- The record `struct type`: `name`, `ptr`, `arrlen`, the function part
(`func.ret`, `func.params`) and the struct part (`struc.members`,
`struc.size`). -/
inductive CType where
  | mk (name : TypeName) (ptr : Nat) (arrlen : Nat)
       (ret : Option CType) (params : List CType)
       (members : List StructMem) (size : Nat)
/-- The record `struct structmem`. -/
inductive StructMem where
  | mk (name : String) (type : CType) (offset : Nat)
end

namespace CType
def name : CType → TypeName | mk n _ _ _ _ _ _ => n
def ptr : CType → Nat | mk _ p _ _ _ _ _ => p
def arrlen : CType → Nat | mk _ _ a _ _ _ _ => a
def ret : CType → Option CType | mk _ _ _ r _ _ _ => r
def params : CType → List CType | mk _ _ _ _ ps _ _ => ps
def members : CType → List StructMem | mk _ _ _ _ _ ms _ => ms
def size : CType → Nat | mk _ _ _ _ _ _ sz => sz
def setName : CType → TypeName → CType | mk _ p a r ps ms sz, n => mk n p a r ps ms sz
def setPtr : CType → Nat → CType | mk n _ a r ps ms sz, p => mk n p a r ps ms sz
def setArrlen : CType → Nat → CType | mk n p _ r ps ms sz, a => mk n p a r ps ms sz
/-- The all-zero record, as produced by `calloc` or `{ 0 }`; the first
listed type name, `void`, is the zero of the enumeration. -/
def zero : CType := mk TypeName.TYPE_VOID 0 0 none [] [] 0
end CType

namespace StructMem
def name : StructMem → String | mk n _ _ => n
def type : StructMem → CType | mk _ t _ => t
def offset : StructMem → Nat | mk _ _ o => o
end StructMem

instance : Inhabited CType := ⟨CType.zero⟩

/-- Source: `mktype(name, arrlen, ptr)`, a compound literal with every other
field zero. -/
def mktype (name : TypeName) (arrlen : Nat) (ptr : Nat) : CType :=
  CType.mk name ptr arrlen none [] [] 0

/-- Source: `isintegral`. -/
def isintegral (t : CType) : Bool :=
  t.name != TypeName.TYPE_STRUCT && t.name != TypeName.TYPE_UNION
    && t.name != TypeName.TYPE_FUNC && t.ptr == 0 && t.arrlen == 0

/-- Source: `type_compatible`. -/
def type_compatible (t1 t2 : CType) : Bool :=
  if t1.ptr != 0 && t2.ptr != 0 then true
  else if isintegral t1 && isintegral t2 then true
  else false

/-- Source: the `switch` of `asm_sizeof` that sets `prim`; a name without a
`case` leaves `prim` uninitialised (`none`). -/
def asm_prim : TypeName → Option Nat
  | TypeName.TYPE_INT8 | TypeName.TYPE_UINT8 => some 1
  | TypeName.TYPE_INT16 | TypeName.TYPE_UINT16 => some 2
  | TypeName.TYPE_INT32 | TypeName.TYPE_UINT32 | TypeName.TYPE_FLOAT32 => some 4
  | TypeName.TYPE_INT64 | TypeName.TYPE_UINT64 | TypeName.TYPE_FLOAT64 => some 8
  | _ => none

/-- Source: `asm_sizeof` (gen.c).  `none` is the read of the uninitialised
`prim`.  The result is a `size_t`: the product of the `int` `prim` and the
array length is taken in 64-bit unsigned arithmetic, the width of the
literal value that `parsetype` stores in `arrlen`. -/
def asm_sizeof (type : CType) : Option Nat :=
  if type.ptr != 0 then some 8
  else match asm_prim type.name with
    | some prim => some ((prim * (if type.arrlen != 0 then type.arrlen else 1)) % 2 ^ 64)
    | none => none

/-- The primitive sizes as the specification lists them: 1 for int8/uint8,
2 for int16/uint16, 4 for int32/uint32/float32, 8 for int64/uint64/float64;
no size for any other name. -/
def specPrimSize (n : TypeName) : Option Nat :=
  if n = TypeName.TYPE_INT8 ∨ n = TypeName.TYPE_UINT8 then some 1
  else if n = TypeName.TYPE_INT16 ∨ n = TypeName.TYPE_UINT16 then some 2
  else if n = TypeName.TYPE_INT32 ∨ n = TypeName.TYPE_UINT32 ∨ n = TypeName.TYPE_FLOAT32 then some 4
  else if n = TypeName.TYPE_INT64 ∨ n = TypeName.TYPE_UINT64 ∨ n = TypeName.TYPE_FLOAT64 then some 8
  else none

/-! ## Operators, symbols and the syntax tree -/

/-- Operator codes (`OP_*`), named as in `parser.c` and `gen.c`. -/
inductive Op where
  | OP_PLUS | OP_MINUS | OP_MUL | OP_DIV | OP_ASSIGN | OP_EQUAL | OP_NEQUAL
  | OP_GT | OP_LT | OP_GTE | OP_LTE | OP_LAND | OP_LOR
  | OP_ADDROF | OP_DEREF | OP_NOT
  deriving DecidableEq, Repr, Inhabited

/-- Scope kinds (`SYMTAB_*`). -/
inductive SymtabType where
  | SYMTAB_GLOB | SYMTAB_FUNC | SYMTAB_BLOCK
  deriving DecidableEq, Repr, Inhabited

/-- The record `struct sym`; the attribute bitset over `SYM_PUBLIC` and
`SYM_EXTERN` is kept as two flags. -/
structure sym where
  name : String
  type : CType
  pub : Bool
  ext : Bool

/-- The record `struct symtable`; the `parent` pointer is the rest of the
scope chain that holds the table. -/
structure symtable where
  type : SymtabType
  syms : List sym

mutual
/-- The record `struct ast`: the common fields `vtype` and `lvalue`, and the
variant part. -/
inductive Ast where
  | mk (vtype : CType) (lvalue : Bool) (u : Node)
/-- The variant part of `struct ast`, one constructor per `A_*` tag. -/
inductive Node where
  | binop (op : Op) (lhs rhs : Ast)
  | unary (op : Op) (val : Ast)
  | intlit (ival : Nat)
  | strlit (str : String)
  | ident (name : String)
  | cast (type : CType) (val : Ast)
  | sizeofop (t : CType)
  | call (name : Option String) (ast : Ast) (params : List Ast)
  | vardef (name : Option String)
  | funcdef (name : String) (block : Ast)
  | inasm (code : String)
  | block (symtab : symtable) (statements : List Ast)
  | ret (func : Option String) (val : Option Ast)
  | ifelse (cond ifblock : Ast) (elseblock : Option Ast)
  | whileloop (cond body : Ast)
  | forloop (init : Option Ast) (cond : Ast) (update : Option Ast) (body : Ast)
  | label (name : String)
  | gotolbl (label : String)
end

/-- The tags `A_*` of `struct ast`. -/
inductive AstType where
  | A_BINOP | A_UNARY | A_INTLIT | A_STRLIT | A_IDENT | A_CAST | A_SIZEOF | A_CALL
  | A_VARDEF | A_FUNCDEF | A_ASM | A_BLOCK | A_RETURN | A_IFELSE | A_WHILE | A_FOR
  | A_LABEL | A_GOTO
  deriving DecidableEq, Repr, Inhabited

namespace Ast
def vtype : Ast → CType | mk t _ _ => t
def lvalue : Ast → Bool | mk _ l _ => l
def u : Ast → Node | mk _ _ n => n
def setVtype : Ast → CType → Ast | mk _ l n, t => mk t l n
def setLvalue : Ast → Bool → Ast | mk t _ n, l => mk t l n
/-- The field `ast->type`. -/
def type : Ast → AstType
  | mk _ _ (Node.binop ..) => AstType.A_BINOP
  | mk _ _ (Node.unary ..) => AstType.A_UNARY
  | mk _ _ (Node.intlit ..) => AstType.A_INTLIT
  | mk _ _ (Node.strlit ..) => AstType.A_STRLIT
  | mk _ _ (Node.ident ..) => AstType.A_IDENT
  | mk _ _ (Node.cast ..) => AstType.A_CAST
  | mk _ _ (Node.sizeofop ..) => AstType.A_SIZEOF
  | mk _ _ (Node.call ..) => AstType.A_CALL
  | mk _ _ (Node.vardef ..) => AstType.A_VARDEF
  | mk _ _ (Node.funcdef ..) => AstType.A_FUNCDEF
  | mk _ _ (Node.inasm ..) => AstType.A_ASM
  | mk _ _ (Node.block ..) => AstType.A_BLOCK
  | mk _ _ (Node.ret ..) => AstType.A_RETURN
  | mk _ _ (Node.ifelse ..) => AstType.A_IFELSE
  | mk _ _ (Node.whileloop ..) => AstType.A_WHILE
  | mk _ _ (Node.forloop ..) => AstType.A_FOR
  | mk _ _ (Node.label ..) => AstType.A_LABEL
  | mk _ _ (Node.gotolbl ..) => AstType.A_GOTO
end Ast

/-- Source: `mkast` followed by the assignment of the variant fields: a
zeroed node (`vtype` all zero, `lvalue` 0) with the given variant. -/
def mkast (n : Node) : Ast := Ast.mk CType.zero false n

/-- Source: `mkunary`. -/
def mkunary (op : Op) (val : Ast) : Ast := mkast (Node.unary op val)

/-! ## Parser state -/

/-- The parser's state: `s_parser` (unread tokens, scope chain from the
current scope outwards, current function) and the typedef table
`s_typedefs`. -/
structure PState where
  toks : List Token
  currscope : List symtable
  currfunc : Option String
  typedefs : List sym

/-- Outcomes other than a normal return. -/
inductive Err where
  /-- `error(...)`: the message printed before `exit(-1)`. -/
  | msg (text : String)
  /-- Undefined behaviour of the C code. -/
  | undefined (what : String)
  /-- The recursion bound of the embedding was reached. -/
  | fuel
  deriving DecidableEq, Repr

/-- Source: `curr()`. -/
def curr (s : PState) : Token := s.toks.headD (tk Tok.T_EOF)

/-- Source: `next()`; the token it returns is `curr` of the new state. -/
def next (s : PState) : PState := { s with toks := s.toks.tail }

/-- Source: `termin`. -/
def termin (s : PState) : Bool :=
  let t := (curr s).type
  t == Tok.T_SEMI || t == Tok.T_RPAREN || t == Tok.T_COMMA || t == Tok.T_RBRACK

/-- Source: the table `tokstrs`; the keywords after `label` have no entry. -/
def tokstrs : Tok → Option String
  | Tok.T_EOF => some "EOF" | Tok.T_PLUS => some "+" | Tok.T_MINUS => some "-"
  | Tok.T_STAR => some "*" | Tok.T_SLASH => some "/" | Tok.T_INTLIT => some "int literal"
  | Tok.T_STRLIT => some "string literal" | Tok.T_SEMI => some ";" | Tok.T_COMMA => some ","
  | Tok.T_AMP => some "&" | Tok.T_COLON => some ":" | Tok.T_DOT => some "."
  | Tok.T_ARROW => some "->" | Tok.T_IDENT => some "identifer" | Tok.T_EQ => some "="
  | Tok.T_EQEQ => some "==" | Tok.T_NEQ => some "!=" | Tok.T_GT => some ">"
  | Tok.T_LT => some "<" | Tok.T_GTE => some ">=" | Tok.T_LTE => some "<="
  | Tok.T_NOT => some "!" | Tok.T_LAND => some "&&" | Tok.T_LOR => some "||"
  | Tok.T_BITOR => some "|" | Tok.T_BITXOR => some "^" | Tok.T_COMP => some "~"
  | Tok.T_TERNARY => some "?" | Tok.T_INC => some "++" | Tok.T_DEC => some "--"
  | Tok.T_INT8 => some "int8" | Tok.T_INT16 => some "int16" | Tok.T_INT32 => some "int32"
  | Tok.T_INT64 => some "int64" | Tok.T_UINT8 => some "uint8" | Tok.T_UINT16 => some "uint16"
  | Tok.T_UINT32 => some "uint32" | Tok.T_UINT64 => some "uint64"
  | Tok.T_FLOAT32 => some "float32" | Tok.T_FLOAT64 => some "float64"
  | Tok.T_LPAREN => some "(" | Tok.T_RPAREN => some ")" | Tok.T_LBRACK => some "["
  | Tok.T_RBRACK => some "]" | Tok.T_LBRACE => some "\x7b" | Tok.T_RBRACE => some "\x7d"
  | Tok.T_ASM => some "asm" | Tok.T_RETURN => some "return" | Tok.T_WHILE => some "while"
  | Tok.T_IF => some "if" | Tok.T_ELSE => some "else" | Tok.T_FOR => some "for"
  | Tok.T_FUNC => some "fn" | Tok.T_VAR => some "var" | Tok.T_SIZEOF => some "sizeof"
  | Tok.T_GOTO => some "goto" | Tok.T_LABEL => some "label"
  | _ => none

/-- The text `printf("%s", tokstrs[t])` writes; a missing entry prints as
`(null)`. -/
def tokstr (t : Tok) : String := (tokstrs t).getD "(null)"

/-- Source: `expectcurr`. -/
def expectcurr (t : Tok) (s : PState) : Except Err PState :=
  if (curr s).type ≠ t then
    Except.error (Err.msg ("Expected '" ++ tokstr t ++ "', got '" ++ tokstr (curr s).type ++ "'\n"))
  else Except.ok s

/-- Source: `expect`. -/
def expect (t : Tok) (s : PState) : Except Err PState := do
  let s ← expectcurr t s
  pure (next s)

/-- Source: `operator`; `none` is the return value -1. -/
def operator : Tok → Option Op
  | Tok.T_PLUS => some Op.OP_PLUS | Tok.T_MINUS => some Op.OP_MINUS
  | Tok.T_STAR => some Op.OP_MUL | Tok.T_SLASH => some Op.OP_DIV
  | Tok.T_EQ => some Op.OP_ASSIGN | Tok.T_EQEQ => some Op.OP_EQUAL
  | Tok.T_NEQ => some Op.OP_NEQUAL | Tok.T_GT => some Op.OP_GT
  | Tok.T_LT => some Op.OP_LT | Tok.T_GTE => some Op.OP_GTE
  | Tok.T_LTE => some Op.OP_LTE | Tok.T_LAND => some Op.OP_LAND
  | Tok.T_LOR => some Op.OP_LOR
  | _ => none

/-- Source: `istype`. -/
def istype (token : Tok) : Bool :=
  token == Tok.T_INT8 || token == Tok.T_INT16 || token == Tok.T_INT32 || token == Tok.T_INT64 ||
  token == Tok.T_UINT8 || token == Tok.T_UINT16 || token == Tok.T_UINT32 || token == Tok.T_UINT64 ||
  token == Tok.T_FLOAT32 || token == Tok.T_FLOAT64

/-- Source: `rightassoc`. -/
def rightassoc (op : Op) : Bool := op == Op.OP_ASSIGN

/-- Source: the table `opprec`; operators without an entry are zero. -/
def opprec : Op → Nat
  | Op.OP_ASSIGN => 1 | Op.OP_LOR => 2 | Op.OP_LAND => 3
  | Op.OP_PLUS => 4 | Op.OP_MINUS => 4 | Op.OP_MUL => 5 | Op.OP_DIV => 5
  | Op.OP_EQUAL => 6 | Op.OP_NEQUAL => 6
  | Op.OP_LT => 7 | Op.OP_GT => 7 | Op.OP_LTE => 7 | Op.OP_GTE => 7
  | _ => 0

/-! ## Symbol table and typedef table -/

/-- Modelled from the spec: `sym_lookup` of `sym.c`, which is not among the
sources: "walk from current scope toward the root, returning the first hit
or absent". -/
def sym_lookup : List symtable → String → Option sym
  | [], _ => none
  | tab :: parent, name =>
    match tab.syms.find? (fun y => y.name == name) with
    | some y => some y
    | none => sym_lookup parent name

/-- Modelled from the spec: `sym_put` of `sym.c`, which is not among the
sources: "insert in the current scope; redefinition within the same scope
is an error except in the `extern` case".  The text of the diagnostic is not
given by the specification. -/
def sym_put (scope : List symtable) (name : String) (type : CType) (pub ext : Bool) :
    Except Err (List symtable) :=
  match scope with
  | [] => Except.error (Err.undefined "sym_put: no current scope")
  | tab :: parent =>
    match tab.syms.find? (fun y => y.name == name) with
    | some prev =>
      if ext || prev.ext then
        Except.ok ({ tab with syms := tab.syms ++ [⟨name, type, pub, ext⟩] } :: parent)
      else Except.error (Err.msg ("Redefinition of symbol '" ++ name ++ "'\n"))
    | none => Except.ok ({ tab with syms := tab.syms ++ [⟨name, type, pub, ext⟩] } :: parent)

/-- Modelled from the spec: `sym_putglob` of `sym.c`, which is not among the
sources: "insert in the nearest global scope".  `none` when the chain has no
global scope. -/
def sym_putglob : List symtable → sym → Option (List symtable)
  | [], _ => none
  | tab :: parent, y =>
    if tab.type = SymtabType.SYMTAB_GLOB then
      some ({ tab with syms := tab.syms ++ [y] } :: parent)
    else (sym_putglob parent y).map (fun rest => tab :: rest)

/-- Source: `add_typedef`. -/
def add_typedef (name : String) (type : CType) (s : PState) : PState :=
  { s with typedefs := s.typedefs ++ [⟨name, type, false, false⟩] }

/-! ## Parser: types -/

/-- The parser functions that are called recursively, at one level of
recursion below the caller, and the bound on loop iterations. -/
structure Rec where
  fuel : Nat
  parsetype : PState → Except Err (CType × PState)
  pre : PState → Except Err (Ast × PState)
  binexpr : Nat → PState → Except Err (Ast × PState)
  memaccess : Ast → PState → Except Err (Ast × PState)
  statement : PState → Except Err (Option Ast × PState)
  block : SymtabType → PState → Except Err (Ast × PState)

/-- Source: `while (next()->type == T_STAR) t.ptr++;` on the unread tokens:
returns the incremented `ptr` and the tokens left, the first of which is the
token that ended the loop. -/
def starLoop : List Token → Nat → Nat × List Token
  | [], p => (p, [])
  | _ :: ts, p =>
    match ts with
    | [] => (p, [])
    | t :: _ => if t.type = Tok.T_STAR then starLoop ts (p + 1) else (p, ts)

/-- Source: the part of `parsetype` from the label `array` on. -/
def parsetype_array (t : CType) (s : PState) : Except Err (CType × PState) :=
  if (curr s).type = Tok.T_LBRACK then do
    let s := next s
    let t := t.setArrlen (curr s).ival
    let s ← expect Tok.T_INTLIT s
    let s ← expect Tok.T_RBRACK s
    pure (t, s)
  else pure (t, s)

/-- Source: the parameter loop of `parsetype`, case `T_FUNC`:
`while (curr()->type != T_RPAREN) ...`. -/
def parsetype_params (r : Rec) : Nat → List CType → PState → Except Err (List CType × PState)
  | 0, _, _ => Except.error Err.fuel
  | n + 1, params, s =>
    if (curr s).type ≠ Tok.T_RPAREN then do
      let (t, s) ← r.parsetype s
      let s ← if (curr s).type ≠ Tok.T_RPAREN then expect Tok.T_COMMA s else pure s
      parsetype_params r n (params ++ [t]) s
    else pure (params, s)

/-- Source: the primitive cases of `parsetype`: the name is set, then the
`*` loop and the array part follow. -/
def parsetype_prim (name : TypeName) (s : PState) : Except Err (CType × PState) :=
  let (p, ts) := starLoop s.toks 0
  parsetype_array (CType.zero.setName name |>.setPtr p) { s with toks := ts }

/-- Source: `parsetype`. -/
def parsetype (r : Rec) (s : PState) : Except Err (CType × PState) :=
  match (curr s).type with
  | Tok.T_INT8 => parsetype_prim TypeName.TYPE_INT8 s
  | Tok.T_INT16 => parsetype_prim TypeName.TYPE_INT16 s
  | Tok.T_INT32 => parsetype_prim TypeName.TYPE_INT32 s
  | Tok.T_INT64 => parsetype_prim TypeName.TYPE_INT64 s
  | Tok.T_UINT8 => parsetype_prim TypeName.TYPE_UINT8 s
  | Tok.T_UINT16 => parsetype_prim TypeName.TYPE_UINT16 s
  | Tok.T_UINT32 => parsetype_prim TypeName.TYPE_UINT32 s
  | Tok.T_UINT64 => parsetype_prim TypeName.TYPE_UINT64 s
  | Tok.T_FLOAT32 => parsetype_prim TypeName.TYPE_FLOAT32 s
  | Tok.T_FLOAT64 => parsetype_prim TypeName.TYPE_FLOAT64 s
  | Tok.T_STAR => parsetype_prim TypeName.TYPE_VOID s
  | Tok.T_FUNC => do
    let (p, ts) := starLoop s.toks 0
    let s ← expect Tok.T_LPAREN { s with toks := ts }
    let (params, s) ← parsetype_params r r.fuel [] s
    let s := next s
    let (ret, s) ←
      if (curr s).type = Tok.T_ARROW then do
        let s ← expect Tok.T_ARROW s
        r.parsetype s
      else pure (CType.zero, s)
    parsetype_array (CType.mk TypeName.TYPE_FUNC p 0 (some ret) params [] 0) s
  | Tok.T_IDENT =>
    match s.typedefs.find? (fun y => y.name == (curr s).sval) with
    | some y => pure (y.type, next s)
    | none => Except.error (Err.msg ("Expected type, got '" ++ tokstr (curr s).type ++ "'\n"))
  | _ => Except.error (Err.msg ("Expected type, got '" ++ tokstr (curr s).type ++ "'\n"))

/-! ## Parser: expressions -/

/-- Source: the `while` loop of `memaccess` over `.`/`->` links.  The loop
state is `structype`, `ast` and `member` (`none` while uninitialised).  Each
iteration reads two tokens, so the number of unread tokens, with which
`memaccess` starts it, bounds it. -/
def memaccess_loop : Nat → CType → Ast → Option StructMem → PState →
    Except Err ((Ast × Option StructMem) × PState)
  | 0, _, _, _, _ => Except.error Err.fuel
  | n + 1, structype, ast, member, s =>
    if (curr s).type = Tok.T_DOT ∨ (curr s).type = Tok.T_ARROW then
      if structype.name ≠ TypeName.TYPE_STRUCT then
        Except.error (Err.msg "Member access of non-struct type.\n")
      else
        let ptr : Bool := (curr s).type = Tok.T_ARROW
        if ptr && structype.ptr == 0 then
          Except.error (Err.msg
            "Use of arrow operator '->' on non-pointer to struct. Use '.' instead\n")
        else if !ptr && structype.ptr != 0 then
          Except.error (Err.msg
            "Use of dot operator '.' on pointer to struct. Use '->' instead.\n")
        else do
          let s := next s
          let name := (curr s).sval
          let s ← expect Tok.T_IDENT s
          match ast.vtype.members.find? (fun m => name == m.name) with
          | none => Except.error (Err.msg ("Struct does not contain member '" ++ name ++ "'\n"))
          | some member =>
            let offset := Ast.mk ast.vtype false (Node.intlit member.offset)
            let add := Ast.mk offset.vtype false (Node.binop Op.OP_PLUS ast offset)
            memaccess_loop n member.type add (some member) s
    else pure ((ast, member), s)

/-- Source: `memaccess`. -/
def memaccess (r : Rec) (ast : Ast) (s : PState) : Except Err (Ast × PState) := do
  let ptr : Bool := (curr s).type = Tok.T_ARROW
  let address :=
    if ptr then ast
    else Ast.mk (mktype TypeName.TYPE_UINT64 0 0) false (Node.unary Op.OP_ADDROF ast)
  let structype := ast.vtype
  let ((ast, member), s) ← memaccess_loop (s.toks.length + 1) structype address none s
  match member with
  | none => Except.error (Err.undefined "memaccess: member read uninitialised")
  | some member =>
    let deref := Ast.mk member.type false (Node.unary Op.OP_DEREF ast)
    if (curr s).type = Tok.T_DOT then r.memaccess deref s
    else pure (deref, s)

/-- Source: `parenexpr`. -/
def parenexpr (r : Rec) (s : PState) : Except Err (Ast × PState) := do
  let s := next s
  if istype (curr s).type then do
    let (t, s) ← parsetype r s
    if !isintegral t || t.arrlen != 0 || t.ptr != 0 then
      Except.error (Err.msg "Cannot cast to non-integral type\n")
    else do
      let s ← expect Tok.T_RPAREN s
      let (val, s) ← r.pre s
      pure (Ast.mk t false (Node.cast t val), s)
  else
    r.binexpr 0 s

/-- The constant `UINT32_MAX`. -/
def UINT32_MAX : Nat := 4294967295

/-- Source: `intlit`. -/
def intlit (s : PState) : Ast :=
  if (curr s).ival < UINT32_MAX then
    Ast.mk (mktype TypeName.TYPE_UINT32 0 0) false (Node.intlit (curr s).ival)
  else
    Ast.mk (mktype TypeName.TYPE_UINT64 0 0) false (Node.intlit (curr s).ival)

/-- Source: `primary`. -/
def primary (r : Rec) (s : PState) : Except Err (Ast × PState) :=
  match (curr s).type with
  | Tok.T_SIZEOF => do
    let (t, s) ← parsetype r s
    let s := next s
    pure (Ast.mk (mktype TypeName.TYPE_UINT64 0 0) false (Node.sizeofop t), s)
  | Tok.T_INTLIT => pure (intlit s, next s)
  | Tok.T_STRLIT =>
    pure (Ast.mk (mktype TypeName.TYPE_INT8 0 1) false (Node.strlit (curr s).sval), next s)
  | Tok.T_LPAREN => parenexpr r s
  | Tok.T_IDENT =>
    let name := (curr s).sval
    match sym_lookup s.currscope name with
    | none => Except.error (Err.msg ("Use of undeclared symbol '" ++ name ++ "'\n"))
    | some y => pure (Ast.mk y.type false (Node.ident name), next s)
  | _ => Except.error (Err.msg
      ("Expected primary expression, got '" ++ tokstr (curr s).type ++ "'\n"))

/-- Source: the read `ast->call.paramcnt` in `post`, on the callee node
`ast`: the number of parameters of a call node.  On a node of another kind
the member is read through the union; the header with its layout is not
among the sources, and the value is taken to be the 0 that `calloc` left in
`mkast`, outside the fields that the node sets. -/
def call_paramcnt (ast : Ast) : Nat :=
  match ast.u with
  | Node.call _ _ params => params.length
  | _ => 0

/-- Source: the argument loop of `post`, case `T_LPAREN`:
`for (i = 0; curr()->type != T_RPAREN; i++) ...`; the count `i` is the length
of the list returned.  Each turn reallocates `call.params` to `cap` slots,
`cap` being `ast->call.paramcnt + 1` of the callee node `ast`, and stores the
argument at index `call->call.paramcnt++`, the number of arguments stored so
far: a store at an index from `cap` on is outside the block, which is
undefined. -/
def post_args (r : Rec) (cap : Nat) : Nat → List Ast → PState → Except Err (List Ast × PState)
  | 0, _, _ => Except.error Err.fuel
  | n + 1, params, s =>
    if (curr s).type ≠ Tok.T_RPAREN then do
      let (a, s) ← r.binexpr 0 s
      if cap ≤ params.length then
        Except.error (Err.undefined "post: call.params written past its block")
      else do
        let s ← if (curr s).type ≠ Tok.T_RPAREN then expect Tok.T_COMMA s else pure s
        post_args r cap n (params ++ [a]) s
    else pure (params, s)

/-- Source: `post`. -/
def post (r : Rec) (ast : Ast) (s : PState) : Except Err (Ast × PState) :=
  match (curr s).type with
  | Tok.T_LBRACK => do
    let s := next s
    let (rhs, s) ← r.pre s
    let binop := Ast.mk (mktype ast.vtype.name 0 1) false (Node.binop Op.OP_PLUS ast rhs)
    let access := Ast.mk (binop.vtype.setPtr (binop.vtype.ptr - 1)) false
      (Node.unary Op.OP_DEREF binop)
    let s ← expect Tok.T_RBRACK s
    pure (access, s)
  | Tok.T_LPAREN =>
    if ast.vtype.name ≠ TypeName.TYPE_FUNC then
      Except.error (Err.msg "Call of non-function or function-pointer type.\n")
    else
      let callee := if ast.vtype.ptr != 0 then ast else mkast (Node.unary Op.OP_ADDROF ast)
      match ast.vtype.ret with
      | none => Except.error (Err.undefined "post: func.ret is null")
      | some ret => do
        let s := next s
        let (params, s) ← post_args r (call_paramcnt ast + 1) r.fuel [] s
        let s ← expect Tok.T_RPAREN s
        if params.length < ast.vtype.params.length then
          Except.error (Err.msg "Too few parameters in call to function\n")
        else if params.length > ast.vtype.params.length then
          Except.error (Err.msg "Too many parameters in call to function\n")
        else pure (Ast.mk ret false (Node.call none callee params), s)
  | Tok.T_DOT => memaccess r ast s
  | Tok.T_ARROW => memaccess r ast s
  | _ => pure (ast, s)

/-- Source: `pre`. -/
def pre (r : Rec) (s : PState) : Except Err (Ast × PState) :=
  match (curr s).type with
  | Tok.T_AMP => do
    let (val, s) ← r.pre (next s)
    pure ((mkunary Op.OP_ADDROF val).setVtype (val.vtype.setPtr (val.vtype.ptr + 1)), s)
  | Tok.T_STAR => do
    let (val, s) ← r.pre (next s)
    if val.vtype.ptr = 0 then
      Except.error (Err.msg "Cannot dereference non-pointer type.\n")
    else
      pure ((mkunary Op.OP_DEREF val).setVtype (val.vtype.setPtr (val.vtype.ptr - 1)), s)
  | Tok.T_NOT => do
    let (val, s) ← r.pre (next s)
    pure ((mkunary Op.OP_NOT val).setVtype val.vtype, s)
  | Tok.T_MINUS => do
    let (val, s) ← r.pre (next s)
    pure ((mkunary Op.OP_MINUS val).setVtype val.vtype, s)
  | _ => do
    let (ast, s) ← primary r s
    post r ast s

/-- Source: the `while` loop of `binexpr`, entered with the left operand
`lhs` and the operator `op` already read. -/
def binexpr_loop (r : Rec) (ptp : Nat) : Nat → Ast → Op → PState → Except Err (Ast × PState)
  | 0, _, _, _ => Except.error Err.fuel
  | n + 1, lhs, op, s =>
    if opprec op > ptp ∨ (rightassoc op = true ∧ opprec op = ptp) then do
      let s := next s
      let (rhs, s) ← r.binexpr (opprec op) s
      if !type_compatible lhs.vtype rhs.vtype then
        Except.error (Err.msg "Incompatible types in binary expression.\n")
      else
        let expr := Ast.mk lhs.vtype false
          (Node.binop op (lhs.setLvalue true) (rhs.setLvalue false))
        if termin s then pure (expr, s)
        else
          match operator (curr s).type with
          | none => Except.error (Err.msg
              ("Expected operator, got '" ++ tokstr (curr s).type ++ "'\n"))
          | some op => binexpr_loop r ptp n expr op s
    else pure (lhs, s)

/-- Source: `binexpr`. -/
def binexpr (r : Rec) (ptp : Nat) (s : PState) : Except Err (Ast × PState) := do
  let (lhs, s) ← pre r s
  if termin s then pure (lhs, s)
  else
    match operator (curr s).type with
    | none => Except.error (Err.msg
        ("Expected operator, got '" ++ tokstr (curr s).type ++ "'\n"))
    | some op => binexpr_loop r ptp r.fuel lhs op s

/-! ## Parser: statements -/

/-- Source: `inlineasm`. -/
def inlineasm (s : PState) : Except Err (Ast × PState) :=
  pure (mkast (Node.inasm (curr s).sval), next s)

/-- Source: the parameter loop of `funcdecl`:
`while (curr()->type != T_RPAREN) ...`; the token in the name position is
skipped by `next()`. -/
def funcdecl_params (r : Rec) : Nat → List CType → PState → Except Err (List CType × PState)
  | 0, _, _ => Except.error Err.fuel
  | n + 1, params, s =>
    if (curr s).type ≠ Tok.T_RPAREN then do
      let s := next s
      let s ← expect Tok.T_COLON s
      let (t, s) ← parsetype r s
      let s ← if (curr s).type ≠ Tok.T_RPAREN then expect Tok.T_COMMA s else pure s
      funcdecl_params r n (params ++ [t]) s
    else pure (params, s)

/-- Source: `funcdecl`; `none` is the `NULL` returned for a declaration
without body. -/
def funcdecl (r : Rec) (s : PState) : Except Err (Option Ast × PState) := do
  let (pub, s) := if (curr s).type = Tok.T_PUBLIC then (true, next s) else (false, s)
  let (ext, s) := if (curr s).type = Tok.T_EXTERN then (true, next s) else (false, s)
  let name := (curr s).sval
  let s ← expect Tok.T_IDENT s
  let s ← expect Tok.T_LPAREN s
  let (params, s) ← funcdecl_params r r.fuel [] s
  let s ← expect Tok.T_RPAREN s
  let (ret, s) ←
    if (curr s).type = Tok.T_ARROW then parsetype r (next s)
    else pure (mktype TypeName.TYPE_VOID 0 0, s)
  let y : sym := ⟨name, CType.mk TypeName.TYPE_FUNC 0 0 (some ret) params [] 0, pub, ext⟩
  match sym_lookup s.currscope name with
  | some prev =>
    if !ext && !prev.ext then
      throw (Err.msg ("Multiple definition of function '" ++ name ++ "'\n"))
  | none => pure ()
  let s ← match sym_putglob s.currscope y with
    | some sc => pure { s with currscope := sc }
    | none => throw (Err.undefined "sym_putglob: no global scope")
  if (curr s).type = Tok.T_LBRACE then
    if ext then
      throw (Err.msg "Definition of function marked 'extern'.\n")
    else do
      let s := { s with currfunc := some name }
      let s := next s
      let (block, s) ← r.block SymtabType.SYMTAB_FUNC s
      let s ← expect Tok.T_RBRACE s
      let s := { s with currfunc := none }
      pure (some (mkast (Node.funcdef name block)), s)
  else
    if !ext then
      throw (Err.msg "No definition of function not marked 'extern'\n")
    else do
      let s ← expect Tok.T_SEMI s
      pure (none, s)

/-- Source: `vardecl`.  The `A_VARDEF` node is made by `mkast` and its name is
never assigned; with an initialiser the node returned is the assignment
built afterwards. -/
def vardecl (r : Rec) (s : PState) : Except Err (Option Ast × PState) := do
  let name := (curr s).sval
  let s ← expect Tok.T_IDENT s
  let (autov, t, ast, s) ←
    if (curr s).type ≠ Tok.T_COLON then
      if (curr s).type ≠ Tok.T_EQ then
        throw (Err.msg "Auto variable must be initialized.\n")
      else pure (true, none, none, s)
    else do
      let s ← expect Tok.T_COLON s
      let (t, s) ← parsetype r s
      pure (false, some t, some (mkast (Node.vardef none)), s)
  let (t, ast, s) ←
    if (curr s).type = Tok.T_EQ then do
      let s ← expect Tok.T_EQ s
      let (init, s) ← binexpr r 0 s
      let lhs := (mkast (Node.ident name)).setLvalue true
      let ast := mkast (Node.binop Op.OP_ASSIGN lhs (init.setLvalue false))
      if autov then pure (some init.vtype, some ast, s)
      else
        match t with
        | some t =>
          if !type_compatible init.vtype t then
            throw (Err.msg "Incompatible types in variable initialization\n")
          else pure (some t, some ast, s)
        | none => throw (Err.undefined "vardecl: type read uninitialised")
    else pure (t, ast, s)
  match t with
  | none => throw (Err.undefined "vardecl: type read uninitialised")
  | some t =>
    let sc ← sym_put s.currscope name t false false
    pure (ast, { s with currscope := sc })

/-- Source: the member loop of `struct_declaration`:
`while (curr()->type != T_RBRACE) ...`, with the members so far and the
running `offset`, a `size_t`: `offset += asm_sizeof(type)` is taken modulo
`2 ^ 64`. -/
def struct_members (r : Rec) : Nat → List StructMem → Nat → PState →
    Except Err ((List StructMem × Nat) × PState)
  | 0, _, _, _ => Except.error Err.fuel
  | n + 1, members, offset, s =>
    if (curr s).type ≠ Tok.T_RBRACE then do
      let memname := (curr s).sval
      let s ← expect Tok.T_IDENT s
      let s ← expect Tok.T_COLON s
      let (type, s) ← parsetype r s
      let members := members ++ [StructMem.mk memname type offset]
      match asm_sizeof type with
      | none => Except.error (Err.undefined "asm_sizeof: prim read uninitialised")
      | some sz => do
        let offset := (offset + sz) % 2 ^ 64
        let s ← if (curr s).type ≠ Tok.T_RBRACE then expect Tok.T_COMMA s else pure s
        struct_members r n members offset s
    else pure ((members, offset), s)

/-- Source: `struct_declaration`; it returns `NULL`. -/
def struct_declaration (r : Rec) (s : PState) : Except Err (Option Ast × PState) := do
  let s ← expect Tok.T_STRUCT s
  let name := (curr s).sval
  let s ← expect Tok.T_IDENT s
  let s ← expect Tok.T_LBRACE s
  let ((members, offset), s) ← struct_members r r.fuel [] 0 s
  let struc := CType.mk TypeName.TYPE_STRUCT 0 0 none [] members offset
  let s ← expect Tok.T_RBRACE s
  let s ← expect Tok.T_SEMI s
  pure (none, add_typedef name struc s)

/-- Source: `return_statement`. -/
def return_statement (r : Rec) (s : PState) : Except Err (Ast × PState) := do
  let s := next s
  let func := s.currfunc
  if (curr s).type ≠ Tok.T_SEMI then
    match func with
    | none => throw (Err.undefined "return_statement: currfunc is null")
    | some fname =>
      match sym_lookup s.currscope fname with
      | none => throw (Err.undefined "return_statement: symbol is null")
      | some y =>
        match y.type.ret with
        | none => throw (Err.undefined "return_statement: func.ret is null")
        | some t =>
          if t.name = TypeName.TYPE_VOID ∧ t.ptr = 0 then
            throw (Err.msg "Returning value from void function.\n")
          else do
            let (val, s) ← binexpr r 0 s
            if !type_compatible val.vtype t then
              throw (Err.msg ("Incompatible return type in function '" ++ y.name ++ "'.\n"))
            else pure (mkast (Node.ret func (some val)), s)
  else pure (mkast (Node.ret func none), s)

/-- Source: `if_statement`. -/
def if_statement (r : Rec) (s : PState) : Except Err (Ast × PState) := do
  let s := next s
  let s ← expect Tok.T_LPAREN s
  let (cond, s) ← binexpr r 0 s
  let s ← expect Tok.T_RPAREN s
  let s ← expect Tok.T_LBRACE s
  let (ifblock, s) ← r.block SymtabType.SYMTAB_BLOCK s
  let s ← expect Tok.T_RBRACE s
  if (curr s).type = Tok.T_ELSE then do
    let s := next s
    let s ← expect Tok.T_LBRACE s
    let (elseblock, s) ← r.block SymtabType.SYMTAB_BLOCK s
    let s ← expect Tok.T_RBRACE s
    pure (mkast (Node.ifelse cond ifblock (some elseblock)), s)
  else pure (mkast (Node.ifelse cond ifblock none), s)

/-- Source: `while_statement`. -/
def while_statement (r : Rec) (s : PState) : Except Err (Ast × PState) := do
  let s := next s
  let s ← expect Tok.T_LPAREN s
  let (cond, s) ← binexpr r 0 s
  let s ← expect Tok.T_RPAREN s
  let s ← expect Tok.T_LBRACE s
  let (body, s) ← r.block SymtabType.SYMTAB_BLOCK s
  let s ← expect Tok.T_RBRACE s
  pure (mkast (Node.whileloop cond body), s)

/-- Source: `for_statement`. -/
def for_statement (r : Rec) (s : PState) : Except Err (Ast × PState) := do
  let s := next s
  let s ← expect Tok.T_LPAREN s
  let (init, s) ← r.statement s
  let s ← expect Tok.T_SEMI s
  let (cond, s) ← binexpr r 0 s
  let s ← expect Tok.T_SEMI s
  let (update, s) ← r.statement s
  let s ← expect Tok.T_RPAREN s
  let s ← expect Tok.T_LBRACE s
  let (body, s) ← r.block SymtabType.SYMTAB_BLOCK s
  let s ← expect Tok.T_RBRACE s
  pure (mkast (Node.forloop init cond update body), s)

/-- Source: `label` (parser.c). -/
def label (s : PState) : Except Err (Ast × PState) := do
  let s ← expect Tok.T_LABEL s
  let name := (curr s).sval
  let s := next s
  let s ← expect Tok.T_COLON s
  pure (mkast (Node.label name), s)

/-- Source: `gotolbl`. -/
def gotolbl (s : PState) : Except Err (Ast × PState) := do
  let s ← expect Tok.T_GOTO s
  let name := (curr s).sval
  pure (mkast (Node.gotolbl name), next s)

/-- Source: `typedef_statement`; it returns `NULL`. -/
def typedef_statement (r : Rec) (s : PState) : Except Err (Option Ast × PState) := do
  let s ← expect Tok.T_TYPEDEF s
  let name := (curr s).sval
  let s ← expect Tok.T_IDENT s
  let s ← expect Tok.T_EQ s
  let (type, s) ← parsetype r s
  let s := add_typedef name type s
  let s ← expect Tok.T_SEMI s
  pure (none, s)

/-- A non-null result of a statement function. -/
def someAst (x : Except Err (Ast × PState)) : Except Err (Option Ast × PState) :=
  x.map (fun p => (some p.1, p.2))

/-- Source: `statement`; `none` is a `NULL` result. -/
def statement (r : Rec) (s : PState) : Except Err (Option Ast × PState) :=
  if (curr s).type = Tok.T_ASM then someAst (inlineasm s)
  else if (curr s).type = Tok.T_FUNC then funcdecl r (next s)
  else if (curr s).type = Tok.T_VAR then vardecl r (next s)
  else if (curr s).type = Tok.T_RETURN then someAst (return_statement r s)
  else if (curr s).type = Tok.T_IF then someAst (if_statement r s)
  else if (curr s).type = Tok.T_WHILE then someAst (while_statement r s)
  else if (curr s).type = Tok.T_FOR then someAst (for_statement r s)
  else if (curr s).type = Tok.T_LABEL then someAst (label s)
  else if (curr s).type = Tok.T_GOTO then someAst (gotolbl s)
  else if (curr s).type = Tok.T_TYPEDEF then typedef_statement r s
  else if (curr s).type = Tok.T_STRUCT then struct_declaration r s
  else someAst (binexpr r 0 s)

/-- Source: the statement loop of `block`:
`while (curr()->type != T_RBRACE && curr()->type != T_EOF) ...`. -/
def block_loop (r : Rec) : Nat → List Ast → PState → Except Err (List Ast × PState)
  | 0, _, _ => Except.error Err.fuel
  | n + 1, statements, s =>
    if (curr s).type ≠ Tok.T_RBRACE ∧ (curr s).type ≠ Tok.T_EOF then do
      let (ast, s) ← statement r s
      match ast with
      | none => block_loop r n statements s
      | some ast =>
        let s ←
          if ast.type ≠ AstType.A_FUNCDEF ∧ ast.type ≠ AstType.A_ASM ∧
              ast.type ≠ AstType.A_IFELSE ∧ ast.type ≠ AstType.A_FOR ∧
              ast.type ≠ AstType.A_WHILE ∧ ast.type ≠ AstType.A_LABEL then
            expect Tok.T_SEMI s
          else pure s
        block_loop r n (statements ++ [ast]) s
    else pure (statements, s)

/-- Source: `block`.  The new table becomes the current scope; at the end the
current scope is its parent again and the table stays in the block node. -/
def block (r : Rec) (type : SymtabType) (s : PState) : Except Err (Ast × PState) := do
  let s := { s with currscope := ⟨type, []⟩ :: s.currscope }
  let (statements, s) ← block_loop r r.fuel [] s
  match s.currscope with
  | [] => throw (Err.undefined "block: currscope is null")
  | symtab :: parent =>
    pure (mkast (Node.block symtab statements), { s with currscope := parent })

/-- The parser functions with no recursion allowed. -/
def Rec.bot : Rec :=
  { fuel := 0
    parsetype := fun _ => Except.error Err.fuel
    pre := fun _ => Except.error Err.fuel
    binexpr := fun _ _ => Except.error Err.fuel
    memaccess := fun _ _ => Except.error Err.fuel
    statement := fun _ => Except.error Err.fuel
    block := fun _ _ => Except.error Err.fuel }

/-- The parser functions with `f` levels of recursion allowed. -/
def parserAt : Nat → Rec
  | 0 => Rec.bot
  | f + 1 =>
    { fuel := f + 1
      parsetype := parsetype (parserAt f)
      pre := pre (parserAt f)
      binexpr := binexpr (parserAt f)
      memaccess := memaccess (parserAt f)
      statement := statement (parserAt f)
      block := block (parserAt f) }

/-- The state `parse` starts from: all tokens unread, no scope, no current
function, no typedef. -/
def initState (toks : List Token) : PState :=
  { toks := toks, currscope := [], currfunc := none, typedefs := [] }

/-- Source: `parse`: the global block of the token vector, with `fuel` levels
of recursion allowed. -/
def parse (fuel : Nat) (toks : List Token) : Except Err Ast :=
  (block (parserAt fuel) SymtabType.SYMTAB_GLOB (initState toks)).map (fun p => p.1)

/-! ## Code generator -/

/-- The generator's state: the register bit-vector `reglist`, the counter
`labels` of `label()`, and the text written to `file`, one item per `fprintf`
call, in order. -/
structure GenState where
  reglist : List Bool
  labels : Nat
  out : List String

/-- Outcomes of the generator other than a normal return. -/
inductive GenErr where
  /-- `printf(text); abort();` -/
  | abort (text : String)
  /-- A failed `assert`. -/
  | assertion (text : String)
  /-- Undefined behaviour of the C code. -/
  | undefined (what : String)
  deriving DecidableEq, Repr

/-- The constant `REGCNT`, the length of `regs64`. -/
def REGCNT : Nat := 4

/-- The constant `NOREG`. -/
def NOREG : Int := -1

/-- Source: the table `regs64`; `none` is an index outside the table. -/
def regs64 (r : Int) : Option String :=
  if r = 0 then some "%r8" else if r = 1 then some "%r9"
  else if r = 2 then some "%r10" else if r = 3 then some "%r11" else none

/-- Source: the table `paramregs`; `none` is an index outside the table. -/
def paramregs (i : Nat) : Option String :=
  ["%rdi", "%rsi", "%rdx", "%rcx", "%r8", "%r9"].get? i

/-- The state before the first call: all registers free, label counter 0,
nothing written. -/
def GenState.init : GenState := ⟨[false, false, false, false], 0, []⟩

/-- Append the text of one `fprintf` call. -/
def emit (text : String) (g : GenState) : GenState := { g with out := g.out ++ [text] }

/-- Source: `label` (gen.c). -/
def gen_label (g : GenState) : Nat × GenState := (g.labels, { g with labels := g.labels + 1 })

/-- Source: the loop of `regalloc` from index `i` on: the first free slot. -/
def regalloc_from : Nat → List Bool → Option Nat
  | _, [] => none
  | i, b :: bs => if !b then some i else regalloc_from (i + 1) bs

/-- Source: `regalloc`. -/
def regalloc (g : GenState) : Except GenErr (Int × GenState) :=
  match regalloc_from 0 (g.reglist.take REGCNT) with
  | some i => pure ((i : Int), { g with reglist := g.reglist.set i true })
  | none => Except.error (GenErr.abort "Out of registers\n")

/-- Source: `regfree`. -/
def regfree (r : Int) (g : GenState) : Except GenErr GenState :=
  if 0 ≤ r ∧ r < (REGCNT : Int) then pure { g with reglist := g.reglist.set r.toNat false }
  else Except.error (GenErr.assertion "r >= 0 && r < (int)REGCNT")

/-- Source: the macro `DISCARD`, applied to the result of its expression. -/
def DISCARD (r : Int) (g : GenState) : Except GenErr GenState :=
  if r ≠ NOREG then regfree r g else pure g

/-- The text of `regs64[r]` in a format argument; an index outside the table
is undefined. -/
def reg (r : Int) : Except GenErr String :=
  match regs64 r with
  | some x => pure x
  | none => Except.error (GenErr.undefined "regs64: index out of bounds")

/-- Source: the table `set_instructions`. -/
def set_instructions : Op → Option String
  | Op.OP_EQUAL => some "sete" | Op.OP_NEQUAL => some "setne"
  | Op.OP_GT => some "setg" | Op.OP_LT => some "setl"
  | Op.OP_GTE => some "setge" | Op.OP_LTE => some "setle"
  | _ => none

/-- The text `%ld` writes for a 64-bit value. -/
def fmt_ld (n : Nat) : String :=
  if n < 2 ^ 63 then toString n else "-" ++ toString (2 ^ 64 - n)

/-- Source: `add_string`. -/
def add_string (str : String) (g : GenState) : Nat × GenState :=
  let (l, g) := gen_label g
  let g := emit "\t.section .rodata\n" g
  let g := emit ("L" ++ toString l ++ ":\n\t.string \"" ++ str ++ "\"\n") g
  let g := emit "\t.section .text\n" g
  (l, g)

/-- Source: `gen_binop`, from the `switch` on: `r1` and `r2` are the registers
of the two operands, already generated.  In the assignment case the left
operand is read as an identifier unless it is a dereference. -/
def gen_binop (op : Op) (lhs : Ast) (r1 r2 : Int) (g : GenState) :
    Except GenErr (Int × GenState) :=
  let finish (g : GenState) : Except GenErr (Int × GenState) := do
    let g ← regfree r1 g
    pure (r2, g)
  match op with
  | Op.OP_PLUS => do
    let g := emit ("\tadd\t" ++ (← reg r1) ++ ", " ++ (← reg r2) ++ "\n") g
    finish g
  | Op.OP_MINUS => do
    let g := emit ("\tsub\t" ++ (← reg r1) ++ ", " ++ (← reg r2) ++ "\n") g
    finish g
  | Op.OP_MUL => do
    let g := emit ("\timul\t" ++ (← reg r1) ++ ", " ++ (← reg r2) ++ "\n") g
    finish g
  | Op.OP_DIV => finish g
  | Op.OP_EQUAL | Op.OP_NEQUAL | Op.OP_GT | Op.OP_LT | Op.OP_GTE | Op.OP_LTE => do
    let (r, g) ← regalloc g
    let g := emit ("\tcmp\t" ++ (← reg r1) ++ ", " ++ (← reg r2) ++ "\n") g
    let g := emit ("\t" ++ (set_instructions op).getD "(null)" ++ "\t%al\n") g
    let g := emit ("\tmovzx\t%al, " ++ (← reg r) ++ "\n") g
    let g ← regfree r1 g
    let g ← regfree r2 g
    pure (r, g)
  | Op.OP_ASSIGN => do
    match lhs.u with
    | Node.unary Op.OP_DEREF _ =>
      let g := emit ("\tmov\t" ++ (← reg r2) ++ ", (" ++ (← reg r1) ++ ")\n") g
      finish g
    | Node.ident name =>
      let g := emit ("\tmov\t" ++ (← reg r2) ++ ", " ++ name ++ "(%rip)\n") g
      finish g
    | _ => Except.error (GenErr.undefined "gen_binop: lhs read as identifier")
  | _ => finish g

/-- Source: `gen_unary`, case `OP_ADDROF`; the operand is read as an
identifier. -/
def gen_addrof (val : Ast) (g : GenState) : Except GenErr (Int × GenState) := do
  let (r, g) ← regalloc g
  match val.u with
  | Node.ident name =>
    pure (r, emit ("\tlea\t" ++ name ++ "(%rip), " ++ (← reg r) ++ "\n") g)
  | _ => Except.error (GenErr.undefined "gen_unary: operand read as identifier")

/-- Source: `gen_unary`, case `OP_DEREF`, after the operand was generated
into `r1`. -/
def gen_deref (lvalue : Bool) (r1 : Int) (g : GenState) : Except GenErr (Int × GenState) :=
  if lvalue then pure (r1, g)
  else do
    let (r2, g) ← regalloc g
    let g := emit ("\tmov\t(" ++ (← reg r1) ++ "), " ++ (← reg r2) ++ "\n") g
    let g ← regfree r1 g
    pure (r2, g)

/-- Source: `gen_intlit`. -/
def gen_intlit (ival : Nat) (g : GenState) : Except GenErr (Int × GenState) := do
  let (r, g) ← regalloc g
  pure (r, emit ("\tmov\t$" ++ fmt_ld ival ++ ", " ++ (← reg r) ++ "\n") g)

/-- Source: `gen_vardef`.  `lookup` is the one-argument `sym_lookup` that
gen.c calls, which is not among the sources. -/
def gen_vardef (lookup : String → Option sym) (name : Option String) (g : GenState) :
    Except GenErr GenState :=
  match name with
  | none => Except.error (GenErr.undefined "gen_vardef: vardef.name is null")
  | some name =>
    match lookup name with
    | none => Except.error (GenErr.undefined "gen_vardef: symbol is null")
    | some y =>
      match asm_sizeof y.type with
      | none => Except.error (GenErr.undefined "asm_sizeof: prim read uninitialised")
      | some sz => pure (emit ("\t.comm " ++ name ++ ", " ++ toString sz ++ "\n") g)

/-- Source: `gen_ident`. -/
def gen_ident (name : String) (g : GenState) : Except GenErr (Int × GenState) := do
  let (r, g) ← regalloc g
  pure (r, emit ("\tmov\t" ++ name ++ "(%rip), " ++ (← reg r) ++ "\n") g)

/-- Source: `gen_strlit`. -/
def gen_strlit (str : String) (g : GenState) : Except GenErr (Int × GenState) := do
  let (r, g) ← regalloc g
  let (l, g) := add_string str g
  pure (r, emit ("\tleaq\tL" ++ toString l ++ "(%rip), " ++ (← reg r) ++ "\n") g)

/-- Source: `gen_sizeof`. -/
def gen_sizeof (t : CType) (g : GenState) : Except GenErr (Int × GenState) := do
  let (r, g) ← regalloc g
  match asm_sizeof t with
  | none => Except.error (GenErr.undefined "asm_sizeof: prim read uninitialised")
  | some sz => pure (r, emit ("\tmov\t$" ++ toString sz ++ ", " ++ (← reg r) ++ "\n") g)

/-- Source: `gen_call`, after the parameter loop: the call itself.  The
parser never assigns `call.name`, which `%s` then prints as `(null)`. -/
def gen_call (name : Option String) (g : GenState) : Except GenErr (Int × GenState) := do
  let (r, g) ← regalloc g
  let g := emit ("\tcall\t" ++ name.getD "(null)" ++ "\n") g
  pure (r, emit ("\tmov\t%rax, " ++ (← reg r) ++ "\n") g)

/-- Source: `gen_call`, one turn of the parameter loop after the parameter
was generated into `par`. -/
def gen_call_param (i : Nat) (par : Int) (g : GenState) : Except GenErr GenState := do
  let dst ← match paramregs i with
    | some x => pure x
    | none => Except.error (GenErr.undefined "paramregs: index out of bounds")
  let g := emit ("\tmov\t" ++ (← reg par) ++ ", " ++ dst ++ "\n") g
  regfree par g

/-- Source: the three lines `mov $1, %rax`, `cmp r, %rax`, `jne L<lbl>` and
the `regfree(r)` that follows them in `gen_ifelse`, `gen_while` and
`gen_for`. -/
def gen_test (r : Int) (lbl : Nat) (g : GenState) : Except GenErr GenState := do
  let g := emit "\tmov\t$1, %rax\n" g
  let g := emit ("\tcmp\t" ++ (← reg r) ++ ", %rax\n") g
  let g := emit ("\tjne\tL" ++ toString lbl ++ "\n") g
  regfree r g

mutual
/-- Source: `gen_code`, with the bodies of `gen_binop`, `gen_unary`,
`gen_call`, `gen_funcdef`, `gen_return`, `gen_ifelse`, `gen_while` and
`gen_for` around their recursive calls.  `gen_while` reads the condition
through `ifelse.cond`, the member at the same place as `whileloop.cond`. -/
def gen_code (lookup : String → Option sym) : Ast → GenState → Except GenErr (Int × GenState)
  | Ast.mk _ lvalue u, g =>
    match u with
    | Node.binop op lhs rhs => do
      let (r1, g) ← gen_code lookup lhs g
      let (r2, g) ← gen_code lookup rhs g
      gen_binop op lhs r1 r2 g
    | Node.unary op val =>
      match op with
      | Op.OP_ADDROF => gen_addrof val g
      | Op.OP_DEREF => do
        let (r1, g) ← gen_code lookup val g
        gen_deref lvalue r1 g
      | _ => pure (NOREG, g)
    | Node.intlit ival => gen_intlit ival g
    | Node.call name _ params => do
      let g ← gen_call_params lookup params 0 g
      gen_call name g
    | Node.ident name => gen_ident name g
    | Node.strlit str => gen_strlit str g
    | Node.sizeofop t => gen_sizeof t g
    | Node.vardef name => do
      let g ← gen_vardef lookup name g
      pure (NOREG, g)
    | Node.funcdef name block => do
      let g := emit ("\t.global " ++ name ++ "\n") g
      let g := emit (name ++ ":\n") g
      let g ← gen_block lookup block g
      pure (NOREG, emit "\tret\n" g)
    | Node.inasm code => pure (NOREG, emit code g)
    | Node.block _ statements => do
      let g ← gen_statements lookup statements g
      pure (NOREG, g)
    | Node.ret _ val => do
      let g ← match val with
        | some val => do
          let (r, g) ← gen_code lookup val g
          let g := emit ("\tmov\t" ++ (← reg r) ++ ", %rax\n") g
          regfree r g
        | none => pure g
      pure (NOREG, emit "\tret\n" g)
    | Node.ifelse cond ifblock elseblock => do
      let (r, g) ← gen_code lookup cond g
      match elseblock with
      | some elseblock =>
        let (elselbl, g) := gen_label g
        let (endlbl, g) := gen_label g
        let g ← gen_test r elselbl g
        let (d, g) ← gen_code lookup ifblock g
        let g ← DISCARD d g
        let g := emit ("\tjmp\tL" ++ toString endlbl ++ "\n") g
        let g := emit ("L" ++ toString elselbl ++ ":\n") g
        let (d, g) ← gen_code lookup elseblock g
        let g ← DISCARD d g
        pure (NOREG, emit ("L" ++ toString endlbl ++ ":\n") g)
      | none =>
        let (endlbl, g) := gen_label g
        let g ← gen_test r endlbl g
        let (d, g) ← gen_code lookup ifblock g
        let g ← DISCARD d g
        pure (NOREG, emit ("L" ++ toString endlbl ++ ":\n") g)
    | Node.whileloop cond body => do
      let (looplbl, g) := gen_label g
      let (endlbl, g) := gen_label g
      let g := emit ("L" ++ toString looplbl ++ ":\n") g
      let (r, g) ← gen_code lookup cond g
      let g ← gen_test r endlbl g
      let (d, g) ← gen_code lookup body g
      let g ← DISCARD d g
      let g := emit ("\tjmp\tL" ++ toString looplbl ++ "\n") g
      pure (NOREG, emit ("L" ++ toString endlbl ++ ":\n") g)
    | Node.forloop init cond update body => do
      let (looplbl, g) := gen_label g
      let (endlbl, g) := gen_label g
      let g ← match init with
        | some init => do
          let (d, g) ← gen_code lookup init g
          DISCARD d g
        | none => Except.error (GenErr.undefined "gen_code: ast is null")
      let g := emit ("L" ++ toString looplbl ++ ":\n") g
      let (r, g) ← gen_code lookup cond g
      let g ← gen_test r endlbl g
      let (d, g) ← gen_code lookup body g
      let g ← DISCARD d g
      let g ← match update with
        | some update => do
          let (d, g) ← gen_code lookup update g
          DISCARD d g
        | none => Except.error (GenErr.undefined "gen_code: ast is null")
      let g := emit ("\tjmp\tL" ++ toString looplbl ++ "\n") g
      pure (NOREG, emit ("L" ++ toString endlbl ++ ":\n") g)
    | _ => pure (NOREG, g)
/-- Source: `gen_block`, applied to the node in `funcdef.block`. -/
def gen_block (lookup : String → Option sym) : Ast → GenState → Except GenErr GenState
  | Ast.mk _ _ u, g =>
    match u with
    | Node.block _ statements => gen_statements lookup statements g
    | _ => Except.error (GenErr.undefined "gen_block: node read as block")
/-- Source: the loop of `gen_block`: `DISCARD(gen_code(statements[i], file))`
for each statement in order. -/
def gen_statements (lookup : String → Option sym) : List Ast → GenState → Except GenErr GenState
  | [], g => pure g
  | st :: rest, g => do
    let (d, g) ← gen_code lookup st g
    let g ← DISCARD d g
    gen_statements lookup rest g
/-- Source: the parameter loop of `gen_call`, from index `i` on. -/
def gen_call_params (lookup : String → Option sym) :
    List Ast → Nat → GenState → Except GenErr GenState
  | [], _, g => pure g
  | p :: rest, i, g => do
    let (par, g) ← gen_code lookup p g
    let g ← gen_call_param i par g
    gen_call_params lookup rest (i + 1) g
end

/-- Source: `gen_ast`, from the state before the first call; the result is
the text written to `file`. -/
def gen_ast (lookup : String → Option sym) (ast : Ast) : Except GenErr (List String) :=
  (gen_code lookup ast GenState.init).map (fun p => p.2.out)

/-! ## Vocabulary of the statements -/

/-- The sum of `asm_sizeof` over a list of types. -/
def sumSizes (ts : List CType) : Nat := (ts.map (fun t => (asm_sizeof t).getD 0)).sum

/-- The member record the specification prescribes for the member at
position `p.1` of the declaration `all`: its name, its type, and as offset
the sum of the sizes of the members before it. -/
def memberAt (all : List (String × CType)) (p : Nat × (String × CType)) : StructMem :=
  StructMem.mk p.2.1 p.2.2 (sumSizes ((all.take p.1).map Prod.snd))

/-- The member list the specification prescribes for a declaration with the
members `ms` (name and type), in declaration order. -/
def specMembers (ms : List (String × CType)) : List StructMem :=
  ms.enum.map (memberAt ms)

/-- The member record that `struct_declaration` stores for the member at
position `p.1` of the declaration `all`: its name, its type, and as offset
the `size_t` value of the running sum, the sum of the sizes of the members
before it modulo `2 ^ 64`. -/
def storedMemberAt (all : List (String × CType)) (p : Nat × (String × CType)) : StructMem :=
  StructMem.mk p.2.1 p.2.2 (sumSizes ((all.take p.1).map Prod.snd) % 2 ^ 64)

/-- The member list that `struct_declaration` stores for a declaration with
the members `ms` (name and type), in declaration order. -/
def storedMembers (ms : List (String × CType)) : List StructMem :=
  ms.enum.map (storedMemberAt ms)

/-- `StructBody r s ms s'`: from state `s`, just after the `{` of a struct
declaration, the members `ms` (name and type) are read in order, each as
`name : T` with `T` parsed by `parsetype` and followed by a comma, which is
skipped, or by the closing `}`; `s'` is the state at that `}`. -/
inductive StructBody (r : Rec) : PState → List (String × CType) → PState → Prop where
  | done (s : PState) : (curr s).type = Tok.T_RBRACE → StructBody r s [] s
  | last (s : PState) (T : CType) (s1 : PState) :
      (curr s).type = Tok.T_IDENT → (curr (next s)).type = Tok.T_COLON →
      parsetype r (next (next s)) = Except.ok (T, s1) →
      (curr s1).type = Tok.T_RBRACE → StructBody r s [((curr s).sval, T)] s1
  | more (s : PState) (T : CType) (s1 : PState) (rest : List (String × CType)) (s' : PState) :
      (curr s).type = Tok.T_IDENT → (curr (next s)).type = Tok.T_COLON →
      parsetype r (next (next s)) = Except.ok (T, s1) →
      (curr s1).type = Tok.T_COMMA → StructBody r (next s1) rest s' →
      StructBody r s (((curr s).sval, T) :: rest) s'

/-- The leaf operand that starts at the current token: the node `primary`
makes for an integer literal, a string literal or a declared identifier. -/
def leaf (s : PState) : Option Ast :=
  match (curr s).type with
  | Tok.T_INTLIT => some (intlit s)
  | Tok.T_STRLIT =>
    some (Ast.mk (mktype TypeName.TYPE_INT8 0 1) false (Node.strlit (curr s).sval))
  | Tok.T_IDENT =>
    (sym_lookup s.currscope (curr s).sval).map
      (fun y => Ast.mk y.type false (Node.ident (curr s).sval))
  | _ => none

/-- The tree `op(lhs, rhs)` as `binexpr` builds it: typed like its left
operand, the left operand marked as lvalue and the right one not. -/
def mkbin (op : Op) (lhs rhs : Ast) : Ast :=
  Ast.mk lhs.vtype false (Node.binop op (lhs.setLvalue true) (rhs.setLvalue false))

/-- `CallArgs r s args s'`: from state `s`, just after the `(` of a call, the
arguments `args` are parsed in order by `binexpr(0)`, each one followed by a
comma, which is skipped, or by the closing `)`; `s'` is the state at that
`)`. -/
inductive CallArgs (r : Rec) : PState → List Ast → PState → Prop where
  | done (s : PState) : (curr s).type = Tok.T_RPAREN → CallArgs r s [] s
  | last (s : PState) (a : Ast) (s1 : PState) :
      (curr s).type ≠ Tok.T_RPAREN → r.binexpr 0 s = Except.ok (a, s1) →
      (curr s1).type = Tok.T_RPAREN → CallArgs r s [a] s1
  | more (s : PState) (a : Ast) (s1 : PState) (rest : List Ast) (s' : PState) :
      (curr s).type ≠ Tok.T_RPAREN → r.binexpr 0 s = Except.ok (a, s1) →
      (curr s1).type = Tok.T_COMMA → CallArgs r (next s1) rest s' →
      CallArgs r s (a :: rest) s'

/-- The callee stored in a call node: the expression itself for a pointer
to function, its address otherwise. -/
def calleeOf (ast : Ast) : Ast :=
  if ast.vtype.ptr != 0 then ast else mkast (Node.unary Op.OP_ADDROF ast)

/-- The node `vardecl` returns for `var name ... = e`: the assignment of `e`
to a fresh identifier node. -/
def initAssign (name : String) (e : Ast) : Ast :=
  mkast (Node.binop Op.OP_ASSIGN ((mkast (Node.ident name)).setLvalue true) (e.setLvalue false))

/-- The scope chain after `name : t` was appended to the current scope
`tab`. -/
def declared (tab : symtable) (parent : List symtable) (name : String) (t : CType) :
    List symtable :=
  { tab with syms := tab.syms ++ [⟨name, t, false, false⟩] } :: parent

/-- The generated text contains `text`. -/
def outputContains (out : List String) (text : String) : Prop :=
  List.IsInfix text.data (String.join out).data

instance (out : List String) (text : String) : Decidable (outputContains out text) :=
  inferInstanceAs (Decidable (List.IsInfix text.data (String.join out).data))

/-! ## Function declarations, blocks and types: parts and shapes -/

/-- Source: the start of `funcdecl`: the optional `public` and `extern`
keywords; the result is the two attributes and the state at the name. -/
def funcdecl_attrs (s : PState) : Bool × Bool × PState :=
  let (pub, s) := if (curr s).type = Tok.T_PUBLIC then (true, next s) else (false, s)
  let (ext, s) := if (curr s).type = Tok.T_EXTERN then (true, next s) else (false, s)
  (pub, ext, s)

/-- Source: `funcdecl`, from `sym_putglob` on: the symbol `y` is entered in
the global scope, then the body rule is applied. -/
def funcdecl_body (r : Rec) (y : sym) (s : PState) : Except Err (Option Ast × PState) := do
  let s ← match sym_putglob s.currscope y with
    | some sc => pure { s with currscope := sc }
    | none => throw (Err.undefined "sym_putglob: no global scope")
  if (curr s).type = Tok.T_LBRACE then
    if y.ext then
      throw (Err.msg "Definition of function marked 'extern'.\n")
    else do
      let s := { s with currfunc := some y.name }
      let s := next s
      let (block, s) ← r.block SymtabType.SYMTAB_FUNC s
      let s ← expect Tok.T_RBRACE s
      let s := { s with currfunc := none }
      pure (some (mkast (Node.funcdef y.name block)), s)
  else
    if !y.ext then
      throw (Err.msg "No definition of function not marked 'extern'\n")
    else do
      let s ← expect Tok.T_SEMI s
      pure (none, s)

/-- Source: `funcdecl`, from the lookup of a previous symbol on: the
redefinition check, then the rest of the function. -/
def funcdecl_check (r : Rec) (y : sym) (s : PState) : Except Err (Option Ast × PState) :=
  match sym_lookup s.currscope y.name with
  | some prev =>
    if !y.ext && !prev.ext then
      Except.error (Err.msg ("Multiple definition of function '" ++ y.name ++ "'\n"))
    else funcdecl_body r y s
  | none => funcdecl_body r y s

/-- `FuncParams r s params s'`: from state `s`, just after the `(` of a
function declaration, the parameters are read in order, each as one token
in the name position, a `:` and a type parsed by `parsetype`, followed by a
comma, which is skipped, or by the closing `)`; `params` are the types and
`s'` is the state at that `)`. -/
inductive FuncParams (r : Rec) : PState → List CType → PState → Prop where
  | done (s : PState) : (curr s).type = Tok.T_RPAREN → FuncParams r s [] s
  | last (s : PState) (T : CType) (s1 : PState) :
      (curr s).type ≠ Tok.T_RPAREN → (curr (next s)).type = Tok.T_COLON →
      parsetype r (next (next s)) = Except.ok (T, s1) →
      (curr s1).type = Tok.T_RPAREN → FuncParams r s [T] s1
  | more (s : PState) (T : CType) (s1 : PState) (rest : List CType) (s' : PState) :
      (curr s).type ≠ Tok.T_RPAREN → (curr (next s)).type = Tok.T_COLON →
      parsetype r (next (next s)) = Except.ok (T, s1) →
      (curr s1).type = Tok.T_COMMA → FuncParams r (next s1) rest s' →
      FuncParams r s (T :: rest) s'

/-- The symbol `funcdecl` makes for a function: its name, the function type
with return type `ret` and parameter types `params`, and the attributes. -/
def funcSym (name : String) (params : List CType) (ret : CType) (pub ext : Bool) : sym :=
  ⟨name, CType.mk TypeName.TYPE_FUNC 0 0 (some ret) params [] 0, pub, ext⟩

/-- `Signature r s0 pub ext name params ret s5`: from state `s0`, just after
`fn`, the tokens read as `[public] [extern] name ( p1: T1, ... ) [-> T]`:
the attributes are `pub` and `ext`, the parameter types `params`, the return
type `ret` is `T`, or void when `-> T` is absent, and `s5` is the state after
the signature.  The loop bound `r.fuel` exceeds the number of parameters. -/
def Signature (r : Rec) (s0 : PState) (pub ext : Bool) (name : String) (params : List CType)
    (ret : CType) (s5 : PState) : Prop :=
  ∃ s s4 : PState,
    funcdecl_attrs s0 = (pub, ext, s) ∧
    (curr s).type = Tok.T_IDENT ∧ (curr s).sval = name ∧
    (curr (next s)).type = Tok.T_LPAREN ∧
    FuncParams r (next (next s)) params s4 ∧
    params.length < r.fuel ∧
    (if (curr (next s4)).type = Tok.T_ARROW then parsetype r (next (next s4))
      else Except.ok (mktype TypeName.TYPE_VOID 0 0, next s4)) = Except.ok (ret, s5)

/-- The kinds of node after which `block` asks for no `;`: funcdef, asm,
if-else, for, while and label. -/
def opensBlock (t : AstType) : Bool :=
  t == AstType.A_FUNCDEF || t == AstType.A_ASM || t == AstType.A_IFELSE ||
  t == AstType.A_FOR || t == AstType.A_WHILE || t == AstType.A_LABEL

/-- `BlockBody r m s asts s'`: from state `s`, `m` statements are parsed by
`statement` until the closing brace or the end of the tokens is reached at
state `s'`; `asts` are the nodes they yield, in source order (a declaration
yields none); a node of a kind that does not open a block is followed by a
`;`, which is skipped. -/
inductive BlockBody (r : Rec) : Nat → PState → List Ast → PState → Prop where
  | done (s : PState) :
      ((curr s).type = Tok.T_RBRACE ∨ (curr s).type = Tok.T_EOF) → BlockBody r 0 s [] s
  | decl (m : Nat) (s s1 : PState) (rest : List Ast) (s' : PState) :
      (curr s).type ≠ Tok.T_RBRACE → (curr s).type ≠ Tok.T_EOF →
      statement r s = Except.ok (none, s1) → BlockBody r m s1 rest s' →
      BlockBody r (m + 1) s rest s'
  | opens (m : Nat) (s : PState) (ast : Ast) (s1 : PState) (rest : List Ast) (s' : PState) :
      (curr s).type ≠ Tok.T_RBRACE → (curr s).type ≠ Tok.T_EOF →
      statement r s = Except.ok (some ast, s1) → opensBlock ast.type = true →
      BlockBody r m s1 rest s' → BlockBody r (m + 1) s (ast :: rest) s'
  | semi (m : Nat) (s : PState) (ast : Ast) (s1 : PState) (rest : List Ast) (s' : PState) :
      (curr s).type ≠ Tok.T_RBRACE → (curr s).type ≠ Tok.T_EOF →
      statement r s = Except.ok (some ast, s1) → opensBlock ast.type = false →
      (curr s1).type = Tok.T_SEMI →
      BlockBody r m (next s1) rest s' → BlockBody r (m + 1) s (ast :: rest) s'

/-- The type name a primitive type keyword stands for. -/
def primOf : Tok → Option TypeName
  | Tok.T_INT8 => some TypeName.TYPE_INT8 | Tok.T_INT16 => some TypeName.TYPE_INT16
  | Tok.T_INT32 => some TypeName.TYPE_INT32 | Tok.T_INT64 => some TypeName.TYPE_INT64
  | Tok.T_UINT8 => some TypeName.TYPE_UINT8 | Tok.T_UINT16 => some TypeName.TYPE_UINT16
  | Tok.T_UINT32 => some TypeName.TYPE_UINT32 | Tok.T_UINT64 => some TypeName.TYPE_UINT64
  | Tok.T_FLOAT32 => some TypeName.TYPE_FLOAT32 | Tok.T_FLOAT64 => some TypeName.TYPE_FLOAT64
  | _ => none

/-- `TypeParams r s params s'`: from state `s`, just after the `(` of a
function type, the parameter types `params` are parsed in order by
`parsetype`, each followed by a comma, which is skipped, or by the closing
`)`; `s'` is the state at that `)`. -/
inductive TypeParams (r : Rec) : PState → List CType → PState → Prop where
  | done (s : PState) : (curr s).type = Tok.T_RPAREN → TypeParams r s [] s
  | last (s : PState) (T : CType) (s1 : PState) :
      (curr s).type ≠ Tok.T_RPAREN → r.parsetype s = Except.ok (T, s1) →
      (curr s1).type = Tok.T_RPAREN → TypeParams r s [T] s1
  | more (s : PState) (T : CType) (s1 : PState) (rest : List CType) (s' : PState) :
      (curr s).type ≠ Tok.T_RPAREN → r.parsetype s = Except.ok (T, s1) →
      (curr s1).type = Tok.T_COMMA → TypeParams r (next s1) rest s' →
      TypeParams r s (T :: rest) s'

/-! ## Generator: text written before a call -/

/-- The state `g` with `pre` put before the text written so far. -/
def prependOut (pre : List String) (g : GenState) : GenState :=
  { g with out := pre ++ g.out }

/-- The result of a generator function that returns a register, with `pre`
put before the text written. -/
def frameR (pre : List String) (x : Except GenErr (Int × GenState)) :
    Except GenErr (Int × GenState) :=
  x.map (fun v => (v.1, prependOut pre v.2))

/-- The result of a generator function that returns nothing, with `pre` put
before the text written. -/
def frameS (pre : List String) (x : Except GenErr GenState) : Except GenErr GenState :=
  x.map (prependOut pre)

/-! ## Example programs, as token vectors -/

/-- The type `int32`. -/
def int32 : CType := mktype TypeName.TYPE_INT32 0 0

/-- The type `uint32`, the type of a small integer literal. -/
def uint32 : CType := mktype TypeName.TYPE_UINT32 0 0

/-- Tokens of `struct P { a: int32, b: int32 };`. -/
def structPToks : List Token :=
  [tk Tok.T_STRUCT, tkId "P", tk Tok.T_LBRACE, tkId "a", tk Tok.T_COLON, tk Tok.T_INT32,
   tk Tok.T_COMMA, tkId "b", tk Tok.T_COLON, tk Tok.T_INT32, tk Tok.T_RBRACE, tk Tok.T_SEMI]

/-- Tokens of `struct P { a: int32, b: int32 }; var p: P; fn g() { p.b = 7; }`. -/
def memberProgToks : List Token :=
  structPToks ++
  [tk Tok.T_VAR, tkId "p", tk Tok.T_COLON, tkId "P", tk Tok.T_SEMI,
   tk Tok.T_FUNC, tkId "g", tk Tok.T_LPAREN, tk Tok.T_RPAREN, tk Tok.T_LBRACE,
   tkId "p", tk Tok.T_DOT, tkId "b", tk Tok.T_EQ, tkInt 7, tk Tok.T_SEMI,
   tk Tok.T_RBRACE, tk Tok.T_EOF]

/-- Tokens of `var x: int32; x = (1);`. -/
def parenAssignToks : List Token :=
  [tk Tok.T_VAR, tkId "x", tk Tok.T_COLON, tk Tok.T_INT32, tk Tok.T_SEMI,
   tkId "x", tk Tok.T_EQ, tk Tok.T_LPAREN, tkInt 1, tk Tok.T_RPAREN, tk Tok.T_SEMI,
   tk Tok.T_EOF]

/-- Tokens of `var a: int32; var b: int32; var c: int32; (a + b) * c;`. -/
def parenMulToks : List Token :=
  [tk Tok.T_VAR, tkId "a", tk Tok.T_COLON, tk Tok.T_INT32, tk Tok.T_SEMI,
   tk Tok.T_VAR, tkId "b", tk Tok.T_COLON, tk Tok.T_INT32, tk Tok.T_SEMI,
   tk Tok.T_VAR, tkId "c", tk Tok.T_COLON, tk Tok.T_INT32, tk Tok.T_SEMI,
   tk Tok.T_LPAREN, tkId "a", tk Tok.T_PLUS, tkId "b", tk Tok.T_RPAREN,
   tk Tok.T_STAR, tkId "c", tk Tok.T_SEMI, tk Tok.T_EOF]

/-- Tokens of `var n = sizeof int32;`. -/
def sizeofToks : List Token :=
  [tk Tok.T_VAR, tkId "n", tk Tok.T_EQ, tk Tok.T_SIZEOF, tk Tok.T_INT32, tk Tok.T_SEMI,
   tk Tok.T_EOF]

/-- Tokens of `var x: int32 = 5;`. -/
def globalInitToks : List Token :=
  [tk Tok.T_VAR, tkId "x", tk Tok.T_COLON, tk Tok.T_INT32, tk Tok.T_EQ, tkInt 5,
   tk Tok.T_SEMI, tk Tok.T_EOF]

/-- Tokens of `var x: int32;`. -/
def globalVarToks : List Token :=
  [tk Tok.T_VAR, tkId "x", tk Tok.T_COLON, tk Tok.T_INT32, tk Tok.T_SEMI, tk Tok.T_EOF]

/-- The tree of `var x: int32 = 5;`: a global block that declares `x` and
holds one statement, the assignment `x = 5`. -/
def globalInitAst : Ast :=
  mkast (Node.block ⟨SymtabType.SYMTAB_GLOB, [⟨"x", int32, false, false⟩]⟩
    [initAssign "x" (Ast.mk uint32 false (Node.intlit 5))])

/-- The tree of `var x: int32;`: a global block that declares `x` and holds
one statement, a variable definition node without a name. -/
def globalVarAst : Ast :=
  mkast (Node.block ⟨SymtabType.SYMTAB_GLOB, [⟨"x", int32, false, false⟩]⟩
    [mkast (Node.vardef none)])

/-- Tokens of `extern puts(s: int8*) -> int32;`, a declaration as `funcdecl`
meets it, after `fn`. -/
def externDeclToks : List Token :=
  [tk Tok.T_EXTERN, tkId "puts", tk Tok.T_LPAREN, tkId "s", tk Tok.T_COLON, tk Tok.T_INT8,
   tk Tok.T_STAR, tk Tok.T_RPAREN, tk Tok.T_ARROW, tk Tok.T_INT32, tk Tok.T_SEMI, tk Tok.T_EOF]

/-- The type `fn(int8*) -> int32` of `puts`. -/
def putsType : CType :=
  CType.mk TypeName.TYPE_FUNC 0 0 (some int32) [mktype TypeName.TYPE_INT8 0 1] [] 0

/-- Tokens of `var g: int32; fn f() { fn g() { } }`. -/
def nestedRedefToks : List Token :=
  [tk Tok.T_VAR, tkId "g", tk Tok.T_COLON, tk Tok.T_INT32, tk Tok.T_SEMI,
   tk Tok.T_FUNC, tkId "f", tk Tok.T_LPAREN, tk Tok.T_RPAREN, tk Tok.T_LBRACE,
   tk Tok.T_FUNC, tkId "g", tk Tok.T_LPAREN, tk Tok.T_RPAREN, tk Tok.T_LBRACE,
   tk Tok.T_RBRACE, tk Tok.T_RBRACE, tk Tok.T_EOF]

/-- Tokens of `fn() * ;`: a function type followed by a `*`. -/
def fnStarToks : List Token :=
  [tk Tok.T_FUNC, tk Tok.T_LPAREN, tk Tok.T_RPAREN, tk Tok.T_STAR, tk Tok.T_SEMI, tk Tok.T_EOF]

/-- Tokens of `fn f(a: int32, b: int32) { } fn g() { f(1, 2); }`: a call
with two arguments. -/
def twoArgCallToks : List Token :=
  [tk Tok.T_FUNC, tkId "f", tk Tok.T_LPAREN, tkId "a", tk Tok.T_COLON, tk Tok.T_INT32,
   tk Tok.T_COMMA, tkId "b", tk Tok.T_COLON, tk Tok.T_INT32, tk Tok.T_RPAREN, tk Tok.T_LBRACE,
   tk Tok.T_RBRACE, tk Tok.T_FUNC, tkId "g", tk Tok.T_LPAREN, tk Tok.T_RPAREN, tk Tok.T_LBRACE,
   tkId "f", tk Tok.T_LPAREN, tkInt 1, tk Tok.T_COMMA, tkInt 2, tk Tok.T_RPAREN, tk Tok.T_SEMI,
   tk Tok.T_RBRACE, tk Tok.T_EOF]

/-- Tokens of `fn()[2] ;`: a function type with an array part. -/
def fnArrayToks : List Token :=
  [tk Tok.T_FUNC, tk Tok.T_LPAREN, tk Tok.T_RPAREN, tk Tok.T_LBRACK, tkInt 2, tk Tok.T_RBRACK,
   tk Tok.T_SEMI, tk Tok.T_EOF]

/-- Tokens of `fn() -> int64[2] ;`: the array part follows the return
type. -/
def fnRetArrayToks : List Token :=
  [tk Tok.T_FUNC, tk Tok.T_LPAREN, tk Tok.T_RPAREN, tk Tok.T_ARROW, tk Tok.T_INT64,
   tk Tok.T_LBRACK, tkInt 2, tk Tok.T_RBRACK, tk Tok.T_SEMI, tk Tok.T_EOF]

/-- Tokens of `fn() -> int64[2][3] ;`: two array parts follow the return
type. -/
def fnRetArrayArrayToks : List Token :=
  [tk Tok.T_FUNC, tk Tok.T_LPAREN, tk Tok.T_RPAREN, tk Tok.T_ARROW, tk Tok.T_INT64,
   tk Tok.T_LBRACK, tkInt 2, tk Tok.T_RBRACK, tk Tok.T_LBRACK, tkInt 3, tk Tok.T_RBRACK,
   tk Tok.T_SEMI, tk Tok.T_EOF]

/-- Tokens of `typedef A = int32; typedef B = A;`. -/
def typedefToks : List Token :=
  [tk Tok.T_TYPEDEF, tkId "A", tk Tok.T_EQ, tk Tok.T_INT32, tk Tok.T_SEMI,
   tk Tok.T_TYPEDEF, tkId "B", tk Tok.T_EQ, tkId "A", tk Tok.T_SEMI, tk Tok.T_EOF]

/-- Tokens of `label x: 1; }`: the body of a block with a label and an
expression statement, and the closing brace. -/
def labelExprToks : List Token :=
  [tk Tok.T_LABEL, tkId "x", tk Tok.T_COLON, tkInt 1, tk Tok.T_SEMI, tk Tok.T_RBRACE,
   tk Tok.T_EOF]

/-- Tokens of `fn public main() -> int32 { return 0; }`. -/
def mainToks : List Token :=
  [tk Tok.T_FUNC, tk Tok.T_PUBLIC, tkId "main", tk Tok.T_LPAREN, tk Tok.T_RPAREN, tk Tok.T_ARROW,
   tk Tok.T_INT32, tk Tok.T_LBRACE, tk Tok.T_RETURN, tkInt 0, tk Tok.T_SEMI, tk Tok.T_RBRACE,
   tk Tok.T_EOF]

/-- The function definition node of `fn public main() -> int32 { return 0; }`:
a function scope without symbols and one statement, `return 0`. -/
def mainDefinition : Ast :=
  mkast ( Node.funcdef "main"
    (mkast (Node.block ⟨SymtabType.SYMTAB_FUNC, []⟩
      [mkast (Node.ret (some "main") (some (Ast.mk uint32 false (Node.intlit 0))))])))

/-- The tree of `fn public main() -> int32 { return 0; }`: a global block
that declares the public function `main` of type `fn() -> int32` and holds
its definition. -/
def mainAst : Ast :=
  mkast (Node.block
    ⟨SymtabType.SYMTAB_GLOB,
      [⟨"main", CType.mk TypeName.TYPE_FUNC 0 0 (some int32) [] [] 0, true, false⟩]⟩
    [mainDefinition])

/-- A parser state with the given unread tokens and typedef table, with no
scope and no current function. -/
def stateTd (toks : List Token) (typedefs : List sym) : PState :=
  { toks := toks, currscope := [], currfunc := none, typedefs := typedefs }

/-- A parser state with the given unread tokens, inside one global scope
holding the symbols `syms`, with no typedefs. -/
def stateOf (toks : List Token) (syms : List sym) : PState :=
  { toks := toks, currscope := [⟨SymtabType.SYMTAB_GLOB, syms⟩], currfunc := none,
    typedefs := [] }

/-! ## Example expressions and declarations -/

/-- The type `int64`. -/
def int64 : CType := mktype TypeName.TYPE_INT64 0 0

/-- Tokens of `*p + 1;`. -/
def derefAddToks : List Token :=
  [tk Tok.T_STAR, tkId "p", tk Tok.T_PLUS, tkInt 1, tk Tok.T_SEMI, tk Tok.T_EOF]

/-- The symbol `p : int32*`. -/
def ptrSym : sym := ⟨"p", mktype TypeName.TYPE_INT32 0 1, false, false⟩

/-- The tree of `*p + 1` with `p : int32*`: the dereference on the left is
marked as lvalue. -/
def derefAddAst : Ast :=
  Ast.mk int32 false (Node.binop Op.OP_PLUS
    (Ast.mk int32 true (Node.unary Op.OP_DEREF
      (Ast.mk (mktype TypeName.TYPE_INT32 0 1) false (Node.ident "p"))))
    (Ast.mk uint32 false (Node.intlit 1)))

/-- Tokens of `f(x: int32) -> int32 { return x; }`, a declaration as
`funcdecl` meets it, after `fn`. -/
def paramUseToks : List Token :=
  [tkId "f", tk Tok.T_LPAREN, tkId "x", tk Tok.T_COLON, tk Tok.T_INT32, tk Tok.T_RPAREN,
   tk Tok.T_ARROW, tk Tok.T_INT32, tk Tok.T_LBRACE, tk Tok.T_RETURN, tkId "x", tk Tok.T_SEMI,
   tk Tok.T_RBRACE, tk Tok.T_EOF]

/-- Tokens of `var x: int64 = 1; fn f(x: int32) -> int32 { return x; }`. -/
def paramGlobalToks : List Token :=
  [tk Tok.T_VAR, tkId "x", tk Tok.T_COLON, tk Tok.T_INT64, tk Tok.T_EQ, tkInt 1, tk Tok.T_SEMI,
   tk Tok.T_FUNC] ++ paramUseToks

/-- Tokens of `fn f(5: int32) { }`: an integer literal in the name position
of the parameter. -/
def paramLiteralToks : List Token :=
  [tk Tok.T_FUNC, tkId "f", tk Tok.T_LPAREN, tkInt 5, tk Tok.T_COLON, tk Tok.T_INT32,
   tk Tok.T_RPAREN, tk Tok.T_LBRACE, tk Tok.T_RBRACE, tk Tok.T_EOF]

/-- The symbols `a : int32*`, `i, j, x, y : int32` and `f : fn(int32) -> int32`. -/
def postSyms : List sym :=
  [⟨"a", mktype TypeName.TYPE_INT32 0 1, false, false⟩, ⟨"i", int32, false, false⟩,
   ⟨"j", int32, false, false⟩,
   ⟨"f", CType.mk TypeName.TYPE_FUNC 0 0 (some int32) [int32] [] 0, false, false⟩,
   ⟨"x", int32, false, false⟩, ⟨"y", int32, false, false⟩]

/-- Tokens of `a[i][j];`. -/
def indexTwiceToks : List Token :=
  [tkId "a", tk Tok.T_LBRACK, tkId "i", tk Tok.T_RBRACK, tk Tok.T_LBRACK, tkId "j",
   tk Tok.T_RBRACK, tk Tok.T_SEMI, tk Tok.T_EOF]

/-- Tokens of `f(x)(y);`. -/
def callTwiceToks : List Token :=
  [tkId "f", tk Tok.T_LPAREN, tkId "x", tk Tok.T_RPAREN, tk Tok.T_LPAREN, tkId "y",
   tk Tok.T_RPAREN, tk Tok.T_SEMI, tk Tok.T_EOF]

/-- Tokens of `f(x)[i];`. -/
def callIndexToks : List Token :=
  [tkId "f", tk Tok.T_LPAREN, tkId "x", tk Tok.T_RPAREN, tk Tok.T_LBRACK, tkId "i",
   tk Tok.T_RBRACK, tk Tok.T_SEMI, tk Tok.T_EOF]

/-- Tokens of `a[i].m;`. -/
def indexMemberToks : List Token :=
  [tkId "a", tk Tok.T_LBRACK, tkId "i", tk Tok.T_RBRACK, tk Tok.T_DOT, tkId "m", tk Tok.T_SEMI,
   tk Tok.T_EOF]

/-- Tokens of `a[i + 1];`. -/
def indexSumToks : List Token :=
  [tkId "a", tk Tok.T_LBRACK, tkId "i", tk Tok.T_PLUS, tkInt 1, tk Tok.T_RBRACK, tk Tok.T_SEMI,
   tk Tok.T_EOF]

/-- A pointer to a struct with one member `c : int32`. -/
def structQ : CType := CType.mk TypeName.TYPE_STRUCT 1 0 none [] [⟨"c", int32, 0⟩] 4

/-- A pointer to a struct with the members `a`, a pointer to the struct of
`structQ`, at offset 0 and `b : int32` at offset 8. -/
def structP : CType :=
  CType.mk TypeName.TYPE_STRUCT 1 0 none [] [⟨"a", structQ, 0⟩, ⟨"b", int32, 8⟩] 12

/-- Tokens of `p->a->b;`. -/
def arrowChainToks : List Token :=
  [tkId "p", tk Tok.T_ARROW, tkId "a", tk Tok.T_ARROW, tkId "b", tk Tok.T_SEMI, tk Tok.T_EOF]

/-! ## Assembler: numbers and the lexer -/

/-- The C library's `isdigit`, "C" locale. -/
def isdigit (c : Char) : Bool := 48 ≤ c.toNat && c.toNat ≤ 57

/-- The C library's `isalnum`, "C" locale. -/
def isalnum (c : Char) : Bool :=
  isdigit c || (65 ≤ c.toNat && c.toNat ≤ 90) || (97 ≤ c.toNat && c.toNat ≤ 122)

/-- The C library's `isspace`, "C" locale. -/
def isspace (c : Char) : Bool := c.toNat = 32 || (9 ≤ c.toNat && c.toNat ≤ 13)

/-- The value of a character read as a digit by `strtoull`: `0`-`9`, then
the letters in either case from 10 on. -/
def digitVal (c : Char) : Option Nat :=
  if isdigit c then some (c.toNat - 48)
  else if 97 ≤ c.toNat ∧ c.toNat ≤ 122 then some (c.toNat - 87)
  else if 65 ≤ c.toNat ∧ c.toNat ≤ 90 then some (c.toNat - 55)
  else none

/-- The constant `ULLONG_MAX` for a 64-bit `unsigned long long`. -/
def ULLONG_MAX : Nat := 2 ^ 64 - 1

/-- The digit loop of `strtoull`: the value of the longest run of digits of
the base, computed exactly, and the characters after it. -/
def strtoull_digits (base : Nat) : Nat → List Char → Nat × List Char
  | acc, [] => (acc, [])
  | acc, c :: cs =>
    match digitVal c with
    | some d => if d < base then strtoull_digits base (acc * base + d) cs else (acc, c :: cs)
    | none => (acc, c :: cs)

/-- The start of the digits for `strtoull`: with base 16 a prefix `0x` or
`0X` in front of a hexadecimal digit is skipped. -/
def strtoull_start (base : Nat) (s : List Char) : List Char :=
  match s with
  | z :: x :: d :: t =>
    if base = 16 ∧ z = '0' ∧ (x = 'x' ∨ x = 'X') ∧ (digitVal d).any (fun v => v < 16) then d :: t
    else s
  | _ => s

/-- The C library's `strtoull` on a string without its terminating NUL, for a
base from 2 to 36: white space is skipped, then an optional sign, then for
base 16 an optional `0x`, then the digits of the base.  The result is the
value and the characters from `*end` on.  Without a digit the value is 0 and
`*end` is the start of the string; a value above `ULLONG_MAX` gives
`ULLONG_MAX`; after a minus sign the value is negated as an unsigned
number. -/
def strtoull (str : List Char) (base : Nat) : Nat × List Char :=
  let s1 := str.dropWhile isspace
  let neg := s1.head? = some '-'
  let s2 := if s1.head? = some '-' ∨ s1.head? = some '+' then s1.tail else s1
  let s3 := strtoull_start base s2
  let (v, rest) := strtoull_digits base 0 s3
  if rest.length = s3.length then (0, str)
  else if v > ULLONG_MAX then (ULLONG_MAX, rest)
  else if neg then ((2 ^ 64 - v) % 2 ^ 64, rest)
  else (v, rest)

/-- The conversion of a 64-bit unsigned value to `long`: the same 64 bits,
read as a signed number. -/
def toLong (v : Nat) : Int := if v < 2 ^ 63 then (v : Int) else (v : Int) - 2 ^ 64

/-- Source: `xstrtonum` (as/lib.c), on a string without its terminating NUL.
The result is the `long` returned and the characters from `*end` on. -/
def xstrtonum (str : List Char) : Int × List Char :=
  let (base, s) : Nat × List Char :=
    if str.head? = some '0' then
      if str.tail.head? = some 'x' then (16, str.tail.tail)
      else if str.tail.head? = some 'b' then (2, str.tail.tail)
      else if (str.tail.head?.map isdigit).getD false then (8, str.tail)
      else (10, str)
    else (10, str)
  let (v, rest) := strtoull s base
  (toLong v, rest)

/-- The token types of the assembler's lexer that `lexfile` names, and
`keyword t` for the type whose number `t` is an index of the table
`keywords` (`T_U8` to `T_U64`). -/
inductive AsTok where
  | T_COLON | T_COMMA | T_LBRACK | T_RBRACK | T_PLUS | T_STAR | T_LPAREN | T_RPAREN
  | T_IMM | T_INST | T_REG | T_LBL | T_EOF
  | keyword (t : Nat)
  deriving DecidableEq, Repr

/-- The record `struct token` of the assembler; `sval = none` is the null
pointer. -/
structure AsToken where
  type : AsTok
  sval : Option String
  ival : Nat
  deriving DecidableEq, Repr

/-- The tables `insts`, `regstrs` and `keywords` of lexer.c as arrays: the
strings are in the source, their indices are enum constants of headers that
are not among the sources; `none` is a gap of the array (a null pointer). -/
structure AsTables where
  insts : List (Option String)
  regstrs : List (Option String)
  keywords : List (Option String)

/-- Source: `find`, from index `i` on. -/
def find (sval : String) : List (Option String) → Nat → Option Nat
  | [], _ => none
  | e :: rest, i => if e = some sval then some i else find sval rest (i + 1)

/-- Outcomes of `lexfile` other than a normal return. -/
inductive LexErr where
  /-- The loop bound of the model was reached. -/
  | fuel
  /-- Undefined behaviour of the C code. -/
  | undefined (what : String)
  deriving DecidableEq, Repr

/-- Source: the loop `while ((c = fgetc(file)) != EOF && isalnum(c))` of
`lexfile` with the `ungetc` after it: the characters appended to `str` and
the file from the first character that is not appended on. -/
def lex_word : List Char → List Char × List Char
  | [] => ([], [])
  | c :: cs =>
    if isalnum c then
      let (w, rest) := lex_word cs
      (c :: w, rest)
    else ([], c :: cs)

/-- Source: the `switch` of `lexfile` over the one-character tokens. -/
def lex_punct (c : Char) : Option AsTok :=
  if c = ':' then some AsTok.T_COLON else if c = ',' then some AsTok.T_COMMA
  else if c = '[' then some AsTok.T_LBRACK else if c = ']' then some AsTok.T_RBRACK
  else if c = '+' then some AsTok.T_PLUS else if c = '*' then some AsTok.T_STAR
  else if c = '(' then some AsTok.T_LPAREN else if c = ')' then some AsTok.T_RPAREN
  else none

/-- Source: the branch `isdigit(str[0])` of `lexfile`: the base is chosen
from the first characters and `strtoull` is called on the whole of `str`. -/
def lex_number (str : List Char) : Nat :=
  let base :=
    if str.head? = some '0' then
      if str.tail.head? = some 'x' then 16
      else if str.length > 1 then 8
      else 10
    else 10
  (strtoull str base).1

/-- Source: the branch of `lexfile` for a word that does not start with a
digit: an instruction, a register, a keyword or a label. -/
def lex_name (tabs : AsTables) (str : String) : AsToken :=
  match find str tabs.insts 0 with
  | some t => ⟨AsTok.T_INST, none, t⟩
  | none =>
    match find str tabs.regstrs 0 with
    | some t => ⟨AsTok.T_REG, none, t⟩
    | none =>
      match find str tabs.keywords 0 with
      | some t => ⟨AsTok.keyword t, none, 0⟩
      | none => ⟨AsTok.T_LBL, some str, 0⟩

/-- Source: the `while` loop of `lexfile` and the `T_EOF` pushed after it;
`file` is the unread part of the file and `toks` the tokens pushed so far.
Each turn reads at least one character, so the length of the file bounds
the loop.  The buffer `str` holds 32 characters: a word of 32 or more
characters writes past it. -/
def lexfile_loop (tabs : AsTables) : Nat → List Char → List AsToken →
    Except LexErr (List AsToken)
  | 0, _, _ => Except.error LexErr.fuel
  | _ + 1, [], toks => Except.ok (toks ++ [⟨AsTok.T_EOF, none, 0⟩])
  | n + 1, c :: cs, toks =>
    if isspace c then lexfile_loop tabs n cs toks
    else
      match lex_punct c with
      | some t => lexfile_loop tabs n cs (toks ++ [⟨t, none, 0⟩])
      | none =>
        if isalnum c || c = '_' then
          let (w, rest) := lex_word cs
          let str := c :: w
          if str.length ≥ 32 then Except.error (LexErr.undefined "str: index out of bounds")
          else if isdigit c then
            lexfile_loop tabs n rest (toks ++ [⟨AsTok.T_IMM, none, lex_number str⟩])
          else lexfile_loop tabs n rest (toks ++ [lex_name tabs (String.mk str)])
        else lexfile_loop tabs n cs toks

/-- Source: `lexfile`, on the characters of the file, with no token pushed
before; the result is the token array. -/
def lexfile (tabs : AsTables) (file : List Char) : Except LexErr (List AsToken) :=
  lexfile_loop tabs (file.length + 1) file []

/-! ## Generator: expression and statement trees -/

mutual
/-- The expression trees of the register balance: integer literals,
identifiers, string literals, `sizeof`, address-of, dereference of an
expression, binary operators over expressions and calls with expressions as
arguments. -/
def isExpr : Ast → Bool
  | Ast.mk _ _ u =>
    match u with
    | Node.intlit _ => true
    | Node.ident _ => true
    | Node.strlit _ => true
    | Node.sizeofop _ => true
    | Node.unary op val =>
      match op with
      | Op.OP_ADDROF => true
      | Op.OP_DEREF => isExpr val
      | _ => false
    | Node.binop _ lhs rhs => isExpr lhs && isExpr rhs
    | Node.call _ _ params => allExpr params
    | _ => false
/-- Every tree of the list is an expression tree. -/
def allExpr : List Ast → Bool
  | [] => true
  | a :: rest => isExpr a && allExpr rest
/-- The statement trees of the register balance: blocks of expressions and
statements, `return` with or without an expression, if-else, while and for
over an expression as condition and expressions or statements as parts, and
function definitions whose body is such a block. -/
def isStmt : Ast → Bool
  | Ast.mk _ _ u =>
    match u with
    | Node.block _ statements => allItems statements
    | Node.ret _ val =>
      match val with
      | some val => isExpr val
      | none => true
    | Node.ifelse cond ifblock elseblock =>
      isExpr cond && (isExpr ifblock || isStmt ifblock) &&
        (match elseblock with
         | some elseblock => isExpr elseblock || isStmt elseblock
         | none => true)
    | Node.whileloop cond body => isExpr cond && (isExpr body || isStmt body)
    | Node.forloop init cond update body =>
      (match init with
       | some init => isExpr init || isStmt init
       | none => false) &&
      isExpr cond &&
      (match update with
       | some update => isExpr update || isStmt update
       | none => false) &&
      (isExpr body || isStmt body)
    | Node.funcdef _ block => isStmt block
    | _ => false
/-- Every tree of the list is an expression tree or a statement tree. -/
def allItems : List Ast → Bool
  | [] => true
  | a :: rest => (isExpr a || isStmt a) && allItems rest
end


/-- `Allocated g r g'`: from the pool of `g` to the pool of `g'` the register
`r` of the pool, free in `g`, became busy, and nothing else changed. -/
def Allocated (g : GenState) (r : Int) (g' : GenState) : Prop :=
  ∃ i : Nat, r = (i : Int) ∧ i < REGCNT ∧ g.reglist[i]? = some false ∧
    g'.reglist = g.reglist.set i true

/-! ## Operator chains -/

/-- A leaf operand of an operator chain: an integer literal or an
identifier. -/
def isLeaf : Ast → Bool
  | Ast.mk _ _ (Node.intlit _) => true
  | Ast.mk _ _ (Node.ident _) => true
  | _ => false

/-- The binary operators other than the comparisons, as operators of a chain
with left operand `lhs`: `+`, `-`, `*`, `/`, `&&`, `||`, and `=` when the
left operand is an identifier, whose name `gen_binop` prints. -/
def plainOp (op : Op) (lhs : Ast) : Bool :=
  match op with
  | Op.OP_PLUS | Op.OP_MINUS | Op.OP_MUL | Op.OP_DIV | Op.OP_LAND | Op.OP_LOR => true
  | Op.OP_ASSIGN =>
    match lhs with
    | Ast.mk _ _ (Node.ident _) => true
    | _ => false
  | _ => false

/-- The number of leaves of a right-nested chain `a1 op (a2 op (... op an))`
of such operators over leaves; `none` for any other tree. -/
def rightChainLen : Ast → Option Nat
  | Ast.mk _ _ (Node.binop op lhs rhs) =>
    if isLeaf lhs && plainOp op lhs then (rightChainLen rhs).map (fun m => m + 1) else none
  | Ast.mk _ _ (Node.intlit _) => some 1
  | Ast.mk _ _ (Node.ident _) => some 1
  | _ => none

/-- The number of leaves of a left-nested chain `((a1 op a2) op a3) ... op an`
of such operators over leaves; `none` for any other tree. -/
def leftChainLen : Ast → Option Nat
  | Ast.mk _ _ (Node.binop op lhs rhs) =>
    if isLeaf rhs && plainOp op lhs then (leftChainLen lhs).map (fun m => m + 1) else none
  | Ast.mk _ _ (Node.intlit _) => some 1
  | Ast.mk _ _ (Node.ident _) => some 1
  | _ => none

/-- The pool in which exactly the first `k` registers are busy. -/
def busyPool (k : Nat) : List Bool := [decide (0 < k), decide (1 < k), decide (2 < k), decide (3 < k)]

/-- Tokens of the chained assignment `x1 = x2 = ... = xm = last;`. -/
def assignChainToks : List String → Token → List Token
  | [], last => [last, tk Tok.T_SEMI, tk Tok.T_EOF]
  | x :: xs, last => tkId x :: tk Tok.T_EQ :: assignChainToks xs last

/-- The right-nested tree `x1 = (x2 = (... = (xm = last)))` over identifiers
of type `T`, as `binexpr` marks and types it. -/
def assignChainAst (T : CType) : List String → Ast → Ast
  | [], last => last
  | x :: xs, last => mkbin Op.OP_ASSIGN (Ast.mk T false (Node.ident x)) (assignChainAst T xs last)

/-- The symbols `a`, `b`, `c`, `d` of type `int32`. -/
def abcdSyms : List sym :=
  [⟨"a", int32, false, false⟩, ⟨"b", int32, false, false⟩, ⟨"c", int32, false, false⟩,
   ⟨"d", int32, false, false⟩]

/-! ## Labels in the generated text -/

/-- The number at the start of `cs`: a non-empty run of decimal digits
followed by the character `term`. -/
def labelNumber (term : Char) (cs : List Char) : Option Nat :=
  if cs.takeWhile isdigit ≠ [] ∧ (cs.dropWhile isdigit).head? = some term then
    some (strtoull_digits 10 0 (cs.takeWhile isdigit)).1
  else none

/-- What is left of `cs` after the characters `p`, if `cs` starts with
them. -/
def stripStart (p cs : List Char) : Option (List Char) :=
  if p.isPrefixOf cs then some (cs.drop p.length) else none

/-- The label that an output item defines: the item starts with `L<n>:`. -/
def itemLabel (item : String) : Option Nat :=
  (stripStart ['L'] item.data).bind (labelNumber ':')

/-- The label that an output item refers to: the item starts with
`\tjmp\tL<n>` or `\tjne\tL<n>` and a newline, or with `\tleaq\tL<n>(`. -/
def itemRef (item : String) : Option Nat :=
  match stripStart ['\t', 'j', 'm', 'p', '\t', 'L'] item.data with
  | some rest => labelNumber '\n' rest
  | none =>
    match stripStart ['\t', 'j', 'n', 'e', '\t', 'L'] item.data with
    | some rest => labelNumber '\n' rest
    | none =>
      match stripStart ['\t', 'l', 'e', 'a', 'q', '\t', 'L'] item.data with
      | some rest => labelNumber '(' rest
      | none => none

/-- The number of items of `o` that define the label `n`. -/
def defCount (n : Nat) (o : List String) : Nat :=
  o.countP (fun item => itemLabel item == some n)

/-- An output item that neither defines a label nor refers to one. -/
def Plain (item : String) : Prop := itemLabel item = none ∧ itemRef item = none

/-- Two character sequences that differ at a position both have. -/
def clash : List Char → List Char → Bool
  | a :: q, b :: p => a != b || clash q p
  | _, _ => false

/-- The start `q` of an item differs from the start of a label definition
and from the start of each of the three references. -/
def clashAll (q : List Char) : Bool :=
  clash q ['L'] && clash q ['\t', 'j', 'm', 'p', '\t', 'L'] &&
  clash q ['\t', 'j', 'n', 'e', '\t', 'L'] && clash q ['\t', 'l', 'e', 'a', 'q', '\t', 'L']

/-- The text written between two states `g0` and `g`, with the labels that
satisfy `P` drawn but not yet defined: the labels drawn in between are
`g0.labels, …, g.labels - 1`; each of them that is not pending is defined by
exactly one item, no other label is defined, and every reference is to one
of them. -/
def Track (g0 g : GenState) (P : Nat → Prop) : Prop :=
  ∃ o : List String, g.out = g0.out ++ o ∧ g0.labels ≤ g.labels ∧
    (∀ n, P n → g0.labels ≤ n ∧ n < g.labels) ∧
    (∀ n, defCount n o ≤ 1) ∧
    (∀ n, defCount n o = 1 ↔ (g0.labels ≤ n ∧ n < g.labels ∧ ¬ P n)) ∧
    (∀ item ∈ o, ∀ n, itemRef item = some n → g0.labels ≤ n ∧ n < g.labels)

/-- The item neither defines a label nor refers to one. -/
def plainItem (item : String) : Bool := (itemLabel item).isNone && (itemRef item).isNone

mutual
/-- A tree in which, at every node that the generator visits, no function
name `N` makes the item `N:` define a label `L<n>` or refer to one, and no
inline assembly item does. -/
def labelClean : Ast → Bool
  | Ast.mk _ _ u =>
    match u with
    | Node.binop _ lhs rhs => labelClean lhs && labelClean rhs
    | Node.unary op val =>
      match op with
      | Op.OP_DEREF => labelClean val
      | _ => true
    | Node.call _ _ params => labelCleanAll params
    | Node.funcdef name block => plainItem (name ++ ":\n") && labelClean block
    | Node.inasm code => plainItem code
    | Node.block _ statements => labelCleanAll statements
    | Node.ret _ val =>
      match val with
      | some val => labelClean val
      | none => true
    | Node.ifelse cond ifblock elseblock =>
      labelClean cond && labelClean ifblock &&
        (match elseblock with
         | some elseblock => labelClean elseblock
         | none => true)
    | Node.whileloop cond body => labelClean cond && labelClean body
    | Node.forloop init cond update body =>
      (match init with
       | some init => labelClean init
       | none => true) &&
      labelClean cond &&
      (match update with
       | some update => labelClean update
       | none => true) &&
      labelClean body
    | _ => true
/-- Every tree of the list is `labelClean`. -/
def labelCleanAll : List Ast → Bool
  | [] => true
  | a :: rest => labelClean a && labelCleanAll rest
end

mutual
/-- The tree with the text that comes from the program's own names and
inline assembly taken out: every function name and every inline assembly
text is replaced by the empty string, in every node that the generator
visits; nothing else is changed. -/
def blankText : Ast → Ast
  | Ast.mk vt lv u =>
    match u with
    | Node.binop op lhs rhs => Ast.mk vt lv (Node.binop op (blankText lhs) (blankText rhs))
    | Node.unary op val =>
      match op with
      | Op.OP_DEREF => Ast.mk vt lv (Node.unary op (blankText val))
      | _ => Ast.mk vt lv (Node.unary op val)
    | Node.call name ast params => Ast.mk vt lv (Node.call name ast (blankTextAll params))
    | Node.funcdef _ block => Ast.mk vt lv ( Node.funcdef "" (blankText block))
    | Node.inasm _ => Ast.mk vt lv (Node.inasm "")
    | Node.block symtab statements => Ast.mk vt lv (Node.block symtab (blankTextAll statements))
    | Node.ret func val =>
      match val with
      | some val => Ast.mk vt lv (Node.ret func (some (blankText val)))
      | none => Ast.mk vt lv (Node.ret func none)
    | Node.ifelse cond ifblock elseblock =>
      match elseblock with
      | some elseblock =>
        Ast.mk vt lv (Node.ifelse (blankText cond) (blankText ifblock)
          (some (blankText elseblock)))
      | none => Ast.mk vt lv (Node.ifelse (blankText cond) (blankText ifblock) none)
    | Node.whileloop cond body =>
      Ast.mk vt lv (Node.whileloop (blankText cond) (blankText body))
    | Node.forloop init cond update body =>
      Ast.mk vt lv (Node.forloop
        (match init with
         | some init => some (blankText init)
         | none => none)
        (blankText cond)
        (match update with
         | some update => some (blankText update)
         | none => none)
        (blankText body))
    | _ => Ast.mk vt lv u
/-- Every tree of the list with `blankText` applied. -/
def blankTextAll : List Ast → List Ast
  | [] => []
  | a :: rest => blankText a :: blankTextAll rest
end

/-- An item `x` of the text of a tree and the item `y` at the same place in
the text of the tree with its names and inline assembly taken out: the same
item, or `y` is what `gen_funcdef` writes for the empty name or the empty
inline assembly text. -/
def Blanked (x y : String) : Prop :=
  x = y ∨ y = "\t.global \n" ∨ y = ":\n" ∨ y = ""

/-- The tokens of `fn L0() { if (1) { } }`. -/
def labelNameToks : List Token :=
  [tk Tok.T_FUNC, tkId "L0", tk Tok.T_LPAREN, tk Tok.T_RPAREN, tk Tok.T_LBRACE,
   tk Tok.T_IF, tk Tok.T_LPAREN, tkInt 1, tk Tok.T_RPAREN, tk Tok.T_LBRACE, tk Tok.T_RBRACE,
   tk Tok.T_RBRACE, tk Tok.T_EOF]

/-- The tree of `fn L0() { if (1) { } }`. -/
def labelNameAst : Ast :=
  mkast (Node.block
    ⟨SymtabType.SYMTAB_GLOB,
      [⟨"L0", CType.mk TypeName.TYPE_FUNC 0 0 (some CType.zero) [] [] 0, false, false⟩]⟩
    [mkast ( Node.funcdef "L0"
      (mkast (Node.block ⟨SymtabType.SYMTAB_FUNC, []⟩
        [mkast (Node.ifelse (Ast.mk uint32 false (Node.intlit 1))
          (mkast (Node.block ⟨SymtabType.SYMTAB_BLOCK, []⟩ [])) none)])))])

/-! ## Theorems -/

/-- C1: `type_compatible t1 t2` holds exactly when both types are pointers
(`ptr > 0`) or both are integral, where integral means: name not struct,
union or func, `ptr = 0` and `arrlen = 0`; and the result depends on no field
other than `name`, `ptr` and `arrlen` of the two types. -/
theorem type_compatible_iff (t1 t2 : CType) :
    (type_compatible t1 t2 = true ↔
      ((0 < t1.ptr ∧ 0 < t2.ptr) ∨
       ((t1.name ≠ TypeName.TYPE_STRUCT ∧ t1.name ≠ TypeName.TYPE_UNION ∧
          t1.name ≠ TypeName.TYPE_FUNC ∧ t1.ptr = 0 ∧ t1.arrlen = 0) ∧
        (t2.name ≠ TypeName.TYPE_STRUCT ∧ t2.name ≠ TypeName.TYPE_UNION ∧
          t2.name ≠ TypeName.TYPE_FUNC ∧ t2.ptr = 0 ∧ t2.arrlen = 0)))) ∧
    (∀ (r1 r2 : Option CType) (ps1 ps2 : List CType) (ms1 ms2 : List StructMem)
        (sz1 sz2 : Nat),
      type_compatible (CType.mk t1.name t1.ptr t1.arrlen r1 ps1 ms1 sz1)
          (CType.mk t2.name t2.ptr t2.arrlen r2 ps2 ms2 sz2)
        = type_compatible t1 t2) := by
  cases t1 with
  | mk n1 p1 a1 r1 ps1 ms1 sz1 =>
    cases t2 with
    | mk n2 p2 a2 r2 ps2 ms2 sz2 =>
      constructor
      · simp only [type_compatible, isintegral, CType.name, CType.ptr, CType.arrlen]
        by_cases h1 : p1 = 0 <;> by_cases h2 : p2 = 0 <;>
          simp [h1, h2, Nat.pos_iff_ne_zero]
        tauto
      · intro r1 r2 ps1 ps2 ms1 ms2 sz1 sz2
        rfl

/-- C3: `asm_sizeof` is 8 for every type with `ptr > 0`, whatever its name
and array length; for `ptr = 0` and a primitive numeric name it is the
primitive size (1, 2, 4 or 8 as listed) times `arrlen`, or times 1 when
`arrlen` is 0, as a `size_t`: the product modulo `2 ^ 64`, which is the
product itself whenever that is below `2 ^ 64`. -/
theorem asm_sizeof_spec (t : CType) :
    (0 < t.ptr → asm_sizeof t = some 8) ∧
    (∀ prim, t.ptr = 0 → specPrimSize t.name = some prim →
      asm_sizeof t = some ((prim * (if t.arrlen ≠ 0 then t.arrlen else 1)) % 2 ^ 64) ∧
      (prim * (if t.arrlen ≠ 0 then t.arrlen else 1) < 2 ^ 64 →
        asm_sizeof t = some (prim * (if t.arrlen ≠ 0 then t.arrlen else 1)))) := by
  cases t with
  | mk n p a r ps ms sz =>
    constructor
    · intro h
      have hp : p ≠ 0 := Nat.pos_iff_ne_zero.mp h
      simp [asm_sizeof, CType.ptr, hp]
    · intro prim hp hs
      simp only [CType.ptr] at hp
      subst hp
      have hmain : asm_sizeof (CType.mk n 0 a r ps ms sz) =
          some ((prim * (if a ≠ 0 then a else 1)) % 2 ^ 64) := by
        cases n <;> simp_all [asm_sizeof, asm_prim, specPrimSize, CType.ptr, CType.name,
          CType.arrlen]
      refine ⟨hmain, fun hlt => ?_⟩
      rw [hmain]
      exact congrArg some (Nat.mod_eq_of_lt hlt)

/-- Witness for C3: a pointer to a struct has size 8, `int32[3]` has size
12, and the size of `int64[2 ^ 61]` wraps to 0. -/
theorem asm_sizeof_spec_witness :
    asm_sizeof (mktype TypeName.TYPE_STRUCT 5 2) = some 8 ∧
    asm_sizeof (mktype TypeName.TYPE_INT32 3 0) = some (4 * (if (3 : Nat) ≠ 0 then 3 else 1)) ∧
    asm_sizeof (mktype TypeName.TYPE_INT64 (2 ^ 61) 0) = some 0 :=
  ⟨(asm_sizeof_spec (mktype TypeName.TYPE_STRUCT 5 2)).1 (by decide),
   ((asm_sizeof_spec (mktype TypeName.TYPE_INT32 3 0)).2 4 rfl rfl).2 (by decide),
   ((asm_sizeof_spec (mktype TypeName.TYPE_INT64 (2 ^ 61) 0)).2 8 rfl rfl).1⟩

/-! ### Lemmas on the result type and on `expect` -/

@[simp] theorem ok_bind {ε α β : Type} (a : α) (f : α → Except ε β) :
    (Except.ok a >>= f) = f a := rfl

@[simp] theorem error_bind {ε α β : Type} (e : ε) (f : α → Except ε β) :
    ((Except.error e : Except ε α) >>= f) = Except.error e := rfl

@[simp] theorem pure_eq_ok {ε α : Type} (a : α) : (pure a : Except ε α) = Except.ok a := rfl

@[simp] theorem throw_eq_error {ε α : Type} (e : ε) :
    (throw e : Except ε α) = Except.error e := rfl

@[simp] theorem vtype_mk (t : CType) (l : Bool) (u : Node) : (Ast.mk t l u).vtype = t := rfl

@[simp] theorem parserAt_fuel (f : Nat) : (parserAt f).fuel = f := by
  cases f <;> rfl

@[simp] theorem parserAt_binexpr (f : Nat) :
    (parserAt (f + 1)).binexpr = binexpr (parserAt f) := rfl

theorem expect_ok {t : Tok} {s : PState} (h : (curr s).type = t) :
    expect t s = Except.ok (next s) := by
  simp [expect, expectcurr, h]

theorem expect_error {t : Tok} {s : PState} (h : (curr s).type ≠ t) :
    expect t s = Except.error
      (Err.msg ("Expected '" ++ tokstr t ++ "', got '" ++ tokstr (curr s).type ++ "'\n")) := by
  simp [expect, expectcurr, h]

/-! ### Struct declarations -/

theorem sumSizes_append (xs ys : List CType) :
    sumSizes (xs ++ ys) = sumSizes xs + sumSizes ys := by
  simp [sumSizes]

theorem sumSizes_take_le (ts : List CType) (i : Nat) :
    sumSizes (ts.take i) ≤ sumSizes ts := by
  have h := sumSizes_append (ts.take i) (ts.drop i)
  rw [List.take_append_drop] at h
  omega

/-- When the sizes of all members sum to less than `2 ^ 64`, no running
offset wraps: the stored members are the prescribed ones. -/
theorem storedMembers_exact (ms : List (String × CType))
    (h : sumSizes (ms.map Prod.snd) < 2 ^ 64) : storedMembers ms = specMembers ms := by
  unfold storedMembers specMembers
  apply List.map_congr_left
  intro p _
  have hle := sumSizes_take_le (ms.map Prod.snd) p.1
  rw [← List.map_take] at hle
  simp only [storedMemberAt, memberAt]
  rw [Nat.mod_eq_of_lt (by omega)]

/-- The member loop, run on a struct body: it stops at the closing brace with
the stored members appended and the offset advanced by their sizes, modulo
`2 ^ 64`. -/
theorem struct_members_of_body (r : Rec) (s s' : PState) (ms : List (String × CType))
    (h : StructBody r s ms s') :
    (curr s').type = Tok.T_RBRACE ∧
    ∀ (n : Nat) (acc : List StructMem) (pre : List (String × CType)),
      ms.length < n → (∀ m ∈ ms, asm_sizeof m.2 ≠ none) →
      struct_members r n acc (sumSizes (pre.map Prod.snd) % 2 ^ 64) s =
        Except.ok ((acc ++ (List.enumFrom pre.length ms).map (storedMemberAt (pre ++ ms)),
          sumSizes ((pre ++ ms).map Prod.snd) % 2 ^ 64), s') := by
  induction h with
  | done s hs =>
    refine ⟨hs, ?_⟩
    intro n acc pre hn _
    cases n with
    | zero => simp at hn
    | succ n => simp [struct_members, hs]
  | last s T s1 hi hc hp h1 =>
    refine ⟨h1, ?_⟩
    intro n acc pre hn hdef
    obtain ⟨sz, hsz⟩ := Option.ne_none_iff_exists'.mp (hdef _ (List.mem_singleton_self _))
    cases n with
    | zero => simp at hn
    | succ n =>
      cases n with
      | zero => simp at hn
      | succ n =>
        have hi' : (curr s).type ≠ Tok.T_RBRACE := by simp [hi]
        simp [struct_members, hi', expect_ok hi, expect_ok hc, hp, hsz, h1, storedMemberAt,
          sumSizes_append, sumSizes]
  | more s T s1 rest s' hi hc hp h1 _ ih =>
    refine ⟨ih.1, ?_⟩
    intro n acc pre hn hdef
    obtain ⟨sz, hsz⟩ := Option.ne_none_iff_exists'.mp (hdef _ (List.mem_cons_self _ _))
    cases n with
    | zero => simp at hn
    | succ n =>
      have hn' : rest.length < n := by simpa using hn
      have hdef' : ∀ m ∈ rest, asm_sizeof m.2 ≠ none :=
        fun m hm => hdef m (List.mem_cons_of_mem _ hm)
      have hi' : (curr s).type ≠ Tok.T_RBRACE := by simp [hi]
      have h1' : (curr s1).type ≠ Tok.T_RBRACE := by simp [h1]
      have ih' := ih.2 n
        (acc ++ [StructMem.mk (curr s).sval T (sumSizes (pre.map Prod.snd) % 2 ^ 64)])
        (pre ++ [((curr s).sval, T)]) hn' hdef'
      have hoff : sumSizes ((pre ++ [((curr s).sval, T)]).map Prod.snd) % 2 ^ 64 =
          (sumSizes (pre.map Prod.snd) % 2 ^ 64 + sz) % 2 ^ 64 := by
        have : sumSizes ((pre ++ [((curr s).sval, T)]).map Prod.snd) =
            sumSizes (pre.map Prod.snd) + sz := by
          simp [sumSizes, hsz]
        rw [this, Nat.mod_add_mod]
      rw [hoff] at ih'
      simp only [struct_members, hi', expect_ok hi, expect_ok hc, hp, hsz, h1', expect_ok h1,
        ne_eq, not_false_eq_true, if_true, ok_bind, pure_eq_ok, not_true_eq_false, ih']
      simp [storedMemberAt, List.enumFrom]

/-- C2: for a declaration `struct Name { m1: T1, ..., mk: Tk };` whose member
types all have a defined `asm_sizeof`, `struct_declaration` returns no node
and appends to the typedef table the entry `Name` with a struct type whose
members are `m1..mk` in declaration order, the offset of `mi` being the sum
of `asm_sizeof Tj` for `j < i`, and whose size is the sum of `asm_sizeof Ti`
over all members (no padding), each as a `size_t`, that is modulo `2 ^ 64`;
whenever the sizes of all members sum to less than `2 ^ 64` the offsets and
the size are these sums themselves.  The loop bound `r.fuel` must exceed the
number of members. -/
theorem struct_declaration_spec (r : Rec) (s s' : PState) (ms : List (String × CType))
    (hs : (curr s).type = Tok.T_STRUCT)
    (hn : (curr (next s)).type = Tok.T_IDENT)
    (hb : (curr (next (next s))).type = Tok.T_LBRACE)
    (hm : StructBody r (next (next (next s))) ms s')
    (hsemi : (curr (next s')).type = Tok.T_SEMI)
    (hdef : ∀ m ∈ ms, asm_sizeof m.2 ≠ none)
    (hfuel : ms.length < r.fuel) :
    struct_declaration r s =
      Except.ok (none,
        add_typedef (curr (next s)).sval
          (CType.mk TypeName.TYPE_STRUCT 0 0 none [] (storedMembers ms)
            (sumSizes (ms.map Prod.snd) % 2 ^ 64))
          (next (next s'))) ∧
    (sumSizes (ms.map Prod.snd) < 2 ^ 64 →
      struct_declaration r s =
        Except.ok (none,
          add_typedef (curr (next s)).sval
            (CType.mk TypeName.TYPE_STRUCT 0 0 none [] (specMembers ms)
              (sumSizes (ms.map Prod.snd)))
            (next (next s')))) := by
  obtain ⟨hr, hsm⟩ := struct_members_of_body r _ s' ms hm
  have h0 := hsm r.fuel [] [] hfuel hdef
  simp only [List.map_nil, List.length_nil, List.nil_append] at h0
  have hz : sumSizes [] % 2 ^ 64 = 0 := rfl
  rw [hz] at h0
  have hmain : struct_declaration r s =
      Except.ok (none,
        add_typedef (curr (next s)).sval
          (CType.mk TypeName.TYPE_STRUCT 0 0 none [] (storedMembers ms)
            (sumSizes (ms.map Prod.snd) % 2 ^ 64))
          (next (next s'))) := by
    simp [struct_declaration, expect_ok hs, expect_ok hn, expect_ok hb, h0, expect_ok hr,
      expect_ok hsemi, storedMembers, List.enum]
  refine ⟨hmain, fun hlt => ?_⟩
  rw [hmain, storedMembers_exact ms hlt, Nat.mod_eq_of_lt hlt]

/-- Witness for C2: `struct P { a: int32, b: int32 };` registers `P` with
`a` at offset 0, `b` at offset 4 and size 8. -/
theorem struct_declaration_spec_witness :
    struct_declaration (parserAt 3) (stateOf (structPToks ++ [tk Tok.T_EOF]) []) =
      Except.ok (none,
        add_typedef "P"
          (CType.mk TypeName.TYPE_STRUCT 0 0 none []
            [StructMem.mk "a" int32 0, StructMem.mk "b" int32 4] 8)
          (stateOf [tk Tok.T_EOF] [])) :=
  (struct_declaration_spec (parserAt 3) (stateOf (structPToks ++ [tk Tok.T_EOF]) [])
    (stateOf [tk Tok.T_RBRACE, tk Tok.T_SEMI, tk Tok.T_EOF] [])
    [("a", int32), ("b", int32)] rfl rfl rfl
    (StructBody.more _ int32
      (stateOf [tk Tok.T_COMMA, tkId "b", tk Tok.T_COLON, tk Tok.T_INT32, tk Tok.T_RBRACE,
        tk Tok.T_SEMI, tk Tok.T_EOF] [])
      [("b", int32)] _ rfl rfl rfl rfl
      (StructBody.last _ int32 _ rfl rfl rfl rfl))
    rfl (by decide) (by decide)).2 (by decide)

/-! ### Binary expressions over leaf operands -/

/-- A leaf that is not followed by a postfix token is what `pre` returns, one
token consumed. -/
theorem pre_leaf (r : Rec) (s : PState) (a : Ast) (h : leaf s = some a)
    (hn : (curr (next s)).type ≠ Tok.T_LBRACK ∧ (curr (next s)).type ≠ Tok.T_LPAREN ∧
      (curr (next s)).type ≠ Tok.T_DOT ∧ (curr (next s)).type ≠ Tok.T_ARROW) :
    pre r s = Except.ok (a, next s) := by
  obtain ⟨h1, h2, h3, h4⟩ := hn
  unfold leaf at h
  have hpost : post r a (next s) = Except.ok (a, next s) := by
    unfold post
    split <;> simp_all
  unfold pre primary
  split at h <;> simp_all
  obtain ⟨y, hy, rfl⟩ := h
  simp [hy]
  simpa using hpost

theorem operator_not_post {t : Tok} {op : Op} (h : operator t = some op) :
    t ≠ Tok.T_LBRACK ∧ t ≠ Tok.T_LPAREN ∧ t ≠ Tok.T_DOT ∧ t ≠ Tok.T_ARROW := by
  cases t <;> simp_all [operator]

theorem operator_not_termin {s : PState} {op : Op} (h : operator (curr s).type = some op) :
    termin s = false := by
  unfold termin
  generalize (curr s).type = t at h
  cases t <;> simp_all [operator]

theorem semi_termin {s : PState} (h : (curr s).type = Tok.T_SEMI) : termin s = true := by
  simp [termin, h]

theorem binexpr_leaf_op (r : Rec) (ptp : Nat) (s : PState) (a : Ast) (op : Op)
    (h : leaf s = some a) (ho : operator (curr (next s)).type = some op) :
    binexpr r ptp s = binexpr_loop r ptp r.fuel a op (next s) := by
  simp [binexpr, pre_leaf r s a h (operator_not_post ho), operator_not_termin ho, ho]

theorem binexpr_leaf_semi (r : Rec) (ptp : Nat) (s : PState) (a : Ast)
    (h : leaf s = some a) (ho : (curr (next s)).type = Tok.T_SEMI) :
    binexpr r ptp s = Except.ok (a, next s) := by
  have hp : pre r s = Except.ok (a, next s) := pre_leaf r s a h (by simp [ho])
  simp [binexpr, hp, semi_termin ho]

theorem type_compatible_trans {a b c : CType} (h1 : type_compatible a b = true)
    (h2 : type_compatible b c = true) : type_compatible a c = true := by
  cases a; cases b; cases c
  simp only [type_compatible, isintegral, CType.ptr, CType.name, CType.arrlen] at *
  rename_i n1 p1 a1 _ _ _ _ n2 p2 a2 _ _ _ _ n3 p3 a3 _ _ _ _
  by_cases hp1 : p1 = 0 <;> by_cases hp2 : p2 = 0 <;> by_cases hp3 : p3 = 0 <;> simp_all

/-- Every operator of the table has a positive precedence. -/
theorem table_prec {t : Tok} {op : Op} (h : operator t = some op) : 0 < opprec op := by
  cases t <;> simp_all [operator] <;> subst h <;> decide

/-- For table operators the loop condition of `binexpr`, entered with the
precedence of `op1`, is: `op2` binds tighter, or both are `=`. -/
theorem assoc_cond {t1 t2 : Tok} {op1 op2 : Op} (h1 : operator t1 = some op1)
    (h2 : operator t2 = some op2) :
    (opprec op2 > opprec op1 ∨ (rightassoc op2 = true ∧ opprec op2 = opprec op1)) ↔
    (opprec op2 > opprec op1 ∨ (op1 = Op.OP_ASSIGN ∧ op2 = Op.OP_ASSIGN)) := by
  have a1 : op1 ≠ Op.OP_ADDROF ∧ op1 ≠ Op.OP_DEREF ∧ op1 ≠ Op.OP_NOT := by
    cases t1 <;> simp_all [operator] <;> subst h1 <;> decide
  have a2 : op2 ≠ Op.OP_ADDROF ∧ op2 ≠ Op.OP_DEREF ∧ op2 ≠ Op.OP_NOT := by
    cases t2 <;> simp_all [operator] <;> subst h2 <;> decide
  revert a1 a2
  cases op1 <;> cases op2 <;> decide

/-- One turn of the loop of `binexpr` whose right operand parses. -/
theorem binexpr_loop_step (r : Rec) (ptp n : Nat) (lhs rhs : Ast) (op : Op) (s s' : PState)
    (hcond : opprec op > ptp ∨ (rightassoc op = true ∧ opprec op = ptp))
    (hr : r.binexpr (opprec op) (next s) = Except.ok (rhs, s'))
    (hcompat : type_compatible lhs.vtype rhs.vtype = true) :
    binexpr_loop r ptp (n + 1) lhs op s =
      if termin s' = true then Except.ok (mkbin op lhs rhs, s')
      else
        match operator (curr s').type with
        | none => Except.error (Err.msg
            ("Expected operator, got '" ++ tokstr (curr s').type ++ "'\n"))
        | some op' => binexpr_loop r ptp n (mkbin op lhs rhs) op' s' := by
  simp only [binexpr_loop, hcond, hr, hcompat, mkbin, if_true, ok_bind, pure_eq_ok,
    Bool.not_true, Bool.false_eq_true, if_false]

/-- The loop of `binexpr` leaves an operator that does not bind tighter. -/
theorem binexpr_loop_stop (r : Rec) (ptp n : Nat) (lhs : Ast) (op : Op) (s : PState)
    (hcond : ¬ (opprec op > ptp ∨ (rightassoc op = true ∧ opprec op = ptp))) :
    binexpr_loop r ptp (n + 1) lhs op s = Except.ok (lhs, s) := by
  simp [binexpr_loop, hcond]

/-- C4: `binexpr(0)` on `a op1 b op2 c ;`, with leaf operands `a`, `b`, `c`
(integer literal, string literal or declared identifier) of compatible types
and table operators `op1`, `op2`, returns `op1(a, op2(b, c))` if `op2` has the
higher precedence or both are `=`, and `op2(op1(a, b), c)` otherwise, with
the cursor on the `;`.  Holds for every fuel from 2 on. -/
theorem binexpr_grouping (k : Nat) (s : PState) (a b c : Ast) (op1 op2 : Op)
    (ha : leaf s = some a)
    (h1 : operator (curr (next s)).type = some op1)
    (hb : leaf (next (next s)) = some b)
    (h2 : operator (curr (next (next (next s)))).type = some op2)
    (hc : leaf (next (next (next (next s)))) = some c)
    (hsemi : (curr (next (next (next (next (next s)))))).type = Tok.T_SEMI)
    (hab : type_compatible a.vtype b.vtype = true)
    (hbc : type_compatible b.vtype c.vtype = true) :
    binexpr (parserAt (k + 2)) 0 s =
      Except.ok
        (if opprec op2 > opprec op1 ∨ (op1 = Op.OP_ASSIGN ∧ op2 = Op.OP_ASSIGN) then
            mkbin op1 a (mkbin op2 b c)
          else mkbin op2 (mkbin op1 a b) c,
         next (next (next (next (next s))))) := by
  have hac := type_compatible_trans hab hbc
  have p1 : opprec op1 > 0 ∨ (rightassoc op1 = true ∧ opprec op1 = 0) := Or.inl (table_prec h1)
  have p2 : opprec op2 > 0 ∨ (rightassoc op2 = true ∧ opprec op2 = 0) := Or.inl (table_prec h2)
  have hcond := assoc_cond h1 h2
  have hcpar : ∀ ptp, binexpr (parserAt k) ptp (next (next (next (next s)))) =
      Except.ok (c, next (next (next (next (next s))))) :=
    fun ptp => binexpr_leaf_semi _ ptp _ _ hc hsemi
  rw [binexpr_leaf_op _ _ _ _ _ ha h1, parserAt_fuel]
  by_cases hcase : opprec op2 > opprec op1 ∨ (rightassoc op2 = true ∧ opprec op2 = opprec op1)
  · have hinner : (parserAt (k + 2)).binexpr (opprec op1) (next (next s)) =
        Except.ok (mkbin op2 b c, next (next (next (next (next s))))) := by
      rw [parserAt_binexpr, binexpr_leaf_op _ _ _ _ _ hb h2, parserAt_fuel,
        binexpr_loop_step _ _ _ _ _ _ _ _ hcase (by rw [parserAt_binexpr]; exact hcpar _) hbc]
      simp [semi_termin hsemi]
    rw [binexpr_loop_step _ _ _ _ _ _ _ _ p1 hinner (by simpa [mkbin] using hab)]
    simp [semi_termin hsemi, hcond.mp hcase]
  · have hinner : (parserAt (k + 2)).binexpr (opprec op1) (next (next s)) =
        Except.ok (b, next (next (next s))) := by
      rw [parserAt_binexpr, binexpr_leaf_op _ _ _ _ _ hb h2, parserAt_fuel,
        binexpr_loop_stop _ _ _ _ _ _ hcase]
    have hcase2 : ¬ (opprec op2 > opprec op1 ∨ (op1 = Op.OP_ASSIGN ∧ op2 = Op.OP_ASSIGN)) :=
      fun h => hcase (hcond.mpr h)
    rw [binexpr_loop_step _ _ _ _ _ _ _ _ p1 hinner hab]
    simp only [operator_not_termin h2, h2, Bool.false_eq_true, if_false]
    rw [binexpr_loop_step _ _ _ _ _ _ _ _ p2
      (by rw [parserAt_binexpr]; exact binexpr_leaf_semi _ _ _ _ hc hsemi)
      (by simpa [mkbin] using hac)]
    simp [semi_termin hsemi, hcase2]

/-- Witness for C4: `1 + 2 == 3 ;` groups as `1 + (2 == 3)`. -/
theorem binexpr_grouping_witness :
    binexpr (parserAt 2) 0
        (stateOf [tkInt 1, tk Tok.T_PLUS, tkInt 2, tk Tok.T_EQEQ, tkInt 3, tk Tok.T_SEMI,
          tk Tok.T_EOF] []) =
      Except.ok
        (mkbin Op.OP_PLUS (Ast.mk uint32 false (Node.intlit 1))
          (mkbin Op.OP_EQUAL (Ast.mk uint32 false (Node.intlit 2))
            (Ast.mk uint32 false (Node.intlit 3))),
         stateOf [tk Tok.T_SEMI, tk Tok.T_EOF] []) :=
  binexpr_grouping 0
    (stateOf [tkInt 1, tk Tok.T_PLUS, tkInt 2, tk Tok.T_EQEQ, tkInt 3, tk Tok.T_SEMI,
      tk Tok.T_EOF] [])
    (Ast.mk uint32 false (Node.intlit 1)) (Ast.mk uint32 false (Node.intlit 2))
    (Ast.mk uint32 false (Node.intlit 3)) Op.OP_PLUS Op.OP_EQUAL
    rfl rfl rfl rfl rfl rfl rfl rfl

/-! ### Parenthesised expressions, `sizeof`, member access -/

/-- C5 (evaluation of the code): `var x: int32; x = (1);` and
`var a: int32; var b: int32; var c: int32; (a + b) * c;` are both rejected:
the closing parenthesis is not consumed by `parenexpr`, it ends the
expression as a terminator and the statement then lacks its `;`. -/
theorem paren_not_consumed :
    (∀ k : Nat, parse (k + 2) parenAssignToks =
      Except.error (Err.msg "Expected ';', got ')'\n")) ∧
    (∀ k : Nat, parse (k + 4) parenMulToks =
      Except.error (Err.msg "Expected ';', got ')'\n")) :=
  ⟨fun _ => rfl, fun _ => rfl⟩

/-- C6 (evaluation of the code): whatever follows the `sizeof` token, and
whatever the scopes and typedefs, `primary` fails on it, because `parsetype`
is called with `sizeof` still the current token; so the program
`var n = sizeof int32;` is rejected. -/
theorem sizeof_rejected :
    (∀ (r : Rec) (rest : List Token) (sc : List symtable) (cf : Option String)
        (td : List sym),
      primary r ⟨tk Tok.T_SIZEOF :: rest, sc, cf, td⟩ =
        Except.error (Err.msg "Expected type, got 'sizeof'\n")) ∧
    (∀ k : Nat, parse (k + 2) sizeofToks =
      Except.error (Err.msg "Expected type, got 'sizeof'\n")) :=
  ⟨fun _ _ _ _ _ => rfl, fun _ => rfl⟩

/-- C7 (evaluation of the code): the program
`struct P { a: int32, b: int32 }; var p: P; fn g() { p.b = 7; }` is rejected:
`memaccess` looks the member up in the type of the address node, which has
no members. -/
theorem member_access_rejected :
    ∀ k : Nat, parse (k + 3) memberProgToks =
      Except.error (Err.msg "Struct does not contain member 'b'\n") :=
  fun _ => rfl

/-! ### Calls -/

/-- The argument loop, run on the arguments of a call with a block of `cap`
slots: it stops at the closing parenthesis with the arguments appended in
order if they all fit into the block, and is undefined at the first argument
that is stored past the block. -/
theorem post_args_of_callArgs (r : Rec) (cap : Nat) (s s' : PState) (args : List Ast)
    (h : CallArgs r s args s') :
    (curr s').type = Tok.T_RPAREN ∧
    ∀ (n : Nat) (acc : List Ast), args.length < n → acc.length ≤ cap →
      post_args r cap n acc s =
        if acc.length + args.length ≤ cap then Except.ok (acc ++ args, s')
        else Except.error (Err.undefined "post: call.params written past its block") := by
  induction h with
  | done s hs =>
    refine ⟨hs, ?_⟩
    intro n acc hn hc
    cases n with
    | zero => omega
    | succ n => simp [post_args, hs, hc]
  | last s a s1 hs hb h1 =>
    refine ⟨h1, ?_⟩
    intro n acc hn hc
    cases n with
    | zero => simp at hn
    | succ n =>
      cases n with
      | zero => simp at hn
      | succ n =>
        by_cases hcap : cap ≤ acc.length
        · have : ¬ acc.length + 1 ≤ cap := by omega
          simp [post_args, hs, hb, hcap, this]
        · have : acc.length + 1 ≤ cap := by omega
          simp [post_args, hs, hb, h1, hcap, this]
  | more s a s1 rest s' hs hb h1 _ ih =>
    refine ⟨ih.1, ?_⟩
    intro n acc hn hc
    cases n with
    | zero => simp at hn
    | succ n =>
      have hn' : rest.length < n := by simpa using hn
      by_cases hcap : cap ≤ acc.length
      · have : ¬ acc.length + (rest.length + 1) ≤ cap := by omega
        simp [post_args, hs, hb, hcap, this]
      · have hc' : (acc ++ [a]).length ≤ cap := by simp; omega
        have e := ih.2 n (acc ++ [a]) hn' hc'
        have hlen : (acc ++ [a]).length + rest.length = acc.length + (rest.length + 1) := by
          simp; omega
        rw [hlen] at e
        simp [post_args, hs, hb, h1, expect_ok h1, hcap, e]

/-- C8 (evaluation of the code): at a `(` after a callee expression, `post`
rejects a callee whose type name is not `func`.  For a callee of function
type with `p` declared parameters and a call with `q` arguments (each parsed
by `binexpr(0)` up to its comma or the closing parenthesis), the block of
`call.params` has `c + 1` slots, `c` being `call.paramcnt` as read on the
callee node (0 unless the callee is itself a call): if `q > c + 1` the
argument number `c + 2` is stored past the block, which is undefined, so a
call of an identifier with two or more arguments is not accepted; otherwise
the call fails with 'Too few parameters' if `q < p`, with
'Too many parameters' if `q > p`, and for `q = p` returns a call node typed
with the function's return type that holds the `q` argument trees in source
order, with the cursor after the `)`.  The loop bound `r.fuel` must exceed
the number of arguments. -/
theorem post_call (r : Rec) (callee : Ast) (s : PState) (hl : (curr s).type = Tok.T_LPAREN) :
    (callee.vtype.name ≠ TypeName.TYPE_FUNC →
      post r callee s =
        Except.error (Err.msg "Call of non-function or function-pointer type.\n")) ∧
    (∀ (ret : CType) (args : List Ast) (s' : PState),
      callee.vtype.name = TypeName.TYPE_FUNC →
      callee.vtype.ret = some ret →
      CallArgs r (next s) args s' →
      args.length < r.fuel →
      post r callee s =
        if call_paramcnt callee + 1 < args.length then
          Except.error (Err.undefined "post: call.params written past its block")
        else if args.length < callee.vtype.params.length then
          Except.error (Err.msg "Too few parameters in call to function\n")
        else if args.length > callee.vtype.params.length then
          Except.error (Err.msg "Too many parameters in call to function\n")
        else Except.ok (Ast.mk ret false (Node.call none (calleeOf callee) args), next s')) := by
  constructor
  · intro hn
    simp [post, hl, hn]
  · intro ret args s' hf hret hargs hfuel
    obtain ⟨hr, hpa⟩ := post_args_of_callArgs r (call_paramcnt callee + 1) (next s) s' args hargs
    have e := hpa r.fuel [] hfuel (by simp)
    simp only [List.length_nil, Nat.zero_add, List.nil_append] at e
    by_cases hcap : call_paramcnt callee + 1 < args.length
    · have hn : ¬ args.length ≤ call_paramcnt callee + 1 := by omega
      rw [if_neg hn] at e
      simp [post, hl, hf, hret, e, hcap]
    · have hn : args.length ≤ call_paramcnt callee + 1 := by omega
      rw [if_pos hn] at e
      simp [post, hl, hf, hret, e, expect_ok hr, calleeOf, hcap]

/-- Witness for C8: with `f : fn(int32, int32) -> int32`, the call `f(1, 2)`
stores its second argument past the block of one slot: the parse is
undefined, and so is the parse of the program
`fn f(a: int32, b: int32) { } fn g() { f(1, 2); }`. -/
theorem post_call_witness :
    parse 20 twoArgCallToks =
      Except.error (Err.undefined "post: call.params written past its block") ∧
    post (parserAt 3)
        (Ast.mk (CType.mk TypeName.TYPE_FUNC 0 0 (some int32) [int32, int32] [] 0) false
          (Node.ident "f"))
        (stateOf [tk Tok.T_LPAREN, tkInt 1, tk Tok.T_COMMA, tkInt 2, tk Tok.T_RPAREN,
          tk Tok.T_SEMI, tk Tok.T_EOF] []) =
      Except.error (Err.undefined "post: call.params written past its block") :=
  ⟨rfl, (post_call (parserAt 3)
      (Ast.mk (CType.mk TypeName.TYPE_FUNC 0 0 (some int32) [int32, int32] [] 0) false
        (Node.ident "f"))
      (stateOf [tk Tok.T_LPAREN, tkInt 1, tk Tok.T_COMMA, tkInt 2, tk Tok.T_RPAREN,
        tk Tok.T_SEMI, tk Tok.T_EOF] []) rfl).2
    int32 [Ast.mk uint32 false (Node.intlit 1), Ast.mk uint32 false (Node.intlit 2)]
    (stateOf [tk Tok.T_RPAREN, tk Tok.T_SEMI, tk Tok.T_EOF] []) rfl rfl
    (CallArgs.more _ _
      (stateOf [tk Tok.T_COMMA, tkInt 2, tk Tok.T_RPAREN, tk Tok.T_SEMI, tk Tok.T_EOF] [])
      _ _ (by decide) rfl rfl
      (CallArgs.last _ _ _ (by decide) rfl rfl))
    (by decide)⟩

/-! ### Global variables -/

/-- C9 (evaluation of the code): for `var x: int32 = 5;` the parser returns
the assignment `x = 5` and no variable definition node, and the text
generated from it is three `mov` lines without any `.comm`; for
`var x: int32;` the variable definition node has no name, and generating it
reads that null name.  Holds for every lookup function of the generator. -/
theorem global_var_no_comm (lookup : String → Option sym) :
    (∀ k : Nat, parse (k + 2) globalInitToks = Except.ok globalInitAst) ∧
    gen_ast lookup globalInitAst =
      Except.ok ["\tmov\tx(%rip), %r8\n", "\tmov\t$5, %r9\n", "\tmov\t%r9, x(%rip)\n"] ∧
    ¬ outputContains ["\tmov\tx(%rip), %r8\n", "\tmov\t$5, %r9\n", "\tmov\t%r9, x(%rip)\n"]
        ".comm" ∧
    (∀ k : Nat, parse (k + 2) globalVarToks = Except.ok globalVarAst) ∧
    gen_ast lookup globalVarAst =
      Except.error (GenErr.undefined "gen_vardef: vardef.name is null") :=
  ⟨fun _ => rfl, rfl, by decide, fun _ => rfl, rfl⟩

/-! ### Variable declarations -/

theorem sym_put_fresh (tab : symtable) (parent : List symtable) (name : String) (t : CType)
    (h : tab.syms.find? (fun y => y.name == name) = none) :
    sym_put (tab :: parent) name t false false = Except.ok (declared tab parent name t) := by
  simp [sym_put, h, declared]

theorem sym_lookup_declared (tab : symtable) (parent : List symtable) (name : String)
    (t : CType) (h : tab.syms.find? (fun y => y.name == name) = none) :
    (sym_lookup (declared tab parent name t) name).map (fun y => y.type) = some t := by
  simp [sym_lookup, declared, List.find?_append, h]

/-- C10: `vardecl`, called on the name of a declaration.
(1) `var name = e`: accepted, and `name` is entered in the current scope
with exactly the type of `e`.
(2) `var name` followed by neither `:` nor `=`: rejected with 'Auto variable
must be initialized'.
(3) `var name: T = e`: if `type_compatible (vtype e) T`, accepted with `name`
entered with type `T`, otherwise rejected with 'Incompatible types in
variable initialization'.
In (1) and (3) the name is one the current scope does not hold yet. -/
theorem vardecl_spec (r : Rec) (s : PState) (h : (curr s).type = Tok.T_IDENT) :
    (∀ (e : Ast) (s2 : PState) (tab : symtable) (parent : List symtable),
      (curr (next s)).type = Tok.T_EQ →
      binexpr r 0 (next (next s)) = Except.ok (e, s2) →
      s2.currscope = tab :: parent →
      tab.syms.find? (fun y => y.name == (curr s).sval) = none →
      vardecl r s = Except.ok (some (initAssign (curr s).sval e),
        { s2 with currscope := declared tab parent (curr s).sval e.vtype }) ∧
      (sym_lookup (declared tab parent (curr s).sval e.vtype) (curr s).sval).map
        (fun y => y.type) = some e.vtype) ∧
    ((curr (next s)).type ≠ Tok.T_COLON → (curr (next s)).type ≠ Tok.T_EQ →
      vardecl r s = Except.error (Err.msg "Auto variable must be initialized.\n")) ∧
    (∀ (T : CType) (s1 : PState) (e : Ast) (s2 : PState) (tab : symtable)
        (parent : List symtable),
      (curr (next s)).type = Tok.T_COLON →
      parsetype r (next (next s)) = Except.ok (T, s1) →
      (curr s1).type = Tok.T_EQ →
      binexpr r 0 (next s1) = Except.ok (e, s2) →
      s2.currscope = tab :: parent →
      tab.syms.find? (fun y => y.name == (curr s).sval) = none →
      (vardecl r s =
        if type_compatible e.vtype T = true then
          Except.ok (some (initAssign (curr s).sval e),
            { s2 with currscope := declared tab parent (curr s).sval T })
        else Except.error (Err.msg "Incompatible types in variable initialization\n")) ∧
      (sym_lookup (declared tab parent (curr s).sval T) (curr s).sval).map
        (fun y => y.type) = some T) := by
  refine ⟨?_, ?_, ?_⟩
  · intro e s2 tab parent h1 h2 h3 h4
    refine ⟨?_, sym_lookup_declared _ _ _ _ h4⟩
    simp [vardecl, expect_ok h, h1, expect_ok h1, h2, h3, sym_put_fresh _ _ _ _ h4, initAssign]
  · intro h1 h2
    simp [vardecl, expect_ok h, h1, h2]
  · intro T s1 e s2 tab parent h1 h2 h3 h4 h5 h6
    refine ⟨?_, sym_lookup_declared _ _ _ _ h6⟩
    by_cases hc : type_compatible e.vtype T = true
    · simp [vardecl, expect_ok h, h1, expect_ok h1, h2, h3, expect_ok h3, h4, h5, hc,
        sym_put_fresh _ _ _ _ h6, initAssign]
    · simp [vardecl, expect_ok h, h1, expect_ok h1, h2, h3, expect_ok h3, h4, hc]

/-- Witness for C10: `var x = 5;` in an empty global scope declares `x` with
the type `uint32` of the literal. -/
theorem vardecl_spec_witness :
    vardecl (parserAt 1)
        (stateOf [tkId "x", tk Tok.T_EQ, tkInt 5, tk Tok.T_SEMI, tk Tok.T_EOF] []) =
      Except.ok (some (initAssign "x" (Ast.mk uint32 false (Node.intlit 5))),
        stateOf [tk Tok.T_SEMI, tk Tok.T_EOF] [⟨"x", uint32, false, false⟩]) :=
  ((vardecl_spec (parserAt 1)
      (stateOf [tkId "x", tk Tok.T_EQ, tkInt 5, tk Tok.T_SEMI, tk Tok.T_EOF] []) rfl).1
    (Ast.mk uint32 false (Node.intlit 5)) (stateOf [tk Tok.T_SEMI, tk Tok.T_EOF] [])
    ⟨SymtabType.SYMTAB_GLOB, []⟩ [] rfl rfl rfl rfl).1

/-! ### State projections -/

@[simp] theorem next_currscope (s : PState) : (next s).currscope = s.currscope := rfl

@[simp] theorem next_currfunc (s : PState) : (next s).currfunc = s.currfunc := rfl

@[simp] theorem next_typedefs (s : PState) : (next s).typedefs = s.typedefs := rfl

@[simp] theorem curr_with_currscope (s : PState) (sc : List symtable) :
    curr { s with currscope := sc } = curr s := rfl

@[simp] theorem curr_with_currfunc (s : PState) (f : Option String) :
    curr { s with currfunc := f } = curr s := rfl

/-! ### Function declarations -/

/-- The parameter loop of `funcdecl`, run on the parameters of a
declaration. -/
theorem funcdecl_params_of (r : Rec) (s s' : PState) (params : List CType)
    (h : FuncParams r s params s') :
    (curr s').type = Tok.T_RPAREN ∧
    ∀ (n : Nat) (acc : List CType), params.length < n →
      funcdecl_params r n acc s = Except.ok (acc ++ params, s') := by
  induction h with
  | done s hs =>
    refine ⟨hs, ?_⟩
    intro n acc hn
    cases n with
    | zero => omega
    | succ n => simp [funcdecl_params, hs]
  | last s T s1 hs hc hp h1 =>
    refine ⟨h1, ?_⟩
    intro n acc hn
    cases n with
    | zero => simp at hn
    | succ n =>
      cases n with
      | zero => simp at hn
      | succ n => simp [funcdecl_params, hs, expect_ok hc, hp, h1]
  | more s T s1 rest s' hs hc hp h1 _ ih =>
    refine ⟨ih.1, ?_⟩
    intro n acc hn
    cases n with
    | zero => simp at hn
    | succ n =>
      have hn' : rest.length < n := by simpa using hn
      simp [funcdecl_params, hs, expect_ok hc, hp, h1, expect_ok h1, ih.2 n (acc ++ [T]) hn']

/-- `funcdecl` on a well-formed signature: what is left is the redefinition
check and the body rule, applied to the symbol of the function. -/
theorem funcdecl_signature (r : Rec) (s0 s5 : PState) (pub ext : Bool) (name : String)
    (params : List CType) (ret : CType)
    (hsig : Signature r s0 pub ext name params ret s5) :
    funcdecl r s0 = funcdecl_check r (funcSym name params ret pub ext) s5 := by
  obtain ⟨s, s4, hattr, hname, rfl, hlp, hparams, hfuel, hret⟩ := hsig
  obtain ⟨hrp, hpl⟩ := funcdecl_params_of r _ s4 params hparams
  have hpl' := hpl r.fuel [] hfuel
  simp only [List.nil_append] at hpl'
  simp only [funcdecl_attrs] at hattr
  unfold funcdecl
  by_cases ha : (curr (next s4)).type = Tok.T_ARROW
  all_goals
    simp only [ha, if_true, if_false] at hret
    try (simp only [Except.ok.injEq, Prod.mk.injEq] at hret; obtain ⟨rfl, rfl⟩ := hret)
    by_cases hp : (curr s0).type = Tok.T_PUBLIC
    · by_cases he : (curr (next s0)).type = Tok.T_EXTERN
      all_goals
        simp only [hp, if_true, if_false] at hattr
        simp only [he, if_true, if_false, Prod.mk.injEq] at hattr
        obtain ⟨rfl, rfl, rfl⟩ := hattr
        first
          | simp [hp, he, expect_ok hname, expect_ok hlp, hpl', expect_ok hrp, ha, hret,
              funcdecl_body, funcdecl_check, funcSym]
          | simp [hp, he, expect_ok hname, expect_ok hlp, hpl', expect_ok hrp, ha,
              funcdecl_body, funcdecl_check, funcSym]
        try rfl
    · by_cases he : (curr s0).type = Tok.T_EXTERN
      all_goals
        simp only [hp, if_true, if_false] at hattr
        simp only [he, if_true, if_false, Prod.mk.injEq] at hattr
        obtain ⟨rfl, rfl, rfl⟩ := hattr
        first
          | simp [hp, he, expect_ok hname, expect_ok hlp, hpl', expect_ok hrp, ha, hret,
              funcdecl_body, funcdecl_check, funcSym]
          | simp [hp, he, expect_ok hname, expect_ok hlp, hpl', expect_ok hrp, ha,
              funcdecl_body, funcdecl_check, funcSym]
        try rfl

/-- `sym_putglob` puts the symbol in a table of kind global. -/
theorem sym_putglob_mem (sc sc' : List symtable) (y : sym) (h : sym_putglob sc y = some sc') :
    ∃ tab ∈ sc', tab.type = SymtabType.SYMTAB_GLOB ∧ y ∈ tab.syms := by
  induction sc generalizing sc' with
  | nil => simp [sym_putglob] at h
  | cons tab parent ih =>
    unfold sym_putglob at h
    by_cases hg : tab.type = SymtabType.SYMTAB_GLOB
    · simp only [hg, if_true, Option.some.injEq] at h
      subst h
      exact ⟨_, List.mem_cons_self _ _, by simp [hg], by simp⟩
    · simp only [hg, if_false, Option.map_eq_some'] at h
      obtain ⟨rest, hrest, rfl⟩ := h
      obtain ⟨t, ht, h1, h2⟩ := ih rest hrest
      exact ⟨t, List.mem_cons_of_mem _ ht, h1, h2⟩

/-- C11: the body rule of `funcdecl`, for a declaration with a well-formed
signature that passes the redefinition check.  Followed by `{`: an error
('Definition of function marked extern') if the function carries `extern`;
without `extern` the body is read and the function definition node is
returned.  Not followed by `{`: an error ('No definition of function not
marked extern') if it does not carry `extern`; with `extern` and followed by
`;` no node is returned.  In every case the symbol, with the parsed parameter
types in order and the return type `T`, or void when `-> T` is absent, is
entered in a table of the scope chain that is a global scope. -/
theorem funcdecl_body_rule (r : Rec) (s0 s5 : PState) (pub ext : Bool) (name : String)
    (params : List CType) (ret : CType) (sc : List symtable)
    (hsig : Signature r s0 pub ext name params ret s5)
    (hnew : ∀ prev, sym_lookup s5.currscope name = some prev → ext = true ∨ prev.ext = true)
    (hglob : sym_putglob s5.currscope (funcSym name params ret pub ext) = some sc) :
    ((curr s5).type = Tok.T_LBRACE → ext = true →
      funcdecl r s0 = Except.error (Err.msg "Definition of function marked 'extern'.\n")) ∧
    (∀ (b : Ast) (s7 : PState), (curr s5).type = Tok.T_LBRACE → ext = false →
      r.block SymtabType.SYMTAB_FUNC
        (next { s5 with currscope := sc, currfunc := some name }) = Except.ok (b, s7) →
      (curr s7).type = Tok.T_RBRACE →
      funcdecl r s0 =
        Except.ok (some (mkast (Node.funcdef name b)), { next s7 with currfunc := none })) ∧
    ((curr s5).type ≠ Tok.T_LBRACE → ext = false →
      funcdecl r s0 =
        Except.error (Err.msg "No definition of function not marked 'extern'\n")) ∧
    ((curr s5).type = Tok.T_SEMI → ext = true →
      funcdecl r s0 = Except.ok (none, next { s5 with currscope := sc })) ∧
    (∃ tab ∈ sc, tab.type = SymtabType.SYMTAB_GLOB ∧
      funcSym name params ret pub ext ∈ tab.syms) := by
  have hchk : funcdecl r s0 = funcdecl_body r (funcSym name params ret pub ext) s5 := by
    rw [funcdecl_signature r s0 s5 pub ext name params ret hsig]
    unfold funcdecl_check
    cases hl : sym_lookup s5.currscope (funcSym name params ret pub ext).name with
    | none => rfl
    | some prev =>
      have := hnew prev hl
      rcases this with h | h <;> simp [funcSym, h]
  rw [hchk]
  have hglob' := hglob
  simp only [funcSym] at hglob'
  refine ⟨?_, ?_, ?_, ?_, sym_putglob_mem _ _ _ hglob⟩
  · intro hb he
    subst he
    simp [funcdecl_body, hglob', hb, funcSym]
  · intro b s7 hb he hblk hr
    subst he
    simp [funcdecl_body, hglob', hb, funcSym, hblk, expect_ok hr]
  · intro hb he
    subst he
    simp [funcdecl_body, hglob', hb, funcSym]
  · intro hb he
    subst he
    have hb' : (curr s5).type ≠ Tok.T_LBRACE := by simp [hb]
    have hcur : (curr { s5 with currscope := sc }).type = Tok.T_SEMI := hb
    simp [funcdecl_body, hglob', hb', funcSym, expect_ok hcur]

/-- C12 (amended): for a declaration with a well-formed signature, the
previous symbol is the one `sym_lookup` finds from the current scope towards
the root.  If there is one and neither it nor the new symbol carries
`extern`, `funcdecl` fails with 'Multiple definition of function'; if either
carries `extern`, or there is none, the declaration goes on to be entered
and to the body rule.  A previous symbol that lives only in an enclosing
scope triggers the error in the same way. -/
theorem funcdecl_redefinition (r : Rec) (s0 s5 : PState) (pub ext : Bool) (name : String)
    (params : List CType) (ret : CType)
    (hsig : Signature r s0 pub ext name params ret s5) :
    (∀ prev, sym_lookup s5.currscope name = some prev → ext = false → prev.ext = false →
      funcdecl r s0 =
        Except.error (Err.msg ("Multiple definition of function '" ++ name ++ "'\n"))) ∧
    (∀ prev, sym_lookup s5.currscope name = some prev → (ext = true ∨ prev.ext = true) →
      funcdecl r s0 = funcdecl_body r (funcSym name params ret pub ext) s5) ∧
    (sym_lookup s5.currscope name = none →
      funcdecl r s0 = funcdecl_body r (funcSym name params ret pub ext) s5) ∧
    (∀ (tab : symtable) (parent : List symtable) (prev : sym),
      s5.currscope = tab :: parent →
      tab.syms.find? (fun y => y.name == name) = none →
      sym_lookup parent name = some prev → ext = false → prev.ext = false →
      funcdecl r s0 =
        Except.error (Err.msg ("Multiple definition of function '" ++ name ++ "'\n"))) := by
  rw [funcdecl_signature r s0 s5 pub ext name params ret hsig]
  have hA : ∀ prev, sym_lookup s5.currscope name = some prev → ext = false → prev.ext = false →
      funcdecl_check r (funcSym name params ret pub ext) s5 =
        Except.error (Err.msg ("Multiple definition of function '" ++ name ++ "'\n")) := by
    intro prev hl he hp
    simp [funcdecl_check, hl, he, hp, funcSym]
  refine ⟨hA, ?_, ?_, ?_⟩
  · intro prev hl h
    rcases h with h | h <;> simp [funcdecl_check, hl, h, funcSym]
  · intro hl
    have hn : (funcSym name params ret pub ext).name = name := rfl
    simp [funcdecl_check, hn, hl]
  · intro tab parent prev hsc hfind hl he hp
    apply hA prev _ he hp
    rw [hsc]
    simp [sym_lookup, hfind, hl]

/-! ### Return, prefix operators, casts -/

/-- C13: `return_statement`.  `return;` is accepted in every function and
yields a return node without value.  For `return e;` in a function `f` whose
symbol has return type `t`: if `t` is void with `ptr = 0` it fails with
'Returning value from void function'; otherwise, with `e` the expression
parsed, it fails with an incompatible-return-type error if
`type_compatible (vtype e) t` is false and else yields a return node whose
value is `e` and whose function is `f`. -/
theorem return_statement_spec (r : Rec) (s : PState) :
    ((curr (next s)).type = Tok.T_SEMI →
      return_statement r s = Except.ok (mkast (Node.ret s.currfunc none), next s)) ∧
    (∀ (f : String) (y : sym) (t : CType),
      (curr (next s)).type ≠ Tok.T_SEMI →
      s.currfunc = some f →
      sym_lookup s.currscope f = some y →
      y.type.ret = some t →
      (t.name = TypeName.TYPE_VOID ∧ t.ptr = 0 →
        return_statement r s =
          Except.error (Err.msg "Returning value from void function.\n")) ∧
      (∀ (e : Ast) (s' : PState),
        ¬ (t.name = TypeName.TYPE_VOID ∧ t.ptr = 0) →
        binexpr r 0 (next s) = Except.ok (e, s') →
        return_statement r s =
          if type_compatible e.vtype t = true then
            Except.ok (mkast (Node.ret (some f) (some e)), s')
          else
            Except.error
              (Err.msg ("Incompatible return type in function '" ++ y.name ++ "'.\n")))) := by
  constructor
  · intro h
    simp [return_statement, h]
  · intro f y t hs hf hy ht
    constructor
    · intro hv
      simp [return_statement, hs, hf, hy, ht, hv]
    · intro e s' hv hb
      by_cases hc : type_compatible e.vtype t = true
      · simp [return_statement, hs, hf, hy, ht, hv, hb, hc]
      · simp [return_statement, hs, hf, hy, ht, hv, hb, hc]

/-- C14: typing of the prefix operators.  `&e` has the type of `e` with `ptr`
increased by one; `*e` is rejected ('Cannot dereference non-pointer type')
exactly when `ptr` of the type of `e` is 0 and otherwise has the type of `e`
with `ptr` decreased by one and every other field unchanged; so `*&e` has
the type of `e`. -/
theorem pre_typing (r : Rec) (s : PState) (e : Ast) (s' : PState) :
    ((curr s).type = Tok.T_AMP → r.pre (next s) = Except.ok (e, s') →
      pre r s = Except.ok
        (Ast.mk (e.vtype.setPtr (e.vtype.ptr + 1)) false (Node.unary Op.OP_ADDROF e), s')) ∧
    ((curr s).type = Tok.T_STAR → r.pre (next s) = Except.ok (e, s') →
      pre r s =
        if e.vtype.ptr = 0 then
          Except.error (Err.msg "Cannot dereference non-pointer type.\n")
        else Except.ok
          (Ast.mk (e.vtype.setPtr (e.vtype.ptr - 1)) false (Node.unary Op.OP_DEREF e), s')) ∧
    (∀ (f : Nat), (curr s).type = Tok.T_STAR → (curr (next s)).type = Tok.T_AMP →
      (parserAt f).pre (next (next s)) = Except.ok (e, s') →
      pre (parserAt (f + 1)) s = Except.ok
        (Ast.mk e.vtype false (Node.unary Op.OP_DEREF
          (Ast.mk (e.vtype.setPtr (e.vtype.ptr + 1)) false (Node.unary Op.OP_ADDROF e))), s')) := by
  refine ⟨?_, ?_, ?_⟩
  · intro h hp
    simp [pre, h, hp, mkunary, mkast, Ast.setVtype]
  · intro h hp
    by_cases hz : e.vtype.ptr = 0
    · simp [pre, h, hp, hz]
    · simp [pre, h, hp, hz, mkunary, mkast, Ast.setVtype]
  · intro f h1 h2 hp
    have hin : (parserAt (f + 1)).pre (next s) = Except.ok
        (Ast.mk (e.vtype.setPtr (e.vtype.ptr + 1)) false (Node.unary Op.OP_ADDROF e), s') := by
      show pre (parserAt f) (next s) = _
      simp [pre, h2, hp, mkunary, mkast, Ast.setVtype]
    have hset : (e.vtype.setPtr (e.vtype.ptr + 1)).setPtr e.vtype.ptr = e.vtype := by
      cases e.vtype; rfl
    have hptr : (e.vtype.setPtr (e.vtype.ptr + 1)).ptr = e.vtype.ptr + 1 := by
      cases e.vtype; rfl
    simp [pre, h1, hin, mkunary, mkast, Ast.setVtype, hptr, hset]

/-- C15: a cast `(T) e` whose `T` starts with a primitive type keyword, `T`
being the type `parsetype` reads.  If `T` is not integral, or has `ptr` or
`arrlen` other than 0, `parenexpr` fails with 'Cannot cast to non-integral
type'; if `T` is integral with `ptr = 0` and `arrlen = 0`, and `)` and a
prefix expression `val` follow, it yields a cast node whose target type and
type are both `T` and whose value is `val`; and whenever the cast is
accepted, `T` is integral with `ptr = 0` and `arrlen = 0`. -/
theorem cast_spec (r : Rec) (s : PState) (T : CType) (s1 : PState)
    (hty : istype (curr (next s)).type = true)
    (hT : parsetype r (next s) = Except.ok (T, s1)) :
    ((isintegral T = false ∨ T.ptr ≠ 0 ∨ T.arrlen ≠ 0) →
      parenexpr r s = Except.error (Err.msg "Cannot cast to non-integral type\n")) ∧
    (∀ (val : Ast) (s2 : PState),
      isintegral T = true → T.ptr = 0 → T.arrlen = 0 →
      (curr s1).type = Tok.T_RPAREN →
      r.pre (next s1) = Except.ok (val, s2) →
      parenexpr r s = Except.ok (Ast.mk T false (Node.cast T val), s2)) ∧
    (∀ (a : Ast) (s2 : PState), parenexpr r s = Except.ok (a, s2) →
      isintegral T = true ∧ T.ptr = 0 ∧ T.arrlen = 0) := by
  refine ⟨?_, ?_, ?_⟩
  · intro h
    rcases h with h | h | h <;> simp [parenexpr, hty, hT, h]
  · intro val s2 hi hp ha hr hv
    simp [parenexpr, hty, hT, hi, hp, ha, expect_ok hr, hv]
  · intro a s2 h
    by_cases hi : isintegral T = true
    · by_cases hp : T.ptr = 0
      · by_cases ha : T.arrlen = 0
        · exact ⟨hi, hp, ha⟩
        · simp [parenexpr, hty, hT, hi, hp, ha] at h
      · simp [parenexpr, hty, hT, hi, hp] at h
    · simp [parenexpr, hty, hT, hi] at h

/-! ### Statement terminators in a block -/

/-- One turn of the statement loop of `block` on a statement that yields a
node. -/
theorem block_loop_step (r : Rec) (n : Nat) (acc : List Ast) (s : PState) (ast : Ast)
    (s1 : PState) (h1 : (curr s).type ≠ Tok.T_RBRACE) (h2 : (curr s).type ≠ Tok.T_EOF)
    (hst : statement r s = Except.ok (some ast, s1)) :
    block_loop r (n + 1) acc s =
      if opensBlock ast.type = true then block_loop r n (acc ++ [ast]) s1
      else if (curr s1).type = Tok.T_SEMI then block_loop r n (acc ++ [ast]) (next s1)
      else Except.error
        (Err.msg ("Expected ';', got '" ++ tokstr (curr s1).type ++ "'\n")) := by
  by_cases ho : opensBlock ast.type = true
  · have : ¬ (ast.type ≠ AstType.A_FUNCDEF ∧ ast.type ≠ AstType.A_ASM ∧
        ast.type ≠ AstType.A_IFELSE ∧ ast.type ≠ AstType.A_FOR ∧
        ast.type ≠ AstType.A_WHILE ∧ ast.type ≠ AstType.A_LABEL) := by
      generalize ast.type = t at ho
      cases t <;> simp_all [opensBlock]
    simp [block_loop, h1, h2, hst, ho, this]
  · have : (ast.type ≠ AstType.A_FUNCDEF ∧ ast.type ≠ AstType.A_ASM ∧
        ast.type ≠ AstType.A_IFELSE ∧ ast.type ≠ AstType.A_FOR ∧
        ast.type ≠ AstType.A_WHILE ∧ ast.type ≠ AstType.A_LABEL) := by
      generalize ast.type = t at ho
      cases t <;> simp_all [opensBlock]
    by_cases hs : (curr s1).type = Tok.T_SEMI
    · simp [block_loop, h1, h2, hst, ho, this, expect_ok hs, hs]
    · simp [block_loop, h1, h2, hst, ho, this, expect_error hs, hs]
      rfl

/-- The statement loop of `block`, run on a block body. -/
theorem block_loop_of_body (r : Rec) (m : Nat) (s s' : PState) (asts : List Ast)
    (h : BlockBody r m s asts s') :
    ∀ (n : Nat) (acc : List Ast), m < n →
      block_loop r n acc s = Except.ok (acc ++ asts, s') := by
  induction h with
  | done s hs =>
    intro n acc hn
    cases n with
    | zero => omega
    | succ n => rcases hs with hs | hs <;> simp [block_loop, hs]
  | decl m s s1 rest s' h1 h2 hst _ ih =>
    intro n acc hn
    cases n with
    | zero => omega
    | succ n =>
      simp [block_loop, h1, h2, hst, ih n acc (by omega)]
  | opens m s ast s1 rest s' h1 h2 hst ho _ ih =>
    intro n acc hn
    cases n with
    | zero => omega
    | succ n =>
      rw [block_loop_step r n acc s ast s1 h1 h2 hst, ih n (acc ++ [ast]) (by omega)]
      simp [ho]
  | semi m s ast s1 rest s' h1 h2 hst ho hs _ ih =>
    intro n acc hn
    cases n with
    | zero => omega
    | succ n =>
      rw [block_loop_step r n acc s ast s1 h1 h2 hst, ih n (acc ++ [ast]) (by omega)]
      simp [ho, hs]

/-! ### Types: pointer and array suffix, typedefs -/

theorem starLoop_cons_cons (t0 t : Token) (ts : List Token) (p : Nat) :
    starLoop (t0 :: t :: ts) p =
      if t.type = Tok.T_STAR then starLoop (t :: ts) (p + 1) else (p, t :: ts) := by
  rw [starLoop]

/-- The `*` loop: after the first token, each leading `*` is counted and
skipped. -/
theorem starLoop_stars (t0 : Token) (stars rest : List Token) (p : Nat)
    (hs : ∀ t ∈ stars, t.type = Tok.T_STAR)
    (hr : ∀ t, rest.head? = some t → t.type ≠ Tok.T_STAR) :
    starLoop (t0 :: stars ++ rest) p = (p + stars.length, rest) := by
  induction stars generalizing t0 p with
  | nil =>
    cases rest with
    | nil => simp [starLoop]
    | cons t ts =>
      have := hr t rfl
      simp [starLoop, this]
  | cons t ts ih =>
    have ht : t.type = Tok.T_STAR := hs t (List.mem_cons_self _ _)
    have := ih t (p + 1) (fun x hx => hs x (List.mem_cons_of_mem _ hx))
    simp only [List.cons_append] at this ⊢
    rw [starLoop_cons_cons, if_pos ht, this, List.length_cons]
    congr 1
    omega

/-- The parameter loop of a function type, run on its parameters. -/
theorem typeparams_of (r : Rec) (s s' : PState) (params : List CType)
    (h : TypeParams r s params s') :
    (curr s').type = Tok.T_RPAREN ∧
    ∀ (n : Nat) (acc : List CType), params.length < n →
      parsetype_params r n acc s = Except.ok (acc ++ params, s') := by
  induction h with
  | done s hs =>
    refine ⟨hs, ?_⟩
    intro n acc hn
    cases n with
    | zero => omega
    | succ n => simp [parsetype_params, hs]
  | last s T s1 hs hp h1 =>
    refine ⟨h1, ?_⟩
    intro n acc hn
    cases n with
    | zero => simp at hn
    | succ n =>
      cases n with
      | zero => simp at hn
      | succ n => simp [parsetype_params, hs, hp, h1]
  | more s T s1 rest s' hs hp h1 _ ih =>
    refine ⟨ih.1, ?_⟩
    intro n acc hn
    cases n with
    | zero => simp at hn
    | succ n =>
      have hn' : rest.length < n := by simpa using hn
      simp [parsetype_params, hs, hp, h1, expect_ok h1, ih.2 n (acc ++ [T]) hn']

theorem parsetype_array_none (t : CType) (s : PState) (h : (curr s).type ≠ Tok.T_LBRACK) :
    parsetype_array t s = Except.ok (t, s) := by
  simp [parsetype_array, h]

theorem parsetype_array_some (t : CType) (s : PState) (lb lit rb : Token) (rest : List Token)
    (h : s.toks = lb :: lit :: rb :: rest) (h1 : lb.type = Tok.T_LBRACK)
    (h2 : lit.type = Tok.T_INTLIT) (h3 : rb.type = Tok.T_RBRACK) :
    parsetype_array t s = Except.ok (t.setArrlen lit.ival, { s with toks := rest }) := by
  have c0 : (curr s).type = Tok.T_LBRACK := by simp [curr, h, h1]
  have c1 : curr (next s) = lit := by simp [curr, next, h]
  have c2 : (curr (next (next s))).type = Tok.T_RBRACK := by simp [curr, next, h, h3]
  have c1' : (curr (next s)).type = Tok.T_INTLIT := by rw [c1]; exact h2
  simp [parsetype_array, c0, expect_ok c1', expect_ok c2, c1]
  simp [next, h]

/-- C16 (amended): with the tokens `first`, then `k` tokens `*`, then `rest`
not starting with `*`.  If `first` is a primitive keyword, `parsetype`
returns the primitive type with pointer depth `k`, and array length `N` if
`rest` starts with `[N]`, which is consumed too, else 0, leaving what
follows.  If `first` is `fn`, the `k` stars stand between `fn` and `(`.
After the parameter types, without `->` the return type is the zero type and
the state `s5` is the one after `)`; with `-> T` the type `T` is read by the
recursive call of `parsetype`, which takes the `*` and `[N]` of `T` itself,
and `s5` is the state that call leaves.  The result is the function type
with pointer depth `k`, and array length `M` if `[M]` stands at `s5`, which
is consumed too, else 0; a `*` there stays unread.  So `fn()[2]` has array
length 2, `fn() -> int64[2]` is a function type of array length 0 that
returns `int64[2]`, and `fn() -> int64[2][3]` has array length 3. -/
theorem parsetype_suffix (r : Rec) (s : PState) (first : Token) (stars rest : List Token)
    (htoks : s.toks = first :: stars ++ rest)
    (hs : ∀ t ∈ stars, t.type = Tok.T_STAR)
    (hr : ∀ t, rest.head? = some t → t.type ≠ Tok.T_STAR) :
    (∀ name, primOf first.type = some name →
      ((∀ t, rest.head? = some t → t.type ≠ Tok.T_LBRACK) →
        parsetype r s = Except.ok (mktype name 0 stars.length, { s with toks := rest })) ∧
      (∀ (lb lit rb : Token) (rest' : List Token), rest = lb :: lit :: rb :: rest' →
        lb.type = Tok.T_LBRACK → lit.type = Tok.T_INTLIT → rb.type = Tok.T_RBRACK →
        parsetype r s =
          Except.ok (mktype name lit.ival stars.length, { s with toks := rest' }))) ∧
    (∀ (params : List CType) (s4 s5 : PState) (ret : CType),
      first.type = Tok.T_FUNC →
      (curr { s with toks := rest }).type = Tok.T_LPAREN →
      TypeParams r (next { s with toks := rest }) params s4 →
      params.length < r.fuel →
      (if (curr (next s4)).type = Tok.T_ARROW then r.parsetype (next (next s4))
        else Except.ok (CType.zero, next s4)) = Except.ok (ret, s5) →
      parsetype r s =
        parsetype_array (CType.mk TypeName.TYPE_FUNC stars.length 0 (some ret) params [] 0) s5 ∧
      ((curr s5).type ≠ Tok.T_LBRACK →
        parsetype r s =
          Except.ok (CType.mk TypeName.TYPE_FUNC stars.length 0 (some ret) params [] 0, s5)) ∧
      (∀ (lb lit rb : Token) (rest' : List Token), s5.toks = lb :: lit :: rb :: rest' →
        lb.type = Tok.T_LBRACK → lit.type = Tok.T_INTLIT → rb.type = Tok.T_RBRACK →
        parsetype r s =
          Except.ok (CType.mk TypeName.TYPE_FUNC stars.length lit.ival (some ret) params [] 0,
            { s5 with toks := rest' }))) ∧
    parsetype (parserAt 1) (stateTd fnArrayToks []) =
      Except.ok (CType.mk TypeName.TYPE_FUNC 0 2 (some CType.zero) [] [] 0,
        stateTd [tk Tok.T_SEMI, tk Tok.T_EOF] []) ∧
    parsetype (parserAt 1) (stateTd fnRetArrayToks []) =
      Except.ok (CType.mk TypeName.TYPE_FUNC 0 0 (some (mktype TypeName.TYPE_INT64 2 0)) [] [] 0,
        stateTd [tk Tok.T_SEMI, tk Tok.T_EOF] []) ∧
    parsetype (parserAt 1) (stateTd fnRetArrayArrayToks []) =
      Except.ok (CType.mk TypeName.TYPE_FUNC 0 3 (some (mktype TypeName.TYPE_INT64 2 0)) [] [] 0,
        stateTd [tk Tok.T_SEMI, tk Tok.T_EOF] []) := by
  have hstar := starLoop_stars first stars rest 0 hs hr
  rw [← htoks] at hstar
  simp only [Nat.zero_add] at hstar
  have hcur : (curr s).type = first.type := by simp [curr, htoks]
  refine ⟨?_, ?_, rfl, rfl, rfl⟩
  · intro name hname
    have hprim : parsetype r s = parsetype_prim name s := by
      unfold parsetype
      rw [hcur]
      generalize first.type = t at hname
      cases t <;> simp_all [primOf]
    rw [hprim]
    constructor
    · intro hl
      have : (curr { s with toks := rest }).type ≠ Tok.T_LBRACK := by
        cases rest with
        | nil => simp [curr, tk]
        | cons t ts => simpa [curr] using hl t rfl
      simp [parsetype_prim, hstar, parsetype_array_none _ _ this, mktype, CType.zero,
        CType.setName, CType.setPtr]
    · intro lb lit rb rest' hrest h1 h2 h3
      have := parsetype_array_some (CType.mk name stars.length 0 none [] [] 0)
        { s with toks := rest } lb lit rb rest' hrest h1 h2 h3
      simp only [CType.setArrlen] at this
      simp [parsetype_prim, hstar, this, mktype, CType.zero, CType.setName, CType.setPtr]
  · intro params s4 s5 ret hf hlp hparams hfuel hret
    obtain ⟨hrp, hpl⟩ := typeparams_of r _ s4 params hparams
    have hpl' := hpl r.fuel [] hfuel
    simp only [List.nil_append] at hpl'
    have hmain : parsetype r s =
        parsetype_array (CType.mk TypeName.TYPE_FUNC stars.length 0 (some ret) params [] 0)
          s5 := by
      unfold parsetype
      rw [hcur, hf]
      by_cases ha : (curr (next s4)).type = Tok.T_ARROW
      · simp only [ha, if_true] at hret
        simp [hstar, expect_ok hlp, hpl', ha, expect_ok ha, hret]
      · simp only [ha, if_false, Except.ok.injEq, Prod.mk.injEq] at hret
        obtain ⟨rfl, rfl⟩ := hret
        simp [hstar, expect_ok hlp, hpl', ha]
    refine ⟨hmain, ?_, ?_⟩
    · intro hl
      rw [hmain, parsetype_array_none _ _ hl]
    · intro lb lit rb rest' h5 h1 h2 h3
      rw [hmain, parsetype_array_some _ s5 lb lit rb rest' h5 h1 h2 h3]
      rfl

/-- `parsetype` on the name of a typedef returns its type, one token
consumed. -/
theorem parsetype_typedef (r : Rec) (u : PState) (y : sym)
    (hc : (curr u).type = Tok.T_IDENT)
    (hf : u.typedefs.find? (fun y => y.name == (curr u).sval) = some y) :
    parsetype r u = Except.ok (y.type, next u) := by
  simp [parsetype, hc, hf]

/-- C17: `typedef A = T; typedef B = A;`, with `A` and `B` not in the table
before.  The two statements return no node and append to the typedef table
the entries `A` and `B`, in that order, both with the type `T`; and with
that table `parsetype` on the identifier `A` or `B` returns exactly `T` and
advances past the identifier. -/
theorem typedef_resolution (r r2 : Rec) (s0 s1 : PState) (T : CType)
    (t0 a e0 semi t1 b e1 a2 semi2 : Token) (restT rest : List Token)
    (h0 : s0.toks = t0 :: a :: e0 :: restT)
    (ht0 : t0.type = Tok.T_TYPEDEF) (ha : a.type = Tok.T_IDENT) (he0 : e0.type = Tok.T_EQ)
    (hT : parsetype r { s0 with toks := restT } = Except.ok (T, s1))
    (h1 : s1.toks = semi :: t1 :: b :: e1 :: a2 :: semi2 :: rest)
    (hsemi : semi.type = Tok.T_SEMI) (ht1 : t1.type = Tok.T_TYPEDEF)
    (hb : b.type = Tok.T_IDENT) (he1 : e1.type = Tok.T_EQ)
    (ha2 : a2.type = Tok.T_IDENT) (hsame : a2.sval = a.sval)
    (hsemi2 : semi2.type = Tok.T_SEMI)
    (hfreshA : s1.typedefs.find? (fun y => y.name == a.sval) = none)
    (hfreshB : s1.typedefs.find? (fun y => y.name == b.sval) = none) :
    typedef_statement r s0 =
      Except.ok (none, { s1 with toks := t1 :: b :: e1 :: a2 :: semi2 :: rest,
                                 typedefs := s1.typedefs ++ [⟨a.sval, T, false, false⟩] }) ∧
    typedef_statement r2
        { s1 with toks := t1 :: b :: e1 :: a2 :: semi2 :: rest,
                  typedefs := s1.typedefs ++ [⟨a.sval, T, false, false⟩] } =
      Except.ok (none, { s1 with toks := rest,
                                 typedefs := s1.typedefs ++
                                   [⟨a.sval, T, false, false⟩, ⟨b.sval, T, false, false⟩] }) ∧
    (∀ (r3 : Rec) (u : PState),
      u.typedefs = s1.typedefs ++ [⟨a.sval, T, false, false⟩, ⟨b.sval, T, false, false⟩] →
      (curr u).type = Tok.T_IDENT → ((curr u).sval = a.sval ∨ (curr u).sval = b.sval) →
      parsetype r3 u = Except.ok (T, next u)) := by
  refine ⟨?_, ?_, ?_⟩
  · have c0 : (curr s0).type = Tok.T_TYPEDEF := by simp [curr, h0, ht0]
    have c1 : (curr (next s0)).type = Tok.T_IDENT := by simp [curr, next, h0, ha]
    have c1' : (curr (next s0)).sval = a.sval := by simp [curr, next, h0]
    have c2 : (curr (next (next s0))).type = Tok.T_EQ := by simp [curr, next, h0, he0]
    have c3 : next (next (next s0)) = { s0 with toks := restT } := by simp [next, h0]
    have c4 : (curr (add_typedef a.sval T s1)).type = Tok.T_SEMI := by
      simp [curr, add_typedef, h1, hsemi]
    simp [typedef_statement, expect_ok c0, expect_ok c1, expect_ok c2, c3, hT, c1',
      expect_ok c4]
    simp [next, add_typedef, h1]
  · have hfind : (s1.typedefs ++ [(⟨a.sval, T, false, false⟩ : sym)]).find?
        (fun y => y.name == a2.sval) = some ⟨a.sval, T, false, false⟩ := by
      rw [hsame]
      simp [List.find?_append, hfreshA]
    simp [typedef_statement, expect, expectcurr, curr, next, ht1, hb, he1, parsetype, ha2,
      hfind, add_typedef, hsemi2]
  · intro r3 u hu hc hn
    have hfindA : u.typedefs.find? (fun y => y.name == a.sval) =
        some ⟨a.sval, T, false, false⟩ := by
      rw [hu]
      simp [List.find?_append, hfreshA]
    rcases hn with hn | hn
    · have := parsetype_typedef r3 u _ hc (by rw [hn]; exact hfindA)
      simpa using this
    · by_cases hab : b.sval = a.sval
      · have := parsetype_typedef r3 u _ hc (by rw [hn, hab]; exact hfindA)
        simpa using this
      · have hfindB : u.typedefs.find? (fun y => y.name == b.sval) =
            some ⟨b.sval, T, false, false⟩ := by
          rw [hu]
          have : (a.sval == b.sval) = false := by
            simp only [beq_eq_false_iff_ne, ne_eq]
            exact fun h => hab h.symm
          simp [List.find?_append, hfreshB, List.find?, this]
        have := parsetype_typedef r3 u _ hc (by rw [hn]; exact hfindB)
        simpa using this

/-! ### Register allocator -/

/-- C19: for every state of the four-slot pool, `regalloc` aborts exactly
when all four slots are busy; otherwise it returns the smallest index whose
slot is free and marks that slot busy, leaving the other slots, the label
counter and the output unchanged, and `regfree` of that index restores the
state before; `regfree r` for `0 <= r < 4` clears slot `r` and leaves the
rest unchanged. -/
theorem regalloc_regfree_spec (b0 b1 b2 b3 : Bool) (labels : Nat) (out : List String) :
    (regalloc ⟨[b0, b1, b2, b3], labels, out⟩ = Except.error (GenErr.abort "Out of registers\n") ↔
      (b0 = true ∧ b1 = true ∧ b2 = true ∧ b3 = true)) ∧
    (∀ (i : Nat), i < 4 → [b0, b1, b2, b3].get? i = some false →
      (∀ j, j < i → [b0, b1, b2, b3].get? j = some true) →
      regalloc ⟨[b0, b1, b2, b3], labels, out⟩ =
        Except.ok ((i : Int), ⟨[b0, b1, b2, b3].set i true, labels, out⟩) ∧
      regfree (i : Int) ⟨[b0, b1, b2, b3].set i true, labels, out⟩ =
        Except.ok ⟨[b0, b1, b2, b3], labels, out⟩) ∧
    (∀ (r : Nat), r < 4 →
      regfree (r : Int) ⟨[b0, b1, b2, b3], labels, out⟩ =
        Except.ok ⟨[b0, b1, b2, b3].set r false, labels, out⟩) := by
  refine ⟨?_, ?_, ?_⟩
  · cases b0 <;> cases b1 <;> cases b2 <;> cases b3 <;>
      simp [regalloc, regalloc_from, REGCNT]
  · intro i hi hfree hbusy
    have h0 := hbusy 0
    have h1 := hbusy 1
    have h2 := hbusy 2
    clear hbusy
    cases b0 <;> cases b1 <;> cases b2 <;> cases b3 <;> interval_cases i <;>
      simp_all [regalloc, regalloc_from, REGCNT, regfree]
  · intro r hr
    interval_cases r <;> simp [regfree, REGCNT]

/-! ### Claims on blocks, and witnesses -/

/-- C18: in the statement loop of `block`, after a statement that yields a
funcdef, asm, if-else, for, while or label node no `;` is asked for or
consumed; after a statement that yields any other node the next token must
be `;`, which is consumed, else parsing fails with an "Expected ';'" error;
and the nodes of the accepted statements are stored in the block node in
source order. -/
theorem block_terminators (r : Rec) :
    (∀ (n : Nat) (acc : List Ast) (s : PState) (ast : Ast) (s1 : PState),
      (curr s).type ≠ Tok.T_RBRACE → (curr s).type ≠ Tok.T_EOF →
      statement r s = Except.ok (some ast, s1) →
      (opensBlock ast.type = true →
        block_loop r (n + 1) acc s = block_loop r n (acc ++ [ast]) s1) ∧
      (opensBlock ast.type = false → (curr s1).type = Tok.T_SEMI →
        block_loop r (n + 1) acc s = block_loop r n (acc ++ [ast]) (next s1)) ∧
      (opensBlock ast.type = false → (curr s1).type ≠ Tok.T_SEMI →
        block_loop r (n + 1) acc s =
          Except.error (Err.msg ("Expected ';', got '" ++ tokstr (curr s1).type ++ "'\n")))) ∧
    (∀ (m : Nat) (type : SymtabType) (s : PState) (asts : List Ast) (s' : PState)
        (symtab : symtable) (parent : List symtable),
      BlockBody r m { s with currscope := ⟨type, []⟩ :: s.currscope } asts s' →
      m < r.fuel → s'.currscope = symtab :: parent →
      block r type s =
        Except.ok (mkast (Node.block symtab asts), { s' with currscope := parent })) := by
  constructor
  · intro n acc s ast s1 h1 h2 hst
    have := block_loop_step r n acc s ast s1 h1 h2 hst
    refine ⟨?_, ?_, ?_⟩
    · intro ho
      rw [this]; simp [ho]
    · intro ho hs
      rw [this]; simp [ho, hs]
    · intro ho hs
      rw [this]; simp [ho, hs]
  · intro m type s asts s' symtab parent hb hm hsc
    have := block_loop_of_body r m _ s' asts hb r.fuel [] hm
    simp [block, this, hsc]

/-- Witness for C18: the block body `label x: 1; }` yields the label node and
the literal, in that order; the label takes no `;`, the expression does. -/
theorem block_terminators_witness :
    block (parserAt 3) SymtabType.SYMTAB_BLOCK (stateTd labelExprToks []) =
      Except.ok
        (mkast (Node.block ⟨SymtabType.SYMTAB_BLOCK, []⟩
          [mkast (Node.label "x"), Ast.mk uint32 false (Node.intlit 1)]),
         stateTd [tk Tok.T_RBRACE, tk Tok.T_EOF] []) :=
  (block_terminators (parserAt 3)).2 2 SymtabType.SYMTAB_BLOCK (stateTd labelExprToks [])
    [mkast (Node.label "x"), Ast.mk uint32 false (Node.intlit 1)]
    ⟨[tk Tok.T_RBRACE, tk Tok.T_EOF], [⟨SymtabType.SYMTAB_BLOCK, []⟩], none, []⟩
    ⟨SymtabType.SYMTAB_BLOCK, []⟩ []
    (BlockBody.opens 1 _ (mkast (Node.label "x"))
      ⟨[tkInt 1, tk Tok.T_SEMI, tk Tok.T_RBRACE, tk Tok.T_EOF],
        [⟨SymtabType.SYMTAB_BLOCK, []⟩], none, []⟩ _ _
      (by decide) (by decide) rfl rfl
      (BlockBody.semi 0 _ (Ast.mk uint32 false (Node.intlit 1))
        ⟨[tk Tok.T_SEMI, tk Tok.T_RBRACE, tk Tok.T_EOF],
          [⟨SymtabType.SYMTAB_BLOCK, []⟩], none, []⟩ _ _
        (by decide) (by decide) rfl rfl rfl
        (BlockBody.done _ (Or.inl rfl))))
    (by decide) rfl

/-- Witness for C11: `fn extern puts(s: int8*) -> int32;` returns no node and
enters `puts : fn(int8*) -> int32` in the global scope. -/
theorem funcdecl_body_rule_witness :
    funcdecl (parserAt 2) (stateOf externDeclToks []) =
      Except.ok (none, stateOf [tk Tok.T_EOF] [⟨"puts", putsType, false, true⟩]) :=
  (funcdecl_body_rule (parserAt 2) (stateOf externDeclToks [])
    (stateOf [tk Tok.T_SEMI, tk Tok.T_EOF] []) false true "puts"
    [mktype TypeName.TYPE_INT8 0 1] int32
    [⟨SymtabType.SYMTAB_GLOB, [⟨"puts", putsType, false, true⟩]⟩]
    ⟨stateOf externDeclToks.tail [],
      stateOf [tk Tok.T_RPAREN, tk Tok.T_ARROW, tk Tok.T_INT32, tk Tok.T_SEMI, tk Tok.T_EOF] [],
      rfl, rfl, rfl, rfl,
      FuncParams.last _ _ _ (by decide) rfl rfl rfl, by decide, rfl⟩
    (fun _ _ => Or.inl rfl) rfl).2.2.2.1 rfl rfl

/-- Witness for C12: with a symbol `f` without `extern` in the current scope,
`fn f() { }` fails with 'Multiple definition of function'. -/
theorem funcdecl_redefinition_witness :
    funcdecl (parserAt 2)
        (stateOf [tkId "f", tk Tok.T_LPAREN, tk Tok.T_RPAREN, tk Tok.T_LBRACE, tk Tok.T_RBRACE,
          tk Tok.T_EOF] [⟨"f", int32, false, false⟩]) =
      Except.error (Err.msg "Multiple definition of function 'f'\n") :=
  (funcdecl_redefinition (parserAt 2)
    (stateOf [tkId "f", tk Tok.T_LPAREN, tk Tok.T_RPAREN, tk Tok.T_LBRACE, tk Tok.T_RBRACE,
      tk Tok.T_EOF] [⟨"f", int32, false, false⟩])
    (stateOf [tk Tok.T_LBRACE, tk Tok.T_RBRACE, tk Tok.T_EOF] [⟨"f", int32, false, false⟩])
    false false "f" [] (mktype TypeName.TYPE_VOID 0 0)
    ⟨_, stateOf [tk Tok.T_RPAREN, tk Tok.T_LBRACE, tk Tok.T_RBRACE, tk Tok.T_EOF]
        [⟨"f", int32, false, false⟩],
      rfl, rfl, rfl, rfl, FuncParams.done _ rfl, by decide, rfl⟩).1
    ⟨"f", int32, false, false⟩ rfl rfl rfl

/-- Counterexample for C12: in `var g: int32; fn f() { fn g() { } }` the
only previous symbol `g` lives in the global scope, which encloses the scope
of the body of `f` where `fn g` is declared, and the declaration fails with
'Multiple definition of function'. -/
theorem enclosing_scope_redefinition :
    parse 4 nestedRedefToks =
      Except.error (Err.msg "Multiple definition of function 'g'\n") ∧
    (∀ k : Nat, parse (k + 4) nestedRedefToks =
      Except.error (Err.msg "Multiple definition of function 'g'\n")) :=
  ⟨rfl, fun _ => rfl⟩

/-- Counterexample for C16: on `fn() * ;` `parsetype` returns the function
type with pointer depth 0 and leaves the `*` unread. -/
theorem fn_type_star_unread :
    parsetype (parserAt 1) (stateTd fnStarToks []) =
      Except.ok (CType.mk TypeName.TYPE_FUNC 0 0 (some CType.zero) [] [] 0,
        stateTd [tk Tok.T_STAR, tk Tok.T_SEMI, tk Tok.T_EOF] []) ∧
    (∀ k : Nat, parsetype (parserAt (k + 1)) (stateTd fnStarToks []) =
      Except.ok (CType.mk TypeName.TYPE_FUNC 0 0 (some CType.zero) [] [] 0,
        stateTd [tk Tok.T_STAR, tk Tok.T_SEMI, tk Tok.T_EOF] [])) :=
  ⟨rfl, fun _ => rfl⟩

/-- On `A * ;`, with `A` a typedef of `int32`, `parsetype` returns `int32`
with pointer depth 0 and leaves the `*` unread: the typedef case returns
right after the name. -/
theorem typedef_star_unread (r : Rec) :
    parsetype r (stateTd [tkId "A", tk Tok.T_STAR, tk Tok.T_SEMI, tk Tok.T_EOF]
        [⟨"A", int32, false, false⟩]) =
      Except.ok (int32, stateTd [tk Tok.T_STAR, tk Tok.T_SEMI, tk Tok.T_EOF]
        [⟨"A", int32, false, false⟩]) := rfl

/-- Witness for C13: in `f : fn() -> int32`, `return 7;` yields a return node
with value `7` and function `f`. -/
theorem return_statement_spec_witness :
    return_statement (parserAt 1)
        ⟨[tk Tok.T_RETURN, tkInt 7, tk Tok.T_SEMI, tk Tok.T_EOF],
          [⟨SymtabType.SYMTAB_GLOB, [funcSym "f" [] int32 false false]⟩], some "f", []⟩ =
      Except.ok (mkast (Node.ret (some "f") (some (Ast.mk uint32 false (Node.intlit 7)))),
        ⟨[tk Tok.T_SEMI, tk Tok.T_EOF],
          [⟨SymtabType.SYMTAB_GLOB, [funcSym "f" [] int32 false false]⟩], some "f", []⟩) :=
  ((return_statement_spec (parserAt 1)
      ⟨[tk Tok.T_RETURN, tkInt 7, tk Tok.T_SEMI, tk Tok.T_EOF],
        [⟨SymtabType.SYMTAB_GLOB, [funcSym "f" [] int32 false false]⟩], some "f", []⟩).2
    "f" (funcSym "f" [] int32 false false) int32 (by decide) rfl rfl rfl).2
    (Ast.mk uint32 false (Node.intlit 7)) _ (by decide) rfl

/-- Witness for C14: `*&x` with `x : int32` has type `int32`. -/
theorem pre_typing_witness :
    pre (parserAt 2)
        (stateOf [tk Tok.T_STAR, tk Tok.T_AMP, tkId "x", tk Tok.T_SEMI, tk Tok.T_EOF]
          [⟨"x", int32, false, false⟩]) =
      Except.ok
        (Ast.mk int32 false (Node.unary Op.OP_DEREF
          (Ast.mk (mktype TypeName.TYPE_INT32 0 1) false
            (Node.unary Op.OP_ADDROF (Ast.mk int32 false (Node.ident "x"))))),
         stateOf [tk Tok.T_SEMI, tk Tok.T_EOF] [⟨"x", int32, false, false⟩]) :=
  (pre_typing (parserAt 2)
    (stateOf [tk Tok.T_STAR, tk Tok.T_AMP, tkId "x", tk Tok.T_SEMI, tk Tok.T_EOF]
      [⟨"x", int32, false, false⟩])
    (Ast.mk int32 false (Node.ident "x"))
    (stateOf [tk Tok.T_SEMI, tk Tok.T_EOF] [⟨"x", int32, false, false⟩])).2.2 1 rfl rfl rfl

/-- Witness for C15: `(int8) 5` yields a cast node of type `int8`. -/
theorem cast_spec_witness :
    parenexpr (parserAt 1)
        (stateOf [tk Tok.T_LPAREN, tk Tok.T_INT8, tk Tok.T_RPAREN, tkInt 5, tk Tok.T_SEMI,
          tk Tok.T_EOF] []) =
      Except.ok
        (Ast.mk (mktype TypeName.TYPE_INT8 0 0) false
          (Node.cast (mktype TypeName.TYPE_INT8 0 0) (Ast.mk uint32 false (Node.intlit 5))),
         stateOf [tk Tok.T_SEMI, tk Tok.T_EOF] []) :=
  (cast_spec (parserAt 1)
    (stateOf [tk Tok.T_LPAREN, tk Tok.T_INT8, tk Tok.T_RPAREN, tkInt 5, tk Tok.T_SEMI,
      tk Tok.T_EOF] [])
    (mktype TypeName.TYPE_INT8 0 0)
    (stateOf [tk Tok.T_RPAREN, tkInt 5, tk Tok.T_SEMI, tk Tok.T_EOF] []) rfl rfl).2.1
    (Ast.mk uint32 false (Node.intlit 5)) (stateOf [tk Tok.T_SEMI, tk Tok.T_EOF] [])
    rfl rfl rfl rfl rfl

/-- Witness for C16: `int8 * * [4] ;` gives `int8` with pointer depth 2 and
array length 4. -/
theorem parsetype_suffix_witness :
    parsetype (parserAt 0)
        (stateTd [tk Tok.T_INT8, tk Tok.T_STAR, tk Tok.T_STAR, tk Tok.T_LBRACK, tkInt 4,
          tk Tok.T_RBRACK, tk Tok.T_SEMI, tk Tok.T_EOF] []) =
      Except.ok (mktype TypeName.TYPE_INT8 4 2, stateTd [tk Tok.T_SEMI, tk Tok.T_EOF] []) :=
  ((parsetype_suffix (parserAt 0)
    (stateTd [tk Tok.T_INT8, tk Tok.T_STAR, tk Tok.T_STAR, tk Tok.T_LBRACK, tkInt 4,
      tk Tok.T_RBRACK, tk Tok.T_SEMI, tk Tok.T_EOF] [])
    (tk Tok.T_INT8) [tk Tok.T_STAR, tk Tok.T_STAR]
    [tk Tok.T_LBRACK, tkInt 4, tk Tok.T_RBRACK, tk Tok.T_SEMI, tk Tok.T_EOF]
    rfl (by decide) (by decide)).1 TypeName.TYPE_INT8 rfl).2
    (tk Tok.T_LBRACK) (tkInt 4) (tk Tok.T_RBRACK) [tk Tok.T_SEMI, tk Tok.T_EOF]
    rfl rfl rfl rfl

/-- Witness for C17: `typedef A = int32; typedef B = A;` from an empty table
gives the table `A`, `B`, both `int32`, and `B` then parses as `int32`. -/
theorem typedef_resolution_witness :
    typedef_statement (parserAt 0) (stateTd typedefToks []) =
      Except.ok (none, stateTd (typedefToks.drop 5) [⟨"A", int32, false, false⟩]) ∧
    typedef_statement (parserAt 0)
        (stateTd (typedefToks.drop 5) [⟨"A", int32, false, false⟩]) =
      Except.ok (none, stateTd [tk Tok.T_EOF]
        [⟨"A", int32, false, false⟩, ⟨"B", int32, false, false⟩]) ∧
    parsetype (parserAt 0)
        (stateTd [tkId "B", tk Tok.T_SEMI]
          [⟨"A", int32, false, false⟩, ⟨"B", int32, false, false⟩]) =
      Except.ok (int32, stateTd [tk Tok.T_SEMI]
        [⟨"A", int32, false, false⟩, ⟨"B", int32, false, false⟩]) :=
  have h := typedef_resolution (parserAt 0) (parserAt 0) (stateTd typedefToks [])
    (stateTd (typedefToks.drop 4) []) int32
    (tk Tok.T_TYPEDEF) (tkId "A") (tk Tok.T_EQ) (tk Tok.T_SEMI) (tk Tok.T_TYPEDEF) (tkId "B")
    (tk Tok.T_EQ) (tkId "A") (tk Tok.T_SEMI) [tk Tok.T_INT32, tk Tok.T_SEMI,
      tk Tok.T_TYPEDEF, tkId "B", tk Tok.T_EQ, tkId "A", tk Tok.T_SEMI, tk Tok.T_EOF]
    [tk Tok.T_EOF] rfl rfl rfl rfl rfl rfl rfl rfl rfl rfl rfl rfl rfl rfl rfl
  ⟨h.1, h.2.1, h.2.2 (parserAt 0) _ rfl rfl (Or.inr rfl)⟩

/-- Witness for C19: with slots 0 and 2 busy, `regalloc` returns 1, and
`regfree 1` restores the pool. -/
theorem regalloc_regfree_spec_witness :
    regalloc ⟨[true, false, true, false], 0, []⟩ =
      Except.ok ((1 : Int), ⟨[true, true, true, false], 0, []⟩) ∧
    regfree (1 : Int) ⟨[true, true, true, false], 0, []⟩ =
      Except.ok ⟨[true, false, true, false], 0, []⟩ :=
  (regalloc_regfree_spec true false true false 0 []).2.1 1 (by decide) rfl (by decide)

/-! ### Function emission -/

@[simp] theorem frameR_ok (pre : List String) (r : Int) (g : GenState) :
    frameR pre (Except.ok (r, g)) = Except.ok (r, prependOut pre g) := rfl
@[simp] theorem frameR_error (pre : List String) (e : GenErr) :
    frameR pre (Except.error e) = Except.error e := rfl
@[simp] theorem frameS_ok (pre : List String) (g : GenState) :
    frameS pre (Except.ok g) = Except.ok (prependOut pre g) := rfl
@[simp] theorem frameS_error (pre : List String) (e : GenErr) :
    frameS pre (Except.error e) = Except.error e := rfl

@[simp] theorem emit_prepend (pre : List String) (t : String) (g : GenState) :
    emit t (prependOut pre g) = prependOut pre (emit t g) := by
  simp [emit, prependOut]

@[simp] theorem prependOut_reglist (pre : List String) (g : GenState) :
    (prependOut pre g).reglist = g.reglist := rfl
@[simp] theorem prependOut_labels (pre : List String) (g : GenState) :
    (prependOut pre g).labels = g.labels := rfl

theorem regalloc_frame (pre : List String) (g : GenState) :
    regalloc (prependOut pre g) = frameR pre (regalloc g) := by
  unfold regalloc
  simp only [prependOut_reglist]
  cases regalloc_from 0 (List.take REGCNT g.reglist) <;> simp [prependOut]

theorem regfree_frame (pre : List String) (r : Int) (g : GenState) :
    regfree r (prependOut pre g) = frameS pre (regfree r g) := by
  unfold regfree
  split <;> simp [prependOut]

theorem DISCARD_frame (pre : List String) (r : Int) (g : GenState) :
    DISCARD r (prependOut pre g) = frameS pre (DISCARD r g) := by
  unfold DISCARD
  split <;> simp [regfree_frame]

theorem gen_label_frame (pre : List String) (g : GenState) :
    gen_label (prependOut pre g) = ((gen_label g).1, prependOut pre (gen_label g).2) := by
  simp [gen_label, prependOut]

@[simp] theorem frameR_bind {α : Type} (pre : List String) (x : Except GenErr α)
    (f : α → Except GenErr (Int × GenState)) :
    frameR pre (x >>= f) = x >>= fun v => frameR pre (f v) := by
  cases x <;> rfl

@[simp] theorem frameS_bind {α : Type} (pre : List String) (x : Except GenErr α)
    (f : α → Except GenErr GenState) :
    frameS pre (x >>= f) = x >>= fun v => frameS pre (f v) := by
  cases x <;> rfl

@[simp] theorem bind_frameR {β : Type} (pre : List String) (x : Except GenErr (Int × GenState))
    (f : Int × GenState → Except GenErr β) :
    (frameR pre x >>= f) = x >>= fun v => f (v.1, prependOut pre v.2) := by
  cases x <;> rfl

@[simp] theorem bind_frameS {β : Type} (pre : List String) (x : Except GenErr GenState)
    (f : GenState → Except GenErr β) :
    (frameS pre x >>= f) = x >>= fun v => f (prependOut pre v) := by
  cases x <;> rfl

theorem gen_intlit_frame (pre : List String) (n : Nat) (g : GenState) :
    gen_intlit n (prependOut pre g) = frameR pre (gen_intlit n g) := by
  simp [gen_intlit, regalloc_frame]

theorem gen_ident_frame (pre : List String) (n : String) (g : GenState) :
    gen_ident n (prependOut pre g) = frameR pre (gen_ident n g) := by
  simp [gen_ident, regalloc_frame]

theorem add_string_frame (pre : List String) (str : String) (g : GenState) :
    add_string str (prependOut pre g) =
      ((add_string str g).1, prependOut pre (add_string str g).2) := by
  simp [add_string, gen_label_frame]

theorem gen_strlit_frame (pre : List String) (str : String) (g : GenState) :
    gen_strlit str (prependOut pre g) = frameR pre (gen_strlit str g) := by
  simp [gen_strlit, regalloc_frame, add_string_frame]

theorem gen_sizeof_frame (pre : List String) (t : CType) (g : GenState) :
    gen_sizeof t (prependOut pre g) = frameR pre (gen_sizeof t g) := by
  simp only [gen_sizeof, regalloc_frame]
  cases asm_sizeof t <;> simp

theorem gen_vardef_frame (lookup : String → Option sym) (pre : List String)
    (name : Option String) (g : GenState) :
    gen_vardef lookup name (prependOut pre g) = frameS pre (gen_vardef lookup name g) := by
  unfold gen_vardef
  cases name with
  | none => rfl
  | some n =>
    simp only
    cases lookup n with
    | none => rfl
    | some y =>
      simp only
      cases asm_sizeof y.type <;> simp

theorem gen_addrof_frame (pre : List String) (val : Ast) (g : GenState) :
    gen_addrof val (prependOut pre g) = frameR pre (gen_addrof val g) := by
  simp only [gen_addrof, regalloc_frame]
  cases val.u <;> simp

theorem gen_deref_frame (pre : List String) (lv : Bool) (r1 : Int) (g : GenState) :
    gen_deref lv r1 (prependOut pre g) = frameR pre (gen_deref lv r1 g) := by
  unfold gen_deref
  cases lv <;> simp [regalloc_frame, regfree_frame]

theorem gen_call_frame (pre : List String) (name : Option String) (g : GenState) :
    gen_call name (prependOut pre g) = frameR pre (gen_call name g) := by
  simp [gen_call, regalloc_frame]

theorem gen_call_param_frame (pre : List String) (i : Nat) (par : Int) (g : GenState) :
    gen_call_param i par (prependOut pre g) = frameS pre (gen_call_param i par g) := by
  unfold gen_call_param
  cases paramregs i <;> simp [regfree_frame]

theorem gen_test_frame (pre : List String) (r : Int) (lbl : Nat) (g : GenState) :
    gen_test r lbl (prependOut pre g) = frameS pre (gen_test r lbl g) := by
  simp [gen_test, regfree_frame]

theorem gen_binop_frame (pre : List String) (op : Op) (lhs : Ast) (r1 r2 : Int)
    (g : GenState) :
    gen_binop op lhs r1 r2 (prependOut pre g) = frameR pre (gen_binop op lhs r1 r2 g) := by
  unfold gen_binop
  cases op <;> simp [regalloc_frame, regfree_frame]
  split <;> simp

theorem gen_code_eq (lookup : String → Option sym) (vt : CType) (lvalue : Bool) (u : Node)
    (g : GenState) :
    gen_code lookup (Ast.mk vt lvalue u) g =
    (
    match u with
    | Node.binop op lhs rhs => do
      let (r1, g) ← gen_code lookup lhs g
      let (r2, g) ← gen_code lookup rhs g
      gen_binop op lhs r1 r2 g
    | Node.unary op val =>
      match op with
      | Op.OP_ADDROF => gen_addrof val g
      | Op.OP_DEREF => do
        let (r1, g) ← gen_code lookup val g
        gen_deref lvalue r1 g
      | _ => pure (NOREG, g)
    | Node.intlit ival => gen_intlit ival g
    | Node.call name _ params => do
      let g ← gen_call_params lookup params 0 g
      gen_call name g
    | Node.ident name => gen_ident name g
    | Node.strlit str => gen_strlit str g
    | Node.sizeofop t => gen_sizeof t g
    | Node.vardef name => do
      let g ← gen_vardef lookup name g
      pure (NOREG, g)
    | Node.funcdef name block => do
      let g := emit ("\t.global " ++ name ++ "\n") g
      let g := emit (name ++ ":\n") g
      let g ← gen_block lookup block g
      pure (NOREG, emit "\tret\n" g)
    | Node.inasm code => pure (NOREG, emit code g)
    | Node.block _ statements => do
      let g ← gen_statements lookup statements g
      pure (NOREG, g)
    | Node.ret _ val => do
      let g ← match val with
        | some val => do
          let (r, g) ← gen_code lookup val g
          let g := emit ("\tmov\t" ++ (← reg r) ++ ", %rax\n") g
          regfree r g
        | none => pure g
      pure (NOREG, emit "\tret\n" g)
    | Node.ifelse cond ifblock elseblock => do
      let (r, g) ← gen_code lookup cond g
      match elseblock with
      | some elseblock =>
        let (elselbl, g) := gen_label g
        let (endlbl, g) := gen_label g
        let g ← gen_test r elselbl g
        let (d, g) ← gen_code lookup ifblock g
        let g ← DISCARD d g
        let g := emit ("\tjmp\tL" ++ toString endlbl ++ "\n") g
        let g := emit ("L" ++ toString elselbl ++ ":\n") g
        let (d, g) ← gen_code lookup elseblock g
        let g ← DISCARD d g
        pure (NOREG, emit ("L" ++ toString endlbl ++ ":\n") g)
      | none =>
        let (endlbl, g) := gen_label g
        let g ← gen_test r endlbl g
        let (d, g) ← gen_code lookup ifblock g
        let g ← DISCARD d g
        pure (NOREG, emit ("L" ++ toString endlbl ++ ":\n") g)
    | Node.whileloop cond body => do
      let (looplbl, g) := gen_label g
      let (endlbl, g) := gen_label g
      let g := emit ("L" ++ toString looplbl ++ ":\n") g
      let (r, g) ← gen_code lookup cond g
      let g ← gen_test r endlbl g
      let (d, g) ← gen_code lookup body g
      let g ← DISCARD d g
      let g := emit ("\tjmp\tL" ++ toString looplbl ++ "\n") g
      pure (NOREG, emit ("L" ++ toString endlbl ++ ":\n") g)
    | Node.forloop init cond update body => do
      let (looplbl, g) := gen_label g
      let (endlbl, g) := gen_label g
      let g ← match init with
        | some init => do
          let (d, g) ← gen_code lookup init g
          DISCARD d g
        | none => Except.error (GenErr.undefined "gen_code: ast is null")
      let g := emit ("L" ++ toString looplbl ++ ":\n") g
      let (r, g) ← gen_code lookup cond g
      let g ← gen_test r endlbl g
      let (d, g) ← gen_code lookup body g
      let g ← DISCARD d g
      let g ← match update with
        | some update => do
          let (d, g) ← gen_code lookup update g
          DISCARD d g
        | none => Except.error (GenErr.undefined "gen_code: ast is null")
      let g := emit ("\tjmp\tL" ++ toString looplbl ++ "\n") g
      pure (NOREG, emit ("L" ++ toString endlbl ++ ":\n") g)
    | _ => pure (NOREG, g)) := by
  cases u with
  | ret f val => cases val <;> rfl
  | forloop init cond update body => cases init <;> cases update <;> rfl
  | ifelse cond ifblock elseblock => cases elseblock <;> rfl
  | _ => rfl

theorem gen_block_eq (lookup : String → Option sym) (vt : CType) (lvalue : Bool) (u : Node)
    (g : GenState) :
    gen_block lookup (Ast.mk vt lvalue u) g =
    (match u with
    | Node.block _ statements => gen_statements lookup statements g
    | _ => Except.error (GenErr.undefined "gen_block: node read as block")) := by
  cases u <;> rfl

theorem gen_statements_cons (lookup : String → Option sym) (st : Ast) (rest : List Ast)
    (g : GenState) :
    gen_statements lookup (st :: rest) g =
      (gen_code lookup st g >>= fun v => DISCARD v.1 v.2 >>= fun g2 =>
        gen_statements lookup rest g2) := rfl

theorem gen_call_params_cons (lookup : String → Option sym) (p : Ast) (rest : List Ast)
    (i : Nat) (g : GenState) :
    gen_call_params lookup (p :: rest) i g =
      (gen_code lookup p g >>= fun v => gen_call_param i v.1 v.2 >>= fun g2 =>
        gen_call_params lookup rest (i + 1) g2) := rfl

mutual
theorem gen_code_frame (lookup : String → Option sym) (pre : List String) :
    ∀ (a : Ast) (g : GenState),
      gen_code lookup a (prependOut pre g) = frameR pre (gen_code lookup a g)
  | Ast.mk vt lv (Node.binop op lhs rhs), g => by
    simp [gen_code_eq, gen_code_frame lookup pre lhs, gen_code_frame lookup pre rhs,
      gen_binop_frame]
  | Ast.mk vt lv (Node.unary op val), g => by
    cases op <;>
    simp [gen_code_eq, gen_code_frame lookup pre val, gen_addrof_frame, gen_deref_frame]
  | Ast.mk vt lv (Node.intlit ival), g => by simp [gen_code_eq, gen_intlit_frame]
  | Ast.mk vt lv (Node.call name n params), g => by
    simp [gen_code_eq, gen_call_params_frame lookup pre params, gen_call_frame]
  | Ast.mk vt lv (Node.ident name), g => by simp [gen_code_eq, gen_ident_frame]
  | Ast.mk vt lv (Node.strlit str), g => by simp [gen_code_eq, gen_strlit_frame]
  | Ast.mk vt lv (Node.sizeofop t), g => by simp [gen_code_eq, gen_sizeof_frame]
  | Ast.mk vt lv (Node.vardef name), g => by simp [gen_code_eq, gen_vardef_frame]
  | Ast.mk vt lv (Node.funcdef name block), g => by
    simp [gen_code_eq, gen_block_frame lookup pre block]
  | Ast.mk vt lv (Node.inasm code), g => by simp [gen_code_eq]
  | Ast.mk vt lv (Node.block n statements), g => by
    simp [gen_code_eq, gen_statements_frame lookup pre statements]
  | Ast.mk vt lv (Node.ret f none), g => by simp [gen_code_eq]
  | Ast.mk vt lv (Node.ret f (some val)), g => by
    simp [gen_code_eq, gen_code_frame lookup pre val, regfree_frame]
  | Ast.mk vt lv (Node.ifelse cond ifblock none), g => by
    simp [gen_code_eq, gen_code_frame lookup pre cond, gen_code_frame lookup pre ifblock,
      gen_test_frame, DISCARD_frame, gen_label_frame]
  | Ast.mk vt lv (Node.ifelse cond ifblock (some eb)), g => by
    simp [gen_code_eq, gen_code_frame lookup pre cond, gen_code_frame lookup pre ifblock,
      gen_code_frame lookup pre eb, gen_test_frame, DISCARD_frame, gen_label_frame]
  | Ast.mk vt lv (Node.whileloop cond body), g => by
    simp [gen_code_eq, gen_code_frame lookup pre cond, gen_code_frame lookup pre body,
      gen_test_frame, DISCARD_frame, gen_label_frame]
  | Ast.mk vt lv (Node.forloop none cond update body), g => by
    simp [gen_code_eq]
  | Ast.mk vt lv (Node.forloop (some init) cond none body), g => by
    simp [gen_code_eq, gen_code_frame lookup pre cond, gen_code_frame lookup pre body,
      gen_code_frame lookup pre init, gen_test_frame, DISCARD_frame, gen_label_frame]
  | Ast.mk vt lv (Node.forloop (some init) cond (some update) body), g => by
    simp [gen_code_eq, gen_code_frame lookup pre cond, gen_code_frame lookup pre body,
      gen_code_frame lookup pre init, gen_code_frame lookup pre update,
      gen_test_frame, DISCARD_frame, gen_label_frame]
  | Ast.mk vt lv (Node.cast t val), g => by simp [gen_code_eq]
  | Ast.mk vt lv (Node.label name), g => by simp [gen_code_eq]
  | Ast.mk vt lv (Node.gotolbl name), g => by simp [gen_code_eq]
theorem gen_block_frame (lookup : String → Option sym) (pre : List String) :
    ∀ (a : Ast) (g : GenState),
      gen_block lookup a (prependOut pre g) = frameS pre (gen_block lookup a g)
  | Ast.mk vt lv (Node.block n statements), g => by
    simp [gen_block_eq, gen_statements_frame lookup pre statements]
  | Ast.mk vt lv (Node.binop ..), g | Ast.mk vt lv (Node.unary ..), g
  | Ast.mk vt lv (Node.intlit ..), g | Ast.mk vt lv (Node.call ..), g
  | Ast.mk vt lv (Node.ident ..), g | Ast.mk vt lv (Node.strlit ..), g
  | Ast.mk vt lv (Node.sizeofop ..), g | Ast.mk vt lv (Node.vardef ..), g
  | Ast.mk vt lv (Node.funcdef ..), g | Ast.mk vt lv (Node.inasm ..), g
  | Ast.mk vt lv (Node.ret ..), g | Ast.mk vt lv (Node.ifelse ..), g
  | Ast.mk vt lv (Node.whileloop ..), g | Ast.mk vt lv (Node.forloop ..), g
  | Ast.mk vt lv (Node.cast ..), g | Ast.mk vt lv (Node.label ..), g
  | Ast.mk vt lv (Node.gotolbl ..), g => by simp [gen_block_eq]
theorem gen_statements_frame (lookup : String → Option sym) (pre : List String) :
    ∀ (l : List Ast) (g : GenState),
      gen_statements lookup l (prependOut pre g) = frameS pre (gen_statements lookup l g)
  | [], g => rfl
  | st :: rest, g => by
    simp [gen_statements_cons, gen_code_frame lookup pre st, DISCARD_frame,
      gen_statements_frame lookup pre rest]
theorem gen_call_params_frame (lookup : String → Option sym) (pre : List String) :
    ∀ (l : List Ast) (i : Nat) (g : GenState),
      gen_call_params lookup l i (prependOut pre g) = frameS pre (gen_call_params lookup l i g)
  | [], i, g => rfl
  | p :: rest, i, g => by
    simp [gen_call_params_cons, gen_code_frame lookup pre p, gen_call_param_frame,
      gen_call_params_frame lookup pre rest]
end

/-- C20: for every function definition node named `N`, whatever was written
before, the generator writes `\t.global N\n`, then `N:\n`, then exactly what
its body block writes when generated on its own from the same register pool
and label counter, then `\tret\n`; it fails exactly when the body block does,
and leaves the pool and the counter as the body block leaves them.  For
`fn public main() -> int32 { return 0; }` the parser returns the tree
`mainAst`, and generating it from a pool with all registers free writes
exactly the six lines `.global main`, `main:`, `mov $0, %r8`,
`mov %r8, %rax`, `ret`, `ret` and leaves all registers free. -/
theorem funcdef_emission (lookup : String → Option sym) (vt : CType) (lv : Bool)
    (N : String) (block : Ast) (g : GenState) :
    gen_code lookup (Ast.mk vt lv (Node.funcdef N block)) g =
      (gen_block lookup block { g with out := [] }).map (fun b =>
        (NOREG, { b with out :=
          g.out ++ ["\t.global " ++ N ++ "\n", N ++ ":\n"] ++ b.out ++ ["\tret\n"] })) ∧
    (∀ k : Nat, parse (k + 5) mainToks = Except.ok mainAst) ∧
    (∀ labels : Nat,
      gen_code lookup mainAst ⟨[false, false, false, false], labels, []⟩ =
        Except.ok (NOREG, ⟨[false, false, false, false], labels,
          ["\t.global main\n", "main:\n", "\tmov\t$0, %r8\n", "\tmov\t%r8, %rax\n",
           "\tret\n", "\tret\n"]⟩)) ∧
    gen_ast lookup mainAst =
      Except.ok ["\t.global main\n", "main:\n", "\tmov\t$0, %r8\n", "\tmov\t%r8, %rax\n",
        "\tret\n", "\tret\n"] := by
  refine ⟨?_, fun _ => rfl, fun _ => rfl, rfl⟩
  have hg : emit (N ++ ":\n") (emit ("\t.global " ++ N ++ "\n") g) =
      prependOut (g.out ++ ["\t.global " ++ N ++ "\n", N ++ ":\n"]) { g with out := [] } := by
    simp [emit, prependOut]
  rw [gen_code_eq]
  simp only [hg, gen_block_frame]
  cases gen_block lookup block { g with out := [] } <;>
    simp [frameS, prependOut, emit, Except.map, bind, Except.bind, pure, Except.pure]

/-! ### Conditionals -/

theorem prependOut_fresh (g : GenState) : prependOut g.out { g with out := [] } = g := by
  simp [prependOut]

/-- Generation from a state is generation from the same pool and label
counter with nothing written, with the text written before put in front. -/
theorem gen_code_fresh (lookup : String → Option sym) (a : Ast) (g : GenState) :
    gen_code lookup a g = frameR g.out (gen_code lookup a { g with out := [] }) := by
  rw [← gen_code_frame, prependOut_fresh]

theorem regs64_range {r : Int} {x : String} (h : regs64 r = some x) :
    0 ≤ r ∧ r < (REGCNT : Int) := by
  unfold regs64 at h
  unfold REGCNT
  split_ifs at h <;> omega

theorem regfree_ok {r : Int} {x : String} (h : regs64 r = some x) (g : GenState) :
    regfree r g = Except.ok { g with reglist := g.reglist.set r.toNat false } := by
  have := regs64_range h
  simp [regfree, this, pure, Except.pure]

theorem reg_ok {r : Int} {x : String} (h : regs64 r = some x) : reg r = Except.ok x := by
  simp [reg, h, pure, Except.pure]

theorem gen_test_ok {r : Int} {x : String} (h : regs64 r = some x) (lbl : Nat) (g : GenState) :
    gen_test r lbl g = Except.ok ⟨g.reglist.set r.toNat false, g.labels,
      g.out ++ ["\tmov\t$1, %rax\n", "\tcmp\t" ++ x ++ ", %rax\n",
        "\tjne\tL" ++ toString lbl ++ "\n"]⟩ := by
  simp [gen_test, reg_ok h, regfree_ok h, emit, bind, Except.bind]

theorem DISCARD_out {d : Int} {a a' : GenState} (h : DISCARD d a = Except.ok a') :
    a'.out = a.out ∧ a'.labels = a.labels := by
  unfold DISCARD regfree at h
  split_ifs at h <;> simp [pure, Except.pure] at h <;> subst h <;> simp

theorem gen_code_run {lookup : String → Option sym} {a : Ast} {rl : List Bool} {lb : Nat}
    {d : Int} {x : GenState} (h : gen_code lookup a ⟨rl, lb, []⟩ = Except.ok (d, x))
    (o : List String) :
    gen_code lookup a ⟨rl, lb, o⟩ = Except.ok (d, ⟨x.reglist, x.labels, o ++ x.out⟩) := by
  rw [gen_code_fresh]
  simp only [h]
  rfl

theorem DISCARD_run {d : Int} {a a' : GenState} (h : DISCARD d a = Except.ok a')
    (o : List String) :
    DISCARD d ⟨a.reglist, a.labels, o ++ a.out⟩ =
      Except.ok ⟨a'.reglist, a'.labels, o ++ a'.out⟩ := by
  have := DISCARD_frame o d a
  rw [h] at this
  exact this

/-- C21: the text written for an if-else node.  `c` is the state after the
condition alone is generated from the pool and label counter at hand, so
`c.out` is its text `C`, `r` its register and `c.labels` the first label
number drawn after it.  With an else-block the labels are `e = c.labels`
and `d = e + 1`, and what is written after the text at hand is `C`,
`mov $1, %rax`, `cmp r, %rax`, `jne L<e>`, `A`, `jmp L<d>`, `L<e>:`, `B`,
`L<d>:`; without else-block one label `d = c.labels` is drawn and the text is
`C`, `mov $1, %rax`, `cmp r, %rax`, `jne L<d>`, `A`, `L<d>:`.  `A` is the text
of the then-block generated from the pool of `c` with the slot of `r` free
again, and `B` that of the else-block generated after it; the result is
`NOREG`. -/
theorem gen_ifelse_shape (lookup : String → Option sym) (vt : CType) (lv : Bool)
    (cond ifblock : Ast) (g c : GenState) (r : Int) (rname : String)
    (hc : gen_code lookup cond { g with out := [] } = Except.ok (r, c))
    (hr : regs64 r = some rname) :
    (∀ (elseblock : Ast) (dA dB : Int) (a a' b b' : GenState),
      gen_code lookup ifblock ⟨c.reglist.set r.toNat false, c.labels + 2, []⟩ =
        Except.ok (dA, a) →
      DISCARD dA a = Except.ok a' →
      gen_code lookup elseblock ⟨a'.reglist, a'.labels, []⟩ = Except.ok (dB, b) →
      DISCARD dB b = Except.ok b' →
      gen_code lookup (Ast.mk vt lv (Node.ifelse cond ifblock (some elseblock))) g =
        Except.ok (NOREG, ⟨b'.reglist, b'.labels,
          g.out ++ c.out ++
          ["\tmov\t$1, %rax\n", "\tcmp\t" ++ rname ++ ", %rax\n",
            "\tjne\tL" ++ toString c.labels ++ "\n"] ++
          a.out ++
          ["\tjmp\tL" ++ toString (c.labels + 1) ++ "\n", "L" ++ toString c.labels ++ ":\n"] ++
          b.out ++ ["L" ++ toString (c.labels + 1) ++ ":\n"]⟩)) ∧
    (∀ (dA : Int) (a a' : GenState),
      gen_code lookup ifblock ⟨c.reglist.set r.toNat false, c.labels + 1, []⟩ =
        Except.ok (dA, a) →
      DISCARD dA a = Except.ok a' →
      gen_code lookup (Ast.mk vt lv (Node.ifelse cond ifblock none)) g =
        Except.ok (NOREG, ⟨a'.reglist, a'.labels,
          g.out ++ c.out ++
          ["\tmov\t$1, %rax\n", "\tcmp\t" ++ rname ++ ", %rax\n",
            "\tjne\tL" ++ toString c.labels ++ "\n"] ++
          a.out ++ ["L" ++ toString c.labels ++ ":\n"]⟩)) := by
  have hc' : gen_code lookup cond g = Except.ok (r, prependOut g.out c) := by
    rw [gen_code_fresh, hc]; rfl
  constructor
  · intro elseblock dA dB a a' b b' hA hdA hB hdB
    obtain ⟨ha1, ha2⟩ := DISCARD_out hdA
    obtain ⟨hb1, hb2⟩ := DISCARD_out hdB
    have hA' : gen_code lookup ifblock ⟨c.reglist.set r.toNat false, c.labels + 1 + 1, []⟩ =
        Except.ok (dA, a) := hA
    rw [gen_code_eq]
    simp only [hc', bind, Except.bind, gen_label, prependOut, gen_test_ok hr,
      gen_code_run hA', DISCARD_run hdA, emit, gen_code_run hB, DISCARD_run hdB, pure,
      Except.pure, ha1, hb1]
    simp
  · intro dA a a' hA hdA
    obtain ⟨ha1, ha2⟩ := DISCARD_out hdA
    rw [gen_code_eq]
    simp only [hc', bind, Except.bind, gen_label, prependOut, gen_test_ok hr,
      gen_code_run hA, DISCARD_run hdA, emit, pure, Except.pure, ha1]

/-- Witness for C21: `if (1) { } else { }` from the start state writes the
literal into `%r8`, the three test lines with `jne L0`, `jmp L1`, `L0:` and
`L1:`, and leaves all registers free. -/
theorem gen_ifelse_shape_witness :
    gen_code (fun _ => none)
        (mkast (Node.ifelse (Ast.mk uint32 false (Node.intlit 1))
          (mkast (Node.block ⟨SymtabType.SYMTAB_BLOCK, []⟩ []))
          (some (mkast (Node.block ⟨SymtabType.SYMTAB_BLOCK, []⟩ []))))) GenState.init =
      Except.ok (NOREG, ⟨[false, false, false, false], 2,
        ["\tmov\t$1, %r8\n", "\tmov\t$1, %rax\n", "\tcmp\t%r8, %rax\n", "\tjne\tL0\n",
         "\tjmp\tL1\n", "L0:\n", "L1:\n"]⟩) :=
  (gen_ifelse_shape (fun _ => none) CType.zero false (Ast.mk uint32 false (Node.intlit 1))
    (mkast (Node.block ⟨SymtabType.SYMTAB_BLOCK, []⟩ [])) GenState.init
    ⟨[true, false, false, false], 0, ["\tmov\t$1, %r8\n"]⟩ 0 "%r8" rfl rfl).1
    (mkast (Node.block ⟨SymtabType.SYMTAB_BLOCK, []⟩ [])) NOREG NOREG
    ⟨[false, false, false, false], 2, []⟩ ⟨[false, false, false, false], 2, []⟩
    ⟨[false, false, false, false], 2, []⟩ ⟨[false, false, false, false], 2, []⟩
    rfl rfl rfl rfl

/-! ### Constructs without code -/

/-- C30: for every cast, label and goto node `gen_code` returns `NOREG` and
leaves the state as it was, nothing written; so it does for every unary
`!` and unary `-` node, whose operand is not generated.  For the binary
operators `/`, `&&` and `||`, after the two operands are generated into `r1`
and `r2`, nothing more is written: `r1` is freed and `r2` returned. -/
theorem ungenerated_constructs (lookup : String → Option sym) (vt : CType) (lv : Bool)
    (g : GenState) :
    (∀ (t : CType) (val : Ast),
      gen_code lookup (Ast.mk vt lv (Node.cast t val)) g = Except.ok (NOREG, g)) ∧
    (∀ name : String,
      gen_code lookup (Ast.mk vt lv (Node.label name)) g = Except.ok (NOREG, g)) ∧
    (∀ name : String,
      gen_code lookup (Ast.mk vt lv (Node.gotolbl name)) g = Except.ok (NOREG, g)) ∧
    (∀ val : Ast,
      gen_code lookup (Ast.mk vt lv (Node.unary Op.OP_NOT val)) g = Except.ok (NOREG, g)) ∧
    (∀ val : Ast,
      gen_code lookup (Ast.mk vt lv (Node.unary Op.OP_MINUS val)) g = Except.ok (NOREG, g)) ∧
    (∀ (op : Op) (lhs rhs : Ast) (r1 r2 : Int) (g1 g2 : GenState),
      op = Op.OP_DIV ∨ op = Op.OP_LAND ∨ op = Op.OP_LOR →
      gen_code lookup lhs g = Except.ok (r1, g1) →
      gen_code lookup rhs g1 = Except.ok (r2, g2) →
      gen_code lookup (Ast.mk vt lv (Node.binop op lhs rhs)) g =
        (regfree r1 g2).map (fun g3 => (r2, g3)) ∧
      ∀ x : String, regs64 r1 = some x →
        gen_code lookup (Ast.mk vt lv (Node.binop op lhs rhs)) g =
          Except.ok (r2, { g2 with reglist := g2.reglist.set r1.toNat false })) := by
  refine ⟨fun _ _ => rfl, fun _ => rfl, fun _ => rfl, fun _ => rfl, fun _ => rfl, ?_⟩
  intro op lhs rhs r1 r2 g1 g2 hop hl hr
  have h : gen_code lookup (Ast.mk vt lv (Node.binop op lhs rhs)) g =
      (regfree r1 g2).map (fun g3 => (r2, g3)) := by
    rw [gen_code_eq]
    simp only [hl, hr, bind, Except.bind]
    rcases hop with rfl | rfl | rfl <;>
      (simp only [gen_binop, bind, Except.bind]; cases regfree r1 g2 <;> rfl)
  refine ⟨h, fun x hx => ?_⟩
  rw [h, regfree_ok hx]
  rfl

/-! ### Dereference as left operand -/

/-- A dereference node marked as lvalue generates the code of its operand
and nothing else. -/
theorem gen_code_deref_lvalue (lookup : String → Option sym) (t : CType) (p : Ast)
    (g : GenState) :
    gen_code lookup (Ast.mk t true (Node.unary Op.OP_DEREF p)) g = gen_code lookup p g := by
  rw [gen_code_eq]
  simp only [gen_deref, bind, Except.bind, if_true, pure, Except.pure]
  cases gen_code lookup p g <;> rfl

/-- C27: a dereference as left operand of a binary operator.  Parsing
`*p op e`, for every table operator `op`, gives the tree `op(*p, e)` in which
the dereference node carries `lvalue = 1` and the right operand `lvalue = 0`,
so a dereference that is the right operand is not an lvalue.  For the
dereference node with `lvalue = 1` the generator writes exactly the code of
`p` and returns the register of `p`, without a load; with `lvalue = 0` it
writes the code of its operand and then the load `mov (r1), r2`.  The
instruction of the operator is then applied to the register `r1` that holds
the value of `p`: `add r1, r2`, `sub r1, r2`, `imul r1, r2`, and for `=`
the store `mov r2, (r1)`. -/
theorem deref_left_operand (r : Rec) (s s1 s2 : PState) (t : CType) (lv : Bool)
    (p rhs : Ast) (op : Op)
    (hfuel : r.fuel ≠ 0)
    (hpre : pre r s = Except.ok (Ast.mk t lv (Node.unary Op.OP_DEREF p), s1))
    (hop : operator (curr s1).type = some op)
    (hrhs : r.binexpr (opprec op) (next s1) = Except.ok (rhs, s2))
    (hcompat : type_compatible t rhs.vtype = true)
    (hterm : termin s2 = true) :
    binexpr r 0 s =
      Except.ok (Ast.mk t false
        (Node.binop op (Ast.mk t true (Node.unary Op.OP_DEREF p)) (rhs.setLvalue false)), s2) ∧
    (∀ (t' : CType) (lv' : Bool) (q : Ast),
      rhs = Ast.mk t' lv' (Node.unary Op.OP_DEREF q) →
      rhs.setLvalue false = Ast.mk t' false (Node.unary Op.OP_DEREF q)) ∧
    (∀ (lookup : String → Option sym) (g : GenState),
      gen_code lookup (Ast.mk t true (Node.unary Op.OP_DEREF p)) g = gen_code lookup p g) ∧
    (∀ (lookup : String → Option sym) (t' : CType) (q : Ast) (g g1 g2 : GenState)
        (r1 r2 : Int) (x1 x2 : String),
      gen_code lookup q g = Except.ok (r1, g1) → regalloc g1 = Except.ok (r2, g2) →
      regs64 r1 = some x1 → regs64 r2 = some x2 →
      gen_code lookup (Ast.mk t' false (Node.unary Op.OP_DEREF q)) g =
        Except.ok (r2, ⟨g2.reglist.set r1.toNat false, g2.labels,
          g2.out ++ ["\tmov\t(" ++ x1 ++ "), " ++ x2 ++ "\n"]⟩)) ∧
    (∀ (lookup : String → Option sym) (e : Ast) (g g1 g2 : GenState) (r1 r2 : Int),
      gen_code lookup p g = Except.ok (r1, g1) → gen_code lookup e g1 = Except.ok (r2, g2) →
      gen_code lookup
          (Ast.mk t false (Node.binop op (Ast.mk t true (Node.unary Op.OP_DEREF p)) e)) g =
        gen_binop op (Ast.mk t true (Node.unary Op.OP_DEREF p)) r1 r2 g2 ∧
      ∀ x1 x2 : String, regs64 r1 = some x1 → regs64 r2 = some x2 →
        (op = Op.OP_PLUS →
          gen_binop op (Ast.mk t true (Node.unary Op.OP_DEREF p)) r1 r2 g2 =
            Except.ok (r2, ⟨g2.reglist.set r1.toNat false, g2.labels,
              g2.out ++ ["\tadd\t" ++ x1 ++ ", " ++ x2 ++ "\n"]⟩)) ∧
        (op = Op.OP_MINUS →
          gen_binop op (Ast.mk t true (Node.unary Op.OP_DEREF p)) r1 r2 g2 =
            Except.ok (r2, ⟨g2.reglist.set r1.toNat false, g2.labels,
              g2.out ++ ["\tsub\t" ++ x1 ++ ", " ++ x2 ++ "\n"]⟩)) ∧
        (op = Op.OP_MUL →
          gen_binop op (Ast.mk t true (Node.unary Op.OP_DEREF p)) r1 r2 g2 =
            Except.ok (r2, ⟨g2.reglist.set r1.toNat false, g2.labels,
              g2.out ++ ["\timul\t" ++ x1 ++ ", " ++ x2 ++ "\n"]⟩)) ∧
        (op = Op.OP_ASSIGN →
          gen_binop op (Ast.mk t true (Node.unary Op.OP_DEREF p)) r1 r2 g2 =
            Except.ok (r2, ⟨g2.reglist.set r1.toNat false, g2.labels,
              g2.out ++ ["\tmov\t" ++ x2 ++ ", (" ++ x1 ++ ")\n"]⟩))) := by
  refine ⟨?_, ?_, fun lookup g => gen_code_deref_lvalue lookup t p g, ?_, ?_⟩
  · obtain ⟨n, hn⟩ := Nat.exists_eq_succ_of_ne_zero hfuel
    have hcond : opprec op > 0 ∨ (rightassoc op = true ∧ opprec op = 0) :=
      Or.inl (table_prec hop)
    have hstep := binexpr_loop_step r 0 n (Ast.mk t lv (Node.unary Op.OP_DEREF p)) rhs op s1 s2
      hcond hrhs hcompat
    simp only [binexpr, hpre, ok_bind, operator_not_termin hop, hop, hn]
    simp only [Nat.succ_eq_add_one, hstep, hterm, if_true]
    rfl
  · rintro t' lv' q rfl
    rfl
  · intro lookup t' q g g1 g2 r1 r2 x1 x2 hq ha h1 h2
    rw [gen_code_eq]
    simp only [hq, bind, Except.bind, gen_deref, ha, reg_ok h1, reg_ok h2, regfree_ok h1, emit,
      pure, Except.pure]
    rfl
  · intro lookup e g g1 g2 r1 r2 hp he
    constructor
    · rw [gen_code_eq]
      simp only [gen_code_deref_lvalue, hp, he, bind, Except.bind]
    · intro x1 x2 h1 h2
      refine ⟨?_, ?_, ?_, ?_⟩ <;> rintro rfl <;>
        simp only [gen_binop, bind, Except.bind, reg_ok h1, reg_ok h2, regfree_ok h1, emit,
          pure, Except.pure, Ast.u]

/-- Witness for C27: `*p + 1;` with `p : int32*` parses to the sum whose left
operand is the dereference marked as lvalue, and the text generated loads
`p` and the literal and adds them, without a load through `p`. -/
theorem deref_left_operand_witness :
    binexpr (parserAt 2) 0 (stateOf derefAddToks [ptrSym]) =
      Except.ok (derefAddAst, stateOf [tk Tok.T_SEMI, tk Tok.T_EOF] [ptrSym]) ∧
    gen_ast (fun _ => none) derefAddAst =
      Except.ok ["\tmov\tp(%rip), %r8\n", "\tmov\t$1, %r9\n", "\tadd\t%r8, %r9\n"] :=
  ⟨(deref_left_operand (parserAt 2) (stateOf derefAddToks [ptrSym])
      (stateOf [tk Tok.T_PLUS, tkInt 1, tk Tok.T_SEMI, tk Tok.T_EOF] [ptrSym])
      (stateOf [tk Tok.T_SEMI, tk Tok.T_EOF] [ptrSym]) int32 false
      (Ast.mk (mktype TypeName.TYPE_INT32 0 1) false (Node.ident "p"))
      (Ast.mk uint32 false (Node.intlit 1)) Op.OP_PLUS
      (by decide) rfl rfl rfl rfl rfl).1, rfl⟩

/-! ### Parameters of a function declaration -/

theorem expect_currscope {t : Tok} {s s' : PState} (h : expect t s = Except.ok s') :
    s'.currscope = s.currscope := by
  by_cases hc : (curr s).type = t
  · rw [expect_ok hc] at h
    cases h
    rfl
  · rw [expect_error hc] at h
    cases h

theorem parsetype_array_currscope {t T : CType} {s s' : PState}
    (h : parsetype_array t s = Except.ok (T, s')) : s'.currscope = s.currscope := by
  unfold parsetype_array at h
  split_ifs at h with hc
  · by_cases h1 : (curr (next s)).type = Tok.T_INTLIT
    · by_cases h2 : (curr (next (next s))).type = Tok.T_RBRACK
      · simp [expect_ok h1, expect_ok h2] at h
        rw [← h.2]
        rfl
      · simp [expect_ok h1, expect_error h2] at h
    · simp [expect_error h1] at h
  · simp at h
    rw [← h.2]

theorem parsetype_params_currscope (r : Rec)
    (hr : ∀ s T s', r.parsetype s = Except.ok (T, s') → s'.currscope = s.currscope) :
    ∀ (n : Nat) (acc : List CType) (s : PState) (ps : List CType) (s' : PState),
      parsetype_params r n acc s = Except.ok (ps, s') → s'.currscope = s.currscope := by
  intro n
  induction n with
  | zero => intro acc s ps s' h; simp [parsetype_params] at h
  | succ n ih =>
    intro acc s ps s' h
    unfold parsetype_params at h
    split_ifs at h with hc
    · cases hp : r.parsetype s with
      | error e => simp [hp] at h
      | ok v =>
        obtain ⟨T, s1⟩ := v
        have e1 := hr s T s1 hp
        by_cases h1 : (curr s1).type = Tok.T_RPAREN
        · simp [hp, h1] at h
          rw [ih _ _ _ _ h, e1]
        · by_cases h2 : (curr s1).type = Tok.T_COMMA
          · simp [hp, h1, expect_ok h2] at h
            rw [ih _ _ _ _ h, ← e1]
            rfl
          · simp [hp, h1, expect_error h2] at h
    · simp at h
      rw [← h.2]

theorem parsetype_currscope (r : Rec)
    (hr : ∀ s T s', r.parsetype s = Except.ok (T, s') → s'.currscope = s.currscope)
    (s : PState) (T : CType) (s' : PState) (h : parsetype r s = Except.ok (T, s')) :
    s'.currscope = s.currscope := by
  have hprim : ∀ name, parsetype_prim name s = Except.ok (T, s') →
      s'.currscope = s.currscope := by
    intro name h
    unfold parsetype_prim at h
    exact parsetype_array_currscope (s := { s with toks := (starLoop s.toks 0).2 }) h
  unfold parsetype at h
  split at h
  any_goals exact hprim _ h
  · -- function type
    by_cases hl : (curr { s with toks := (starLoop s.toks 0).2 }).type = Tok.T_LPAREN
    · simp only [expect_ok hl, ok_bind] at h
      cases hps : parsetype_params r r.fuel [] (next { s with toks := (starLoop s.toks 0).2 }) with
      | error e => simp [hps] at h
      | ok v =>
        obtain ⟨ps, s2⟩ := v
        have e2 := parsetype_params_currscope r hr _ _ _ _ _ hps
        by_cases ha : (curr (next s2)).type = Tok.T_ARROW
        · cases hret : r.parsetype (next (next s2)) with
          | error e => simp [hps, ha, expect_ok ha, hret] at h
          | ok w =>
            obtain ⟨ret, s3⟩ := w
            simp [hps, ha, expect_ok ha, hret] at h
            rw [parsetype_array_currscope h, hr _ _ _ hret]
            exact e2
        · simp [hps, ha] at h
          rw [parsetype_array_currscope h]
          exact e2
    · simp [expect_error hl] at h
  · split at h
    · simp at h
      rw [← h.2]
      rfl
    · simp at h
  · simp at h

theorem parserAt_parsetype_currscope (f : Nat) :
    ∀ s T s', parsetype (parserAt f) s = Except.ok (T, s') → s'.currscope = s.currscope := by
  induction f with
  | zero =>
    intro s T s' h
    exact parsetype_currscope _ (fun s T s' h => by simp [parserAt, Rec.bot] at h) s T s' h
  | succ f ih =>
    intro s T s' h
    exact parsetype_currscope _ (fun s T s' h => ih s T s' h) s T s' h

theorem funcparams_currscope (f : Nat) (s s' : PState) (ps : List CType)
    (h : FuncParams (parserAt f) s ps s') : s'.currscope = s.currscope := by
  induction h with
  | done s hs => rfl
  | last s T s1 hs hc hp h1 => exact parserAt_parsetype_currscope f (next (next s)) T s1 hp
  | more s T s1 rest s' hs hc hp h1 _ ih =>
    rw [ih]
    exact parserAt_parsetype_currscope f (next (next s)) T s1 hp

theorem signature_currscope (f : Nat) (s0 s5 : PState) (pub ext : Bool) (name : String)
    (params : List CType) (ret : CType)
    (hsig : Signature (parserAt f) s0 pub ext name params ret s5) :
    s5.currscope = s0.currscope := by
  obtain ⟨s, s4, hattr, hname, rfl, hlp, hparams, hfuel, hret⟩ := hsig
  have e4 := funcparams_currscope f _ _ _ hparams
  have es : s.currscope = s0.currscope := by
    simp only [funcdecl_attrs] at hattr
    split_ifs at hattr <;> simp at hattr <;> rw [← hattr.2.2] <;> rfl
  split_ifs at hret with ha
  · rw [parserAt_parsetype_currscope f _ _ _ hret, ← es]
    exact e4
  · simp at hret
    rw [← hret.2, ← es]
    exact e4


theorem sym_lookup_putglob (y : sym) (x : String) (hx : (y.name == x) = false) :
    ∀ (sc sc' : List symtable), sym_putglob sc y = some sc' →
      sym_lookup sc' x = sym_lookup sc x := by
  intro sc
  induction sc with
  | nil => intro sc' h; simp [sym_putglob] at h
  | cons tab parent ih =>
    intro sc' h
    unfold sym_putglob at h
    split_ifs at h with hg
    · simp at h
      subst h
      simp [sym_lookup, List.find?_append, hx]
    · simp at h
      obtain ⟨rest, hrest, rfl⟩ := h
      simp [sym_lookup, ih rest hrest]


theorem funcdecl_params_skip (r : Rec) (n : Nat) (acc : List CType) (s s' : PState)
    (h1 : (curr s).type ≠ Tok.T_RPAREN) (h2 : (curr s').type ≠ Tok.T_RPAREN)
    (h : next s = next s') :
    funcdecl_params r (n + 1) acc s = funcdecl_params r (n + 1) acc s' := by
  simp only [funcdecl_params, h1, h2, h, ne_eq, not_false_eq_true, if_true]

/-- C28: `funcdecl` on `fn f(p1: T1, ..., pn: Tn) [-> T] {`, with `s0` the
state after `fn` and `s5` the state after the signature.  Reading the
signature leaves the scope chain as it was; the one symbol entered is `f`,
with the parameter types in order, in a global table, which gives the chain
`sc`, where every other name resolves as before the declaration.  The
statements of the body are read in the scope chain `sc` under a new function
scope without symbols, and the declaration returns what that loop returns.
In the body an identifier other than `f` that no declaration of the body
introduces resolves as before the declaration: undeclared if no enclosing
scope declares it, so a parameter name as such is unknown.  The parameter
loop skips the token in the name position: two states that differ only in
that token give the same result. -/
theorem funcdecl_no_param_symbols (f : Nat) (s0 s5 : PState) (pub : Bool) (name : String)
    (params : List CType) (ret : CType) (sc : List symtable)
    (hsig : Signature (parserAt (f + 1)) s0 pub false name params ret s5)
    (hnew : ∀ prev, sym_lookup s0.currscope name = some prev → prev.ext = true)
    (hglob : sym_putglob s0.currscope (funcSym name params ret pub false) = some sc)
    (hbrace : (curr s5).type = Tok.T_LBRACE) :
    s5.currscope = s0.currscope ∧
    (∃ tab ∈ sc, tab.type = SymtabType.SYMTAB_GLOB ∧
      funcSym name params ret pub false ∈ tab.syms) ∧
    (∀ x : String, (name == x) = false → sym_lookup sc x = sym_lookup s0.currscope x) ∧
    (∀ (stmts : List Ast) (s6 : PState) (tab : symtable) (parent : List symtable),
      block_loop (parserAt f) (parserAt f).fuel []
          (next { s5 with currscope := ⟨SymtabType.SYMTAB_FUNC, []⟩ :: sc,
                          currfunc := some name }) = Except.ok (stmts, s6) →
      s6.currscope = tab :: parent → (curr s6).type = Tok.T_RBRACE →
      funcdecl (parserAt (f + 1)) s0 =
        Except.ok (some (mkast (Node.funcdef name (mkast (Node.block tab stmts)))),
          next { s6 with currscope := parent, currfunc := none })) ∧
    (∀ e : Err,
      block_loop (parserAt f) (parserAt f).fuel []
          (next { s5 with currscope := ⟨SymtabType.SYMTAB_FUNC, []⟩ :: sc,
                          currfunc := some name }) = Except.error e →
      funcdecl (parserAt (f + 1)) s0 = Except.error e) ∧
    (∀ (r : Rec) (s : PState) (locals : List sym),
      s.currscope = ⟨SymtabType.SYMTAB_FUNC, locals⟩ :: sc →
      (curr s).type = Tok.T_IDENT → (name == (curr s).sval) = false →
      locals.find? (fun y => y.name == (curr s).sval) = none →
      primary r s =
        match sym_lookup s0.currscope (curr s).sval with
        | none => Except.error
            (Err.msg ("Use of undeclared symbol '" ++ (curr s).sval ++ "'\n"))
        | some y => Except.ok (Ast.mk y.type false (Node.ident (curr s).sval), next s)) ∧
    (∀ (r : Rec) (n : Nat) (acc : List CType) (s s' : PState),
      (curr s).type ≠ Tok.T_RPAREN → (curr s').type ≠ Tok.T_RPAREN → next s = next s' →
      funcdecl_params r (n + 1) acc s = funcdecl_params r (n + 1) acc s') := by
  have hscope := signature_currscope (f + 1) s0 s5 pub false name params ret hsig
  have hbody : funcdecl (parserAt (f + 1)) s0 =
      funcdecl_body (parserAt (f + 1)) (funcSym name params ret pub false) s5 := by
    rw [funcdecl_signature _ s0 s5 pub false name params ret hsig]
    unfold funcdecl_check
    have hn : (funcSym name params ret pub false).name = name := rfl
    rw [hn, hscope]
    cases hl : sym_lookup s0.currscope name with
    | none => rfl
    | some prev => simp [hnew prev hl]
  have hlk := sym_lookup_putglob (funcSym name params ret pub false)
  have hg5 : sym_putglob s5.currscope (funcSym name params ret pub false) = some sc := by
    rw [hscope]; exact hglob
  have hrun : funcdecl (parserAt (f + 1)) s0 =
      (block (parserAt f) SymtabType.SYMTAB_FUNC
          (next { s5 with currscope := sc, currfunc := some name }) >>= fun v =>
        expect Tok.T_RBRACE v.2 >>= fun s =>
          Except.ok (some (mkast (Node.funcdef name v.1)), { s with currfunc := none })) := by
    rw [hbody]
    simp only [funcdecl_body, hg5, pure_eq_ok, ok_bind, curr_with_currscope, hbrace, if_true]
    rfl
  refine ⟨hscope, sym_putglob_mem _ _ _ hglob, ?_, ?_, ?_, ?_, ?_⟩
  · intro x hx
    exact hlk x hx _ _ hglob
  · intro stmts s6 tab parent hloop h6 hrb
    have hloop' : block_loop (parserAt f) (parserAt f).fuel []
        { next { s5 with currscope := sc, currfunc := some name } with
          currscope := ⟨SymtabType.SYMTAB_FUNC, []⟩ ::
            (next { s5 with currscope := sc, currfunc := some name }).currscope } =
        Except.ok (stmts, s6) := hloop
    have hrb' : (curr { s6 with currscope := parent }).type = Tok.T_RBRACE := hrb
    rw [hrun]
    simp only [block, hloop', ok_bind, h6, pure_eq_ok, expect_ok hrb']
    rfl
  · intro e hloop
    have hloop' : block_loop (parserAt f) (parserAt f).fuel []
        { next { s5 with currscope := sc, currfunc := some name } with
          currscope := ⟨SymtabType.SYMTAB_FUNC, []⟩ ::
            (next { s5 with currscope := sc, currfunc := some name }).currscope } =
        Except.error e := hloop
    rw [hrun]
    simp only [block, hloop', error_bind]
  · intro r s locals hs hid hx hloc
    have hl : sym_lookup s.currscope (curr s).sval = sym_lookup s0.currscope (curr s).sval := by
      rw [hs]
      simp only [sym_lookup, hloc]
      exact hlk _ hx _ _ hglob
    unfold primary
    rw [hid]
    simp only [hl]
    cases sym_lookup s0.currscope (curr s).sval <;> rfl
  · intro r n acc s s' h1 h2 h
    exact funcdecl_params_skip r n acc s s' h1 h2 h

/-- Witness for C28: `fn f(x: int32) -> int32 { return x; }` is rejected, `x`
being undeclared; after `var x: int64 = 1;` the same declaration is
accepted and `x` in the body is the global variable of type `int64`; and
`fn f(5: int32) { }`, with a literal in the name position, is accepted. -/
theorem funcdecl_no_param_symbols_witness :
    funcdecl (parserAt 4) (stateOf paramUseToks []) =
      Except.error (Err.msg "Use of undeclared symbol 'x'\n") ∧
    (∀ k : Nat, parse (k + 6) (tk Tok.T_FUNC :: paramUseToks) =
      Except.error (Err.msg "Use of undeclared symbol 'x'\n")) ∧
    (∀ k : Nat, parse (k + 6) paramGlobalToks =
      Except.ok (mkast (Node.block
        ⟨SymtabType.SYMTAB_GLOB,
          [⟨"x", int64, false, false⟩,
           ⟨"f", CType.mk TypeName.TYPE_FUNC 0 0 (some int32) [int32] [] 0, false, false⟩]⟩
        [initAssign "x" (Ast.mk uint32 false (Node.intlit 1)),
         mkast ( Node.funcdef "f" (mkast (Node.block ⟨SymtabType.SYMTAB_FUNC, []⟩
           [mkast (Node.ret (some "f")
             (some (Ast.mk int64 false (Node.ident "x"))))])))]))) ∧
    (∀ k : Nat, parse (k + 4) paramLiteralToks =
      Except.ok (mkast (Node.block
        ⟨SymtabType.SYMTAB_GLOB,
          [⟨"f", CType.mk TypeName.TYPE_FUNC 0 0 (some CType.zero) [int32] [] 0,
            false, false⟩]⟩
        [mkast ( Node.funcdef "f" (mkast (Node.block ⟨SymtabType.SYMTAB_FUNC, []⟩ [])))]))) :=
  ⟨(funcdecl_no_param_symbols 3 (stateOf paramUseToks [])
      (stateOf (paramUseToks.drop 8) []) false "f" [int32] int32
      [⟨SymtabType.SYMTAB_GLOB,
        [⟨"f", CType.mk TypeName.TYPE_FUNC 0 0 (some int32) [int32] [] 0, false, false⟩]⟩]
      ⟨stateOf paramUseToks [], stateOf (paramUseToks.drop 5) [],
        rfl, rfl, rfl, rfl, FuncParams.last _ _ _ (by decide) rfl rfl rfl, by decide, rfl⟩
      (fun _ h => by cases h) rfl rfl).2.2.2.2.1
      (Err.msg "Use of undeclared symbol 'x'\n") rfl,
    fun _ => rfl, fun _ => rfl, fun _ => rfl⟩

/-! ### Postfix operators -/

/-- After `pre`, a token that neither ends the expression nor is an operator
is rejected by `binexpr`. -/
theorem binexpr_expected_operator (r : Rec) (ptp : Nat) (s : PState) (lhs : Ast) (s1 : PState)
    (hpre : pre r s = Except.ok (lhs, s1)) (hterm : termin s1 = false)
    (hop : operator (curr s1).type = none) :
    binexpr r ptp s =
      Except.error (Err.msg ("Expected operator, got '" ++ tokstr (curr s1).type ++ "'\n")) := by
  simp [binexpr, hpre, hterm, hop]

/-- C29: `post` applies one index or call to a primary and returns.  The
index between `[` and `]` is what `pre` reads: followed by `]` the result is
the dereference of the sum, with the cursor after the `]` whatever comes
next, and followed by anything else, such as the `+` of `a[i + 1]`, the
expression is rejected.  When `pre` returns with `[`, `(`, `.` or `->` as
current token, as after a first index or call, `binexpr` fails with
'Expected operator'.  So `a[i][j]`, `f(x)(y)`, `f(x)[i]` and `a[i].m` are
rejected with 'Expected operator' and `a[i + 1]` with "Expected ']'", while
the member chain `p->a->b` is accepted. -/
theorem post_single (r : Rec) :
    (∀ (ast : Ast) (s : PState) (idx : Ast) (s2 : PState),
      (curr s).type = Tok.T_LBRACK → r.pre (next s) = Except.ok (idx, s2) →
      ((curr s2).type = Tok.T_RBRACK →
        post r ast s =
          Except.ok (Ast.mk (mktype ast.vtype.name 0 0) false (Node.unary Op.OP_DEREF
            (Ast.mk (mktype ast.vtype.name 0 1) false (Node.binop Op.OP_PLUS ast idx))),
            next s2)) ∧
      ((curr s2).type ≠ Tok.T_RBRACK →
        post r ast s =
          Except.error (Err.msg ("Expected ']', got '" ++ tokstr (curr s2).type ++ "'\n")))) ∧
    (∀ (ptp : Nat) (s : PState) (lhs : Ast) (s1 : PState),
      pre r s = Except.ok (lhs, s1) →
      ((curr s1).type = Tok.T_LBRACK ∨ (curr s1).type = Tok.T_LPAREN ∨
        (curr s1).type = Tok.T_DOT ∨ (curr s1).type = Tok.T_ARROW) →
      binexpr r ptp s =
        Except.error
          (Err.msg ("Expected operator, got '" ++ tokstr (curr s1).type ++ "'\n"))) ∧
    (∀ k : Nat, binexpr (parserAt (k + 1)) 0 (stateOf indexTwiceToks postSyms) =
      Except.error (Err.msg "Expected operator, got '['\n")) ∧
    (∀ k : Nat, binexpr (parserAt (k + 2)) 0 (stateOf callTwiceToks postSyms) =
      Except.error (Err.msg "Expected operator, got '('\n")) ∧
    (∀ k : Nat, binexpr (parserAt (k + 2)) 0 (stateOf callIndexToks postSyms) =
      Except.error (Err.msg "Expected operator, got '['\n")) ∧
    (∀ k : Nat, binexpr (parserAt (k + 1)) 0 (stateOf indexMemberToks postSyms) =
      Except.error (Err.msg "Expected operator, got '.'\n")) ∧
    (∀ k : Nat, binexpr (parserAt (k + 1)) 0 (stateOf indexSumToks postSyms) =
      Except.error (Err.msg "Expected ']', got '+'\n")) ∧
    (∀ k : Nat, binexpr (parserAt k) 0 (stateOf arrowChainToks [⟨"p", structP, false, false⟩]) =
      Except.ok (Ast.mk int32 false (Node.unary Op.OP_DEREF
        (Ast.mk structP false (Node.binop Op.OP_PLUS
          (Ast.mk structP false (Node.binop Op.OP_PLUS
            (Ast.mk structP false (Node.ident "p"))
            (Ast.mk structP false (Node.intlit 0))))
          (Ast.mk structP false (Node.intlit 8))))),
        stateOf [tk Tok.T_SEMI, tk Tok.T_EOF] [⟨"p", structP, false, false⟩])) := by
  refine ⟨?_, ?_, fun _ => rfl, fun _ => rfl, fun _ => rfl, fun _ => rfl, fun _ => rfl,
    fun _ => rfl⟩
  · intro ast s idx s2 hl hidx
    constructor
    · intro hr
      simp only [post, hl, hidx, ok_bind, expect_ok hr, pure_eq_ok]
      rfl
    · intro hr
      simp only [post, hl, hidx, ok_bind, expect_error hr, error_bind]
      rfl
  · intro ptp s lhs s1 hpre hpost
    apply binexpr_expected_operator r ptp s lhs s1 hpre
    · rcases hpost with h | h | h | h <;> simp [termin, h]
    · rcases hpost with h | h | h | h <;> rw [h] <;> rfl

/-! ### Digits -/

theorem digitVal_digitChar (d : Nat) (h : d < 16) : digitVal (Nat.digitChar d) = some d := by
  interval_cases d <;> rfl

theorem isalnum_digitChar (d : Nat) (h : d < 16) : isalnum (Nat.digitChar d) = true := by
  interval_cases d <;> rfl

theorem isdigit_digitChar (d : Nat) (h : d < 10) : isdigit (Nat.digitChar d) = true := by
  interval_cases d <;> rfl

theorem toDigitsCore_acc (b : Nat) : ∀ (fuel n : Nat) (ds : List Char),
    Nat.toDigitsCore b fuel n ds = Nat.toDigitsCore b fuel n [] ++ ds := by
  intro fuel
  induction fuel with
  | zero => intro n ds; simp [Nat.toDigitsCore]
  | succ fuel ih =>
    intro n ds
    simp only [Nat.toDigitsCore]
    split_ifs with h
    · rfl
    · rw [ih (n / b) (Nat.digitChar (n % b) :: ds), ih (n / b) [Nat.digitChar (n % b)]]
      simp

/-- One step of the digits of `n`: the digits of `n / b`, if any, then the
digit `n % b`. -/
theorem toDigitsCore_succ (b fuel n : Nat) :
    Nat.toDigitsCore b (fuel + 1) n [] =
      (if n / b = 0 then [] else Nat.toDigitsCore b fuel (n / b) []) ++
        [Nat.digitChar (n % b)] := by
  simp only [Nat.toDigitsCore]
  split_ifs with h
  · rfl
  · rw [toDigitsCore_acc]

/-- The step of the digit loop of `strtoull`. -/
theorem strtoull_digits_valid (b : Nat) : ∀ (ds : List Char) (acc : Nat),
    (∀ c ∈ ds, ∃ d, digitVal c = some d ∧ d < b) →
    strtoull_digits b acc ds =
      (ds.foldl (fun a c => a * b + (digitVal c).getD 0) acc, []) := by
  intro ds
  induction ds with
  | nil => intro acc _; rfl
  | cons c cs ih =>
    intro acc h
    obtain ⟨d, hd, hlt⟩ := h c (List.mem_cons_self _ _)
    simp only [strtoull_digits, hd, hlt, if_true, List.foldl_cons, Option.getD_some]
    exact ih _ (fun c' hc' => h c' (List.mem_cons_of_mem _ hc'))

theorem toDigitsCore_valid (b : Nat) (hb : 2 ≤ b) (hb16 : b ≤ 16) : ∀ (fuel n : Nat),
    ∀ c ∈ Nat.toDigitsCore b fuel n [], ∃ d, digitVal c = some d ∧ d < b := by
  intro fuel
  induction fuel with
  | zero => intro n c hc; simp [Nat.toDigitsCore] at hc
  | succ fuel ih =>
    intro n c hc
    rw [toDigitsCore_succ] at hc
    rcases List.mem_append.1 hc with h | h
    · split_ifs at h with h0
      · simp at h
      · exact ih _ c h
    · simp only [List.mem_singleton] at h
      subst h
      have hlt : n % b < b := Nat.mod_lt _ (by omega)
      exact ⟨n % b, digitVal_digitChar _ (by omega), hlt⟩

theorem toDigitsCore_value (b : Nat) (hb : 2 ≤ b) (hb16 : b ≤ 16) : ∀ (fuel n : Nat),
    n < fuel →
    (Nat.toDigitsCore b fuel n []).foldl (fun a c => a * b + (digitVal c).getD 0) 0 = n := by
  intro fuel
  induction fuel with
  | zero => intro n h; omega
  | succ fuel ih =>
    intro n h
    rw [toDigitsCore_succ, List.foldl_append]
    have hlt : n % b < b := Nat.mod_lt _ (by omega)
    simp only [List.foldl_cons, List.foldl_nil, digitVal_digitChar (n % b) (by omega),
      Option.getD_some]
    split_ifs with h0
    · simp only [List.foldl_nil, Nat.zero_mul, Nat.zero_add]
      have := Nat.div_add_mod n b
      rw [h0] at this
      omega
    · have hdiv : n / b < fuel := by
        have : n / b < n := Nat.div_lt_self (by
          rcases Nat.eq_zero_or_pos n with h | h
          · subst h; simp at h0
          · exact h) hb
        omega
      rw [ih _ hdiv]
      have := Nat.div_add_mod n b
      rw [Nat.mul_comm] at this
      exact this

theorem toDigits_value (b : Nat) (hb : 2 ≤ b) (hb16 : b ≤ 16) (n : Nat) :
    strtoull_digits b 0 (Nat.toDigits b n) = (n, []) := by
  unfold Nat.toDigits
  rw [strtoull_digits_valid b _ 0 (toDigitsCore_valid b hb hb16 _ _),
    toDigitsCore_value b hb hb16 _ _ (Nat.lt_succ_self n)]

theorem toDigits_ne_nil (b n : Nat) : Nat.toDigits b n ≠ [] := by
  unfold Nat.toDigits
  rw [toDigitsCore_succ]
  simp

theorem toDigits_length (b : Nat) (hb : 2 ≤ b) (n e : Nat) (h : n < b ^ e) (he : 0 < e) :
    (Nat.toDigits b n).length ≤ e :=
  Nat.toDigitsCore_length b hb (n + 1) n e h he


theorem toDigits_zero (b : Nat) : Nat.toDigits b 0 = ['0'] := by
  simp [Nat.toDigits, Nat.toDigitsCore, Nat.digitChar]

theorem toDigitsCore_head (b : Nat) (hb : 2 ≤ b) (hb16 : b ≤ 16) : ∀ (fuel n : Nat),
    0 < n → n < fuel →
    ∃ c t, Nat.toDigitsCore b fuel n [] = c :: t ∧ c ≠ '0' := by
  intro fuel
  induction fuel with
  | zero => intro n _ h; omega
  | succ fuel ih =>
    intro n hn h
    rw [toDigitsCore_succ]
    split_ifs with h0
    · refine ⟨Nat.digitChar (n % b), [], rfl, ?_⟩
      have hlt : n % b < b := Nat.mod_lt _ (by omega)
      have hne : n % b ≠ 0 := by
        have := Nat.div_add_mod n b
        rw [h0] at this
        omega
      have h16 : n % b < 16 := by omega
      revert hne
      generalize n % b = d at h16
      interval_cases d <;> decide
    · have hpos : 0 < n / b := Nat.pos_of_ne_zero h0
      have hdiv : n / b < fuel := by
        have : n / b < n := Nat.div_lt_self hn hb
        omega
      obtain ⟨c, t, hct, hc⟩ := ih _ hpos hdiv
      exact ⟨c, t ++ [Nat.digitChar (n % b)], by rw [hct]; rfl, hc⟩

theorem toDigits_head (b : Nat) (hb : 2 ≤ b) (hb16 : b ≤ 16) (n : Nat) (hn : 0 < n) :
    ∃ c t, Nat.toDigits b n = c :: t ∧ c ≠ '0' :=
  toDigitsCore_head b hb hb16 (n + 1) n hn (Nat.lt_succ_self n)

theorem toDigits_valid (b : Nat) (hb : 2 ≤ b) (hb16 : b ≤ 16) (n : Nat) :
    ∀ c ∈ Nat.toDigits b n, ∃ d, digitVal c = some d ∧ d < b :=
  toDigitsCore_valid b hb hb16 (n + 1) n

/-- A character that is a digit below 16 is no white space, no sign and no
`x`. -/
theorem digit_char_plain {c : Char} {d : Nat} (h : digitVal c = some d) (hd : d < 16) :
    isspace c = false ∧ c ≠ '-' ∧ c ≠ '+' ∧ c ≠ 'x' ∧ c ≠ 'X' ∧ isalnum c = true := by
  unfold digitVal isdigit at h
  unfold isspace isalnum isdigit
  have e1 : c = '-' → c.toNat = 45 := by rintro rfl; rfl
  have e2 : c = '+' → c.toNat = 43 := by rintro rfl; rfl
  have e3 : c = 'x' → c.toNat = 120 := by rintro rfl; rfl
  have e4 : c = 'X' → c.toNat = 88 := by rintro rfl; rfl
  split_ifs at h with h1 h2 h3
  all_goals
    simp only [Option.some.injEq, Bool.and_eq_true, decide_eq_true_eq] at h h1
    refine ⟨?_, ?_, ?_, ?_, ?_, ?_⟩
    · simp; omega
    · intro hc; have := e1 hc; omega
    · intro hc; have := e2 hc; omega
    · intro hc; have := e3 hc; omega
    · intro hc; have := e4 hc; omega
    · simp; omega

/-- A character that is a digit below 10 is a decimal digit. -/
theorem digit_char_decimal {c : Char} {d : Nat} (h : digitVal c = some d) (hd : d < 10) :
    isdigit c = true ∧ c ≠ 'x' ∧ c ≠ 'b' := by
  unfold digitVal isdigit at h
  unfold isdigit
  have e3 : c = 'x' → c.toNat = 120 := by rintro rfl; rfl
  have e5 : c = 'b' → c.toNat = 98 := by rintro rfl; rfl
  split_ifs at h with h1 h2 h3
  all_goals
    simp only [Option.some.injEq, Bool.and_eq_true, decide_eq_true_eq] at h h1
    refine ⟨?_, ?_, ?_⟩
    · simp; omega
    · intro hc; have := e3 hc; omega
    · intro hc; have := e5 hc; omega

/-! ### `strtoull` on digit strings -/

/-- A string of digits below 16 has no `0x` prefix to skip. -/
theorem strtoull_start_valid (b : Nat) (s : List Char)
    (h : ∀ c ∈ s, ∃ d, digitVal c = some d ∧ d < 16) : strtoull_start b s = s := by
  unfold strtoull_start
  split
  · rename_i z x d t
    obtain ⟨v, hv, hlt⟩ := h x (by simp)
    obtain ⟨_, _, _, hx, hX, _⟩ := digit_char_plain hv hlt
    simp [hx, hX]
  · rfl

theorem strtoull_start_other (b : Nat) (hb : b ≠ 16) (s : List Char) :
    strtoull_start b s = s := by
  unfold strtoull_start
  split
  · simp [hb]
  · rfl

/-- `strtoull` on a string that starts with a digit below 16: nothing is
skipped in front, and the result is that of the digit loop when that reads
at least one character and stays in range. -/
theorem strtoull_plain (b : Nat) (c : Char) (t : List Char) (d v : Nat) (rest : List Char)
    (hc : digitVal c = some d) (hd : d < 16)
    (hpre : strtoull_start b (c :: t) = c :: t)
    (hdig : strtoull_digits b 0 (c :: t) = (v, rest))
    (hrest : rest.length ≤ t.length) (hv : v < 2 ^ 64) :
    strtoull (c :: t) b = (v, rest) := by
  obtain ⟨hsp, hm, hp, _, _, _⟩ := digit_char_plain hc hd
  have h1 : List.dropWhile isspace (c :: t) = c :: t := by
    simp [List.dropWhile, hsp]
  have hne : rest.length ≠ (c :: t).length := by simp; omega
  have hmax : ¬ v > ULLONG_MAX := by unfold ULLONG_MAX; omega
  simp only [strtoull, h1, List.head?_cons, Option.some.injEq, hm, hp, or_self, if_false, hpre,
    hdig, hne, hmax, decide_False]

/-- `strtoull` on the digits of `n` in base `b` gives `n`. -/
theorem strtoull_toDigits (b : Nat) (hb : 2 ≤ b) (hb16 : b ≤ 16) (n : Nat) (hn : n < 2 ^ 64) :
    strtoull (Nat.toDigits b n) b = (n, []) := by
  have hval := toDigits_valid b hb hb16 n
  have hval16 : ∀ c ∈ Nat.toDigits b n, ∃ d, digitVal c = some d ∧ d < 16 := by
    intro c hc
    obtain ⟨d, h1, h2⟩ := hval c hc
    exact ⟨d, h1, by omega⟩
  have hdig := toDigits_value b hb hb16 n
  have hpre := strtoull_start_valid b _ hval16
  cases hs : Nat.toDigits b n with
  | nil => exact absurd hs (toDigits_ne_nil b n)
  | cons c t =>
    rw [hs] at hdig hpre hval16
    obtain ⟨d, h1, h2⟩ := hval16 c (by simp)
    exact strtoull_plain b c t d n [] h1 h2 hpre hdig (by simp) hn

/-- `strtoull` with base 16 on `0x` and the hexadecimal digits of `n`. -/
theorem strtoull_hex (n : Nat) (hn : n < 2 ^ 64) :
    strtoull ('0' :: 'x' :: Nat.toDigits 16 n) 16 = (n, []) := by
  have hval := toDigits_valid 16 (by omega) (by omega) n
  have hdig := toDigits_value 16 (by omega) (by omega) n
  cases hs : Nat.toDigits 16 n with
  | nil => exact absurd hs (toDigits_ne_nil 16 n)
  | cons c t =>
    rw [hs] at hdig hval
    obtain ⟨d, h1, h2⟩ := hval c (by simp)
    have hmax : ¬ n > ULLONG_MAX := by unfold ULLONG_MAX; omega
    have hsp : isspace '0' = false := rfl
    have hpre : strtoull_start 16 ('0' :: 'x' :: c :: t) = c :: t := by
      simp [strtoull_start, h1, h2]
    have hne : ([] : List Char).length ≠ (c :: t).length := by simp
    simp only [strtoull, List.dropWhile, hsp, List.head?_cons, Option.some.injEq, hpre, hdig,
      hne, if_false, hmax]
    simp [hpre, hdig, hmax]

/-- `strtoull` with base 8 on `0` and the octal digits of `n`. -/
theorem strtoull_octal (n : Nat) (hn : n < 2 ^ 64) :
    strtoull ('0' :: Nat.toDigits 8 n) 8 = (n, []) := by
  have hdig := toDigits_value 8 (by omega) (by omega) n
  have hd0 : strtoull_digits 8 0 ('0' :: Nat.toDigits 8 n) = (n, []) := by
    have : digitVal '0' = some 0 := rfl
    simp only [strtoull_digits, this]
    simpa using hdig
  exact strtoull_plain 8 '0' _ 0 n [] rfl (by omega) (strtoull_start_other 8 (by omega) _) hd0
    (by simp) hn

/-! ### `xstrtonum` and the literals of the assembler's lexer -/

theorem toLong_bits (n : Nat) (hn : n < 2 ^ 64) :
    toLong n % 2 ^ 64 = (n : Int) ∧ (n < 2 ^ 63 → toLong n = (n : Int)) := by
  unfold toLong
  constructor
  · split_ifs with h
    · omega
    · omega
  · intro h
    rw [if_pos h]

/-- C24: `xstrtonum` in the four bases.  For every `n` below `2 ^ 64`, on the
decimal spelling of `n`, on `0x` and its hexadecimal digits, on `0b` and its
binary digits and on `0` and its octal digits, `xstrtonum` reads the whole
string and returns the `long` with the 64 bits of `n`: `n` itself below
`2 ^ 63`, and in every case a number congruent to `n` modulo `2 ^ 64`.  The
spellings are those of `Nat.toDigits` (lower-case digits, `0` for zero).
`0x10` gives 16, `0b10` gives 2, `020` gives 16 and `0` gives 0. -/
theorem xstrtonum_bases (n : Nat) (hn : n < 2 ^ 64) :
    xstrtonum (Nat.toDigits 10 n) = (toLong n, []) ∧
    xstrtonum ('0' :: 'x' :: Nat.toDigits 16 n) = (toLong n, []) ∧
    xstrtonum ('0' :: 'b' :: Nat.toDigits 2 n) = (toLong n, []) ∧
    xstrtonum ('0' :: Nat.toDigits 8 n) = (toLong n, []) ∧
    toLong n % 2 ^ 64 = (n : Int) ∧ (n < 2 ^ 63 → toLong n = (n : Int)) ∧
    xstrtonum ['0', 'x', '1', '0'] = (16, []) ∧ xstrtonum ['0', 'b', '1', '0'] = (2, []) ∧
    xstrtonum ['0', '2', '0'] = (16, []) ∧ xstrtonum ['0'] = (0, []) := by
  refine ⟨?_, ?_, ?_, ?_, (toLong_bits n hn).1, (toLong_bits n hn).2, rfl, rfl, rfl, rfl⟩
  · rcases Nat.eq_zero_or_pos n with h0 | hpos
    · subst h0
      rw [toDigits_zero]
      rfl
    · obtain ⟨c, t, hct, hc⟩ := toDigits_head 10 (by omega) (by omega) n hpos
      have hs := strtoull_toDigits 10 (by omega) (by omega) n hn
      rw [hct] at hs
      rw [hct]
      simp [xstrtonum, hc, hs]
  · have hs := strtoull_toDigits 16 (by omega) (by omega) n hn
    simp [xstrtonum, hs]
  · have hs := strtoull_toDigits 2 (by omega) (by omega) n hn
    simp [xstrtonum, hs]
  · have hs := strtoull_toDigits 8 (by omega) (by omega) n hn
    have hval := toDigits_valid 8 (by omega) (by omega) n
    cases hd : Nat.toDigits 8 n with
    | nil => exact absurd hd (toDigits_ne_nil 8 n)
    | cons c t =>
      rw [hd] at hs hval
      obtain ⟨d, h1, h2⟩ := hval c (by simp)
      obtain ⟨hdig, hx, hb⟩ := digit_char_decimal h1 (by omega)
      simp [xstrtonum, hx, hb, hdig, hs]

theorem lex_word_alnum : ∀ ds : List Char, (∀ c ∈ ds, isalnum c = true) →
    lex_word ds = (ds, []) := by
  intro ds
  induction ds with
  | nil => intro _; rfl
  | cons c cs ih =>
    intro h
    simp [lex_word, h c (by simp), ih (fun c' hc' => h c' (List.mem_cons_of_mem _ hc'))]

theorem isdigit_plain {c : Char} (h : isdigit c = true) :
    isspace c = false ∧ lex_punct c = none ∧ isalnum c = true := by
  unfold isdigit at h
  simp only [Bool.and_eq_true, decide_eq_true_eq] at h
  have e : ∀ x : Char, c = x → c.toNat = x.toNat := by rintro x rfl; rfl
  refine ⟨?_, ?_, ?_⟩
  · unfold isspace; simp; omega
  · unfold lex_punct
    have h1 : c ≠ ':' := fun hc => by have := e _ hc; simp at this; omega
    have h2 : c ≠ ',' := fun hc => by have := e _ hc; simp at this; omega
    have h3 : c ≠ '[' := fun hc => by have := e _ hc; simp at this; omega
    have h4 : c ≠ ']' := fun hc => by have := e _ hc; simp at this; omega
    have h5 : c ≠ '+' := fun hc => by have := e _ hc; simp at this; omega
    have h6 : c ≠ '*' := fun hc => by have := e _ hc; simp at this; omega
    have h7 : c ≠ '(' := fun hc => by have := e _ hc; simp at this; omega
    have h8 : c ≠ ')' := fun hc => by have := e _ hc; simp at this; omega
    simp [h1, h2, h3, h4, h5, h6, h7, h8]
  · unfold isalnum isdigit; simp; omega

/-- `lexfile` on a file that is one word of at most 31 letters and digits
starting with a digit: one immediate token and the end token. -/
theorem lexfile_number (tabs : AsTables) (c : Char) (w : List Char) (hc : isdigit c = true)
    (hw : ∀ x ∈ w, isalnum x = true) (hlen : w.length < 31) :
    lexfile tabs (c :: w) =
      Except.ok [⟨AsTok.T_IMM, none, lex_number (c :: w)⟩, ⟨AsTok.T_EOF, none, 0⟩] := by
  obtain ⟨hsp, hp, ha⟩ := isdigit_plain hc
  have hl : ¬ (w.length + 1 ≥ 32) := by omega
  simp only [lexfile, List.length_cons, lexfile_loop, hsp, hp, ha, lex_word_alnum w hw,
    Bool.true_or, if_true, hl, if_false, hc, List.nil_append]
  simp [lexfile_loop]

theorem toDigits_alnum (b : Nat) (hb : 2 ≤ b) (hb16 : b ≤ 16) (n : Nat) :
    ∀ c ∈ Nat.toDigits b n, isalnum c = true := by
  intro c hc
  obtain ⟨d, h1, h2⟩ := toDigits_valid b hb hb16 n c hc
  exact (digit_char_plain h1 (by omega)).2.2.2.2.2

/-- C23: literals of the assembler's lexer.  For every `n` below `2 ^ 64`,
`lexfile` on a file that holds the decimal spelling of `n`, or `0x` and its
hexadecimal digits, or `0` and its octal digits, returns exactly one
`T_IMM` token with the value `n` and then the `T_EOF` token, whatever the
tables of instructions, registers and keywords.  The spellings are those of
`Nat.toDigits` (lower-case digits, `0` for zero). -/
theorem lexfile_literals (tabs : AsTables) (n : Nat) (hn : n < 2 ^ 64) :
    lexfile tabs (Nat.toDigits 10 n) =
      Except.ok [⟨AsTok.T_IMM, none, n⟩, ⟨AsTok.T_EOF, none, 0⟩] ∧
    lexfile tabs ('0' :: 'x' :: Nat.toDigits 16 n) =
      Except.ok [⟨AsTok.T_IMM, none, n⟩, ⟨AsTok.T_EOF, none, 0⟩] ∧
    lexfile tabs ('0' :: Nat.toDigits 8 n) =
      Except.ok [⟨AsTok.T_IMM, none, n⟩, ⟨AsTok.T_EOF, none, 0⟩] := by
  refine ⟨?_, ?_, ?_⟩
  · have hval := toDigits_valid 10 (by omega) (by omega) n
    have hal := toDigits_alnum 10 (by omega) (by omega) n
    have hlen := toDigits_length 10 (by omega) n 20 (by omega) (by omega)
    have hs := strtoull_toDigits 10 (by omega) (by omega) n hn
    have hnum : lex_number (Nat.toDigits 10 n) = n := by
      rcases Nat.eq_zero_or_pos n with h0 | hpos
      · subst h0
        rw [toDigits_zero]
        rfl
      · obtain ⟨c, t, hct, hc⟩ := toDigits_head 10 (by omega) (by omega) n hpos
        rw [hct] at hs ⊢
        simp [lex_number, hc, hs]
    cases hd : Nat.toDigits 10 n with
    | nil => exact absurd hd (toDigits_ne_nil 10 n)
    | cons c t =>
      rw [hd] at hval hal hlen hnum
      obtain ⟨d, h1, h2⟩ := hval c (by simp)
      rw [lexfile_number tabs c t (digit_char_decimal h1 h2).1
        (fun x hx => hal x (List.mem_cons_of_mem _ hx)) (by simp at hlen; omega), hnum]
  · have hal := toDigits_alnum 16 (by omega) (by omega) n
    have hlen := toDigits_length 16 (by omega) n 16 (by omega) (by omega)
    have hnum : lex_number ('0' :: 'x' :: Nat.toDigits 16 n) = n := by
      simp [lex_number, strtoull_hex n hn]
    rw [lexfile_number tabs '0' _ rfl
      (by
        intro x hx
        rcases List.mem_cons.1 hx with rfl | hx
        · rfl
        · exact hal x hx)
      (by simp; omega), hnum]
  · have hal := toDigits_alnum 8 (by omega) (by omega) n
    have hval := toDigits_valid 8 (by omega) (by omega) n
    have hlen := toDigits_length 8 (by omega) n 22 (by omega) (by omega)
    have hnum : lex_number ('0' :: Nat.toDigits 8 n) = n := by
      cases hd : Nat.toDigits 8 n with
      | nil => exact absurd hd (toDigits_ne_nil 8 n)
      | cons c t =>
        have hs := strtoull_octal n hn
        rw [hd] at hs hval
        obtain ⟨d, h1, h2⟩ := hval c (by simp)
        obtain ⟨_, hx, _⟩ := digit_char_decimal h1 (by omega)
        simp [lex_number, hx, hs]
    rw [lexfile_number tabs '0' _ rfl hal (by omega), hnum]

/-- Witness for C23: `255`, `0xff` and `0377` each give one `T_IMM` token
with the value 255 and the `T_EOF` token. -/
theorem lexfile_literals_witness :
    lexfile ⟨[], [], []⟩ ['2', '5', '5'] =
      Except.ok [⟨AsTok.T_IMM, none, 255⟩, ⟨AsTok.T_EOF, none, 0⟩] ∧
    lexfile ⟨[], [], []⟩ ['0', 'x', 'f', 'f'] =
      Except.ok [⟨AsTok.T_IMM, none, 255⟩, ⟨AsTok.T_EOF, none, 0⟩] ∧
    lexfile ⟨[], [], []⟩ ['0', '3', '7', '7'] =
      Except.ok [⟨AsTok.T_IMM, none, 255⟩, ⟨AsTok.T_EOF, none, 0⟩] :=
  lexfile_literals ⟨[], [], []⟩ 255 (by decide)

/-- Witness for C24: `255`, `0xff`, `0b11111111` and `0377` all give 255. -/
theorem xstrtonum_bases_witness :
    xstrtonum ['2', '5', '5'] = (255, []) ∧
    xstrtonum ['0', 'x', 'f', 'f'] = (255, []) ∧
    xstrtonum ['0', 'b', '1', '1', '1', '1', '1', '1', '1', '1'] = (255, []) ∧
    xstrtonum ['0', '3', '7', '7'] = (255, []) :=
  have h := xstrtonum_bases 255 (by decide)
  ⟨h.1, h.2.1, h.2.2.1, h.2.2.2.1⟩

/-! ### Register balance -/

theorem set_same {α : Type} (l : List α) (i : Nat) (a : α) (h : l[i]? = some a) :
    l.set i a = l := by
  apply List.ext_getElem?
  intro n
  rw [List.getElem?_set]
  by_cases hn : i = n
  · subst hn
    have hlt : i < l.length := by
      rcases List.getElem?_eq_some.1 h with ⟨hlt, _⟩
      exact hlt
    simp [hlt, h]
  · simp [hn]

theorem alloc_free (l : List Bool) (i : Nat) (hi : l[i]? = some false) :
    (l.set i true).set i false = l := by
  rw [List.set_set, set_same l i false hi]

theorem alloc_alloc_free (l : List Bool) (i j : Nat) (hi : l[i]? = some false)
    (hj : (l.set i true)[j]? = some false) :
    ((l.set i true).set j true).set i false = l.set j true ∧ l[j]? = some false ∧ i ≠ j := by
  have hne : i ≠ j := by
    rintro rfl
    rw [List.getElem?_set] at hj
    simp at hj
  have hj' : l[j]? = some false := by
    rw [List.getElem?_set_ne hne] at hj
    exact hj
  refine ⟨?_, hj', hne⟩
  rw [List.set_comm true true l hne, List.set_set]
  apply set_same
  rw [List.getElem?_set_ne (Ne.symm hne)]
  exact hi

@[simp] theorem emit_reglist (t : String) (g : GenState) : (emit t g).reglist = g.reglist := rfl

theorem regalloc_from_spec : ∀ (l : List Bool) (k i : Nat), regalloc_from k l = some i →
    k ≤ i ∧ l[i - k]? = some false := by
  intro l
  induction l with
  | nil => intro k i h; simp [regalloc_from] at h
  | cons b bs ih =>
    intro k i h
    unfold regalloc_from at h
    cases b with
    | false =>
      simp at h
      subst h
      simp
    | true =>
      simp at h
      obtain ⟨h1, h2⟩ := ih _ _ h
      refine ⟨by omega, ?_⟩
      have : i - k = (i - (k + 1)) + 1 := by omega
      rw [this]
      simpa using h2

theorem regalloc_spec {g : GenState} {r : Int} {g' : GenState}
    (h : regalloc g = Except.ok (r, g')) :
    Allocated g r g' ∧ g'.labels = g.labels ∧ g'.out = g.out := by
  unfold regalloc at h
  cases hf : regalloc_from 0 (g.reglist.take REGCNT) with
  | none => simp [hf] at h
  | some i =>
    simp only [hf, pure, Except.pure, Except.ok.injEq, Prod.mk.injEq] at h
    obtain ⟨rfl, rfl⟩ := h
    obtain ⟨_, h2⟩ := regalloc_from_spec _ _ _ hf
    simp only [Nat.sub_zero, List.getElem?_take] at h2
    split_ifs at h2 with hlt
    exact ⟨⟨i, rfl, hlt, h2, rfl⟩, rfl, rfl⟩

theorem regfree_nat (i : Nat) (hi : i < REGCNT) (g : GenState) :
    regfree (i : Int) g = Except.ok { g with reglist := g.reglist.set i false } := by
  unfold REGCNT at hi
  have h : (0 : Int) ≤ (i : Int) ∧ (i : Int) < ((REGCNT : Nat) : Int) := by
    unfold REGCNT
    omega
  simp [regfree, h, pure, Except.pure]

theorem allocated_reglist {g g1 g2 : GenState} {r : Int} (h : Allocated g r g1)
    (h2 : g2.reglist = g1.reglist) : Allocated g r g2 := by
  obtain ⟨i, hr, hi, hf, hs⟩ := h
  exact ⟨i, hr, hi, hf, by rw [h2, hs]⟩

/-- Freeing the register just allocated gives the pool back. -/
theorem allocated_free {g g1 g2 g3 : GenState} {r : Int} (h : Allocated g r g1)
    (h2 : g2.reglist = g1.reglist) (h3 : regfree r g2 = Except.ok g3) :
    g3.reglist = g.reglist ∧ g3.labels = g2.labels ∧ g3.out = g2.out := by
  obtain ⟨i, rfl, hi, hf, hs⟩ := h
  rw [regfree_nat i hi] at h3
  cases h3
  refine ⟨?_, rfl, rfl⟩
  show g2.reglist.set i false = g.reglist
  rw [h2, hs, alloc_free _ _ hf]

theorem allocated_ne_noreg {g g1 : GenState} {r : Int} (h : Allocated g r g1) : r ≠ NOREG := by
  obtain ⟨i, rfl, _⟩ := h
  unfold NOREG
  omega

theorem allocated_reg {g g1 : GenState} {r : Int} (h : Allocated g r g1) :
    ∃ x, reg r = Except.ok x := by
  obtain ⟨i, rfl, hi, _⟩ := h
  unfold REGCNT at hi
  interval_cases i
  · exact ⟨_, rfl⟩
  · exact ⟨_, rfl⟩
  · exact ⟨_, rfl⟩
  · exact ⟨_, rfl⟩

theorem alloc3_free (l : List Bool) (i j k : Nat) (hi : l[i]? = some false)
    (hj : (l.set i true)[j]? = some false)
    (hk : ((l.set i true).set j true)[k]? = some false) :
    ((((l.set i true).set j true).set k true).set i false).set j false = l.set k true ∧
      l[k]? = some false := by
  obtain ⟨_, hj', hij⟩ := alloc_alloc_free l i j hi hj
  have hjk : j ≠ k := by
    rintro rfl
    rw [List.getElem?_set] at hk
    simp at hk
  have hk1 : (l.set i true)[k]? = some false := by
    rw [List.getElem?_set_ne hjk] at hk
    exact hk
  have hik : i ≠ k := by
    rintro rfl
    rw [List.getElem?_set] at hk1
    simp at hk1
  have hk' : l[k]? = some false := by
    rw [List.getElem?_set_ne hik] at hk1
    exact hk1
  refine ⟨?_, hk'⟩
  have e1 : ((l.set i true).set j true).set k true = ((l.set k true).set i true).set j true := by
    rw [List.set_comm true true (l.set i true) hjk, List.set_comm true true l hik]
  have mi : (l.set k true)[i]? = some false := by
    rw [List.getElem?_set_ne (Ne.symm hik)]
    exact hi
  have mj : ((l.set k true).set i true)[j]? = some false := by
    rw [List.getElem?_set_ne hij, List.getElem?_set_ne (Ne.symm hjk)]
    exact hj'
  obtain ⟨e2, mj', _⟩ := alloc_alloc_free (l.set k true) i j mi mj
  rw [e1, e2, alloc_free _ _ mj']

theorem gen_binop_alloc {op : Op} {lhs : Ast} {g g1 g2 g' : GenState} {r1 r2 r : Int}
    (h1 : Allocated g r1 g1) (h2 : Allocated g1 r2 g2)
    (h : gen_binop op lhs r1 r2 g2 = Except.ok (r, g')) : Allocated g r g' := by
  obtain ⟨x1, hx1⟩ := allocated_reg h1
  obtain ⟨x2, hx2⟩ := allocated_reg h2
  obtain ⟨i, rfl, hi, hfi, hsi⟩ := h1
  obtain ⟨j, rfl, hj, hfj, hsj⟩ := h2
  rw [hsi] at hfj hsj
  obtain ⟨e, hfj', _⟩ := alloc_alloc_free _ i j hfi hfj
  have fin : ∀ gx : GenState, gx.reglist = g2.reglist →
      (regfree (i : Int) gx >>= fun gy => (pure ((j : Int), gy) : Except GenErr (Int × GenState)))
        = Except.ok (r, g') → Allocated g r g' := by
    intro gx hgx hh
    rw [regfree_nat i hi] at hh
    simp only [ok_bind, pure, Except.pure, Except.ok.injEq, Prod.mk.injEq] at hh
    obtain ⟨rfl, rfl⟩ := hh
    exact ⟨j, rfl, hj, hfj', by show gx.reglist.set i false = _; rw [hgx, hsj, e]⟩
  unfold gen_binop at h
  cases op
  case OP_EQUAL | OP_NEQUAL | OP_GT | OP_LT | OP_GTE | OP_LTE =>
    simp only [bind, Except.bind] at h
    cases hra : regalloc g2 with
    | error err => simp [hra] at h
    | ok v =>
      obtain ⟨rk, g3⟩ := v
      obtain ⟨⟨k, rfl, hk, hfk, hsk⟩, _, _⟩ := regalloc_spec hra
      obtain ⟨xk, hxk⟩ := allocated_reg (⟨k, rfl, hk, hfk, hsk⟩ : Allocated g2 (k : Int) g3)
      rw [hsj] at hfk hsk
      obtain ⟨e3, hfk'⟩ := alloc3_free _ i j k hfi hfj hfk
      simp only [hra, hx1, hx2, hxk, regfree_nat i hi, regfree_nat j hj, pure, Except.pure,
        Except.ok.injEq, Prod.mk.injEq] at h
      obtain ⟨rfl, rfl⟩ := h
      exact ⟨k, rfl, hk, hfk', by simp only [emit_reglist]; rw [hsk, e3]⟩
  case OP_ASSIGN =>
    simp only at h
    split at h
    · simp only [hx1, hx2, bind, Except.bind] at h
      (refine fin _ ?_ h; rfl)
    · simp only [hx2, bind, Except.bind] at h
      (refine fin _ ?_ h; rfl)
    · simp at h
  all_goals
    simp only [hx1, hx2, bind, Except.bind] at h
    (refine fin _ ?_ h; rfl)

theorem bind_ok_iff {ε α β : Type} (x : Except ε α) (f : α → Except ε β) (b : β) :
    (x >>= f) = Except.ok b ↔ ∃ a, x = Except.ok a ∧ f a = Except.ok b := by
  cases x with
  | error e => simp
  | ok a => simp

theorem leaf_alloc {g g0 g' : GenState} {r0 r : Int} (hra : regalloc g = Except.ok (r0, g0))
    (hr : r = r0) (hg : g'.reglist = g0.reglist) : Allocated g r g' := by
  subst hr
  exact allocated_reglist (regalloc_spec hra).1 hg

theorem gen_intlit_alloc {n : Nat} {g g' : GenState} {r : Int}
    (h : gen_intlit n g = Except.ok (r, g')) : Allocated g r g' := by
  unfold gen_intlit at h
  simp only [bind_ok_iff, pure, Except.pure, Except.ok.injEq, Prod.mk.injEq] at h
  obtain ⟨⟨r0, g0⟩, hra, x, _, rfl, rfl⟩ := h
  exact leaf_alloc hra rfl rfl

theorem gen_ident_alloc {n : String} {g g' : GenState} {r : Int}
    (h : gen_ident n g = Except.ok (r, g')) : Allocated g r g' := by
  unfold gen_ident at h
  simp only [bind_ok_iff, pure, Except.pure, Except.ok.injEq, Prod.mk.injEq] at h
  obtain ⟨⟨r0, g0⟩, hra, x, _, rfl, rfl⟩ := h
  exact leaf_alloc hra rfl rfl

theorem gen_strlit_alloc {str : String} {g g' : GenState} {r : Int}
    (h : gen_strlit str g = Except.ok (r, g')) : Allocated g r g' := by
  unfold gen_strlit at h
  simp only [bind_ok_iff, pure, Except.pure, Except.ok.injEq, Prod.mk.injEq] at h
  obtain ⟨⟨r0, g0⟩, hra, x, _, rfl, rfl⟩ := h
  exact leaf_alloc hra rfl rfl

theorem gen_sizeof_alloc {t : CType} {g g' : GenState} {r : Int}
    (h : gen_sizeof t g = Except.ok (r, g')) : Allocated g r g' := by
  unfold gen_sizeof at h
  simp only [bind_ok_iff] at h
  obtain ⟨⟨r0, g0⟩, hra, h⟩ := h
  cases hs : asm_sizeof t with
  | none => simp [hs] at h
  | some sz =>
    simp only [hs, bind_ok_iff, pure, Except.pure, Except.ok.injEq, Prod.mk.injEq] at h
    obtain ⟨x, _, rfl, rfl⟩ := h
    exact leaf_alloc hra rfl rfl

theorem gen_addrof_alloc {val : Ast} {g g' : GenState} {r : Int}
    (h : gen_addrof val g = Except.ok (r, g')) : Allocated g r g' := by
  unfold gen_addrof at h
  simp only [bind_ok_iff] at h
  obtain ⟨⟨r0, g0⟩, hra, h⟩ := h
  split at h
  · simp only [bind_ok_iff, pure, Except.pure, Except.ok.injEq, Prod.mk.injEq] at h
    obtain ⟨x, _, rfl, rfl⟩ := h
    exact leaf_alloc hra rfl rfl
  · simp at h

theorem gen_call_alloc {name : Option String} {g g' : GenState} {r : Int}
    (h : gen_call name g = Except.ok (r, g')) : Allocated g r g' := by
  unfold gen_call at h
  simp only [bind_ok_iff, pure, Except.pure, Except.ok.injEq, Prod.mk.injEq] at h
  obtain ⟨⟨r0, g0⟩, hra, x, _, rfl, rfl⟩ := h
  exact leaf_alloc hra rfl rfl

theorem gen_deref_alloc {lv : Bool} {g g1 g' : GenState} {r1 r : Int}
    (h1 : Allocated g r1 g1) (h : gen_deref lv r1 g1 = Except.ok (r, g')) :
    Allocated g r g' := by
  unfold gen_deref at h
  cases lv with
  | true =>
    simp only [if_true, pure, Except.pure, Except.ok.injEq, Prod.mk.injEq] at h
    obtain ⟨rfl, rfl⟩ := h
    exact h1
  | false =>
    simp only [Bool.false_eq_true, if_false, bind_ok_iff, pure, Except.pure, Except.ok.injEq,
      Prod.mk.injEq] at h
    obtain ⟨⟨r2, g2⟩, hra, x1, _, x2, _, g3, hfree, rfl, rfl⟩ := h
    obtain ⟨⟨j, rfl, hj, hfj, hsj⟩, _, _⟩ := regalloc_spec hra
    obtain ⟨i, rfl, hi, hfi, hsi⟩ := h1
    rw [hsi] at hfj hsj
    obtain ⟨e, hfj', _⟩ := alloc_alloc_free _ i j hfi hfj
    rw [regfree_nat i hi] at hfree
    cases hfree
    exact ⟨j, rfl, hj, hfj', by show (emit _ g2).reglist.set i false = _; rw [emit_reglist, hsj, e]⟩

theorem gen_test_free {g g1 g2 gx : GenState} {r : Int} {lbl : Nat} (h1 : Allocated g r g1)
    (h : gen_test r lbl gx = Except.ok g2) (hx : gx.reglist = g1.reglist) :
    g2.reglist = g.reglist := by
  unfold gen_test at h
  simp only [bind_ok_iff] at h
  obtain ⟨x, _, h⟩ := h
  exact (allocated_free h1 (by simp [hx]) h).1

theorem gen_call_param_free {g g1 g2 : GenState} {r : Int} {i : Nat} (h1 : Allocated g r g1)
    (h : gen_call_param i r g1 = Except.ok g2) : g2.reglist = g.reglist := by
  unfold gen_call_param at h
  cases hp : paramregs i with
  | none => simp [hp] at h
  | some dst =>
    simp only [hp, pure, Except.pure, ok_bind, bind_ok_iff] at h
    obtain ⟨x, _, h⟩ := h
    exact (allocated_free h1 (by simp) h).1

theorem DISCARD_alloc {g g1 g2 : GenState} {r : Int} (h1 : Allocated g r g1)
    (h : DISCARD r g1 = Except.ok g2) : g2.reglist = g.reglist := by
  unfold DISCARD at h
  rw [if_pos (allocated_ne_noreg h1)] at h
  exact (allocated_free h1 rfl h).1

theorem DISCARD_noreg {g1 g2 : GenState} (h : DISCARD NOREG g1 = Except.ok g2) : g2 = g1 := by
  unfold DISCARD at h
  simp only [ne_eq, not_true_eq_false, if_false, pure, Except.pure, Except.ok.injEq] at h
  exact h.symm

theorem isExpr_eq (vt : CType) (lv : Bool) (u : Node) :
    isExpr (Ast.mk vt lv u) =
    (match u with
    | Node.intlit _ => true
    | Node.ident _ => true
    | Node.strlit _ => true
    | Node.sizeofop _ => true
    | Node.unary op val =>
      match op with
      | Op.OP_ADDROF => true
      | Op.OP_DEREF => isExpr val
      | _ => false
    | Node.binop _ lhs rhs => isExpr lhs && isExpr rhs
    | Node.call _ _ params => allExpr params
    | _ => false) := by
  cases u with
  | unary op val => cases op <;> rfl
  | _ => rfl

theorem isStmt_eq (vt : CType) (lv : Bool) (u : Node) :
    isStmt (Ast.mk vt lv u) =
    (match u with
    | Node.block _ statements => allItems statements
    | Node.ret _ val =>
      match val with
      | some val => isExpr val
      | none => true
    | Node.ifelse cond ifblock elseblock =>
      isExpr cond && (isExpr ifblock || isStmt ifblock) &&
        (match elseblock with
         | some elseblock => isExpr elseblock || isStmt elseblock
         | none => true)
    | Node.whileloop cond body => isExpr cond && (isExpr body || isStmt body)
    | Node.forloop init cond update body =>
      (match init with
       | some init => isExpr init || isStmt init
       | none => false) &&
      isExpr cond &&
      (match update with
       | some update => isExpr update || isStmt update
       | none => false) &&
      (isExpr body || isStmt body)
    | Node.funcdef _ block => isStmt block
    | _ => false) := by
  cases u with
  | ret f val => cases val <;> rfl
  | ifelse c a e => cases e <;> rfl
  | forloop i c u b => cases i <;> cases u <;> rfl
  | _ => rfl

theorem item_balance {a : Ast} {g g1 g2 : GenState} {r : Int}
    (hb : (isExpr a = true → Allocated g r g1) ∧
      (isStmt a = true → r = NOREG ∧ g1.reglist = g.reglist))
    (hi : (isExpr a || isStmt a) = true) (hd : DISCARD r g1 = Except.ok g2) :
    g2.reglist = g.reglist := by
  have hi' : isExpr a = true ∨ isStmt a = true := by simpa using hi
  rcases hi' with he | hs
  · exact DISCARD_alloc (hb.1 he) hd
  · obtain ⟨rfl, hg⟩ := hb.2 hs
    rw [DISCARD_noreg hd, hg]

mutual
theorem balance_code (lookup : String → Option sym) :
    ∀ (a : Ast) (g : GenState) (r : Int) (g' : GenState),
      gen_code lookup a g = Except.ok (r, g') →
      (isExpr a = true → Allocated g r g') ∧
      (isStmt a = true → r = NOREG ∧ g'.reglist = g.reglist)
  | Ast.mk vt lv (Node.binop op lhs rhs), g, r, g' => by
    intro h
    rw [gen_code_eq] at h
    simp only [bind_ok_iff, Prod.exists] at h
    obtain ⟨r1, g1, h1, r2, g2, h2, h3⟩ := h
    have i1 := balance_code lookup lhs g r1 g1 h1
    have i2 := balance_code lookup rhs g1 r2 g2 h2
    refine ⟨fun he => ?_, fun hs => ?_⟩
    · rw [isExpr_eq] at he
      simp only [Bool.and_eq_true] at he
      exact gen_binop_alloc (i1.1 he.1) (i2.1 he.2) h3
    · rw [isStmt_eq] at hs
      simp at hs
  | Ast.mk vt lv (Node.unary op val), g, r, g' => by
    intro h
    rw [gen_code_eq] at h
    refine ⟨fun he => ?_, fun hs => ?_⟩
    · rw [isExpr_eq] at he
      cases op <;> simp only [Bool.false_eq_true] at he
      · exact gen_addrof_alloc h
      · simp only [bind_ok_iff, Prod.exists] at h
        obtain ⟨r1, g1, h1, h2⟩ := h
        exact gen_deref_alloc ((balance_code lookup val g r1 g1 h1).1 he) h2
    · rw [isStmt_eq] at hs
      simp at hs
  | Ast.mk vt lv (Node.intlit ival), g, r, g' => by
    intro h
    rw [gen_code_eq] at h
    exact ⟨fun _ => gen_intlit_alloc h, fun hs => by rw [isStmt_eq] at hs; simp at hs⟩
  | Ast.mk vt lv (Node.call name n params), g, r, g' => by
    intro h
    rw [gen_code_eq] at h
    simp only [bind_ok_iff] at h
    obtain ⟨g1, h1, h2⟩ := h
    refine ⟨fun he => ?_, fun hs => by rw [isStmt_eq] at hs; simp at hs⟩
    rw [isExpr_eq] at he
    have e1 := balance_params lookup params 0 g g1 h1 he
    obtain ⟨i, hr, hi, hf, hset⟩ := gen_call_alloc h2
    exact ⟨i, hr, hi, by rw [← e1]; exact hf, by rw [hset, e1]⟩
  | Ast.mk vt lv (Node.ident name), g, r, g' => by
    intro h
    rw [gen_code_eq] at h
    exact ⟨fun _ => gen_ident_alloc h, fun hs => by rw [isStmt_eq] at hs; simp at hs⟩
  | Ast.mk vt lv (Node.strlit str), g, r, g' => by
    intro h
    rw [gen_code_eq] at h
    exact ⟨fun _ => gen_strlit_alloc h, fun hs => by rw [isStmt_eq] at hs; simp at hs⟩
  | Ast.mk vt lv (Node.sizeofop t), g, r, g' => by
    intro h
    rw [gen_code_eq] at h
    exact ⟨fun _ => gen_sizeof_alloc h, fun hs => by rw [isStmt_eq] at hs; simp at hs⟩
  | Ast.mk vt lv (Node.vardef name), g, r, g' => by
    intro h
    exact ⟨fun he => by rw [isExpr_eq] at he; simp at he,
      fun hs => by rw [isStmt_eq] at hs; simp at hs⟩
  | Ast.mk vt lv (Node.funcdef name block), g, r, g' => by
    intro h
    rw [gen_code_eq] at h
    simp only [bind_ok_iff, pure, Except.pure, Except.ok.injEq, Prod.mk.injEq] at h
    obtain ⟨g1, h1, rfl, rfl⟩ := h
    refine ⟨fun he => by rw [isExpr_eq] at he; simp at he, fun hs => ?_⟩
    rw [isStmt_eq] at hs
    have e1 := balance_block lookup block _ g1 h1 hs
    exact ⟨rfl, e1⟩
  | Ast.mk vt lv (Node.inasm code), g, r, g' => by
    intro h
    exact ⟨fun he => by rw [isExpr_eq] at he; simp at he,
      fun hs => by rw [isStmt_eq] at hs; simp at hs⟩
  | Ast.mk vt lv (Node.block n statements), g, r, g' => by
    intro h
    rw [gen_code_eq] at h
    simp only [bind_ok_iff, pure, Except.pure, Except.ok.injEq, Prod.mk.injEq] at h
    obtain ⟨g1, h1, rfl, rfl⟩ := h
    refine ⟨fun he => by rw [isExpr_eq] at he; simp at he, fun hs => ?_⟩
    rw [isStmt_eq] at hs
    exact ⟨rfl, balance_statements lookup statements g g1 h1 hs⟩
  | Ast.mk vt lv (Node.ret f none), g, r, g' => by
    intro h
    rw [gen_code_eq] at h
    simp only [bind_ok_iff, pure, Except.pure, Except.ok.injEq, Prod.mk.injEq] at h
    obtain ⟨g1, rfl, rfl, rfl⟩ := h
    exact ⟨fun he => by rw [isExpr_eq] at he; simp at he, fun _ => ⟨rfl, rfl⟩⟩
  | Ast.mk vt lv (Node.ret f (some val)), g, r, g' => by
    intro h
    rw [gen_code_eq] at h
    simp only [bind_ok_iff, pure, Except.pure, Except.ok.injEq, Prod.mk.injEq, Prod.exists] at h
    obtain ⟨r1, g1, h1, x, _, g3, h2, rfl, rfl⟩ := h
    refine ⟨fun he => by rw [isExpr_eq] at he; simp at he, fun hs => ?_⟩
    rw [isStmt_eq] at hs
    have i1 := (balance_code lookup val g r1 g1 h1).1 hs
    exact ⟨rfl, (allocated_free i1 (by simp) h2).1⟩
  | Ast.mk vt lv (Node.ifelse cond ifblock none), g, r, g' => by
    intro h
    rw [gen_code_eq] at h
    simp only [bind_ok_iff, pure, Except.pure, Except.ok.injEq, Prod.mk.injEq, Prod.exists] at h
    obtain ⟨r1, g1, h1, g2, h2, d, g3, h3, g4, h4, rfl, rfl⟩ := h
    refine ⟨fun he => by rw [isExpr_eq] at he; simp at he, fun hs => ?_⟩
    rw [isStmt_eq] at hs
    simp only [Bool.and_eq_true, Bool.and_true] at hs
    have i1 := (balance_code lookup cond g r1 g1 h1).1 hs.1
    have e2 := gen_test_free i1 h2 rfl
    have e4 := item_balance (balance_code lookup ifblock g2 d g3 h3) hs.2 h4
    exact ⟨rfl, by rw [emit_reglist, e4, e2]⟩
  | Ast.mk vt lv (Node.ifelse cond ifblock (some eb)), g, r, g' => by
    intro h
    rw [gen_code_eq] at h
    simp only [bind_ok_iff, pure, Except.pure, Except.ok.injEq, Prod.mk.injEq, Prod.exists] at h
    obtain ⟨r1, g1, h1, g2, h2, d, g3, h3, g4, h4, d', g5, h5, g6, h6, rfl, rfl⟩ := h
    refine ⟨fun he => by rw [isExpr_eq] at he; simp at he, fun hs => ?_⟩
    rw [isStmt_eq] at hs
    simp only [Bool.and_eq_true] at hs
    have i1 := (balance_code lookup cond g r1 g1 h1).1 hs.1.1
    have e2 := gen_test_free i1 h2 rfl
    have e4 := item_balance (balance_code lookup ifblock g2 d g3 h3) hs.1.2 h4
    have e6 := item_balance (balance_code lookup eb _ d' g5 h5) hs.2 h6
    exact ⟨rfl, by rw [emit_reglist, e6, emit_reglist, emit_reglist, e4, e2]⟩
  | Ast.mk vt lv (Node.whileloop cond body), g, r, g' => by
    intro h
    rw [gen_code_eq] at h
    simp only [bind_ok_iff, pure, Except.pure, Except.ok.injEq, Prod.mk.injEq, Prod.exists] at h
    obtain ⟨r1, g1, h1, g2, h2, d, g3, h3, g4, h4, rfl, rfl⟩ := h
    refine ⟨fun he => by rw [isExpr_eq] at he; simp at he, fun hs => ?_⟩
    rw [isStmt_eq] at hs
    simp only [Bool.and_eq_true] at hs
    have i1 := (balance_code lookup cond _ r1 g1 h1).1 hs.1
    have e2 := gen_test_free i1 h2 rfl
    have e4 := item_balance (balance_code lookup body g2 d g3 h3) hs.2 h4
    exact ⟨rfl, by rw [emit_reglist, emit_reglist, e4, e2]; rfl⟩
  | Ast.mk vt lv (Node.forloop none cond update body), g, r, g' => by
    intro h
    exact ⟨fun he => by rw [isExpr_eq] at he; simp at he,
      fun hs => by rw [isStmt_eq] at hs; simp at hs⟩
  | Ast.mk vt lv (Node.forloop (some init) cond none body), g, r, g' => by
    intro h
    exact ⟨fun he => by rw [isExpr_eq] at he; simp at he,
      fun hs => by rw [isStmt_eq] at hs; simp at hs⟩
  | Ast.mk vt lv (Node.forloop (some init) cond (some update) body), g, r, g' => by
    intro h
    rw [gen_code_eq] at h
    simp only [bind_ok_iff, pure, Except.pure, Except.ok.injEq, Prod.mk.injEq, Prod.exists] at h
    obtain ⟨d0, ga, h0, g0, h0', r1, g1, h1, g2, h2, d, g3, h3, g4, h4,
      d', g5, h5, g6, h6, rfl, rfl⟩ := h
    refine ⟨fun he => by rw [isExpr_eq] at he; simp at he, fun hs => ?_⟩
    rw [isStmt_eq] at hs
    simp only [Bool.and_eq_true] at hs
    obtain ⟨⟨⟨hsi, hsc⟩, hsu⟩, hsb⟩ := hs
    have e0 := item_balance (balance_code lookup init _ d0 ga h0) hsi h0'
    have i1 := (balance_code lookup cond _ r1 g1 h1).1 hsc
    have e2 := gen_test_free i1 h2 rfl
    have e4 := item_balance (balance_code lookup body g2 d g3 h3) hsb h4
    have e6 := item_balance (balance_code lookup update g4 d' g5 h5) hsu h6
    exact ⟨rfl, by rw [emit_reglist, emit_reglist, e6, e4, e2, emit_reglist, e0]; rfl⟩
  | Ast.mk vt lv (Node.cast t val), g, r, g' => by
    intro h
    exact ⟨fun he => by rw [isExpr_eq] at he; simp at he,
      fun hs => by rw [isStmt_eq] at hs; simp at hs⟩
  | Ast.mk vt lv (Node.label name), g, r, g' => by
    intro h
    exact ⟨fun he => by rw [isExpr_eq] at he; simp at he,
      fun hs => by rw [isStmt_eq] at hs; simp at hs⟩
  | Ast.mk vt lv (Node.gotolbl name), g, r, g' => by
    intro h
    exact ⟨fun he => by rw [isExpr_eq] at he; simp at he,
      fun hs => by rw [isStmt_eq] at hs; simp at hs⟩
theorem balance_block (lookup : String → Option sym) :
    ∀ (a : Ast) (g g' : GenState), gen_block lookup a g = Except.ok g' →
      isStmt a = true → g'.reglist = g.reglist
  | Ast.mk vt lv (Node.block n statements), g, g' => by
    intro h hs
    rw [gen_block_eq] at h
    rw [isStmt_eq] at hs
    exact balance_statements lookup statements g g' h hs
  | Ast.mk vt lv (Node.binop ..), g, g' | Ast.mk vt lv (Node.unary ..), g, g'
  | Ast.mk vt lv (Node.intlit ..), g, g' | Ast.mk vt lv (Node.call ..), g, g'
  | Ast.mk vt lv (Node.ident ..), g, g' | Ast.mk vt lv (Node.strlit ..), g, g'
  | Ast.mk vt lv (Node.sizeofop ..), g, g' | Ast.mk vt lv (Node.vardef ..), g, g'
  | Ast.mk vt lv (Node.funcdef ..), g, g' | Ast.mk vt lv (Node.inasm ..), g, g'
  | Ast.mk vt lv (Node.ret ..), g, g' | Ast.mk vt lv (Node.ifelse ..), g, g'
  | Ast.mk vt lv (Node.whileloop ..), g, g' | Ast.mk vt lv (Node.forloop ..), g, g'
  | Ast.mk vt lv (Node.cast ..), g, g' | Ast.mk vt lv (Node.label ..), g, g'
  | Ast.mk vt lv (Node.gotolbl ..), g, g' => by
    intro h
    rw [gen_block_eq] at h
    simp at h
theorem balance_statements (lookup : String → Option sym) :
    ∀ (l : List Ast) (g g' : GenState), gen_statements lookup l g = Except.ok g' →
      allItems l = true → g'.reglist = g.reglist
  | [], g, g' => by
    intro h _
    cases h
    rfl
  | st :: rest, g, g' => by
    intro h hs
    rw [gen_statements_cons] at h
    simp only [bind_ok_iff, Prod.exists] at h
    obtain ⟨d, g1, h1, g2, h2, h3⟩ := h
    have hs' : (isExpr st || isStmt st) = true ∧ allItems rest = true := by
      simpa [allItems] using hs
    have e2 := item_balance (balance_code lookup st g d g1 h1) hs'.1 h2
    rw [balance_statements lookup rest g2 g' h3 hs'.2, e2]
theorem balance_params (lookup : String → Option sym) :
    ∀ (l : List Ast) (i : Nat) (g g' : GenState),
      gen_call_params lookup l i g = Except.ok g' →
      allExpr l = true → g'.reglist = g.reglist
  | [], i, g, g' => by
    intro h _
    cases h
    rfl
  | p :: rest, i, g, g' => by
    intro h hs
    rw [gen_call_params_cons] at h
    simp only [bind_ok_iff, Prod.exists] at h
    obtain ⟨d, g1, h1, g2, h2, h3⟩ := h
    have hs' : isExpr p = true ∧ allExpr rest = true := by
      simpa [allExpr] using hs
    have e2 := gen_call_param_free ((balance_code lookup p g d g1 h1).1 hs'.1) h2
    rw [balance_params lookup rest (i + 1) g2 g' h3 hs'.2, e2]
end

/-- C25: register balance.  Whenever `gen_code` returns normally on an
expression tree (integer literal, identifier, string literal, `sizeof`,
address-of, dereference, binary operator, call, over expression trees), the
register `r` returned is a register of the pool that was free before, and
the pool afterwards is the pool before with exactly `r` made busy.  Whenever
it returns normally on a statement tree (block, `return`, if-else, while,
for, function definition, over expression and statement trees), it returns
`NOREG` and the pool afterwards is the pool before. -/
theorem register_balance (lookup : String → Option sym) (a : Ast) (g : GenState) (r : Int)
    (g' : GenState) (h : gen_code lookup a g = Except.ok (r, g')) :
    (isExpr a = true → Allocated g r g') ∧
    (isStmt a = true → r = NOREG ∧ g'.reglist = g.reglist) :=
  balance_code lookup a g r g' h

/-- Witness for C25: `*p + 1` generated from a pool with register 0 busy
returns register 2, which was free before, and makes exactly that register
busy. -/
theorem register_balance_witness :
    gen_code (fun _ => none) derefAddAst ⟨[true, false, false, false], 0, []⟩ =
      Except.ok (2, ⟨[true, false, true, false], 0,
        ["\tmov\tp(%rip), %r9\n", "\tmov\t$1, %r10\n", "\tadd\t%r9, %r10\n"]⟩) ∧
    Allocated ⟨[true, false, false, false], 0, []⟩ 2
      ⟨[true, false, true, false], 0,
        ["\tmov\tp(%rip), %r9\n", "\tmov\t$1, %r10\n", "\tadd\t%r9, %r10\n"]⟩ :=
  ⟨rfl,
   (register_balance (fun _ => none) derefAddAst ⟨[true, false, false, false], 0, []⟩ 2
      ⟨[true, false, true, false], 0,
        ["\tmov\tp(%rip), %r9\n", "\tmov\t$1, %r10\n", "\tadd\t%r9, %r10\n"]⟩ rfl).1 rfl⟩

/-! ### Register demand of operator chains -/

theorem isLeaf_inv {a : Ast} (h : isLeaf a = true) :
    ∃ vt lv, (∃ n, a = Ast.mk vt lv (Node.intlit n)) ∨ (∃ x, a = Ast.mk vt lv (Node.ident x)) := by
  obtain ⟨vt, lv, u⟩ := a
  cases u <;> first | exact ⟨vt, lv, Or.inl ⟨_, rfl⟩⟩ | exact ⟨vt, lv, Or.inr ⟨_, rfl⟩⟩ | (simp [isLeaf] at h)

theorem rightChainLen_inv {a : Ast} {n : Nat} (h : rightChainLen a = some n) :
    (isLeaf a = true ∧ n = 1) ∨
    (∃ vt lv op lhs rhs m, a = Ast.mk vt lv (Node.binop op lhs rhs) ∧ isLeaf lhs = true ∧
      plainOp op lhs = true ∧ rightChainLen rhs = some m ∧ n = m + 1) := by
  obtain ⟨vt, lv, u⟩ := a
  cases u
  case binop op lhs rhs =>
    right
    have e : rightChainLen (Ast.mk vt lv (Node.binop op lhs rhs)) =
        if isLeaf lhs && plainOp op lhs then (rightChainLen rhs).map (fun m => m + 1)
        else none := rfl
    rw [e] at h
    split_ifs at h with hc
    simp only [Bool.and_eq_true] at hc
    simp only [Option.map_eq_some'] at h
    obtain ⟨m, hm, rfl⟩ := h
    exact ⟨vt, lv, op, lhs, rhs, m, rfl, hc.1, hc.2, hm, rfl⟩
  case intlit n' =>
    left
    have e : rightChainLen (Ast.mk vt lv (Node.intlit n')) = some 1 := rfl
    rw [e] at h
    cases h
    exact ⟨rfl, rfl⟩
  case ident x =>
    left
    have e : rightChainLen (Ast.mk vt lv (Node.ident x)) = some 1 := rfl
    rw [e] at h
    cases h
    exact ⟨rfl, rfl⟩
  all_goals (exact absurd h (by intro h'; cases h'))

theorem regalloc_busyPool (k : Nat) (g : GenState) (hg : g.reglist = busyPool k) :
    (k < 4 → regalloc g = Except.ok ((k : Int), { g with reglist := busyPool (k + 1) })) ∧
    (k = 4 → regalloc g = Except.error (GenErr.abort "Out of registers\n")) := by
  obtain ⟨l, lb, o⟩ := g
  simp only at hg
  subst hg
  constructor
  · intro hk
    interval_cases k <;> rfl
  · rintro rfl
    rfl

/-- A leaf is generated by one `regalloc` and one line of text. -/
theorem leaf_gen (lookup : String → Option sym) {a : Ast} (ha : isLeaf a = true) (g : GenState) :
    (∀ r g1, regalloc g = Except.ok (r, g1) →
      ∃ t, gen_code lookup a g = Except.ok (r, emit t g1)) ∧
    (∀ e, regalloc g = Except.error e → gen_code lookup a g = Except.error e) := by
  obtain ⟨vt, lv, h | h⟩ := isLeaf_inv ha
  · obtain ⟨n, rfl⟩ := h
    constructor
    · intro r g1 hra
      obtain ⟨x, hx⟩ := allocated_reg (regalloc_spec hra).1
      rw [gen_code_eq]
      simp only [gen_intlit, hra, hx, ok_bind, pure_eq_ok]
      exact ⟨_, rfl⟩
    · intro e hra
      rw [gen_code_eq]
      simp only [gen_intlit, hra, error_bind]
  · obtain ⟨n, rfl⟩ := h
    constructor
    · intro r g1 hra
      obtain ⟨x, hx⟩ := allocated_reg (regalloc_spec hra).1
      rw [gen_code_eq]
      simp only [gen_ident, hra, hx, ok_bind, pure_eq_ok]
      exact ⟨_, rfl⟩
    · intro e hra
      rw [gen_code_eq]
      simp only [gen_ident, hra, error_bind]

/-- The operators of a chain write at most one line, free the register of
the left operand and return that of the right operand. -/
theorem plainOp_gen {op : Op} {lhs : Ast} (hop : plainOp op lhs = true) (i j : Nat)
    (hi : i < REGCNT) (hj : j < REGCNT) (g : GenState) :
    ∃ g', gen_binop op lhs (i : Int) (j : Int) g = Except.ok ((j : Int), g') ∧
      g'.reglist = g.reglist.set i false := by
  have hx1 : ∃ x, reg (i : Int) = Except.ok x := by
    unfold REGCNT at hi
    interval_cases i <;> exact ⟨_, rfl⟩
  have hx2 : ∃ x, reg (j : Int) = Except.ok x := by
    unfold REGCNT at hj
    interval_cases j <;> exact ⟨_, rfl⟩
  obtain ⟨x1, hx1⟩ := hx1
  obtain ⟨x2, hx2⟩ := hx2
  unfold plainOp at hop
  cases op <;> simp only [Bool.false_eq_true] at hop
  case OP_ASSIGN =>
    obtain ⟨vt, lv, u⟩ := lhs
    cases u <;> simp only [Bool.false_eq_true] at hop
    simp only [gen_binop, Ast.u, hx2, regfree_nat i hi, ok_bind, pure_eq_ok]
    exact ⟨_, rfl, rfl⟩
  all_goals
    simp only [gen_binop, hx1, hx2, regfree_nat i hi, ok_bind, pure_eq_ok]
    exact ⟨_, rfl, rfl⟩

theorem rightChainLen_pos {a : Ast} {n : Nat} (h : rightChainLen a = some n) : 1 ≤ n := by
  rcases rightChainLen_inv h with ⟨_, rfl⟩ | ⟨_, _, _, _, _, m, _, _, _, _, rfl⟩
  · exact Nat.le_refl 1
  · omega

theorem busyPool_succ (k : Nat) (hk : k < 4) : (busyPool k).set k true = busyPool (k + 1) := by
  interval_cases k <;> rfl

theorem busyPool_chain (k m : Nat) (hm : 1 ≤ m) (h : k + 1 + m ≤ 4) :
    ((busyPool (k + 1)).set (k + 1 + m - 1) true).set k false =
      (busyPool k).set (k + (m + 1) - 1) true := by
  have hk : k < 3 := by omega
  have hm3 : m ≤ 3 := by omega
  interval_cases k <;> interval_cases m <;> rfl

theorem right_chain_pool (lookup : String → Option sym) :
    ∀ (n : Nat) (a : Ast) (k : Nat) (g : GenState),
      rightChainLen a = some n → k ≤ 4 → g.reglist = busyPool k →
      (k + n ≤ 4 → ∃ g', gen_code lookup a g = Except.ok (((k + n - 1 : Nat) : Int), g') ∧
        g'.reglist = (busyPool k).set (k + n - 1) true) ∧
      (4 < k + n → gen_code lookup a g = Except.error (GenErr.abort "Out of registers\n")) := by
  intro n
  induction n with
  | zero =>
    intro a k g h
    have := rightChainLen_pos h
    omega
  | succ n ih =>
    intro a k g h hk hg
    obtain ⟨hra1, hra2⟩ := regalloc_busyPool k g hg
    rcases rightChainLen_inv h with ⟨hleaf, hn⟩ | ⟨vt, lv, op, lhs, rhs, m, rfl, hleaf, hop, hrhs, hn⟩
    · obtain ⟨hl1, hl2⟩ := leaf_gen lookup hleaf g
      constructor
      · intro hle
        have hk4 : k < 4 := by omega
        obtain ⟨t, ht⟩ := hl1 _ _ (hra1 hk4)
        refine ⟨emit t { g with reglist := busyPool (k + 1) }, ?_, ?_⟩
        · have e : k + (n + 1) - 1 = k := by omega
          rw [e]
          exact ht
        · have e : k + (n + 1) - 1 = k := by omega
          rw [e, busyPool_succ k hk4]
          rfl
      · intro hlt
        have hk4 : k = 4 := by omega
        exact hl2 _ (hra2 hk4)
    · have hm : m = n := by omega
      subst hm
      have hpos := rightChainLen_pos hrhs
      obtain ⟨hl1, hl2⟩ := leaf_gen lookup hleaf g
      rw [gen_code_eq]
      by_cases hk4 : k < 4
      · obtain ⟨t, ht⟩ := hl1 _ _ (hra1 hk4)
        obtain ⟨ih1, ih2⟩ := ih rhs (k + 1) _ hrhs (by omega)
          (rfl : (emit t { g with reglist := busyPool (k + 1) }).reglist = busyPool (k + 1))
        constructor
        · intro hle
          obtain ⟨g2, hg2, hp2⟩ := ih1 (by omega)
          obtain ⟨g3, hg3, hp3⟩ := plainOp_gen hop k (k + 1 + m - 1) (by unfold REGCNT; omega)
            (by unfold REGCNT; omega) g2
          have e : k + (m + 1) - 1 = k + 1 + m - 1 := by omega
          refine ⟨g3, ?_, ?_⟩
          · simp only [ht, hg2, ok_bind]
            rw [e]
            exact hg3
          · rw [hp3, hp2]
            exact busyPool_chain k m hpos (by omega)
        · intro hlt
          simp only [ht, ok_bind, ih2 (by omega), error_bind]
      · have hk4' : k = 4 := by omega
        constructor
        · intro hle
          omega
        · intro _
          simp only [hl2 _ (hra2 hk4'), error_bind]

theorem leftChainLen_inv {a : Ast} {n : Nat} (h : leftChainLen a = some n) :
    (isLeaf a = true ∧ n = 1) ∨
    (∃ vt lv op lhs rhs m, a = Ast.mk vt lv (Node.binop op lhs rhs) ∧ isLeaf rhs = true ∧
      plainOp op lhs = true ∧ leftChainLen lhs = some m ∧ n = m + 1) := by
  obtain ⟨vt, lv, u⟩ := a
  cases u
  case binop op lhs rhs =>
    right
    have e : leftChainLen (Ast.mk vt lv (Node.binop op lhs rhs)) =
        if isLeaf rhs && plainOp op lhs then (leftChainLen lhs).map (fun m => m + 1)
        else none := rfl
    rw [e] at h
    split_ifs at h with hc
    simp only [Bool.and_eq_true] at hc
    simp only [Option.map_eq_some'] at h
    obtain ⟨m, hm, rfl⟩ := h
    exact ⟨vt, lv, op, lhs, rhs, m, rfl, hc.1, hc.2, hm, rfl⟩
  case intlit n' =>
    left
    have e : leftChainLen (Ast.mk vt lv (Node.intlit n')) = some 1 := rfl
    rw [e] at h
    cases h
    exact ⟨rfl, rfl⟩
  case ident x =>
    left
    have e : leftChainLen (Ast.mk vt lv (Node.ident x)) = some 1 := rfl
    rw [e] at h
    cases h
    exact ⟨rfl, rfl⟩
  all_goals (exact absurd h (by intro h'; cases h'))

theorem regalloc_of_pool {g : GenState} {i : Nat}
    (h : regalloc_from 0 (g.reglist.take REGCNT) = some i) :
    regalloc g = Except.ok ((i : Int), { g with reglist := g.reglist.set i true }) := by
  simp only [regalloc, h, pure_eq_ok]

/-- The second register of a left-nested chain: with the first `k` registers
busy and one of the next two holding the left operand, the right operand
takes the other one, and after the operator only that one is busy. -/
theorem left_chain_step (k r1 : Nat) (hk : k ≤ 2) (hr : r1 = k ∨ r1 = k + 1) (g1 : GenState)
    (hg : g1.reglist = (busyPool k).set r1 true) :
    ∃ r2, (r2 = k ∨ r2 = k + 1) ∧
      regalloc g1 = Except.ok ((r2 : Int), { g1 with reglist := busyPool (k + 2) }) ∧
      (busyPool (k + 2)).set r1 false = (busyPool k).set r2 true := by
  obtain ⟨l, lb, o⟩ := g1
  simp only at hg
  subst hg
  rcases hr with rfl | rfl
  · refine ⟨r1 + 1, Or.inr rfl, ?_, ?_⟩ <;> interval_cases r1 <;> rfl
  · refine ⟨k, Or.inl rfl, ?_, ?_⟩ <;> interval_cases k <;> rfl

theorem left_chain_pool (lookup : String → Option sym) :
    ∀ (n : Nat) (a : Ast) (k : Nat) (g : GenState),
      leftChainLen a = some n → k ≤ 2 → g.reglist = busyPool k →
      ∃ (r : Nat) (g' : GenState), (r = k ∨ r = k + 1) ∧
        gen_code lookup a g = Except.ok ((r : Int), g') ∧
        g'.reglist = (busyPool k).set r true := by
  intro n
  induction n with
  | zero =>
    intro a k g h
    rcases leftChainLen_inv h with ⟨_, hn⟩ | ⟨_, _, _, _, _, m, _, _, _, _, hn⟩ <;> omega
  | succ n ih =>
    intro a k g h hk hg
    rcases leftChainLen_inv h with ⟨hleaf, hn⟩ | ⟨vt, lv, op, lhs, rhs, m, rfl, hleaf, hop, hlhs, hn⟩
    · obtain ⟨hl1, _⟩ := leaf_gen lookup hleaf g
      obtain ⟨t, ht⟩ := hl1 _ _ ((regalloc_busyPool k g hg).1 (by omega))
      exact ⟨k, _, Or.inl rfl, ht, by rw [busyPool_succ k (by omega)]; rfl⟩
    · have hm : m = n := by omega
      subst hm
      obtain ⟨r1, g1, hr1, hg1, hp1⟩ := ih lhs k g hlhs hk hg
      obtain ⟨r2, hr2, hra, hset⟩ := left_chain_step k r1 hk hr1 g1 hp1
      obtain ⟨hl1, _⟩ := leaf_gen lookup hleaf g1
      obtain ⟨t, ht⟩ := hl1 _ _ hra
      obtain ⟨g3, hg3, hp3⟩ := plainOp_gen hop r1 r2
        (by unfold REGCNT; rcases hr1 with rfl | rfl <;> omega)
        (by unfold REGCNT; rcases hr2 with rfl | rfl <;> omega)
        (emit t { g1 with reglist := busyPool (k + 2) })
      refine ⟨r2, g3, hr2, ?_, ?_⟩
      · rw [gen_code_eq]
        simp only [hg1, ht, ok_bind]
        exact hg3
      · rw [hp3]
        exact hset

/-! ### Chained assignments -/

theorem assignChainAst_vtype (T : CType) (xs : List String) (last : Ast)
    (h : xs ≠ []) : (assignChainAst T xs last).vtype = T := by
  cases xs with
  | nil => exact absurd rfl h
  | cons x xs => rfl

/-- The parser on a chained assignment over identifiers of one type returns
the right-nested tree. -/
theorem assign_chain_parse (T : CType) (hT : type_compatible T T = true) (lastTok : Token)
    (lastAst : Ast) (hc : type_compatible T lastAst.vtype = true) :
    ∀ (xs : List String) (f ptp : Nat) (s : PState),
      s.toks = assignChainToks xs lastTok →
      (∀ x ∈ xs, (sym_lookup s.currscope x).map (fun y => y.type) = some T) →
      leaf { s with toks := [lastTok, tk Tok.T_SEMI, tk Tok.T_EOF] } = some lastAst →
      xs.length ≤ f → ptp ≤ 1 →
      binexpr (parserAt f) ptp s =
        Except.ok (assignChainAst T xs lastAst,
          { s with toks := [tk Tok.T_SEMI, tk Tok.T_EOF] }) := by
  intro xs
  induction xs with
  | nil =>
    intro f ptp s hs _ hleaf _ _
    have hs' : s = { s with toks := [lastTok, tk Tok.T_SEMI, tk Tok.T_EOF] } := by
      cases s; simp only [assignChainToks] at hs; simp [hs]
    rw [← hs'] at hleaf
    have hn : (curr (next s)).type = Tok.T_SEMI := by simp [curr, next, hs, assignChainToks, tk]
    rw [binexpr_leaf_semi _ ptp s lastAst hleaf hn]
    simp [next, hs, assignChainToks, assignChainAst]
  | cons x xs ih =>
    intro f ptp s hs hsym hleaf hf hp
    obtain ⟨f', rfl⟩ : ∃ f', f = f' + 1 := ⟨f - 1, by simp at hf; omega⟩
    obtain ⟨y, hy, hyT⟩ : ∃ y, sym_lookup s.currscope x = some y ∧ y.type = T := by
      have := hsym x (by simp)
      simpa using this
    have hcur : curr s = tkId x := by simp [curr, hs, assignChainToks]
    have hl : leaf s = some (Ast.mk T false (Node.ident x)) := by
      simp [leaf, hcur, tkId, hy, hyT]
    have hop : operator (curr (next s)).type = some Op.OP_ASSIGN := by
      simp [curr, next, hs, assignChainToks, tk, operator]
    have hrest : (next (next s)).toks = assignChainToks xs lastTok := by
      simp [next, hs, assignChainToks]
    have hrhs := ih f' 1 (next (next s)) hrest (fun z hz => hsym z (List.mem_cons_of_mem _ hz))
      hleaf (by simp at hf; omega) (Nat.le_refl 1)
    have hcompat : type_compatible (Ast.mk T false (Node.ident x)).vtype
        (assignChainAst T xs lastAst).vtype = true := by
      cases xs with
      | nil => exact hc
      | cons z zs => exact hT
    have hcond : opprec Op.OP_ASSIGN > ptp ∨
        (rightassoc Op.OP_ASSIGN = true ∧ opprec Op.OP_ASSIGN = ptp) := by
      have : opprec Op.OP_ASSIGN = 1 := rfl
      rcases Nat.lt_or_ge ptp 1 with h | h
      · left; omega
      · right; exact ⟨rfl, by omega⟩
    rw [binexpr_leaf_op _ ptp s _ Op.OP_ASSIGN hl hop, parserAt_fuel,
      binexpr_loop_step (parserAt (f' + 1)) ptp f' _ _ Op.OP_ASSIGN (next s) _ hcond
        (by rw [parserAt_binexpr]; exact hrhs) hcompat]
    have hterm : termin { next (next s) with toks := [tk Tok.T_SEMI, tk Tok.T_EOF] } = true := rfl
    rw [if_pos hterm]
    rfl

theorem rightChainLen_setLvalue (a : Ast) (b : Bool) :
    rightChainLen (a.setLvalue b) = rightChainLen a := by
  obtain ⟨vt, lv, u⟩ := a
  cases u <;> rfl

theorem assignChainAst_len (T : CType) (last : Ast) (hl : isLeaf last = true) :
    ∀ xs : List String, rightChainLen (assignChainAst T xs last) = some (xs.length + 1) := by
  intro xs
  induction xs with
  | nil =>
    obtain ⟨vt, lv, h | h⟩ := isLeaf_inv hl
    · obtain ⟨n, rfl⟩ := h
      rfl
    · obtain ⟨n, rfl⟩ := h
      rfl
  | cons x xs ih =>
    have e : rightChainLen (assignChainAst T (x :: xs) last) =
        (rightChainLen ((assignChainAst T xs last).setLvalue false)).map (fun m => m + 1) := rfl
    rw [e, rightChainLen_setLvalue, ih]
    rfl

/-- C26: register demand of operator chains over leaves (integer literals
and identifiers) with the operators `+`, `-`, `*`, `/`, `&&`, `||` and `=`
(`=` with an identifier on its left, whose name the generator prints).
A left-nested chain `((a1 op a2) op a3) ... op an`, for every `n >= 1`, is
generated without abort from every pool whose first `k <= 2` registers are
busy and the others free, so from the empty pool and also when only two
registers are free: it returns one of the two lowest free registers and
leaves only that one busy in addition.  A right-nested chain
`a1 op (a2 op (... op an))` is generated from the empty pool without abort,
returning register `n - 1`, when `n <= 4`, and aborts with 'Out of
registers' when `n > 4`.  The parser returns the right-nested chain of
`m + 1` leaves for the chained assignment `x1 = ... = xm = last;` over
declared identifiers of one type.  `a = b = c = d = 5;` parses to the chain
of 5 leaves and its generation aborts with 'Out of registers', while
`a = b = c = 5;` is generated. -/
theorem chain_register_demand (lookup : String → Option sym) :
    (∀ (a : Ast) (n k : Nat) (g : GenState),
      leftChainLen a = some n → k ≤ 2 → g.reglist = busyPool k →
      ∃ (r : Nat) (g' : GenState), (r = k ∨ r = k + 1) ∧
        gen_code lookup a g = Except.ok ((r : Int), g') ∧
        g'.reglist = (busyPool k).set r true) ∧
    (∀ (a : Ast) (n : Nat) (g : GenState),
      rightChainLen a = some n → g.reglist = [false, false, false, false] →
      (n ≤ 4 → ∃ g', gen_code lookup a g = Except.ok (((n - 1 : Nat) : Int), g') ∧
        g'.reglist = [false, false, false, false].set (n - 1) true) ∧
      (4 < n → gen_code lookup a g = Except.error (GenErr.abort "Out of registers\n"))) ∧
    (∀ (T : CType) (lastTok : Token) (lastAst : Ast) (xs : List String) (f : Nat) (s : PState),
      type_compatible T T = true → type_compatible T lastAst.vtype = true →
      isLeaf lastAst = true →
      s.toks = assignChainToks xs lastTok →
      (∀ x ∈ xs, (sym_lookup s.currscope x).map (fun y => y.type) = some T) →
      leaf { s with toks := [lastTok, tk Tok.T_SEMI, tk Tok.T_EOF] } = some lastAst →
      xs.length ≤ f →
      binexpr (parserAt f) 0 s =
        Except.ok (assignChainAst T xs lastAst,
          { s with toks := [tk Tok.T_SEMI, tk Tok.T_EOF] }) ∧
      rightChainLen (assignChainAst T xs lastAst) = some (xs.length + 1)) ∧
    (∀ k : Nat,
      binexpr (parserAt (k + 4)) 0
          (stateOf (assignChainToks ["a", "b", "c", "d"] (tkInt 5)) abcdSyms) =
        Except.ok (assignChainAst int32 ["a", "b", "c", "d"] (Ast.mk uint32 false (Node.intlit 5)),
          stateOf [tk Tok.T_SEMI, tk Tok.T_EOF] abcdSyms)) ∧
    gen_code lookup
        (assignChainAst int32 ["a", "b", "c", "d"] (Ast.mk uint32 false (Node.intlit 5)))
        GenState.init =
      Except.error (GenErr.abort "Out of registers\n") ∧
    gen_ast lookup (assignChainAst int32 ["a", "b", "c"] (Ast.mk uint32 false (Node.intlit 5))) =
      Except.ok ["\tmov\ta(%rip), %r8\n", "\tmov\tb(%rip), %r9\n", "\tmov\tc(%rip), %r10\n",
        "\tmov\t$5, %r11\n", "\tmov\t%r11, c(%rip)\n", "\tmov\t%r11, b(%rip)\n",
        "\tmov\t%r11, a(%rip)\n"] := by
  refine ⟨?_, ?_, ?_, fun _ => rfl, rfl, rfl⟩
  · intro a n k g h hk hg
    exact left_chain_pool lookup n a k g h hk hg
  · intro a n g h hg
    have := right_chain_pool lookup n a 0 g h (by omega) hg
    simpa using this
  · intro T lastTok lastAst xs f s hT hc hl hs hsym hleaf hf
    exact ⟨assign_chain_parse T hT lastTok lastAst hc xs f 0 s hs hsym hleaf hf (by omega),
      assignChainAst_len T lastAst hl xs⟩

/-! ### Labels in the generated text -/

theorem stripStart_append (p r : List Char) : stripStart p (p ++ r) = some r := by
  simp [stripStart, List.isPrefixOf_iff_prefix]

theorem stripStart_clash : ∀ (q p cs : List Char), clash q p = true → q <+: cs →
    stripStart p cs = none
  | [], _, _, h, _ => by simp [clash] at h
  | _ :: _, [], _, h, _ => by simp [clash] at h
  | a :: q, b :: p, cs, h, hq => by
    obtain ⟨t, rfl⟩ := hq
    simp only [clash, Bool.or_eq_true, bne_iff_ne, ne_eq] at h
    by_cases hab : a = b
    · subst hab
      have h2 : clash q p = true := by simpa using h
      have := stripStart_clash q p (q ++ t) h2 ⟨t, rfl⟩
      simp only [stripStart, List.isPrefixOf_iff_prefix] at this ⊢
      simp only [List.cons_append, List.prefix_cons_inj]
      split_ifs at this ⊢ with hx
      rfl
    · simp [stripStart, List.isPrefixOf_iff_prefix, List.cons_prefix_cons, Ne.symm hab,
        fun e : b = a => hab e.symm]

theorem itemRef_none (t : String)
    (h1 : stripStart ['\t', 'j', 'm', 'p', '\t', 'L'] t.data = none)
    (h2 : stripStart ['\t', 'j', 'n', 'e', '\t', 'L'] t.data = none)
    (h3 : stripStart ['\t', 'l', 'e', 'a', 'q', '\t', 'L'] t.data = none) :
    itemRef t = none := by
  simp [itemRef, h1, h2, h3]

theorem itemLabel_none (t : String) (h : stripStart ['L'] t.data = none) :
    itemLabel t = none := by
  rw [itemLabel, h]
  rfl

theorem plain_of_start (q : List Char) (t : String) (hq : q <+: t.data)
    (hc : clashAll q = true) : Plain t := by
  simp only [clashAll, Bool.and_eq_true] at hc
  obtain ⟨⟨⟨h1, h2⟩, h3⟩, h4⟩ := hc
  refine ⟨?_, itemRef_none t (stripStart_clash q _ _ h2 hq) (stripStart_clash q _ _ h3 hq)
    (stripStart_clash q _ _ h4 hq)⟩
  simp [itemLabel, stripStart_clash q _ _ h1 hq]

theorem start_append {q : List Char} {s : String} (t : String) (h : q <+: s.data) :
    q <+: (s ++ t).data := by
  rw [String.data_append]
  exact h.trans (List.prefix_append _ _)

theorem takeWhile_digits : ∀ (ds : List Char) (term : Char) (tail : List Char),
    (∀ c ∈ ds, isdigit c = true) → isdigit term = false →
    (ds ++ term :: tail).takeWhile isdigit = ds ∧
    (ds ++ term :: tail).dropWhile isdigit = term :: tail
  | [], term, tail, _, ht => by simp [List.takeWhile, List.dropWhile, ht]
  | d :: ds, term, tail, hd, ht => by
    have h1 : isdigit d = true := hd d (by simp)
    have ih := takeWhile_digits ds term tail (fun c hc => hd c (by simp [hc])) ht
    simp [List.takeWhile, List.dropWhile, h1, ih.1, ih.2]

theorem toDigits_isdigit (n : Nat) : ∀ c ∈ Nat.toDigits 10 n, isdigit c = true := by
  intro c hc
  obtain ⟨d, h1, h2⟩ := toDigits_valid 10 (by decide) (by decide) n c hc
  exact (digit_char_decimal h1 h2).1

theorem labelNumber_digits (term : Char) (n : Nat) (tail : List Char)
    (ht : isdigit term = false) :
    labelNumber term (Nat.toDigits 10 n ++ term :: tail) = some n := by
  have h := takeWhile_digits (Nat.toDigits 10 n) term tail (toDigits_isdigit n) ht
  simp [labelNumber, h.1, h.2, toDigits_ne_nil, toDigits_value 10 (by decide) (by decide) n]

theorem toString_data (n : Nat) : (toString n).data = Nat.toDigits 10 n := rfl

/-- An item that starts with `L`, the decimal digits of `n` and a colon
defines the label `n` and refers to none. -/
theorem label_data (t : String) (n : Nat) (tail : List Char)
    (hd : t.data = ['L'] ++ (Nat.toDigits 10 n ++ ':' :: tail)) :
    itemLabel t = some n ∧ itemRef t = none := by
  have hq : ['L'] <+: t.data := by
    rw [hd]; exact List.prefix_append _ _
  refine ⟨?_, ?_⟩
  · rw [itemLabel, hd, stripStart_append]
    exact labelNumber_digits ':' n _ (by decide)
  · exact itemRef_none _ (stripStart_clash ['L'] _ _ (by decide) hq)
      (stripStart_clash ['L'] _ _ (by decide) hq) (stripStart_clash ['L'] _ _ (by decide) hq)

/-- The two items that define the label `n`: the line of a control
structure and the line of a string literal. -/
theorem label_items (n : Nat) (str : String) :
    (itemLabel ("L" ++ toString n ++ ":\n") = some n ∧
      itemRef ("L" ++ toString n ++ ":\n") = none) ∧
    (itemLabel ("L" ++ toString n ++ ":\n\t.string \"" ++ str ++ "\"\n") = some n ∧
      itemRef ("L" ++ toString n ++ ":\n\t.string \"" ++ str ++ "\"\n") = none) :=
  ⟨label_data _ n ['\n'] (by simp [String.data_append, toString_data]),
   label_data _ n ("\n\t.string \"".data ++ str.data ++ "\"\n".data)
    (by simp [String.data_append, toString_data])⟩

/-- The three items that refer to the label `n`. -/
theorem ref_items (n : Nat) (tail : String) :
    (itemRef ("\tjmp\tL" ++ toString n ++ "\n") = some n ∧
      itemLabel ("\tjmp\tL" ++ toString n ++ "\n") = none) ∧
    (itemRef ("\tjne\tL" ++ toString n ++ "\n") = some n ∧
      itemLabel ("\tjne\tL" ++ toString n ++ "\n") = none) ∧
    (itemRef ("\tleaq\tL" ++ toString n ++ "(%rip), " ++ tail ++ "\n") = some n ∧
      itemLabel ("\tleaq\tL" ++ toString n ++ "(%rip), " ++ tail ++ "\n") = none) := by
  have d1 : ("\tjmp\tL" ++ toString n ++ "\n").data =
      ['\t', 'j', 'm', 'p', '\t', 'L'] ++ (Nat.toDigits 10 n ++ '\n' :: []) := by
    simp [String.data_append, toString_data]
  have d2 : ("\tjne\tL" ++ toString n ++ "\n").data =
      ['\t', 'j', 'n', 'e', '\t', 'L'] ++ (Nat.toDigits 10 n ++ '\n' :: []) := by
    simp [String.data_append, toString_data]
  have d3 : ("\tleaq\tL" ++ toString n ++ "(%rip), " ++ tail ++ "\n").data =
      ['\t', 'l', 'e', 'a', 'q', '\t', 'L'] ++
        (Nat.toDigits 10 n ++ '(' :: ("%rip), ".data ++ tail.data ++ ['\n'])) := by
    simp [String.data_append, toString_data]
  have c1 := stripStart_clash ['\t'] ['L'] _ (by decide)
    (show ['\t'] <+: ("\tjmp\tL" ++ toString n ++ "\n").data from by rw [d1]; exact ⟨_, rfl⟩)
  have c2 := stripStart_clash ['\t'] ['L'] _ (by decide)
    (show ['\t'] <+: ("\tjne\tL" ++ toString n ++ "\n").data from by rw [d2]; exact ⟨_, rfl⟩)
  have c3 := stripStart_clash ['\t'] ['L'] _ (by decide)
    (show ['\t'] <+: ("\tleaq\tL" ++ toString n ++ "(%rip), " ++ tail ++ "\n").data from by
      rw [d3]; exact ⟨_, rfl⟩)
  refine ⟨⟨?_, itemLabel_none _ c1⟩, ⟨?_, itemLabel_none _ c2⟩, ⟨?_, itemLabel_none _ c3⟩⟩
  · rw [itemRef, d1, stripStart_append]
    exact labelNumber_digits '\n' n _ (by decide)
  · have e : stripStart ['\t', 'j', 'm', 'p', '\t', 'L']
        (['\t', 'j', 'n', 'e', '\t', 'L'] ++ (Nat.toDigits 10 n ++ '\n' :: [])) = none :=
      stripStart_clash ['\t', 'j', 'n'] _ _ (by decide) ⟨_, rfl⟩
    rw [itemRef, d2, e, stripStart_append]
    exact labelNumber_digits '\n' n _ (by decide)
  · have e1 : stripStart ['\t', 'j', 'm', 'p', '\t', 'L']
        (['\t', 'l', 'e', 'a', 'q', '\t', 'L'] ++
          (Nat.toDigits 10 n ++ '(' :: ("%rip), ".data ++ tail.data ++ ['\n']))) = none :=
      stripStart_clash ['\t', 'l'] _ _ (by decide) ⟨_, rfl⟩
    have e2 : stripStart ['\t', 'j', 'n', 'e', '\t', 'L']
        (['\t', 'l', 'e', 'a', 'q', '\t', 'L'] ++
          (Nat.toDigits 10 n ++ '(' :: ("%rip), ".data ++ tail.data ++ ['\n']))) = none :=
      stripStart_clash ['\t', 'l'] _ _ (by decide) ⟨_, rfl⟩
    rw [itemRef, d3, e1, e2, stripStart_append]
    exact labelNumber_digits '(' n _ (by decide)

theorem defCount_append (n : Nat) (o1 o2 : List String) :
    defCount n (o1 ++ o2) = defCount n o1 + defCount n o2 := by
  simp [defCount, List.countP_append]

theorem defCount_plain (n : Nat) (t : String) (h : itemLabel t = none) :
    defCount n [t] = 0 := by
  simp [defCount, List.countP_cons, h]

theorem defCount_def (n p : Nat) (t : String) (h : itemLabel t = some p) :
    defCount n [t] = if n = p then 1 else 0 := by
  by_cases hn : n = p
  · subst hn; simp [defCount, List.countP_cons, h]
  · have hn2 : ¬ p = n := fun e => hn e.symm
    simp [defCount, List.countP_cons, h, hn, hn2]

theorem track_refl (g : GenState) : Track g g (fun _ => False) :=
  ⟨[], by simp, le_refl _, by simp, by simp [defCount], by
    intro n; simp [defCount], by simp⟩

theorem track_same {g0 g g' : GenState} {P : Nat → Prop} (h : Track g0 g P)
    (ho : g'.out = g.out) (hl : g'.labels = g.labels) : Track g0 g' P := by
  obtain ⟨o, h1, h2, h3, h4, h5, h6⟩ := h
  exact ⟨o, by rw [ho, h1], by rw [hl]; exact h2, by rw [hl]; exact h3, h4,
    by rw [hl]; exact h5, by rw [hl]; exact h6⟩

theorem track_congr {g0 g : GenState} {P Q : Nat → Prop} (h : Track g0 g P)
    (hq : ∀ n, Q n ↔ P n) : Track g0 g Q := by
  obtain ⟨o, h1, h2, h3, h4, h5, h6⟩ := h
  exact ⟨o, h1, h2, fun n hn => h3 n ((hq n).1 hn), h4,
    fun n => by rw [h5 n, hq n], h6⟩

theorem track_range {g0 g : GenState} {P : Nat → Prop} (h : Track g0 g P) {n : Nat}
    (hn : P n) : g0.labels ≤ n ∧ n < g.labels := by
  obtain ⟨o, h1, h2, h3, h4, h5, h6⟩ := h
  exact h3 n hn

theorem track_plain {g0 g : GenState} {P : Nat → Prop} (h : Track g0 g P) {t : String}
    (ht : Plain t) : Track g0 (emit t g) P := by
  obtain ⟨o, h1, h2, h3, h4, h5, h6⟩ := h
  refine ⟨o ++ [t], by simp [emit, h1], h2, h3, ?_, ?_, ?_⟩
  · intro n; rw [defCount_append, defCount_plain n t ht.1]; exact h4 n
  · intro n; rw [defCount_append, defCount_plain n t ht.1]; exact h5 n
  · intro item hi n hr
    rcases List.mem_append.1 hi with hi | hi
    · exact h6 item hi n hr
    · simp only [List.mem_singleton] at hi
      subst hi
      rw [ht.2] at hr
      cases hr

theorem track_ref {g0 g : GenState} {P : Nat → Prop} (h : Track g0 g P) {t : String} {p : Nat}
    (ht : itemRef t = some p ∧ itemLabel t = none) (hp : g0.labels ≤ p ∧ p < g.labels) :
    Track g0 (emit t g) P := by
  obtain ⟨o, h1, h2, h3, h4, h5, h6⟩ := h
  refine ⟨o ++ [t], by simp [emit, h1], h2, h3, ?_, ?_, ?_⟩
  · intro n; rw [defCount_append, defCount_plain n t ht.2]; exact h4 n
  · intro n; rw [defCount_append, defCount_plain n t ht.2]; exact h5 n
  · intro item hi n hr
    rcases List.mem_append.1 hi with hi | hi
    · exact h6 item hi n hr
    · simp only [List.mem_singleton] at hi
      subst hi
      rw [ht.1] at hr
      cases hr
      exact hp

theorem track_draw {g0 g : GenState} {P : Nat → Prop} (h : Track g0 g P) :
    Track g0 (gen_label g).2 (fun n => P n ∨ n = (gen_label g).1) := by
  obtain ⟨o, h1, h2, h3, h4, h5, h6⟩ := h
  refine ⟨o, h1, ?_, ?_, h4, ?_, ?_⟩
  · simp only [gen_label]; omega
  · intro n hn
    simp only [gen_label] at hn ⊢
    rcases hn with hn | hn
    · have := h3 n hn; omega
    · omega
  · intro n
    rw [h5 n]
    simp only [gen_label]
    constructor
    · rintro ⟨a, b, c⟩
      exact ⟨a, by omega, fun hx => by rcases hx with hx | hx; exact c hx; omega⟩
    · rintro ⟨a, b, c⟩
      refine ⟨a, ?_, fun hx => c (Or.inl hx)⟩
      by_contra hb
      exact c (Or.inr (by omega))
  · intro item hi n hr
    have := h6 item hi n hr
    simp only [gen_label]; omega

theorem track_def {g0 g : GenState} {P : Nat → Prop} (h : Track g0 g P) {t : String} {p : Nat}
    (ht : itemLabel t = some p ∧ itemRef t = none) (hp : P p) :
    Track g0 (emit t g) (fun n => P n ∧ n ≠ p) := by
  obtain ⟨o, h1, h2, h3, h4, h5, h6⟩ := h
  have hp0 : defCount p o = 0 := by
    have a := h4 p
    have b := h5 p
    by_contra hne
    have : defCount p o = 1 := by omega
    exact (b.1 this).2.2 hp
  refine ⟨o ++ [t], by simp [emit, h1], h2, fun n hn => h3 n hn.1, ?_, ?_, ?_⟩
  · intro n
    rw [defCount_append, defCount_def n p t ht.1]
    by_cases hn : n = p
    · subst hn; simp [hp0]
    · simp [hn]; exact h4 n
  · intro n
    rw [defCount_append, defCount_def n p t ht.1]
    by_cases hn : n = p
    · subst hn
      simp only [hp0, if_true, zero_add, true_iff]
      exact ⟨(h3 n hp).1, (h3 n hp).2, fun hx => hx.2 rfl⟩
    · simp only [hn, if_false, add_zero, h5 n]
      constructor
      · rintro ⟨a, b, c⟩; exact ⟨a, b, fun hx => c hx.1⟩
      · rintro ⟨a, b, c⟩; exact ⟨a, b, fun hx => c ⟨hx, hn⟩⟩
  · intro item hi n hr
    rcases List.mem_append.1 hi with hi | hi
    · exact h6 item hi n hr
    · simp only [List.mem_singleton] at hi
      subst hi
      rw [ht.2] at hr
      cases hr

theorem track_sub {g0 g g' : GenState} {P : Nat → Prop} (h : Track g0 g P)
    (hs : Track g g' (fun _ => False)) : Track g0 g' P := by
  obtain ⟨o, h1, h2, h3, h4, h5, h6⟩ := h
  obtain ⟨o', k1, k2, _, k4, k5, k6⟩ := hs
  have hz : ∀ n, n < g.labels → defCount n o' = 0 := by
    intro n hn
    have a := k4 n
    have b := k5 n
    by_contra hne
    have : defCount n o' = 1 := by omega
    have := (b.1 this).1
    omega
  have hz0 : ∀ n, ¬ (g0.labels ≤ n ∧ n < g.labels) → defCount n o = 0 := by
    intro n hn
    have a := h4 n
    have b := h5 n
    by_contra hne
    have : defCount n o = 1 := by omega
    exact hn ⟨(b.1 this).1, (b.1 this).2.1⟩
  refine ⟨o ++ o', by rw [k1, h1, List.append_assoc], by omega,
    fun n hn => by have := h3 n hn; omega, ?_, ?_, ?_⟩
  · intro n
    rw [defCount_append]
    by_cases hn : n < g.labels
    · rw [hz n hn]; exact h4 n
    · rw [hz0 n (by omega)]; simpa using k4 n
  · intro n
    rw [defCount_append]
    by_cases hn : n < g.labels
    · rw [hz n hn, add_zero, h5 n]
      constructor
      · rintro ⟨a, b, c⟩; exact ⟨a, by omega, c⟩
      · rintro ⟨a, b, c⟩; exact ⟨a, hn, c⟩
    · rw [hz0 n (by omega), zero_add, k5 n]
      constructor
      · rintro ⟨a, b, _⟩
        exact ⟨by omega, b, fun hx => by have := h3 n hx; omega⟩
      · rintro ⟨a, b, c⟩; exact ⟨by omega, b, fun hx => hx⟩
  · intro item hi n hr
    rcases List.mem_append.1 hi with hi | hi
    · have := h6 item hi n hr; omega
    · have := k6 item hi n hr; omega

theorem plain1 (p a : String) (hc : clashAll p.data = true) : Plain (p ++ a) :=
  plain_of_start p.data _ (start_append a (List.prefix_refl _)) hc

theorem plain2 (p a b : String) (hc : clashAll p.data = true) : Plain (p ++ a ++ b) :=
  plain_of_start p.data _ (start_append b (start_append a (List.prefix_refl _))) hc

theorem plain4 (p a b c d : String) (hc : clashAll p.data = true) :
    Plain (p ++ a ++ b ++ c ++ d) :=
  plain_of_start p.data _
    (start_append d (start_append c (start_append b (start_append a (List.prefix_refl _))))) hc

theorem regfree_out {r : Int} {g g' : GenState} (h : regfree r g = Except.ok g') :
    g'.out = g.out ∧ g'.labels = g.labels := by
  unfold regfree at h
  split_ifs at h
  simp only [pure, Except.pure, Except.ok.injEq] at h
  subst h
  exact ⟨rfl, rfl⟩

theorem track_regfree {g0 g g' : GenState} {P : Nat → Prop} {r : Int} (ht : Track g0 g P)
    (h : regfree r g = Except.ok g') : Track g0 g' P :=
  track_same ht (regfree_out h).1 (regfree_out h).2

theorem track_regalloc {g0 g g' : GenState} {P : Nat → Prop} {r : Int} (ht : Track g0 g P)
    (h : regalloc g = Except.ok (r, g')) : Track g0 g' P :=
  track_same ht (regalloc_spec h).2.2 (regalloc_spec h).2.1

theorem track_discard {g0 g g' : GenState} {P : Nat → Prop} {r : Int} (ht : Track g0 g P)
    (h : DISCARD r g = Except.ok g') : Track g0 g' P :=
  track_same ht (DISCARD_out h).1 (DISCARD_out h).2

theorem track_intlit {g0 g g' : GenState} {P : Nat → Prop} {n : Nat} {r : Int}
    (ht : Track g0 g P) (h : gen_intlit n g = Except.ok (r, g')) : Track g0 g' P := by
  unfold gen_intlit at h
  simp only [bind_ok_iff, pure, Except.pure, Except.ok.injEq, Prod.mk.injEq, Prod.exists] at h
  obtain ⟨a, b, hra, x, _, rfl, rfl⟩ := h
  exact track_plain (track_regalloc ht hra) (plain4 _ _ _ _ _ (by decide))

theorem track_ident {g0 g g' : GenState} {P : Nat → Prop} {n : String} {r : Int}
    (ht : Track g0 g P) (h : gen_ident n g = Except.ok (r, g')) : Track g0 g' P := by
  unfold gen_ident at h
  simp only [bind_ok_iff, pure, Except.pure, Except.ok.injEq, Prod.mk.injEq, Prod.exists] at h
  obtain ⟨a, b, hra, x, _, rfl, rfl⟩ := h
  exact track_plain (track_regalloc ht hra) (plain4 _ _ _ _ _ (by decide))

theorem track_sizeof {g0 g g' : GenState} {P : Nat → Prop} {t : CType} {r : Int}
    (ht : Track g0 g P) (h : gen_sizeof t g = Except.ok (r, g')) : Track g0 g' P := by
  unfold gen_sizeof at h
  cases hs : asm_sizeof t with
  | none =>
    simp only [hs, bind_ok_iff, Prod.exists] at h
    obtain ⟨a, b, _, h⟩ := h
    cases h
  | some sz =>
    simp only [hs, bind_ok_iff, pure, Except.pure, Except.ok.injEq, Prod.mk.injEq,
      Prod.exists] at h
    obtain ⟨a, b, hra, x, _, rfl, rfl⟩ := h
    exact track_plain (track_regalloc ht hra) (plain4 _ _ _ _ _ (by decide))

theorem track_addrof {g0 g g' : GenState} {P : Nat → Prop} {val : Ast} {r : Int}
    (ht : Track g0 g P) (h : gen_addrof val g = Except.ok (r, g')) : Track g0 g' P := by
  unfold gen_addrof at h
  simp only [bind_ok_iff, Prod.exists] at h
  obtain ⟨a, b, hra, h⟩ := h
  split at h
  · simp only [bind_ok_iff, pure, Except.pure, Except.ok.injEq, Prod.mk.injEq] at h
    obtain ⟨x, _, rfl, rfl⟩ := h
    exact track_plain (track_regalloc ht hra) (plain4 _ _ _ _ _ (by decide))
  · cases h

theorem track_call {g0 g g' : GenState} {P : Nat → Prop} {name : Option String} {r : Int}
    (ht : Track g0 g P) (h : gen_call name g = Except.ok (r, g')) : Track g0 g' P := by
  unfold gen_call at h
  simp only [bind_ok_iff, pure, Except.pure, Except.ok.injEq, Prod.mk.injEq, Prod.exists] at h
  obtain ⟨a, b, hra, x, _, rfl, rfl⟩ := h
  exact track_plain (track_plain (track_regalloc ht hra) (plain2 _ _ _ (by decide)))
    (plain2 _ _ _ (by decide))

theorem track_deref {g0 g g' : GenState} {P : Nat → Prop} {lv : Bool} {r1 r : Int}
    (ht : Track g0 g P) (h : gen_deref lv r1 g = Except.ok (r, g')) : Track g0 g' P := by
  unfold gen_deref at h
  cases lv with
  | true =>
    simp only [if_true, pure, Except.pure, Except.ok.injEq, Prod.mk.injEq] at h
    obtain ⟨_, rfl⟩ := h
    exact ht
  | false =>
    simp only [Bool.false_eq_true, if_false, bind_ok_iff, pure, Except.pure, Except.ok.injEq,
      Prod.mk.injEq, Prod.exists] at h
    obtain ⟨a, b, hra, x, _, y, _, g2, hf, _, rfl⟩ := h
    exact track_regfree (track_plain (track_regalloc ht hra) (plain4 _ _ _ _ _ (by decide))) hf

theorem track_vardef {g0 g g' : GenState} {P : Nat → Prop} {lookup : String → Option sym}
    {name : Option String} (ht : Track g0 g P)
    (h : gen_vardef lookup name g = Except.ok g') : Track g0 g' P := by
  unfold gen_vardef at h
  split at h
  · cases h
  · split at h
    · cases h
    · split at h
      · cases h
      · simp only [pure, Except.pure, Except.ok.injEq] at h
        subst h
        exact track_plain ht (plain4 _ _ _ _ _ (by decide))

theorem track_call_param {g0 g g' : GenState} {P : Nat → Prop} {i : Nat} {par : Int}
    (ht : Track g0 g P) (h : gen_call_param i par g = Except.ok g') : Track g0 g' P := by
  unfold gen_call_param at h
  cases hp : paramregs i with
  | none =>
    simp only [hp, bind_ok_iff] at h
    obtain ⟨dst, h, _⟩ := h
    cases h
  | some y =>
    simp only [hp, bind_ok_iff, pure, Except.pure, Except.ok.injEq] at h
    obtain ⟨dst, _, x, _, hf⟩ := h
    exact track_regfree (track_plain ht (plain4 _ _ _ _ _ (by decide))) hf

theorem track_test {g0 g g' : GenState} {P : Nat → Prop} {r : Int} {lbl : Nat}
    (ht : Track g0 g P) (hl : P lbl) (h : gen_test r lbl g = Except.ok g') : Track g0 g' P := by
  unfold gen_test at h
  simp only [bind_ok_iff] at h
  obtain ⟨x, _, hf⟩ := h
  have p1 : Plain "\tmov\t$1, %rax\n" := by unfold Plain; decide
  have t1 := track_plain (track_plain ht p1) (plain2 "\tcmp\t" x ", %rax\n" (by decide))
  exact track_regfree (track_ref t1 (ref_items lbl "").2.1 (track_range t1 hl)) hf

theorem track_strlit {g0 g g' : GenState} {P : Nat → Prop} {str : String} {r : Int}
    (ht : Track g0 g P) (h : gen_strlit str g = Except.ok (r, g')) : Track g0 g' P := by
  unfold gen_strlit at h
  simp only [bind_ok_iff, pure, Except.pure, Except.ok.injEq, Prod.mk.injEq, Prod.exists] at h
  obtain ⟨a, b, hra, x, _, rfl, rfl⟩ := h
  have t0 := track_regalloc ht hra
  have t1 := track_draw t0
  have p1 : Plain "\t.section .rodata\n" := by unfold Plain; decide
  have p2 : Plain "\t.section .text\n" := by unfold Plain; decide
  have t4 := track_plain (track_def (track_plain t1 p1) (label_items (gen_label b).1 str).2
    (Or.inr rfl)) p2
  have t5 := track_ref t4 (ref_items (gen_label b).1 x).2.2 (track_range t1 (Or.inr rfl))
  refine track_congr t5 (fun n => ⟨fun hn => ⟨Or.inl hn, ?_⟩, fun hn => ?_⟩)
  · have := (track_range t0 hn).2
    simp only [gen_label]
    omega
  · rcases hn with ⟨hn | hn, hne⟩
    · exact hn
    · exact absurd hn hne

theorem track_binop {g0 g g' : GenState} {P : Nat → Prop} {op : Op} {lhs : Ast} {r1 r2 r : Int}
    (ht : Track g0 g P) (h : gen_binop op lhs r1 r2 g = Except.ok (r, g')) : Track g0 g' P := by
  have fin : ∀ gx : GenState, Track g0 gx P →
      (∃ gy, regfree r1 gx = Except.ok gy ∧
        (pure (r2, gy) : Except GenErr (Int × GenState)) = Except.ok (r, g')) →
      Track g0 g' P := by
    intro gx hgx hh
    simp only [pure, Except.pure, Except.ok.injEq, Prod.mk.injEq] at hh
    obtain ⟨gy, hf, _, rfl⟩ := hh
    exact track_regfree hgx hf
  unfold gen_binop at h
  cases op
  case OP_EQUAL | OP_NEQUAL | OP_GT | OP_LT | OP_GTE | OP_LTE =>
    simp only [bind_ok_iff, pure, Except.pure, Except.ok.injEq, Prod.mk.injEq, Prod.exists] at h
    obtain ⟨a, b, hra, x1, _, x2, _, xk, _, g3, hf1, g4, hf2, _, rfl⟩ := h
    refine track_regfree (track_regfree (track_plain (track_plain (track_plain
      (track_regalloc ht hra) (plain4 _ _ _ _ _ (by decide))) ?_) (plain2 _ _ _ (by decide)))
      hf1) hf2
    unfold Plain
    decide
  case OP_ASSIGN =>
    simp only at h
    split at h
    · simp only [bind_ok_iff] at h
      obtain ⟨x2, _, x1, _, h⟩ := h
      refine fin _ ?_ h
      exact track_plain ht (plain4 _ _ _ _ _ (by decide))
    · simp only [bind_ok_iff] at h
      obtain ⟨x2, _, h⟩ := h
      refine fin _ ?_ h
      exact track_plain ht (plain4 _ _ _ _ _ (by decide))
    · cases h
  case OP_PLUS | OP_MINUS | OP_MUL =>
    simp only [bind_ok_iff] at h
    obtain ⟨x1, _, x2, _, h⟩ := h
    refine fin _ ?_ h
    exact track_plain ht (plain4 _ _ _ _ _ (by decide))
  all_goals
    simp only [bind_ok_iff] at h
    exact fin _ ht h

theorem labelClean_eq (vt : CType) (lv : Bool) (u : Node) :
    labelClean (Ast.mk vt lv u) =
    (match u with
    | Node.binop _ lhs rhs => labelClean lhs && labelClean rhs
    | Node.unary op val =>
      match op with
      | Op.OP_DEREF => labelClean val
      | _ => true
    | Node.call _ _ params => labelCleanAll params
    | Node.funcdef name block => plainItem (name ++ ":\n") && labelClean block
    | Node.inasm code => plainItem code
    | Node.block _ statements => labelCleanAll statements
    | Node.ret _ val =>
      match val with
      | some val => labelClean val
      | none => true
    | Node.ifelse cond ifblock elseblock =>
      labelClean cond && labelClean ifblock &&
        (match elseblock with
         | some elseblock => labelClean elseblock
         | none => true)
    | Node.whileloop cond body => labelClean cond && labelClean body
    | Node.forloop init cond update body =>
      (match init with
       | some init => labelClean init
       | none => true) &&
      labelClean cond &&
      (match update with
       | some update => labelClean update
       | none => true) &&
      labelClean body
    | _ => true) := by
  cases u with
  | unary op val => cases op <;> rfl
  | ret f val => cases val <;> rfl
  | ifelse c a e => cases e <;> rfl
  | forloop i c u b => cases i <;> cases u <;> rfl
  | _ => rfl

theorem plainItem_plain {t : String} (h : plainItem t = true) : Plain t := by
  simpa [plainItem, Plain, Option.isNone_iff_eq_none] using h

mutual
theorem label_code (lookup : String → Option sym) :
    ∀ (a : Ast) (g : GenState) (r : Int) (g' : GenState),
      gen_code lookup a g = Except.ok (r, g') → labelClean a = true →
      Track g g' (fun _ => False)
  | Ast.mk vt lv (Node.binop op lhs rhs), g, r, g' => by
    intro h hc
    rw [gen_code_eq] at h
    rw [labelClean_eq] at hc
    simp only [Bool.and_eq_true] at hc
    simp only [bind_ok_iff, Prod.exists] at h
    obtain ⟨r1, g1, h1, r2, g2, h2, h3⟩ := h
    exact track_binop (track_sub (label_code lookup lhs g r1 g1 h1 hc.1)
      (label_code lookup rhs g1 r2 g2 h2 hc.2)) h3
  | Ast.mk vt lv (Node.unary op val), g, r, g' => by
    intro h hc
    rw [gen_code_eq] at h
    rw [labelClean_eq] at hc
    cases op
    case OP_ADDROF => exact track_addrof (track_refl g) h
    case OP_DEREF =>
      simp only [bind_ok_iff, Prod.exists] at h
      obtain ⟨r1, g1, h1, h2⟩ := h
      exact track_deref (label_code lookup val g r1 g1 h1 hc) h2
    all_goals
      simp only [pure, Except.pure, Except.ok.injEq, Prod.mk.injEq] at h
      obtain ⟨_, rfl⟩ := h
      exact track_refl g
  | Ast.mk vt lv (Node.intlit ival), g, r, g' => by
    intro h _
    rw [gen_code_eq] at h
    exact track_intlit (track_refl g) h
  | Ast.mk vt lv (Node.call name n params), g, r, g' => by
    intro h hc
    rw [gen_code_eq] at h
    rw [labelClean_eq] at hc
    simp only [bind_ok_iff] at h
    obtain ⟨g1, h1, h2⟩ := h
    exact track_call (label_params lookup params 0 g g1 h1 hc) h2
  | Ast.mk vt lv (Node.ident name), g, r, g' => by
    intro h _
    rw [gen_code_eq] at h
    exact track_ident (track_refl g) h
  | Ast.mk vt lv (Node.strlit str), g, r, g' => by
    intro h _
    rw [gen_code_eq] at h
    exact track_strlit (track_refl g) h
  | Ast.mk vt lv (Node.sizeofop t), g, r, g' => by
    intro h _
    rw [gen_code_eq] at h
    exact track_sizeof (track_refl g) h
  | Ast.mk vt lv (Node.vardef name), g, r, g' => by
    intro h _
    rw [gen_code_eq] at h
    simp only [bind_ok_iff, pure, Except.pure, Except.ok.injEq, Prod.mk.injEq] at h
    obtain ⟨g1, h1, _, rfl⟩ := h
    exact track_vardef (track_refl g) h1
  | Ast.mk vt lv (Node.funcdef name block), g, r, g' => by
    intro h hc
    rw [gen_code_eq] at h
    rw [labelClean_eq] at hc
    simp only [Bool.and_eq_true] at hc
    simp only [bind_ok_iff, pure, Except.pure, Except.ok.injEq, Prod.mk.injEq] at h
    obtain ⟨g1, h1, _, rfl⟩ := h
    have p3 : Plain "\tret\n" := by unfold Plain; decide
    exact track_plain (track_sub (track_plain (track_plain (track_refl g)
      (plain2 _ _ _ (by decide))) (plainItem_plain hc.1))
      (label_block lookup block _ g1 h1 hc.2)) p3
  | Ast.mk vt lv (Node.inasm code), g, r, g' => by
    intro h hc
    rw [gen_code_eq] at h
    rw [labelClean_eq] at hc
    simp only [pure, Except.pure, Except.ok.injEq, Prod.mk.injEq] at h
    obtain ⟨_, rfl⟩ := h
    exact track_plain (track_refl g) (plainItem_plain hc)
  | Ast.mk vt lv (Node.block n statements), g, r, g' => by
    intro h hc
    rw [gen_code_eq] at h
    rw [labelClean_eq] at hc
    simp only [bind_ok_iff, pure, Except.pure, Except.ok.injEq, Prod.mk.injEq] at h
    obtain ⟨g1, h1, _, rfl⟩ := h
    exact label_statements lookup statements g g1 h1 hc
  | Ast.mk vt lv (Node.ret f none), g, r, g' => by
    intro h _
    rw [gen_code_eq] at h
    simp only [bind_ok_iff, pure, Except.pure, Except.ok.injEq, Prod.mk.injEq] at h
    obtain ⟨g1, rfl, _, rfl⟩ := h
    have p3 : Plain "\tret\n" := by unfold Plain; decide
    exact track_plain (track_refl g) p3
  | Ast.mk vt lv (Node.ret f (some val)), g, r, g' => by
    intro h hc
    rw [gen_code_eq] at h
    rw [labelClean_eq] at hc
    simp only [bind_ok_iff, pure, Except.pure, Except.ok.injEq, Prod.mk.injEq, Prod.exists] at h
    obtain ⟨r1, g1, h1, x, _, g3, h2, _, rfl⟩ := h
    have p3 : Plain "\tret\n" := by unfold Plain; decide
    exact track_plain (track_regfree (track_plain (label_code lookup val g r1 g1 h1 hc)
      (plain2 _ _ _ (by decide))) h2) p3
  | Ast.mk vt lv (Node.ifelse cond ifblock none), g, r, g' => by
    intro h hc
    rw [gen_code_eq] at h
    rw [labelClean_eq] at hc
    simp only [Bool.and_eq_true, and_true] at hc
    simp only [bind_ok_iff, pure, Except.pure, Except.ok.injEq, Prod.mk.injEq, Prod.exists] at h
    obtain ⟨r1, g1, h1, g2, h2, d, g3, h3, g4, h4, _, rfl⟩ := h
    have t1 := track_draw (label_code lookup cond g r1 g1 h1 hc.1)
    have t2 := track_test t1 (Or.inr rfl) h2
    have t4 := track_discard (track_sub t2 (label_code lookup ifblock g2 d g3 h3 hc.2)) h4
    have t5 := track_def t4 (label_items (gen_label g1).1 "").1 (Or.inr rfl)
    exact track_congr t5 (fun n => by simp)
  | Ast.mk vt lv (Node.ifelse cond ifblock (some eb)), g, r, g' => by
    intro h hc
    rw [gen_code_eq] at h
    rw [labelClean_eq] at hc
    simp only [Bool.and_eq_true] at hc
    simp only [bind_ok_iff, pure, Except.pure, Except.ok.injEq, Prod.mk.injEq, Prod.exists] at h
    obtain ⟨r1, g1, h1, g2, h2, d, g3, h3, g4, h4, d', g5, h5, g6, h6, _, rfl⟩ := h
    have t1 := track_draw (track_draw (label_code lookup cond g r1 g1 h1 hc.1.1))
    have t2 := track_test t1 (Or.inl (Or.inr rfl)) h2
    have t4 := track_discard (track_sub t2 (label_code lookup ifblock g2 d g3 h3 hc.1.2)) h4
    have t5 := track_ref t4 (ref_items (gen_label (gen_label g1).2).1 "").1
      (track_range t4 (Or.inr rfl))
    have t6 := track_def t5 (label_items (gen_label g1).1 "").1 (Or.inl (Or.inr rfl))
    have t8 := track_discard (track_sub t6 (label_code lookup eb _ d' g5 h5 hc.2)) h6
    have t9 := track_def t8 (label_items (gen_label (gen_label g1).2).1 "").1
      ⟨Or.inr rfl, by simp [gen_label]⟩
    exact track_congr t9 (fun n => by simp; tauto)
  | Ast.mk vt lv (Node.whileloop cond body), g, r, g' => by
    intro h hc
    rw [gen_code_eq] at h
    rw [labelClean_eq] at hc
    simp only [Bool.and_eq_true] at hc
    simp only [bind_ok_iff, pure, Except.pure, Except.ok.injEq, Prod.mk.injEq, Prod.exists] at h
    obtain ⟨r1, g1, h1, g2, h2, d, g3, h3, g4, h4, _, rfl⟩ := h
    have t0 := track_draw (track_draw (track_refl g))
    have t1 := track_def t0 (label_items (gen_label g).1 "").1 (Or.inl (Or.inr rfl))
    have t2 := track_test (track_sub t1 (label_code lookup cond _ r1 g1 h1 hc.1))
      ⟨Or.inr rfl, by simp [gen_label]⟩ h2
    have t4 := track_discard (track_sub t2 (label_code lookup body g2 d g3 h3 hc.2)) h4
    have hr := track_range t4 (show _ from ⟨Or.inr rfl, by simp [gen_label]⟩)
    have t5 := track_ref t4 (ref_items (gen_label g).1 "").1
      (by simp only [gen_label] at hr ⊢; omega)
    have t6 := track_def t5 (label_items (gen_label (gen_label g).2).1 "").1
      ⟨Or.inr rfl, by simp [gen_label]⟩
    exact track_congr t6 (fun n => by simp; tauto)
  | Ast.mk vt lv (Node.forloop none cond update body), g, r, g' => by
    intro h _
    rw [gen_code_eq] at h
    simp [bind_ok_iff] at h
  | Ast.mk vt lv (Node.forloop (some init) cond none body), g, r, g' => by
    intro h _
    rw [gen_code_eq] at h
    simp [bind_ok_iff] at h
  | Ast.mk vt lv (Node.forloop (some init) cond (some update) body), g, r, g' => by
    intro h hc
    rw [gen_code_eq] at h
    rw [labelClean_eq] at hc
    simp only [Bool.and_eq_true] at hc
    obtain ⟨⟨⟨hci, hcc⟩, hcu⟩, hcb⟩ := hc
    simp only [bind_ok_iff, pure, Except.pure, Except.ok.injEq, Prod.mk.injEq, Prod.exists] at h
    obtain ⟨d0, ga, h0, gb, h0', r1, g1, h1, g2, h2, d, g3, h3, g4, h4,
      d', g5, h5, g6, h6, _, rfl⟩ := h
    have t0 := track_draw (track_draw (track_refl g))
    have ta := track_discard (track_sub t0 (label_code lookup init _ d0 ga h0 hci)) h0'
    have t1 := track_def ta (label_items (gen_label g).1 "").1 (Or.inl (Or.inr rfl))
    have t2 := track_test (track_sub t1 (label_code lookup cond _ r1 g1 h1 hcc))
      ⟨Or.inr rfl, by simp [gen_label]⟩ h2
    have t4 := track_discard (track_sub t2 (label_code lookup body g2 d g3 h3 hcb)) h4
    have t4' := track_discard (track_sub t4 (label_code lookup update g4 d' g5 h5 hcu)) h6
    have hr := track_range t4' (show _ from ⟨Or.inr rfl, by simp [gen_label]⟩)
    have t5 := track_ref t4' (ref_items (gen_label g).1 "").1
      (by simp only [gen_label] at hr ⊢; omega)
    have t6 := track_def t5 (label_items (gen_label (gen_label g).2).1 "").1
      ⟨Or.inr rfl, by simp [gen_label]⟩
    exact track_congr t6 (fun n => by simp; tauto)
  | Ast.mk vt lv (Node.cast t val), g, r, g' => by
    intro h _
    rw [gen_code_eq] at h
    simp only [pure, Except.pure, Except.ok.injEq, Prod.mk.injEq] at h
    obtain ⟨_, rfl⟩ := h
    exact track_refl g
  | Ast.mk vt lv (Node.label name), g, r, g' => by
    intro h _
    rw [gen_code_eq] at h
    simp only [pure, Except.pure, Except.ok.injEq, Prod.mk.injEq] at h
    obtain ⟨_, rfl⟩ := h
    exact track_refl g
  | Ast.mk vt lv (Node.gotolbl name), g, r, g' => by
    intro h _
    rw [gen_code_eq] at h
    simp only [pure, Except.pure, Except.ok.injEq, Prod.mk.injEq] at h
    obtain ⟨_, rfl⟩ := h
    exact track_refl g
theorem label_block (lookup : String → Option sym) :
    ∀ (a : Ast) (g g' : GenState), gen_block lookup a g = Except.ok g' →
      labelClean a = true → Track g g' (fun _ => False)
  | Ast.mk vt lv (Node.block n statements), g, g' => by
    intro h hc
    rw [gen_block_eq] at h
    rw [labelClean_eq] at hc
    exact label_statements lookup statements g g' h hc
  | Ast.mk vt lv (Node.binop ..), g, g' | Ast.mk vt lv (Node.unary ..), g, g'
  | Ast.mk vt lv (Node.intlit ..), g, g' | Ast.mk vt lv (Node.call ..), g, g'
  | Ast.mk vt lv (Node.ident ..), g, g' | Ast.mk vt lv (Node.strlit ..), g, g'
  | Ast.mk vt lv (Node.sizeofop ..), g, g' | Ast.mk vt lv (Node.vardef ..), g, g'
  | Ast.mk vt lv (Node.funcdef ..), g, g' | Ast.mk vt lv (Node.inasm ..), g, g'
  | Ast.mk vt lv (Node.ret ..), g, g' | Ast.mk vt lv (Node.ifelse ..), g, g'
  | Ast.mk vt lv (Node.whileloop ..), g, g' | Ast.mk vt lv (Node.forloop ..), g, g'
  | Ast.mk vt lv (Node.cast ..), g, g' | Ast.mk vt lv (Node.label ..), g, g'
  | Ast.mk vt lv (Node.gotolbl ..), g, g' => by
    intro h
    rw [gen_block_eq] at h
    simp at h
theorem label_statements (lookup : String → Option sym) :
    ∀ (l : List Ast) (g g' : GenState), gen_statements lookup l g = Except.ok g' →
      labelCleanAll l = true → Track g g' (fun _ => False)
  | [], g, g' => by
    intro h _
    cases h
    exact track_refl g
  | st :: rest, g, g' => by
    intro h hc
    rw [gen_statements_cons] at h
    simp only [bind_ok_iff, Prod.exists] at h
    obtain ⟨d, g1, h1, g2, h2, h3⟩ := h
    have hc' : labelClean st = true ∧ labelCleanAll rest = true := by
      simpa [labelCleanAll] using hc
    exact track_sub (track_discard (label_code lookup st g d g1 h1 hc'.1) h2)
      (label_statements lookup rest g2 g' h3 hc'.2)
theorem label_params (lookup : String → Option sym) :
    ∀ (l : List Ast) (i : Nat) (g g' : GenState),
      gen_call_params lookup l i g = Except.ok g' →
      labelCleanAll l = true → Track g g' (fun _ => False)
  | [], i, g, g' => by
    intro h _
    cases h
    exact track_refl g
  | p :: rest, i, g, g' => by
    intro h hc
    rw [gen_call_params_cons] at h
    simp only [bind_ok_iff, Prod.exists] at h
    obtain ⟨d, g1, h1, g2, h2, h3⟩ := h
    have hc' : labelClean p = true ∧ labelCleanAll rest = true := by
      simpa [labelCleanAll] using hc
    exact track_sub (track_call_param (label_code lookup p g d g1 h1 hc'.1) h2)
      (label_params lookup rest (i + 1) g2 g' h3 hc'.2)
end

/-! ### The text without the program's names and inline assembly -/

theorem blankText_eq (vt : CType) (lv : Bool) (u : Node) :
    blankText (Ast.mk vt lv u) =
    (match u with
    | Node.binop op lhs rhs => Ast.mk vt lv (Node.binop op (blankText lhs) (blankText rhs))
    | Node.unary op val =>
      match op with
      | Op.OP_DEREF => Ast.mk vt lv (Node.unary op (blankText val))
      | _ => Ast.mk vt lv (Node.unary op val)
    | Node.call name ast params => Ast.mk vt lv (Node.call name ast (blankTextAll params))
    | Node.funcdef _ block => Ast.mk vt lv ( Node.funcdef "" (blankText block))
    | Node.inasm _ => Ast.mk vt lv (Node.inasm "")
    | Node.block symtab statements => Ast.mk vt lv (Node.block symtab (blankTextAll statements))
    | Node.ret func val =>
      match val with
      | some val => Ast.mk vt lv (Node.ret func (some (blankText val)))
      | none => Ast.mk vt lv (Node.ret func none)
    | Node.ifelse cond ifblock elseblock =>
      match elseblock with
      | some elseblock =>
        Ast.mk vt lv (Node.ifelse (blankText cond) (blankText ifblock)
          (some (blankText elseblock)))
      | none => Ast.mk vt lv (Node.ifelse (blankText cond) (blankText ifblock) none)
    | Node.whileloop cond body =>
      Ast.mk vt lv (Node.whileloop (blankText cond) (blankText body))
    | Node.forloop init cond update body =>
      Ast.mk vt lv (Node.forloop
        (match init with
         | some init => some (blankText init)
         | none => none)
        (blankText cond)
        (match update with
         | some update => some (blankText update)
         | none => none)
        (blankText body))
    | _ => Ast.mk vt lv u) := by
  cases u with
  | unary op val => cases op <;> rfl
  | ret f val => cases val <;> rfl
  | ifelse c a e => cases e <;> rfl
  | forloop i c u b => cases i <;> cases u <;> rfl
  | _ => rfl

mutual
theorem labelClean_blankText : ∀ a : Ast, labelClean (blankText a) = true
  | Ast.mk vt lv (Node.binop op lhs rhs) => by
    rw [blankText_eq, labelClean_eq]
    simp [labelClean_blankText lhs, labelClean_blankText rhs]
  | Ast.mk vt lv (Node.unary op val) => by
    rw [blankText_eq]
    cases op <;> simp only [labelClean_eq]
    exact labelClean_blankText val
  | Ast.mk vt lv (Node.call name ast params) => by
    rw [blankText_eq, labelClean_eq]
    exact labelCleanAll_blankTextAll params
  | Ast.mk vt lv (Node.funcdef name block) => by
    rw [blankText_eq, labelClean_eq]
    simp only [labelClean_blankText block, Bool.and_true]
    decide
  | Ast.mk vt lv (Node.inasm code) => by
    rw [blankText_eq, labelClean_eq]
    decide
  | Ast.mk vt lv (Node.block n statements) => by
    rw [blankText_eq, labelClean_eq]
    exact labelCleanAll_blankTextAll statements
  | Ast.mk vt lv (Node.ret f none) => by
    rw [blankText_eq, labelClean_eq]
  | Ast.mk vt lv (Node.ret f (some val)) => by
    rw [blankText_eq, labelClean_eq]
    exact labelClean_blankText val
  | Ast.mk vt lv (Node.ifelse cond ifblock none) => by
    rw [blankText_eq, labelClean_eq]
    simp [labelClean_blankText cond, labelClean_blankText ifblock]
  | Ast.mk vt lv (Node.ifelse cond ifblock (some eb)) => by
    rw [blankText_eq, labelClean_eq]
    simp [labelClean_blankText cond, labelClean_blankText ifblock, labelClean_blankText eb]
  | Ast.mk vt lv (Node.whileloop cond body) => by
    rw [blankText_eq, labelClean_eq]
    simp [labelClean_blankText cond, labelClean_blankText body]
  | Ast.mk vt lv (Node.forloop none cond none body) => by
    rw [blankText_eq, labelClean_eq]
    simp [labelClean_blankText cond, labelClean_blankText body]
  | Ast.mk vt lv (Node.forloop none cond (some update) body) => by
    rw [blankText_eq, labelClean_eq]
    simp [labelClean_blankText cond, labelClean_blankText update, labelClean_blankText body]
  | Ast.mk vt lv (Node.forloop (some init) cond none body) => by
    rw [blankText_eq, labelClean_eq]
    simp [labelClean_blankText init, labelClean_blankText cond, labelClean_blankText body]
  | Ast.mk vt lv (Node.forloop (some init) cond (some update) body) => by
    rw [blankText_eq, labelClean_eq]
    simp [labelClean_blankText init, labelClean_blankText cond, labelClean_blankText update,
      labelClean_blankText body]
  | Ast.mk vt lv (Node.intlit ival) => by rw [blankText_eq, labelClean_eq]
  | Ast.mk vt lv (Node.strlit str) => by rw [blankText_eq, labelClean_eq]
  | Ast.mk vt lv (Node.ident name) => by rw [blankText_eq, labelClean_eq]
  | Ast.mk vt lv (Node.cast t val) => by rw [blankText_eq, labelClean_eq]
  | Ast.mk vt lv (Node.sizeofop t) => by rw [blankText_eq, labelClean_eq]
  | Ast.mk vt lv (Node.vardef name) => by rw [blankText_eq, labelClean_eq]
  | Ast.mk vt lv (Node.label name) => by rw [blankText_eq, labelClean_eq]
  | Ast.mk vt lv (Node.gotolbl name) => by rw [blankText_eq, labelClean_eq]
theorem labelCleanAll_blankTextAll : ∀ l : List Ast, labelCleanAll (blankTextAll l) = true
  | [] => rfl
  | a :: rest => by
    simp [blankTextAll, labelCleanAll, labelClean_blankText a, labelCleanAll_blankTextAll rest]
end

theorem blanked_refl (l : List String) : List.Forall₂ Blanked l l := by
  induction l with
  | nil => exact List.Forall₂.nil
  | cons x l ih => exact List.Forall₂.cons (Or.inl rfl) ih

theorem blanked_append {a b c d : List String} (h1 : List.Forall₂ Blanked a b)
    (h2 : List.Forall₂ Blanked c d) : List.Forall₂ Blanked (a ++ c) (b ++ d) := by
  induction h1 with
  | nil => exact h2
  | cons hx _ ih => exact List.Forall₂.cons hx ih

theorem blanked_emit (t : String) {g : GenState} {s : List String}
    (h : List.Forall₂ Blanked g.out s) : List.Forall₂ Blanked (emit t g).out (s ++ [t]) :=
  blanked_append h (blanked_refl [t])

theorem blanked_emit_user (t t' : String) {g : GenState} {s : List String}
    (h : List.Forall₂ Blanked g.out s) (ht : Blanked t t') :
    List.Forall₂ Blanked (emit t g).out (s ++ [t']) :=
  blanked_append h (List.Forall₂.cons ht List.Forall₂.nil)

/-- A generator function that returns a register and commutes with text
written before writes the same items from a state with other text. -/
theorem blank_frameR (F : GenState → Except GenErr (Int × GenState))
    (hF : ∀ pre g, F (prependOut pre g) = frameR pre (F g)) {g g' : GenState} {r : Int}
    (h : F g = Except.ok (r, g')) (s : List String) (hs : List.Forall₂ Blanked g.out s) :
    ∃ s', F ⟨g.reglist, g.labels, s⟩ = Except.ok (r, ⟨g'.reglist, g'.labels, s'⟩) ∧
      List.Forall₂ Blanked g'.out s' := by
  have e1 := hF g.out ⟨g.reglist, g.labels, []⟩
  have hg : prependOut g.out ⟨g.reglist, g.labels, []⟩ = g := by simp [prependOut]
  rw [hg, h] at e1
  have e2 := hF s ⟨g.reglist, g.labels, []⟩
  have hs' : prependOut s ⟨g.reglist, g.labels, []⟩ = ⟨g.reglist, g.labels, s⟩ := by
    simp [prependOut]
  rw [hs'] at e2
  cases hx : F ⟨g.reglist, g.labels, []⟩ with
  | error e =>
    rw [hx] at e1
    simp [frameR, Except.map] at e1
  | ok v =>
    rw [hx] at e1 e2
    simp only [frameR, Except.map, Except.ok.injEq, Prod.mk.injEq] at e1 e2
    obtain ⟨rfl, rfl⟩ := e1
    exact ⟨s ++ v.2.out, e2, blanked_append hs (blanked_refl _)⟩

/-- The same for a generator function that returns nothing. -/
theorem blank_frameS (F : GenState → Except GenErr GenState)
    (hF : ∀ pre g, F (prependOut pre g) = frameS pre (F g)) {g g' : GenState}
    (h : F g = Except.ok g') (s : List String) (hs : List.Forall₂ Blanked g.out s) :
    ∃ s', F ⟨g.reglist, g.labels, s⟩ = Except.ok ⟨g'.reglist, g'.labels, s'⟩ ∧
      List.Forall₂ Blanked g'.out s' := by
  have e1 := hF g.out ⟨g.reglist, g.labels, []⟩
  have hg : prependOut g.out ⟨g.reglist, g.labels, []⟩ = g := by simp [prependOut]
  rw [hg, h] at e1
  have e2 := hF s ⟨g.reglist, g.labels, []⟩
  have hs' : prependOut s ⟨g.reglist, g.labels, []⟩ = ⟨g.reglist, g.labels, s⟩ := by
    simp [prependOut]
  rw [hs'] at e2
  cases hx : F ⟨g.reglist, g.labels, []⟩ with
  | error e =>
    rw [hx] at e1
    simp [frameS, Except.map] at e1
  | ok v =>
    rw [hx] at e1 e2
    simp only [frameS, Except.map, Except.ok.injEq] at e1 e2
    subst e1
    exact ⟨s ++ v.out, e2, blanked_append hs (blanked_refl _)⟩

theorem gen_binop_blankText (op : Op) (lhs : Ast) (r1 r2 : Int) (g : GenState) :
    gen_binop op (blankText lhs) r1 r2 g = gen_binop op lhs r1 r2 g := by
  cases lhs with
  | mk vt lv u =>
    cases u with
    | unary o val => cases o <;> rfl
    | ret f val => cases val <;> rfl
    | ifelse c a e => cases e <;> rfl
    | forloop i c u b => cases i <;> cases u <;> rfl
    | _ => rfl

mutual
theorem blank_code (lookup : String → Option sym) :
    ∀ (a : Ast) (g : GenState) (r : Int) (g' : GenState),
      gen_code lookup a g = Except.ok (r, g') →
      ∀ s : List String, List.Forall₂ Blanked g.out s →
      ∃ s', gen_code lookup (blankText a) ⟨g.reglist, g.labels, s⟩ =
          Except.ok (r, ⟨g'.reglist, g'.labels, s'⟩) ∧
        List.Forall₂ Blanked g'.out s'
  | Ast.mk vt lv (Node.binop op lhs rhs), g, r, g' => by
    intro h s hs
    rw [gen_code_eq] at h
    simp only [bind_ok_iff, Prod.exists] at h
    obtain ⟨r1, g1, h1, r2, g2, h2, h3⟩ := h
    obtain ⟨s1, e1, f1⟩ := blank_code lookup lhs g r1 g1 h1 s hs
    obtain ⟨s2, e2, f2⟩ := blank_code lookup rhs g1 r2 g2 h2 s1 f1
    obtain ⟨s3, e3, f3⟩ := blank_frameR (gen_binop op lhs r1 r2)
      (fun pre x => gen_binop_frame pre op lhs r1 r2 x) h3 s2 f2
    refine ⟨s3, ?_, f3⟩
    rw [blankText_eq, gen_code_eq]
    simp only [bind_ok_iff, Prod.exists]
    exact ⟨r1, _, e1, r2, _, e2, by rw [gen_binop_blankText]; exact e3⟩
  | Ast.mk vt lv (Node.unary op val), g, r, g' => by
    intro h s hs
    rw [gen_code_eq] at h
    cases op
    case OP_ADDROF =>
      obtain ⟨s1, e1, f1⟩ := blank_frameR (gen_addrof val)
        (fun pre x => gen_addrof_frame pre val x) h s hs
      refine ⟨s1, ?_, f1⟩
      rw [blankText_eq, gen_code_eq]
      exact e1
    case OP_DEREF =>
      simp only [bind_ok_iff, Prod.exists] at h
      obtain ⟨r1, g1, h1, h2⟩ := h
      obtain ⟨s1, e1, f1⟩ := blank_code lookup val g r1 g1 h1 s hs
      obtain ⟨s2, e2, f2⟩ := blank_frameR (gen_deref lv r1)
        (fun pre x => gen_deref_frame pre lv r1 x) h2 s1 f1
      refine ⟨s2, ?_, f2⟩
      rw [blankText_eq, gen_code_eq]
      simp only [bind_ok_iff, Prod.exists]
      exact ⟨r1, _, e1, e2⟩
    all_goals
      simp only [pure, Except.pure, Except.ok.injEq, Prod.mk.injEq] at h
      obtain ⟨rfl, rfl⟩ := h
      exact ⟨s, by rw [blankText_eq, gen_code_eq]; rfl, hs⟩
  | Ast.mk vt lv (Node.intlit ival), g, r, g' => by
    intro h s hs
    rw [gen_code_eq] at h
    obtain ⟨s1, e1, f1⟩ := blank_frameR (gen_intlit ival)
      (fun pre x => gen_intlit_frame pre ival x) h s hs
    exact ⟨s1, by rw [blankText_eq, gen_code_eq]; exact e1, f1⟩
  | Ast.mk vt lv (Node.call name n params), g, r, g' => by
    intro h s hs
    rw [gen_code_eq] at h
    simp only [bind_ok_iff] at h
    obtain ⟨g1, h1, h2⟩ := h
    obtain ⟨s1, e1, f1⟩ := blank_params lookup params 0 g g1 h1 s hs
    obtain ⟨s2, e2, f2⟩ := blank_frameR (gen_call name)
      (fun pre x => gen_call_frame pre name x) h2 s1 f1
    refine ⟨s2, ?_, f2⟩
    rw [blankText_eq, gen_code_eq]
    simp only [bind_ok_iff]
    exact ⟨_, e1, e2⟩
  | Ast.mk vt lv (Node.ident name), g, r, g' => by
    intro h s hs
    rw [gen_code_eq] at h
    obtain ⟨s1, e1, f1⟩ := blank_frameR (gen_ident name)
      (fun pre x => gen_ident_frame pre name x) h s hs
    exact ⟨s1, by rw [blankText_eq, gen_code_eq]; exact e1, f1⟩
  | Ast.mk vt lv (Node.strlit str), g, r, g' => by
    intro h s hs
    rw [gen_code_eq] at h
    obtain ⟨s1, e1, f1⟩ := blank_frameR (gen_strlit str)
      (fun pre x => gen_strlit_frame pre str x) h s hs
    exact ⟨s1, by rw [blankText_eq, gen_code_eq]; exact e1, f1⟩
  | Ast.mk vt lv (Node.sizeofop t), g, r, g' => by
    intro h s hs
    rw [gen_code_eq] at h
    obtain ⟨s1, e1, f1⟩ := blank_frameR (gen_sizeof t)
      (fun pre x => gen_sizeof_frame pre t x) h s hs
    exact ⟨s1, by rw [blankText_eq, gen_code_eq]; exact e1, f1⟩
  | Ast.mk vt lv (Node.vardef name), g, r, g' => by
    intro h s hs
    rw [gen_code_eq] at h
    simp only [bind_ok_iff, pure, Except.pure, Except.ok.injEq, Prod.mk.injEq] at h
    obtain ⟨g1, h1, rfl, rfl⟩ := h
    obtain ⟨s1, e1, f1⟩ := blank_frameS (gen_vardef lookup name)
      (fun pre x => gen_vardef_frame lookup pre name x) h1 s hs
    refine ⟨s1, ?_, f1⟩
    rw [blankText_eq, gen_code_eq]
    simp only [bind_ok_iff, pure, Except.pure, Except.ok.injEq, Prod.mk.injEq]
    exact ⟨_, e1, trivial, rfl⟩
  | Ast.mk vt lv (Node.funcdef name block), g, r, g' => by
    intro h s hs
    rw [gen_code_eq] at h
    simp only [bind_ok_iff, pure, Except.pure, Except.ok.injEq, Prod.mk.injEq] at h
    obtain ⟨g1, h1, rfl, rfl⟩ := h
    have f0 := blanked_emit_user (name ++ ":\n") ("" ++ ":\n")
      (blanked_emit_user ("\t.global " ++ name ++ "\n") ("\t.global " ++ "" ++ "\n") hs
        (Or.inr (Or.inl (by decide))))
      (Or.inr (Or.inr (Or.inl (by decide))))
    obtain ⟨s1, e1, f1⟩ := blank_block lookup block _ g1 h1 _ f0
    refine ⟨s1 ++ ["\tret\n"], ?_, blanked_emit "\tret\n" f1⟩
    rw [blankText_eq, gen_code_eq]
    simp only [bind_ok_iff, pure, Except.pure, Except.ok.injEq, Prod.mk.injEq]
    exact ⟨_, e1, trivial, rfl⟩
  | Ast.mk vt lv (Node.inasm code), g, r, g' => by
    intro h s hs
    rw [gen_code_eq] at h
    simp only [pure, Except.pure, Except.ok.injEq, Prod.mk.injEq] at h
    obtain ⟨rfl, rfl⟩ := h
    refine ⟨s ++ [""], ?_, blanked_emit_user code "" hs (Or.inr (Or.inr (Or.inr rfl)))⟩
    rw [blankText_eq, gen_code_eq]
    rfl
  | Ast.mk vt lv (Node.block n statements), g, r, g' => by
    intro h s hs
    rw [gen_code_eq] at h
    simp only [bind_ok_iff, pure, Except.pure, Except.ok.injEq, Prod.mk.injEq] at h
    obtain ⟨g1, h1, rfl, rfl⟩ := h
    obtain ⟨s1, e1, f1⟩ := blank_statements lookup statements g g1 h1 s hs
    refine ⟨s1, ?_, f1⟩
    rw [blankText_eq, gen_code_eq]
    simp only [bind_ok_iff, pure, Except.pure, Except.ok.injEq, Prod.mk.injEq]
    exact ⟨_, e1, trivial, rfl⟩
  | Ast.mk vt lv (Node.ret f none), g, r, g' => by
    intro h s hs
    rw [gen_code_eq] at h
    simp only [bind_ok_iff, pure, Except.pure, Except.ok.injEq, Prod.mk.injEq] at h
    obtain ⟨g1, rfl, rfl, rfl⟩ := h
    refine ⟨s ++ ["\tret\n"], ?_, blanked_emit "\tret\n" hs⟩
    rw [blankText_eq, gen_code_eq]
    rfl
  | Ast.mk vt lv (Node.ret f (some val)), g, r, g' => by
    intro h s hs
    rw [gen_code_eq] at h
    simp only [bind_ok_iff, pure, Except.pure, Except.ok.injEq, Prod.mk.injEq, Prod.exists] at h
    obtain ⟨r1, g1, h1, x, hx, g3, h2, rfl, rfl⟩ := h
    obtain ⟨s1, e1, f1⟩ := blank_code lookup val g r1 g1 h1 s hs
    obtain ⟨s2, e2, f2⟩ := blank_frameS (regfree r1)
      (fun pre y => regfree_frame pre r1 y) h2 _ (blanked_emit ("\tmov\t" ++ x ++ ", %rax\n") f1)
    refine ⟨s2 ++ ["\tret\n"], ?_, blanked_emit "\tret\n" f2⟩
    rw [blankText_eq, gen_code_eq]
    simp only [bind_ok_iff, pure, Except.pure, Except.ok.injEq, Prod.mk.injEq, Prod.exists]
    exact ⟨r1, _, e1, x, hx, _, e2, trivial, rfl⟩
  | Ast.mk vt lv (Node.ifelse cond ifblock none), g, r, g' => by
    intro h s hs
    rw [gen_code_eq] at h
    simp only [bind_ok_iff, pure, Except.pure, Except.ok.injEq, Prod.mk.injEq, Prod.exists] at h
    obtain ⟨r1, g1, h1, g2, h2, d, g3, h3, g4, h4, rfl, rfl⟩ := h
    obtain ⟨s1, e1, f1⟩ := blank_code lookup cond g r1 g1 h1 s hs
    obtain ⟨s2, e2, f2⟩ := blank_frameS (gen_test r1 (gen_label g1).1)
      (fun pre y => gen_test_frame pre r1 (gen_label g1).1 y) h2 s1 f1
    obtain ⟨s3, e3, f3⟩ := blank_code lookup ifblock g2 d g3 h3 s2 f2
    obtain ⟨s4, e4, f4⟩ := blank_frameS (DISCARD d) (fun pre y => DISCARD_frame pre d y) h4 s3 f3
    refine ⟨s4 ++ ["L" ++ toString (gen_label g1).1 ++ ":\n"], ?_, blanked_emit _ f4⟩
    rw [blankText_eq, gen_code_eq]
    simp only [bind_ok_iff, pure, Except.pure, Except.ok.injEq, Prod.mk.injEq, Prod.exists]
    exact ⟨r1, _, e1, _, e2, d, _, e3, _, e4, trivial, rfl⟩
  | Ast.mk vt lv (Node.ifelse cond ifblock (some eb)), g, r, g' => by
    intro h s hs
    rw [gen_code_eq] at h
    simp only [bind_ok_iff, pure, Except.pure, Except.ok.injEq, Prod.mk.injEq, Prod.exists] at h
    obtain ⟨r1, g1, h1, g2, h2, d, g3, h3, g4, h4, d', g5, h5, g6, h6, rfl, rfl⟩ := h
    obtain ⟨s1, e1, f1⟩ := blank_code lookup cond g r1 g1 h1 s hs
    obtain ⟨s2, e2, f2⟩ := blank_frameS (gen_test r1 (gen_label g1).1)
      (fun pre y => gen_test_frame pre r1 (gen_label g1).1 y) h2 s1 f1
    obtain ⟨s3, e3, f3⟩ := blank_code lookup ifblock g2 d g3 h3 s2 f2
    obtain ⟨s4, e4, f4⟩ := blank_frameS (DISCARD d) (fun pre y => DISCARD_frame pre d y) h4 s3 f3
    obtain ⟨s5, e5, f5⟩ := blank_code lookup eb _ d' g5 h5 _
      (blanked_emit ("L" ++ toString (gen_label g1).1 ++ ":\n")
        (blanked_emit ("\tjmp\tL" ++ toString (gen_label (gen_label g1).2).1 ++ "\n") f4))
    obtain ⟨s6, e6, f6⟩ := blank_frameS (DISCARD d') (fun pre y => DISCARD_frame pre d' y)
      h6 s5 f5
    refine ⟨s6 ++ ["L" ++ toString (gen_label (gen_label g1).2).1 ++ ":\n"], ?_,
      blanked_emit _ f6⟩
    rw [blankText_eq, gen_code_eq]
    simp only [bind_ok_iff, pure, Except.pure, Except.ok.injEq, Prod.mk.injEq, Prod.exists]
    exact ⟨r1, _, e1, _, e2, d, _, e3, _, e4, d', _, e5, _, e6, trivial, rfl⟩
  | Ast.mk vt lv (Node.whileloop cond body), g, r, g' => by
    intro h s hs
    rw [gen_code_eq] at h
    simp only [bind_ok_iff, pure, Except.pure, Except.ok.injEq, Prod.mk.injEq, Prod.exists] at h
    obtain ⟨r1, g1, h1, g2, h2, d, g3, h3, g4, h4, rfl, rfl⟩ := h
    obtain ⟨s1, e1, f1⟩ := blank_code lookup cond _ r1 g1 h1 _
      (blanked_emit ("L" ++ toString (gen_label g).1 ++ ":\n")
        (show List.Forall₂ Blanked (gen_label (gen_label g).2).2.out s from hs))
    obtain ⟨s2, e2, f2⟩ := blank_frameS (gen_test r1 (gen_label (gen_label g).2).1)
      (fun pre y => gen_test_frame pre r1 (gen_label (gen_label g).2).1 y) h2 s1 f1
    obtain ⟨s3, e3, f3⟩ := blank_code lookup body g2 d g3 h3 s2 f2
    obtain ⟨s4, e4, f4⟩ := blank_frameS (DISCARD d) (fun pre y => DISCARD_frame pre d y) h4 s3 f3
    refine ⟨s4 ++ ["\tjmp\tL" ++ toString (gen_label g).1 ++ "\n"] ++
      ["L" ++ toString (gen_label (gen_label g).2).1 ++ ":\n"], ?_,
      blanked_emit _ (blanked_emit _ f4)⟩
    rw [blankText_eq, gen_code_eq]
    simp only [bind_ok_iff, pure, Except.pure, Except.ok.injEq, Prod.mk.injEq, Prod.exists]
    exact ⟨r1, _, e1, _, e2, d, _, e3, _, e4, trivial, rfl⟩
  | Ast.mk vt lv (Node.forloop none cond update body), g, r, g' => by
    intro h _ _
    rw [gen_code_eq] at h
    simp [bind_ok_iff] at h
  | Ast.mk vt lv (Node.forloop (some init) cond none body), g, r, g' => by
    intro h _ _
    rw [gen_code_eq] at h
    simp [bind_ok_iff] at h
  | Ast.mk vt lv (Node.forloop (some init) cond (some update) body), g, r, g' => by
    intro h s hs
    rw [gen_code_eq] at h
    simp only [bind_ok_iff, pure, Except.pure, Except.ok.injEq, Prod.mk.injEq, Prod.exists] at h
    obtain ⟨d0, ga, h0, gb, h0', r1, g1, h1, g2, h2, d, g3, h3, g4, h4,
      d', g5, h5, g6, h6, rfl, rfl⟩ := h
    obtain ⟨sa, ea, fa⟩ := blank_code lookup init _ d0 ga h0 s
      (show List.Forall₂ Blanked (gen_label (gen_label g).2).2.out s from hs)
    obtain ⟨sb, eb, fb⟩ := blank_frameS (DISCARD d0) (fun pre y => DISCARD_frame pre d0 y)
      h0' sa fa
    obtain ⟨s1, e1, f1⟩ := blank_code lookup cond _ r1 g1 h1 _
      (blanked_emit ("L" ++ toString (gen_label g).1 ++ ":\n") fb)
    obtain ⟨s2, e2, f2⟩ := blank_frameS (gen_test r1 (gen_label (gen_label g).2).1)
      (fun pre y => gen_test_frame pre r1 (gen_label (gen_label g).2).1 y) h2 s1 f1
    obtain ⟨s3, e3, f3⟩ := blank_code lookup body g2 d g3 h3 s2 f2
    obtain ⟨s4, e4, f4⟩ := blank_frameS (DISCARD d) (fun pre y => DISCARD_frame pre d y) h4 s3 f3
    obtain ⟨s5, e5, f5⟩ := blank_code lookup update g4 d' g5 h5 s4 f4
    obtain ⟨s6, e6, f6⟩ := blank_frameS (DISCARD d') (fun pre y => DISCARD_frame pre d' y)
      h6 s5 f5
    refine ⟨s6 ++ ["\tjmp\tL" ++ toString (gen_label g).1 ++ "\n"] ++
      ["L" ++ toString (gen_label (gen_label g).2).1 ++ ":\n"], ?_,
      blanked_emit _ (blanked_emit _ f6)⟩
    rw [blankText_eq, gen_code_eq]
    simp only [bind_ok_iff, pure, Except.pure, Except.ok.injEq, Prod.mk.injEq, Prod.exists]
    exact ⟨d0, _, ea, _, eb, r1, _, e1, _, e2, d, _, e3, _, e4, d', _, e5, _, e6, trivial, rfl⟩
  | Ast.mk vt lv (Node.cast t val), g, r, g' => by
    intro h s hs
    rw [gen_code_eq] at h
    simp only [pure, Except.pure, Except.ok.injEq, Prod.mk.injEq] at h
    obtain ⟨rfl, rfl⟩ := h
    exact ⟨s, by rw [blankText_eq, gen_code_eq]; rfl, hs⟩
  | Ast.mk vt lv (Node.label name), g, r, g' => by
    intro h s hs
    rw [gen_code_eq] at h
    simp only [pure, Except.pure, Except.ok.injEq, Prod.mk.injEq] at h
    obtain ⟨rfl, rfl⟩ := h
    exact ⟨s, by rw [blankText_eq, gen_code_eq]; rfl, hs⟩
  | Ast.mk vt lv (Node.gotolbl name), g, r, g' => by
    intro h s hs
    rw [gen_code_eq] at h
    simp only [pure, Except.pure, Except.ok.injEq, Prod.mk.injEq] at h
    obtain ⟨rfl, rfl⟩ := h
    exact ⟨s, by rw [blankText_eq, gen_code_eq]; rfl, hs⟩
theorem blank_block (lookup : String → Option sym) :
    ∀ (a : Ast) (g g' : GenState), gen_block lookup a g = Except.ok g' →
      ∀ s : List String, List.Forall₂ Blanked g.out s →
      ∃ s', gen_block lookup (blankText a) ⟨g.reglist, g.labels, s⟩ =
          Except.ok ⟨g'.reglist, g'.labels, s'⟩ ∧
        List.Forall₂ Blanked g'.out s'
  | Ast.mk vt lv (Node.block n statements), g, g' => by
    intro h s hs
    rw [gen_block_eq] at h
    obtain ⟨s1, e1, f1⟩ := blank_statements lookup statements g g' h s hs
    exact ⟨s1, by rw [blankText_eq, gen_block_eq]; exact e1, f1⟩
  | Ast.mk vt lv (Node.binop ..), g, g' | Ast.mk vt lv (Node.unary ..), g, g'
  | Ast.mk vt lv (Node.intlit ..), g, g' | Ast.mk vt lv (Node.call ..), g, g'
  | Ast.mk vt lv (Node.ident ..), g, g' | Ast.mk vt lv (Node.strlit ..), g, g'
  | Ast.mk vt lv (Node.sizeofop ..), g, g' | Ast.mk vt lv (Node.vardef ..), g, g'
  | Ast.mk vt lv (Node.funcdef ..), g, g' | Ast.mk vt lv (Node.inasm ..), g, g'
  | Ast.mk vt lv (Node.ret ..), g, g' | Ast.mk vt lv (Node.ifelse ..), g, g'
  | Ast.mk vt lv (Node.whileloop ..), g, g' | Ast.mk vt lv (Node.forloop ..), g, g'
  | Ast.mk vt lv (Node.cast ..), g, g' | Ast.mk vt lv (Node.label ..), g, g'
  | Ast.mk vt lv (Node.gotolbl ..), g, g' => by
    intro h
    rw [gen_block_eq] at h
    simp at h
theorem blank_statements (lookup : String → Option sym) :
    ∀ (l : List Ast) (g g' : GenState), gen_statements lookup l g = Except.ok g' →
      ∀ s : List String, List.Forall₂ Blanked g.out s →
      ∃ s', gen_statements lookup (blankTextAll l) ⟨g.reglist, g.labels, s⟩ =
          Except.ok ⟨g'.reglist, g'.labels, s'⟩ ∧
        List.Forall₂ Blanked g'.out s'
  | [], g, g' => by
    intro h s hs
    cases h
    exact ⟨s, rfl, hs⟩
  | st :: rest, g, g' => by
    intro h s hs
    rw [gen_statements_cons] at h
    simp only [bind_ok_iff, Prod.exists] at h
    obtain ⟨d, g1, h1, g2, h2, h3⟩ := h
    obtain ⟨s1, e1, f1⟩ := blank_code lookup st g d g1 h1 s hs
    obtain ⟨s2, e2, f2⟩ := blank_frameS (DISCARD d) (fun pre y => DISCARD_frame pre d y) h2 s1 f1
    obtain ⟨s3, e3, f3⟩ := blank_statements lookup rest g2 g' h3 s2 f2
    refine ⟨s3, ?_, f3⟩
    show gen_statements lookup (blankText st :: blankTextAll rest) _ = _
    rw [gen_statements_cons]
    simp only [bind_ok_iff, Prod.exists]
    exact ⟨d, _, e1, _, e2, e3⟩
theorem blank_params (lookup : String → Option sym) :
    ∀ (l : List Ast) (i : Nat) (g g' : GenState),
      gen_call_params lookup l i g = Except.ok g' →
      ∀ s : List String, List.Forall₂ Blanked g.out s →
      ∃ s', gen_call_params lookup (blankTextAll l) i ⟨g.reglist, g.labels, s⟩ =
          Except.ok ⟨g'.reglist, g'.labels, s'⟩ ∧
        List.Forall₂ Blanked g'.out s'
  | [], i, g, g' => by
    intro h s hs
    cases h
    exact ⟨s, rfl, hs⟩
  | p :: rest, i, g, g' => by
    intro h s hs
    rw [gen_call_params_cons] at h
    simp only [bind_ok_iff, Prod.exists] at h
    obtain ⟨d, g1, h1, g2, h2, h3⟩ := h
    obtain ⟨s1, e1, f1⟩ := blank_code lookup p g d g1 h1 s hs
    obtain ⟨s2, e2, f2⟩ := blank_frameS (gen_call_param i d)
      (fun pre y => gen_call_param_frame pre i d y) h2 s1 f1
    obtain ⟨s3, e3, f3⟩ := blank_params lookup rest (i + 1) g2 g' h3 s2 f2
    refine ⟨s3, ?_, f3⟩
    show gen_call_params lookup (blankText p :: blankTextAll rest) i _ = _
    rw [gen_call_params_cons]
    simp only [bind_ok_iff, Prod.exists]
    exact ⟨d, _, e1, _, e2, e3⟩
end

/-- A function may be named like a generated label: the program
`fn L0() { if (1) { } }` is parsed into `labelNameAst`; its generation from
the initial state returns normally, and the text written holds the item
`L0:` twice, once for the name of the function and once for the end of the
`if`.  The name line is text of the program, not a label drawn by
`label()`. -/
theorem label_name_collision :
    parse 20 labelNameToks = Except.ok labelNameAst ∧
    gen_code (fun _ => none) labelNameAst GenState.init =
      Except.ok (NOREG, ⟨[false, false, false, false], 1,
        ["\t.global L0\n", "L0:\n", "\tmov\t$1, %r8\n", "\tmov\t$1, %rax\n",
         "\tcmp\t%r8, %rax\n", "\tjne\tL0\n", "L0:\n", "\tret\n"]⟩) ∧
    defCount 0 ["\t.global L0\n", "L0:\n", "\tmov\t$1, %r8\n", "\tmov\t$1, %rax\n",
      "\tcmp\t%r8, %rax\n", "\tjne\tL0\n", "L0:\n", "\tret\n"] = 2 ∧
    itemRef "\tjne\tL0\n" = some 0 ∧
    labelClean labelNameAst = false :=
  ⟨rfl, rfl, by decide, by decide, by decide⟩

end Compiler
